import Mathlib

/-!
# OpenFAM libfabric data-path engine: a shallow embedding

Embedding of `src/fam-api/fam_ops_libfabric.cpp` (class `Fam_Ops_Libfabric`).

* The object's fields are the record `Fam_Ops_Libfabric`; the heap of
  `Fam_Context` objects, the descriptors the caller owns, the fabric-attached
  memory and the log of calls made to the collaborators (allocator, fabric
  binding, `Fam_Context` constructor) form the rest of the `World`.
* A member function is a state transformer `M α`: it maps a `World` to an
  `Outcome` (normal return, C++ exception, or no return at all) and the
  `World` in which that outcome is observed.
* The collaborators are not part of the translation unit.  What they answer is
  read from an `Env`: statuses of the calls made during initialisation are
  indexed by the argument of the call, the exception (if any) a collaborator
  raises and the status of a data-path verb are indexed by the position of the
  call in the log, so that every behaviour of the collaborators is covered.
-/

namespace openfam

/-! ## Plain data -/

/-- The exception classes thrown by the engine (`fam/fam_exception.h`). -/
inductive Fam_Error where
  | InvalidOption
  | Datapath
  | Allocator
  | Timeout
  | Unimplemented
  deriving DecidableEq, Repr

/-- The enumeration `Fam_Context_Model`; `other` stands for any value that is
neither `FAM_CONTEXT_DEFAULT` nor `FAM_CONTEXT_REGION`. -/
inductive Fam_Context_Model where
  | FAM_CONTEXT_DEFAULT
  | FAM_CONTEXT_REGION
  | other (raw : Nat)
  deriving DecidableEq, Repr

/-- The enumeration `Fam_Thread_Model`, forwarded to the fabric binding. -/
inductive Fam_Thread_Model where
  | FAM_THREAD_SERIALIZE
  | FAM_THREAD_MULTIPLE
  deriving DecidableEq, Repr

/-- A byte string (raw fabric address name, data buffer, 16-byte operand). -/
abbrev Bytes := List UInt8

/-- A buffer of exactly `n` bytes. -/
abbrev Buffer (n : Nat) := { b : Bytes // b.length = n }

/-- The type `int128_t` as the code uses it: an opaque operand of
`sizeof(int128_t) = 16` bytes that is copied and compared for equality. -/
abbrev int128_t := Buffer 16

/-- The operation codes of a fabric atomic (`enum fi_op` of the fabric library)
that the engine passes. -/
inductive fi_op where
  | FI_MIN
  | FI_MAX
  | FI_SUM
  | FI_BOR
  | FI_BAND
  | FI_BXOR
  | FI_ATOMIC_READ
  | FI_ATOMIC_WRITE
  | FI_CSWAP
  deriving DecidableEq, Repr

/-- The datatype codes of a fabric atomic (`enum fi_datatype` of the fabric
library) that the engine passes. -/
inductive fi_datatype where
  | FI_INT32
  | FI_UINT32
  | FI_INT64
  | FI_UINT64
  | FI_FLOAT
  | FI_DOUBLE
  deriving DecidableEq, Repr

/-- The number of bytes of an operand of the given datatype code. -/
def fi_datatype.size : fi_datatype → Nat
  | fi_datatype.FI_INT32 => 4
  | fi_datatype.FI_UINT32 => 4
  | fi_datatype.FI_INT64 => 8
  | fi_datatype.FI_UINT64 => 8
  | fi_datatype.FI_FLOAT => 4
  | fi_datatype.FI_DOUBLE => 8

/-- The operand types of the native atomics: the parameter type that selects
the overload. -/
inductive CType where
  | int32_t
  | int64_t
  | uint32_t
  | uint64_t
  | float
  | double
  deriving DecidableEq, Repr

/-- The value of `sizeof(T)`. -/
def CType.sizeof : CType → Nat
  | CType.int32_t => 4
  | CType.int64_t => 8
  | CType.uint32_t => 4
  | CType.uint64_t => 8
  | CType.float => 4
  | CType.double => 8

/-- A value of the operand type `T`, as the bytes of its object representation
(what `(void *)&value` points to). -/
abbrev CValue (T : CType) := Buffer T.sizeof

/-- The number whose little-endian representation the bytes are. -/
def le_decode : Bytes → Nat
  | [] => 0
  | b :: rest => b.toNat + 256 * le_decode rest

/-- The `n`-byte little-endian representation of `v` (modulo `2 ^ (8 * n)`). -/
def le_encode : (n : Nat) → Nat → Buffer n
  | 0, _ => ⟨[], rfl⟩
  | n + 1, v =>
    ⟨UInt8.ofNat (v % 256) :: (le_encode n (v / 256)).1,
      congrArg Nat.succ (le_encode n (v / 256)).2⟩

/-- The C expression `-value` converted back to the operand type `T`: for the
integer types the two's-complement negation modulo `2 ^ (8 * sizeof(T))`, for
`float` and `double` the value with its sign bit flipped. -/
def CValue.neg (T : CType) (value : CValue T) : CValue T :=
  match T with
  | CType.float => le_encode _ (Nat.xor (le_decode value.1) (2 ^ 31))
  | CType.double => le_encode _ (Nat.xor (le_decode value.1) (2 ^ 63))
  | CType.int32_t => le_encode _ ((2 ^ 32 - le_decode value.1 % 2 ^ 32) % 2 ^ 32)
  | CType.uint32_t => le_encode _ ((2 ^ 32 - le_decode value.1 % 2 ^ 32) % 2 ^ 32)
  | CType.int64_t => le_encode _ ((2 ^ 64 - le_decode value.1 % 2 ^ 64) % 2 ^ 64)
  | CType.uint64_t => le_encode _ ((2 ^ 64 - le_decode value.1 % 2 ^ 64) % 2 ^ 64)

/-! ## `std::map<uint64_t, V>` -/

/-- A `std::map<uint64_t, V>`: its entries in iteration (ascending key) order. -/
abbrev StdMap (V : Type) := List (Nat × V)

namespace StdMap

/-- The call `m.find(k)`: `none` is `m.end()`. -/
def find {V : Type} (m : StdMap V) (k : Nat) : Option V :=
  match m with
  | [] => none
  | (k', v) :: rest => if k' = k then some v else find rest k

/-- The call `m.insert({k, v})`: the entry is placed at its position in key
order; when the key is already present the map is left as it is. -/
def insert {V : Type} (m : StdMap V) (k : Nat) (v : V) : StdMap V :=
  match m with
  | [] => [(k, v)]
  | (k', v') :: rest =>
    if k < k' then (k, v) :: (k', v') :: rest
    else if k = k' then (k', v') :: rest
    else (k', v') :: insert rest k v

/-- The keys of the map, in iteration order. -/
def keys {V : Type} (m : StdMap V) : List Nat := m.map Prod.fst

end StdMap

/-! ## Objects -/

/-- A `Fam_Context` object (endpoint and completion queues) on the heap.
`enabled` records that `fabric_enable_bind_ep` completed successfully on its
endpoint, `outstanding` the posted operations not yet reaped by a quiet,
`alive` that it has not been deleted. -/
structure Fam_Context where
  enabled : Bool
  outstanding : List Nat
  alive : Bool
  deriving DecidableEq, Repr

/-- A `Fam_Descriptor` (data item handle): the attributes the engine reads and
the cached context pointer it writes (`none` is `NULL`). -/
structure Fam_Descriptor where
  memserver_id : Nat
  regionId : Nat
  key : Nat
  context : Option Nat
  deriving DecidableEq, Repr

/-- A `Fam_Region_Descriptor` (region handle). -/
structure Fam_Region_Descriptor where
  memserver_id : Nat
  regionId : Nat
  context : Option Nat
  deriving DecidableEq, Repr

/-- The data members of a `Fam_Ops_Libfabric` object.  Handles obtained from
the fabric (`fi`, `fabric`, `eq`, `domain`, `av`) are recorded as set or
`NULL`; a mutex as held (`true`) or free (`false`). -/
structure Fam_Ops_Libfabric where
  name : StdMap String
  service : String
  provider : String
  isSource : Bool
  famThreadModel : Fam_Thread_Model
  famContextModel : Fam_Context_Model
  famAllocator : Option Nat
  fiAddrs : List Nat
  fiMrs : StdMap Nat
  contexts : StdMap Nat
  defContexts : StdMap Nat
  fi : Bool
  fabric : Bool
  eq : Bool
  domain : Bool
  av : Bool
  serverAddrNameLen : Int
  serverAddrName : Option Bytes
  fabric_iov_limit : Nat
  fiMrLock : Bool
  ctxLock : Bool
  deriving DecidableEq, Repr

/-! ## Calls to the collaborators -/

/-- The fabric object a `fi_close` call is given (`&x->fid`): a registered
memory region, or one of the handles `fabric`, `eq`, `domain`, `av`. -/
inductive Fid where
  | mr (p : Nat)
  | fabric
  | eq
  | domain
  | av
  deriving DecidableEq, Repr

/-- A call that leaves the translation unit, with the arguments that identify
it.  Context arguments are heap pointers, descriptor arguments descriptor
pointers, `addr` is the value read from the address registry (`none` when the
position read does not exist). -/
inductive Call where
  | fabric_initialize
  | fabric_initialize_av
  | get_addr_size (nodeId : Nat)
  | get_addr (nodeId : Nat)
  | fabric_insert_av (nodeId : Nat) (addrName : Bytes)
  | new_Fam_Context (ctx : Nat)
  | delete_Fam_Context (ctx : Nat)
  | fabric_enable_bind_ep (ctx : Nat)
  | fabric_getname_len (ctx : Nat)
  | fabric_getname (ctx : Nat)
  | acquire_CAS_lock (descriptor : Nat)
  | release_CAS_lock (descriptor : Nat)
  | fabric_read (key nbytes offset : Nat) (addr : Option Nat) (ctx : Nat)
  | fabric_write (key : Nat) (data : Bytes) (offset : Nat) (addr : Option Nat) (ctx : Nat)
  | fabric_fence (addr : Option Nat) (ctx : Nat)
  | fabric_quiet (ctx : Nat)
  | fabric_read_nonblocking (key nbytes offset : Nat) (addr : Option Nat) (ctx : Nat)
  | fabric_write_nonblocking (key : Nat) (data : Bytes) (offset : Nat) (addr : Option Nat)
      (ctx : Nat)
  | fabric_gather_stride_blocking (key elementSize firstElement nElements stride : Nat)
      (addr : Option Nat) (ctx iov_limit : Nat)
  | fabric_gather_index_blocking (key elementSize : Nat) (elementIndex : List Nat)
      (nElements : Nat) (addr : Option Nat) (ctx iov_limit : Nat)
  | fabric_scatter_stride_blocking (key : Nat) (data : Bytes)
      (elementSize firstElement nElements stride : Nat) (addr : Option Nat) (ctx iov_limit : Nat)
  | fabric_scatter_index_blocking (key : Nat) (data : Bytes) (elementSize : Nat)
      (elementIndex : List Nat) (nElements : Nat) (addr : Option Nat) (ctx iov_limit : Nat)
  | fabric_gather_stride_nonblocking (key elementSize firstElement nElements stride : Nat)
      (addr : Option Nat) (ctx iov_limit : Nat)
  | fabric_gather_index_nonblocking (key elementSize : Nat) (elementIndex : List Nat)
      (nElements : Nat) (addr : Option Nat) (ctx iov_limit : Nat)
  | fabric_scatter_stride_nonblocking (key : Nat) (data : Bytes)
      (elementSize firstElement nElements stride : Nat) (addr : Option Nat) (ctx iov_limit : Nat)
  | fabric_scatter_index_nonblocking (key : Nat) (data : Bytes) (elementSize : Nat)
      (elementIndex : List Nat) (nElements : Nat) (addr : Option Nat) (ctx iov_limit : Nat)
  | fabric_atomic (key : Nat) (value : Bytes) (offset : Nat) (op : fi_op)
      (datatype : fi_datatype) (addr : Option Nat) (ctx : Nat)
  | fabric_fetch_atomic (key : Nat) (value : Bytes) (offset : Nat) (op : fi_op)
      (datatype : fi_datatype) (addr : Option Nat) (ctx : Nat)
  | fabric_compare_atomic (key : Nat) (compare swap : Bytes) (offset : Nat) (op : fi_op)
      (datatype : fi_datatype) (addr : Option Nat) (ctx : Nat)
  | copy (src srcOffset destOffset nbytes : Nat)
  | wait_for_copy (waitObj : Int)
  | fabric_finalize
  | fi_close (fid : Fid)
  | fi_freeinfo
  deriving DecidableEq, Repr

/-- One entry of the call log: the call and what came back, a status
(`Except.ok`) or an exception (`Except.error`). -/
structure Event where
  call : Call
  ret : Except Fam_Error Int

/-- What the collaborators answer.

* `throws k`: the exception raised by the call logged at position `k`, if any;
* `status k`: the status returned by the data-path verb logged at position `k`;
* the other fields: the answers of the calls made by the initialisation,
  indexed by memory server or by context: `get_addr_size` and
  `fabric_getname_len` give (length written through the pointer, status),
  `get_addr` and `fabric_getname` give (status, bytes written to the buffer),
  `fabric_insert_av` gives (status, address token), `ep_type_is_RDM` is
  `fi->ep_attr->type == FI_EP_RDM`, `rma_iov_limit` is
  `fi->tx_attr->rma_iov_limit`;
* `atomic_op op datatype stored operand`: the bytes a fabric atomic leaves at
  the target, `compare_op op datatype stored compare swap` likewise for a
  compare atomic;
* `uninitialized k`: the bytes found in a local variable that is read before
  it is written, by the code that makes the call logged at position `k`. -/
structure Env where
  throws : Nat → Option Fam_Error
  status : Nat → Int
  fabric_initialize_ret : Int
  ep_type_is_RDM : Bool
  rma_iov_limit : Nat
  fabric_initialize_av_ret : Int
  get_addr_size : Nat → Int × Int
  get_addr : Nat → Int × Bytes
  fabric_insert_av : Nat → Bytes → Int × Nat
  fabric_enable_bind_ep : Nat → Int
  fabric_getname_len : Nat → Int × Int
  fabric_getname : Nat → Int × Bytes
  atomic_op : fi_op → fi_datatype → Bytes → Bytes → Bytes
  compare_op : fi_op → fi_datatype → Bytes → Bytes → Bytes → Bytes
  uninitialized : Nat → Bytes

/-- Everything a member function can read or change. -/
structure World where
  eng : Fam_Ops_Libfabric
  heap : List Fam_Context
  descs : Nat → Fam_Descriptor
  regions : Nat → Fam_Region_Descriptor
  mem : Option Nat → Nat → Nat → UInt8
  trace : List Event

/-- Why a call does not come back. -/
inductive Stuck where
  | deadlock
  | nullDeref
  deriving DecidableEq, Repr

/-- How a member function ends: it returns `a`, it throws `e`, or control
never leaves it. -/
inductive Outcome (α : Type) where
  | ok (a : α)
  | throw (e : Fam_Error)
  | stuck (s : Stuck)
  deriving DecidableEq, Repr

/-- A member function: from the world at the call to the outcome and the world
at that outcome. -/
def M (α : Type) : Type := World → Outcome α × World

namespace M

/-- Normal return. -/
def ret {α : Type} (a : α) : M α := fun w => (Outcome.ok a, w)

/-- Sequencing: the rest runs only after a normal return. -/
def andThen {α β : Type} (m : M α) (f : α → M β) : M β := fun w =>
  match m w with
  | (Outcome.ok a, w1) => f a w1
  | (Outcome.throw e, w1) => (Outcome.throw e, w1)
  | (Outcome.stuck s, w1) => (Outcome.stuck s, w1)

/-- The statement `throw e`. -/
def raise {α : Type} (e : Fam_Error) : M α := fun w => (Outcome.throw e, w)

/-- Control never leaves. -/
def halt {α : Type} (s : Stuck) : M α := fun w => (Outcome.stuck s, w)

/-- The block `try { m } catch (...) { h; throw; }`: when `m` throws, the
handler runs and then the exception caught is thrown again (the handler's own
exception, if it throws, replaces it). -/
def tryRethrow {α : Type} (m : M α) (h : M Unit) : M α := fun w =>
  match m w with
  | (Outcome.throw e, w1) =>
    (match h w1 with
     | (Outcome.ok _, w2) => (Outcome.throw e, w2)
     | (Outcome.throw e2, w2) => (Outcome.throw e2, w2)
     | (Outcome.stuck s, w2) => (Outcome.stuck s, w2))
  | r => r

/-- Read the world. -/
def get : M World := fun w => (Outcome.ok w, w)

/-- Change the world. -/
def modify (f : World → World) : M Unit := fun w => (Outcome.ok (), f w)

/-- Change the engine's data members. -/
def modifyEng (f : Fam_Ops_Libfabric → Fam_Ops_Libfabric) : M Unit :=
  modify (fun w => { w with eng := f w.eng })

end M

instance : Monad M where
  pure := M.ret
  bind := M.andThen

/-! ## Primitive steps -/

/-- A call to a collaborator that answers with a status: the call is logged;
it throws when the environment says so, otherwise it returns `status`. -/
def extern_call (env : Env) (c : Call) (status : Int) : M Int := fun w =>
  match env.throws w.trace.length with
  | some e => (Outcome.throw e, { w with trace := w.trace ++ [⟨c, Except.error e⟩] })
  | none => (Outcome.ok status, { w with trace := w.trace ++ [⟨c, Except.ok status⟩] })

/-- The events logged between the world `w` and a later world `w1`. -/
def newEvents (w w1 : World) : List Event := w1.trace.drop w.trace.length

/-- The expression `(*fiAddr)[nodeId]`.  `none` marks a read at a position the
registry does not have: an out-of-range `std::vector::operator[]`, whose
behaviour the source leaves undefined.  The model carries the mark along in the
call it logs (`fabric_fence none ctx`) instead of stopping; a logged call with
the address `none` stands for a run of the program that is not defined from
there on. -/
def fiAddr_at (eng : Fam_Ops_Libfabric) (nodeId : Nat) : Option Nat := eng.fiAddrs[nodeId]?

/-- The expression `new Fam_Context(fi, domain, famThreadModel)`: the
constructor call is logged; unless it throws, a fresh object is placed on the
heap and its pointer returned. -/
def new_Fam_Context (env : Env) : M Nat := do
  let w ← M.get
  let p := w.heap.length
  let _ ← extern_call env (Call.new_Fam_Context p) 0
  M.modify (fun w1 => { w1 with heap := w1.heap ++ [⟨false, [], true⟩] })
  pure p

/-- The statement `delete ctx`. -/
def delete_Fam_Context (env : Env) (p : Nat) : M Unit := do
  let _ ← extern_call env (Call.delete_Fam_Context p) 0
  M.modify (fun w1 => { w1 with heap := w1.heap.modify (fun c => { c with alive := false }) p })

/-- The call `fabric_enable_bind_ep(fi, av, eq, ctx->get_ep())`: returns the
status the environment gives for this context; a non-negative status means the
endpoint is now enabled and bound. -/
def fabric_enable_bind_ep (env : Env) (p : Nat) : M Int := do
  let ret ← extern_call env (Call.fabric_enable_bind_ep p) (env.fabric_enable_bind_ep p)
  if 0 ≤ ret then
    M.modify (fun w1 => { w1 with heap := w1.heap.modify (fun c => { c with enabled := true }) p })
  pure ret

/-- The call `pthread_mutex_lock(&ctxLock)`: on a held mutex the (only)
thread waits for ever. -/
def lock_ctxLock : M Unit := do
  let w ← M.get
  if w.eng.ctxLock then M.halt Stuck.deadlock
  else M.modifyEng (fun e => { e with ctxLock := true })

/-- The call `pthread_mutex_unlock(&ctxLock)`. -/
def unlock_ctxLock : M Unit := M.modifyEng (fun e => { e with ctxLock := false })

/-- The bytes of fabric-attached memory at `offset .. offset + n - 1` of the
region registered under `key` at address `addr`. -/
def readBytes (mem : Option Nat → Nat → Nat → UInt8) (addr : Option Nat) (key : Nat) :
    Nat → (n : Nat) → Buffer n
  | _, 0 => ⟨[], rfl⟩
  | offset, n + 1 =>
    ⟨mem addr key offset :: (readBytes mem addr key (offset + 1) n).1,
      congrArg Nat.succ (readBytes mem addr key (offset + 1) n).2⟩

/-- The memory after storing `data` at `offset` of the region registered under
`key` at address `addr`. -/
def writeBytes (mem : Option Nat → Nat → Nat → UInt8) (addr : Option Nat) (key offset : Nat) :
    Bytes → Option Nat → Nat → Nat → UInt8
  | [] => mem
  | b :: rest =>
    writeBytes (fun a k o => if a = addr ∧ k = key ∧ o = offset then b else mem a k o)
      addr key (offset + 1) rest

/-- The call `fabric_read(key, local, nbytes, offset, addr, ctx)` (blocking):
unless it throws, `local` receives the bytes stored in the fabric-attached
memory; the status and the bytes are returned. -/
def fabric_read (env : Env) (key nbytes offset : Nat) (addr : Option Nat) (ctx : Nat) :
    M (Int × Buffer nbytes) := do
  let w ← M.get
  let ret ← extern_call env (Call.fabric_read key nbytes offset addr ctx) (env.status w.trace.length)
  pure (ret, readBytes w.mem addr key offset nbytes)

/-- The call `fabric_write(key, local, nbytes, offset, addr, ctx)` (blocking):
unless it throws, the bytes of `local` are stored in the fabric-attached
memory; the status is returned. -/
def fabric_write (env : Env) (key : Nat) {nbytes : Nat} (data : Buffer nbytes) (offset : Nat)
    (addr : Option Nat) (ctx : Nat) : M Int := do
  let w ← M.get
  let ret ← extern_call env (Call.fabric_write key data.1 offset addr ctx)
    (env.status w.trace.length)
  M.modify (fun w1 => { w1 with mem := writeBytes w1.mem addr key offset data.1 })
  pure ret

/-- The call `famAllocator->acquire_CAS_lock(descriptor)`; on a `NULL`
allocator the member call has no defined result. -/
def acquire_CAS_lock (env : Env) (descriptor : Nat) : M Unit := do
  let w ← M.get
  match w.eng.famAllocator with
  | none => M.halt Stuck.nullDeref
  | some _ =>
    let _ ← extern_call env (Call.acquire_CAS_lock descriptor) 0
    pure ()

/-- The call `famAllocator->release_CAS_lock(descriptor)`. -/
def release_CAS_lock (env : Env) (descriptor : Nat) : M Unit := do
  let w ← M.get
  match w.eng.famAllocator with
  | none => M.halt Stuck.nullDeref
  | some _ =>
    let _ ← extern_call env (Call.release_CAS_lock descriptor) 0
    pure ()

/-- The call `descriptor->set_context(ctx)`. -/
def set_context (descriptor : Nat) (ctx : Nat) : M Unit :=
  M.modify (fun w =>
    { w with descs := Function.update w.descs descriptor { w.descs descriptor with context := some ctx } })

/-- The call `descriptor->set_context(ctx)` on a region descriptor. -/
def set_region_context (descriptor : Nat) (ctx : Nat) : M Unit :=
  M.modify (fun w =>
    { w with
      regions := Function.update w.regions descriptor
        { w.regions descriptor with context := some ctx } })

/-- The call `fabric_fence(addr, ctx)`. -/
def fabric_fence (env : Env) (addr : Option Nat) (ctx : Nat) : M Unit := do
  let _ ← extern_call env (Call.fabric_fence addr ctx) 0
  pure ()

/-- The call `fabric_quiet(ctx)`.  Modelled from the spec, the fabric binding
not being part of the sources at hand: quiet blocks until all previously
posted operations on the context are complete, so that when it comes back none
is outstanding on the context any more. -/
def fabric_quiet (env : Env) (ctx : Nat) : M Unit := do
  let _ ← extern_call env (Call.fabric_quiet ctx) 0
  M.modify (fun w1 =>
    { w1 with heap := w1.heap.modify (fun c => { c with outstanding := [] }) ctx })

/-- The effect of a nonblocking verb on its context, as the specification
describes it (post-only; completion is reaped by a later quiet): the operation,
named by the position of the posting call in the log, is outstanding on the
context it was posted on. -/
def post_outstanding (ctx : Nat) (id : Nat) : M Unit :=
  M.modify (fun w1 =>
    { w1 with
      heap := w1.heap.modify (fun c => { c with outstanding := c.outstanding ++ [id] }) ctx })

/-- The call `fabric_write_nonblocking(key, local, nbytes, offset, addr, ctx)`:
the write is posted on the context; the transfer itself completes later. -/
def fabric_write_nonblocking (env : Env) (key : Nat) {nbytes : Nat} (data : Buffer nbytes)
    (offset : Nat) (addr : Option Nat) (ctx : Nat) : M Unit := do
  let w ← M.get
  let _ ← extern_call env (Call.fabric_write_nonblocking key data.1 offset addr ctx) 0
  post_outstanding ctx w.trace.length

/-- The call `fabric_read_nonblocking(key, local, nbytes, offset, addr, ctx)`:
the read is posted on the context; the transfer itself completes later. -/
def fabric_read_nonblocking (env : Env) (key nbytes offset : Nat) (addr : Option Nat)
    (ctx : Nat) : M Unit := do
  let w ← M.get
  let _ ← extern_call env (Call.fabric_read_nonblocking key nbytes offset addr ctx) 0
  post_outstanding ctx w.trace.length

/-- The call `fabric_atomic(key, value, offset, op, datatype, addr, ctx)`: the
fabric combines the operand with the bytes stored at the target. -/
def fabric_atomic (env : Env) (key : Nat) (value : Bytes) (offset : Nat) (op : fi_op)
    (datatype : fi_datatype) (addr : Option Nat) (ctx : Nat) : M Unit := do
  let _ ← extern_call env (Call.fabric_atomic key value offset op datatype addr ctx) 0
  M.modify (fun w1 =>
    { w1 with
      mem := writeBytes w1.mem addr key offset
        (env.atomic_op op datatype (readBytes w1.mem addr key offset datatype.size).1 value) })

/-- The call `fabric_fetch_atomic(key, value, result, offset, op, datatype,
addr, ctx)`: as `fabric_atomic`, and `result` receives the bytes that were
stored at the target before; they are returned. -/
def fabric_fetch_atomic (env : Env) (key : Nat) (value : Bytes) (offset : Nat) (op : fi_op)
    (datatype : fi_datatype) (addr : Option Nat) (ctx : Nat) : M (Buffer datatype.size) := do
  let _ ← extern_call env (Call.fabric_fetch_atomic key value offset op datatype addr ctx) 0
  let w1 ← M.get
  let old := readBytes w1.mem addr key offset datatype.size
  M.modify (fun w2 =>
    { w2 with mem := writeBytes w2.mem addr key offset (env.atomic_op op datatype old.1 value) })
  pure old

/-- The call `fabric_compare_atomic(key, compare, result, swap, offset, op,
datatype, addr, ctx)`: the fabric combines the two operands with the bytes
stored at the target, and `result` receives the bytes that were stored there
before; they are returned. -/
def fabric_compare_atomic (env : Env) (key : Nat) (compare swap : Bytes) (offset : Nat)
    (op : fi_op) (datatype : fi_datatype) (addr : Option Nat) (ctx : Nat) :
    M (Buffer datatype.size) := do
  let _ ← extern_call env (Call.fabric_compare_atomic key compare swap offset op datatype addr ctx) 0
  let w1 ← M.get
  let old := readBytes w1.mem addr key offset datatype.size
  M.modify (fun w2 =>
    { w2 with
      mem := writeBytes w2.mem addr key offset (env.compare_op op datatype old.1 compare swap) })
  pure old

/-! ## Construction -/

/-- The body shared by the two constructors after `name` is set: the members
are initialised, then a `NULL` allocator is refused unless the engine is the
memory server itself. -/
def construct (name : StdMap String) (libfabricPort : String) (source : Bool)
    (libfabricProvider : String) (famTM : Fam_Thread_Model) (famAlloc : Option Nat)
    (famCM : Fam_Context_Model) : Except Fam_Error Fam_Ops_Libfabric :=
  let this : Fam_Ops_Libfabric :=
    { name := name, service := libfabricPort, provider := libfabricProvider,
      isSource := source, famThreadModel := famTM, famContextModel := famCM,
      famAllocator := famAlloc, fiAddrs := [], fiMrs := [], contexts := [],
      defContexts := [], fi := false, fabric := false, eq := false, domain := false,
      av := false, serverAddrNameLen := 0, serverAddrName := none,
      fabric_iov_limit := 0, fiMrLock := false, ctxLock := false }
  if (!this.isSource) && this.famAllocator.isNone then
    Except.error Fam_Error.InvalidOption
  else Except.ok this

/-- The constructor `Fam_Ops_Libfabric(const char *memServerName, ...)`:
`name.insert({0, memServerName})` on the empty map. -/
def Fam_Ops_Libfabric.new_single (memServerName : String) (libfabricPort : String)
    (source : Bool) (libfabricProvider : String) (famTM : Fam_Thread_Model)
    (famAlloc : Option Nat) (famCM : Fam_Context_Model) : Except Fam_Error Fam_Ops_Libfabric :=
  construct (StdMap.insert [] 0 memServerName) libfabricPort source libfabricProvider famTM
    famAlloc famCM

/-- The constructor `Fam_Ops_Libfabric(MemServerMap memServerList, ...)`:
`name = memServerList`. -/
def Fam_Ops_Libfabric.new_map (memServerList : StdMap String) (libfabricPort : String)
    (source : Bool) (libfabricProvider : String) (famTM : Fam_Thread_Model)
    (famAlloc : Option Nat) (famCM : Fam_Context_Model) : Except Fam_Error Fam_Ops_Libfabric :=
  construct memServerList libfabricPort source libfabricProvider famTM famAlloc famCM

/-! ## Initialisation -/

/-- The expression `name[nodeId]`: `std::map::operator[]` adds an entry with an
empty string when the key is absent. -/
def name_at (nodeId : Nat) : M String := do
  let w ← M.get
  match w.eng.name.find nodeId with
  | some s => pure s
  | none =>
    M.modifyEng (fun e => { e with name := e.name.insert nodeId "" })
    pure ""

/-- The client branch of the loop body of `initialize` (`!isSource`): ask the
allocator for the address of memory server `nodeId` and insert it into the
address vector; `fabric_insert_av` appends the token to `fiAddrs` when it
succeeds.  The result `some r` is `return r`, `none` falls through. -/
def initialize_client (env : Env) (nodeId : Nat) : M (Option Int) := do
  let w ← M.get
  match w.eng.famAllocator with
  | none => M.halt Stuck.nullDeref
  | some _ =>
    let _ ← extern_call env (Call.get_addr_size nodeId) (env.get_addr_size nodeId).2
    M.modifyEng (fun e => { e with serverAddrNameLen := (env.get_addr_size nodeId).1 })
    if (env.get_addr_size nodeId).1 ≤ 0 then M.raise Fam_Error.Allocator
    else do
      M.modifyEng (fun e =>
        { e with serverAddrName := some (List.replicate (env.get_addr_size nodeId).1.toNat 0) })
      let ret ← extern_call env (Call.get_addr nodeId) (env.get_addr nodeId).1
      M.modifyEng (fun e => { e with serverAddrName := some (env.get_addr nodeId).2 })
      if ret < 0 then M.raise Fam_Error.Allocator
      else do
        let addrName := (env.get_addr nodeId).2
        let ret ← extern_call env (Call.fabric_insert_av nodeId addrName)
          (env.fabric_insert_av nodeId addrName).1
        if ret < 0 then pure (some ret)
        else do
          M.modifyEng (fun e =>
            { e with fiAddrs := e.fiAddrs ++ [(env.fabric_insert_av nodeId addrName).2] })
          pure none

/-- The server branch of the loop body of `initialize` (`isSource`): a
temporary context is created and enabled, the local endpoint name is read into
`serverAddrName`, the context is deleted. -/
def initialize_server (env : Env) : M (Option Int) := do
  let tmpCtx ← new_Fam_Context env
  let ret ← fabric_enable_bind_ep env tmpCtx
  if ret < 0 then M.raise Fam_Error.Datapath
  else do
    M.modifyEng (fun e => { e with serverAddrNameLen := 0 })
    let _ ← extern_call env (Call.fabric_getname_len tmpCtx) (env.fabric_getname_len tmpCtx).2
    M.modifyEng (fun e => { e with serverAddrNameLen := (env.fabric_getname_len tmpCtx).1 })
    if (env.fabric_getname_len tmpCtx).1 ≤ 0 then M.raise Fam_Error.Datapath
    else do
      M.modifyEng (fun e =>
        { e with serverAddrName := some (List.replicate (env.fabric_getname_len tmpCtx).1.toNat 0) })
      let ret ← extern_call env (Call.fabric_getname tmpCtx) (env.fabric_getname tmpCtx).1
      M.modifyEng (fun e => { e with serverAddrName := some (env.fabric_getname tmpCtx).2 })
      if ret < 0 then M.raise Fam_Error.Datapath
      else do
        delete_Fam_Context env tmpCtx
        pure none

/-- The tail of the loop body of `initialize`: under `FAM_CONTEXT_DEFAULT` the
default context of memory server `nodeId` is created, inserted into
`defContexts`, then enabled. -/
def initialize_defaultCtx (env : Env) (nodeId : Nat) : M (Option Int) := do
  let w ← M.get
  if w.eng.famContextModel = Fam_Context_Model.FAM_CONTEXT_DEFAULT then do
    let defaultCtx ← new_Fam_Context env
    M.modifyEng (fun e => { e with defContexts := e.defContexts.insert nodeId defaultCtx })
    let ret ← fabric_enable_bind_ep env defaultCtx
    if ret < 0 then pure (some ret) else pure none
  else pure none

/-- One iteration of the loop of `initialize`, for memory server `nodeId`. -/
def initialize_node (env : Env) (nodeId : Nat) : M (Option Int) := do
  let w ← M.get
  let r ← (if !w.eng.isSource then initialize_client env nodeId else initialize_server env)
  match r with
  | some ret => pure (some ret)
  | none => initialize_defaultCtx env nodeId

/-- The loop `for (nodeId = ...; nodeId < name.size(); nodeId++)` of
`initialize` with `todo` iterations left (`name` does not change inside the
loop, so `todo` is `name.size() - nodeId`). -/
def initialize_loop (env : Env) : Nat → Nat → M (Option Int)
  | 0, _ => pure none
  | todo + 1, nodeId => do
    let r ← initialize_node env nodeId
    match r with
    | some ret => pure (some ret)
    | none => initialize_loop env todo (nodeId + 1)

/-- The part of `initialize` from the loop over the memory servers to the
end. -/
def initialize_servers (env : Env) : M Int := do
  let w ← M.get
  let r ← initialize_loop env w.eng.name.length 0
  match r with
  | some ret => pure ret
  | none =>
    M.modifyEng (fun e => { e with fabric_iov_limit := env.rma_iov_limit })
    pure 0

/-- The member function `int Fam_Ops_Libfabric::initialize()`. -/
def Fam_Ops_Libfabric.initialize (env : Env) : M Int := do
  let w ← M.get
  if w.eng.name.length = 0 then M.raise Fam_Error.Datapath
  else do
    M.modifyEng (fun e => { e with fiMrLock := false })
    if w.eng.famContextModel = Fam_Context_Model.FAM_CONTEXT_REGION then
      M.modifyEng (fun e => { e with ctxLock := false })
    let _ ← name_at 0
    let ret ← extern_call env Call.fabric_initialize env.fabric_initialize_ret
    if ret < 0 then pure ret
    else do
      M.modifyEng (fun e => { e with fi := true, fabric := true, eq := true, domain := true })
      if env.ep_type_is_RDM then do
        let ret ← extern_call env Call.fabric_initialize_av env.fabric_initialize_av_ret
        if ret < 0 then pure ret
        else do
          M.modifyEng (fun e => { e with av := true })
          initialize_servers env
      else initialize_servers env

/-! ## Finalisation -/

/-- A call to a function of the C fabric library whose result the caller does
not look at (`fi_close`, `fi_freeinfo`): the call is logged and comes back. -/
def c_call (env : Env) (c : Call) : M Unit := fun w =>
  (Outcome.ok (), { w with trace := w.trace ++ [⟨c, Except.ok (env.status w.trace.length)⟩] })

/-- The loop `for (auto mr : *fiMrs) fi_close(&(mr.second->fid));` of
`finalize`, over the entries still to visit. -/
def finalize_mrs (env : Env) : StdMap Nat → M Unit
  | [] => pure ()
  | (_, mr) :: rest => do
    c_call env (Call.fi_close (Fid.mr mr))
    finalize_mrs env rest

/-- The loops `for (auto fam_ctx : *contexts) delete fam_ctx.second;` and
`for (auto fam_ctx : *defContexts) delete fam_ctx.second;` of `finalize`, over
the entries still to visit. -/
def finalize_contexts (env : Env) : StdMap Nat → M Unit
  | [] => pure ()
  | (_, ctx) :: rest => do
    delete_Fam_Context env ctx
    finalize_contexts env rest

/-- One of the blocks `if (h) { release(h); h = NULL; }` of `finalize`, for a
handle `h` obtained from the fabric: `isSet` reads the handle, `c` is the
release call, `reset` sets the handle to `NULL`. -/
def release_handle (env : Env) (isSet : Fam_Ops_Libfabric → Bool) (c : Call)
    (reset : Fam_Ops_Libfabric → Fam_Ops_Libfabric) : M Unit := do
  let w ← M.get
  if isSet w.eng then do
    c_call env c
    M.modifyEng reset

/-- The part of `finalize` that releases the handles obtained from the fabric:
`if (fi) { fi_freeinfo(fi); fi = NULL; }`, then likewise with `fi_close` for
`fabric`, `eq`, `domain` and `av`, in this order. -/
def finalize_handles (env : Env) : M Unit := do
  release_handle env (fun e => e.fi) Call.fi_freeinfo (fun e => { e with fi := false })
  release_handle env (fun e => e.fabric) (Call.fi_close Fid.fabric)
    (fun e => { e with fabric := false })
  release_handle env (fun e => e.eq) (Call.fi_close Fid.eq) (fun e => { e with eq := false })
  release_handle env (fun e => e.domain) (Call.fi_close Fid.domain)
    (fun e => { e with domain := false })
  release_handle env (fun e => e.av) (Call.fi_close Fid.av) (fun e => { e with av := false })

/-- The part of `finalize` that empties the tables: every registered memory
region is closed and `fiMrs` cleared, every context of the region table is
deleted and `contexts` cleared, every context of the default table is deleted
and `defContexts` cleared.  The container pointers are set by the constructors
and are never `NULL`, so the three guarded blocks are always entered. -/
def finalize_tables (env : Env) : M Unit := do
  let w ← M.get
  finalize_mrs env w.eng.fiMrs
  M.modifyEng (fun e => { e with fiMrs := [] })
  let w ← M.get
  finalize_contexts env w.eng.contexts
  M.modifyEng (fun e => { e with contexts := [] })
  let w ← M.get
  finalize_contexts env w.eng.defContexts
  M.modifyEng (fun e => { e with defContexts := [] })

/-- The member function `void Fam_Ops_Libfabric::finalize()`. -/
def Fam_Ops_Libfabric.finalize (env : Env) : M Unit := do
  let _ ← extern_call env Call.fabric_finalize 0
  finalize_tables env
  finalize_handles env
  M.modifyEng (fun e => { e with name := [] })

/-! ## Context selection -/

/-- Modelled from the spec: the inline helper `get_defaultCtx(nodeId)` is
declared in `common/fam_ops_libfabric.h`, which is not part of the sources at
hand.  The specification gives its result as `DefaultTable[memserver_id]`,
never null on success; a missing entry is reported as a transport error not
otherwise classified (Datapath).  The table is not changed. -/
def get_defaultCtx (nodeId : Nat) : M Nat := do
  let w ← M.get
  match w.eng.defContexts.find nodeId with
  | some ctx => pure ctx
  | none => M.raise Fam_Error.Datapath

/-- The member function `Fam_Context *Fam_Ops_Libfabric::get_context(Fam_Descriptor *)`. -/
def Fam_Ops_Libfabric.get_context (env : Env) (descriptor : Nat) : M Nat := do
  let w ← M.get
  if w.eng.famContextModel = Fam_Context_Model.FAM_CONTEXT_DEFAULT then
    get_defaultCtx (w.descs descriptor).memserver_id
  else if w.eng.famContextModel = Fam_Context_Model.FAM_CONTEXT_REGION then
    match (w.descs descriptor).context with
    | some ctx => pure ctx
    | none => do
      let regionId := (w.descs descriptor).regionId
      lock_ctxLock
      let w1 ← M.get
      let ctx ← (match w1.eng.contexts.find regionId with
        | none => do
          let ctx ← new_Fam_Context env
          M.modifyEng (fun e => { e with contexts := e.contexts.insert regionId ctx })
          let ret ← fabric_enable_bind_ep env ctx
          if ret < 0 then do
            unlock_ctxLock
            M.raise Fam_Error.Datapath
          else pure ctx
        | some ctx => pure ctx)
      set_context descriptor ctx
      unlock_ctxLock
      pure ctx
  else M.raise Fam_Error.InvalidOption

/-! ## Emulated 128-bit atomics -/

/-- The member function `int128_t Fam_Ops_Libfabric::compare_swap(Fam_Descriptor *,
uint64_t offset, int128_t oldValue, int128_t newValue)`. -/
def Fam_Ops_Libfabric.compare_swap (env : Env) (descriptor : Nat) (offset : Nat)
    (oldValue newValue : int128_t) : M int128_t := do
  let w ← M.get
  let key := (w.descs descriptor).key
  let nodeId := (w.descs descriptor).memserver_id
  acquire_CAS_lock env descriptor
  let rd ← M.tryRethrow (do
      let w1 ← M.get
      let ctx ← Fam_Ops_Libfabric.get_context env descriptor
      fabric_read env key 16 offset (fiAddr_at w1.eng nodeId) ctx)
    (release_CAS_lock env descriptor)
  let loc := rd.2
  if loc = oldValue then
    let _ ← M.tryRethrow (do
        let w1 ← M.get
        let ctx ← Fam_Ops_Libfabric.get_context env descriptor
        fabric_write env key newValue offset (fiAddr_at w1.eng nodeId) ctx)
      (release_CAS_lock env descriptor)
  release_CAS_lock env descriptor
  pure loc

/-- The member function `void Fam_Ops_Libfabric::atomic_set(Fam_Descriptor *,
uint64_t offset, int128_t value)`. -/
def Fam_Ops_Libfabric.atomic_set (env : Env) (descriptor : Nat) (offset : Nat)
    (value : int128_t) : M Unit := do
  let w ← M.get
  let key := (w.descs descriptor).key
  let nodeId := (w.descs descriptor).memserver_id
  acquire_CAS_lock env descriptor
  let _ ← M.tryRethrow (do
      let w1 ← M.get
      let ctx ← Fam_Ops_Libfabric.get_context env descriptor
      fabric_write env key value offset (fiAddr_at w1.eng nodeId) ctx)
    (release_CAS_lock env descriptor)
  release_CAS_lock env descriptor

/-- The member function `int128_t Fam_Ops_Libfabric::atomic_fetch_int128(Fam_Descriptor *,
uint64_t offset)`. -/
def Fam_Ops_Libfabric.atomic_fetch_int128 (env : Env) (descriptor : Nat) (offset : Nat) :
    M int128_t := do
  let w ← M.get
  let key := (w.descs descriptor).key
  let nodeId := (w.descs descriptor).memserver_id
  acquire_CAS_lock env descriptor
  let rd ← M.tryRethrow (do
      let w1 ← M.get
      let ctx ← Fam_Ops_Libfabric.get_context env descriptor
      fabric_read env key 16 offset (fiAddr_at w1.eng nodeId) ctx)
    (release_CAS_lock env descriptor)
  release_CAS_lock env descriptor
  pure rd.2

/-! ## Bulk transfers -/

/-- The member function `int Fam_Ops_Libfabric::put_blocking(void *local,
Fam_Descriptor *, uint64_t offset, uint64_t nbytes)`. -/
def Fam_Ops_Libfabric.put_blocking (env : Env) {nbytes : Nat} (loc : Buffer nbytes)
    (descriptor offset : Nat) : M Int := do
  let w ← M.get
  let key := (w.descs descriptor).key
  let nodeId := (w.descs descriptor).memserver_id
  let ctx ← Fam_Ops_Libfabric.get_context env descriptor
  let ret ← fabric_write env key loc offset (fiAddr_at w.eng nodeId) ctx
  pure ret

/-- The member function `int Fam_Ops_Libfabric::get_blocking(void *local,
Fam_Descriptor *, uint64_t offset, uint64_t nbytes)`; the bytes received in
`local` are returned next to the status. -/
def Fam_Ops_Libfabric.get_blocking (env : Env) (descriptor offset nbytes : Nat) :
    M (Int × Buffer nbytes) := do
  let w ← M.get
  let key := (w.descs descriptor).key
  let nodeId := (w.descs descriptor).memserver_id
  let ctx ← Fam_Ops_Libfabric.get_context env descriptor
  let ret ← fabric_read env key nbytes offset (fiAddr_at w.eng nodeId) ctx
  pure ret

/-- The member function `void Fam_Ops_Libfabric::put_nonblocking(void *local,
Fam_Descriptor *, uint64_t offset, uint64_t nbytes)`. -/
def Fam_Ops_Libfabric.put_nonblocking (env : Env) {nbytes : Nat} (loc : Buffer nbytes)
    (descriptor offset : Nat) : M Unit := do
  let w ← M.get
  let key := (w.descs descriptor).key
  let nodeId := (w.descs descriptor).memserver_id
  let ctx ← Fam_Ops_Libfabric.get_context env descriptor
  fabric_write_nonblocking env key loc offset (fiAddr_at w.eng nodeId) ctx

/-- The member function `void Fam_Ops_Libfabric::get_nonblocking(void *local,
Fam_Descriptor *, uint64_t offset, uint64_t nbytes)`. -/
def Fam_Ops_Libfabric.get_nonblocking (env : Env) (descriptor offset nbytes : Nat) :
    M Unit := do
  let w ← M.get
  let key := (w.descs descriptor).key
  let nodeId := (w.descs descriptor).memserver_id
  let ctx ← Fam_Ops_Libfabric.get_context env descriptor
  fabric_read_nonblocking env key nbytes offset (fiAddr_at w.eng nodeId) ctx

/-- The member function `void *Fam_Ops_Libfabric::copy(Fam_Descriptor *src,
uint64_t srcOffset, Fam_Descriptor **dest, uint64_t destOffset, uint64_t nbytes)`:
the allocator makes the copy; the wait object it answers with is returned. -/
def Fam_Ops_Libfabric.copy (env : Env) (src srcOffset destOffset nbytes : Nat) : M Int := do
  let w ← M.get
  match w.eng.famAllocator with
  | none => M.halt Stuck.nullDeref
  | some _ => extern_call env (Call.copy src srcOffset destOffset nbytes) (env.status w.trace.length)

/-- The member function `void Fam_Ops_Libfabric::wait_for_copy(void *waitObj)`. -/
def Fam_Ops_Libfabric.wait_for_copy (env : Env) (waitObj : Int) : M Unit := do
  let w ← M.get
  match w.eng.famAllocator with
  | none => M.halt Stuck.nullDeref
  | some _ =>
    let _ ← extern_call env (Call.wait_for_copy waitObj) 0
    pure ()

/-! ## Gather and scatter

The chunked transfers themselves are made by the fabric binding; of a gather
or scatter the engine's part is the call it makes and the status it hands
back. -/

/-- An engine call that resolves the item (key, address, context) and hands
over to one verb of the fabric binding, which answers with a status: the shape
shared by the blocking gathers and scatters. -/
def blocking_verb (env : Env) (descriptor : Nat)
    (verb : Nat → Option Nat → Nat → Nat → Call) : M Int := do
  let w ← M.get
  let key := (w.descs descriptor).key
  let nodeId := (w.descs descriptor).memserver_id
  let ctx ← Fam_Ops_Libfabric.get_context env descriptor
  let w1 ← M.get
  let ret ← extern_call env (verb key (fiAddr_at w.eng nodeId) ctx w.eng.fabric_iov_limit)
    (env.status w1.trace.length)
  pure ret

/-- The shape shared by the nonblocking gathers and scatters: the verb posts
on the context and nothing is returned. -/
def nonblocking_verb (env : Env) (descriptor : Nat)
    (verb : Nat → Option Nat → Nat → Nat → Call) : M Unit := do
  let w ← M.get
  let key := (w.descs descriptor).key
  let nodeId := (w.descs descriptor).memserver_id
  let ctx ← Fam_Ops_Libfabric.get_context env descriptor
  let w1 ← M.get
  let _ ← extern_call env (verb key (fiAddr_at w.eng nodeId) ctx w.eng.fabric_iov_limit) 0
  post_outstanding ctx w1.trace.length

/-- The member function `gather_blocking(local, descriptor, nElements,
firstElement, stride, elementSize)`. -/
def Fam_Ops_Libfabric.gather_blocking (env : Env) (descriptor nElements firstElement stride
    elementSize : Nat) : M Int :=
  blocking_verb env descriptor (fun key addr ctx iov =>
    Call.fabric_gather_stride_blocking key elementSize firstElement nElements stride addr ctx iov)

/-- The member function `gather_blocking(local, descriptor, nElements,
elementIndex, elementSize)`. -/
def Fam_Ops_Libfabric.gather_blocking_index (env : Env) (descriptor nElements : Nat)
    (elementIndex : List Nat) (elementSize : Nat) : M Int :=
  blocking_verb env descriptor (fun key addr ctx iov =>
    Call.fabric_gather_index_blocking key elementSize elementIndex nElements addr ctx iov)

/-- The member function `scatter_blocking(local, descriptor, nElements,
firstElement, stride, elementSize)`. -/
def Fam_Ops_Libfabric.scatter_blocking (env : Env) (loc : Bytes) (descriptor nElements
    firstElement stride elementSize : Nat) : M Int :=
  blocking_verb env descriptor (fun key addr ctx iov =>
    Call.fabric_scatter_stride_blocking key loc elementSize firstElement nElements stride addr
      ctx iov)

/-- The member function `scatter_blocking(local, descriptor, nElements,
elementIndex, elementSize)`. -/
def Fam_Ops_Libfabric.scatter_blocking_index (env : Env) (loc : Bytes)
    (descriptor nElements : Nat) (elementIndex : List Nat) (elementSize : Nat) : M Int :=
  blocking_verb env descriptor (fun key addr ctx iov =>
    Call.fabric_scatter_index_blocking key loc elementSize elementIndex nElements addr ctx iov)

/-- The member function `gather_nonblocking(local, descriptor, nElements,
firstElement, stride, elementSize)`. -/
def Fam_Ops_Libfabric.gather_nonblocking (env : Env) (descriptor nElements firstElement stride
    elementSize : Nat) : M Unit :=
  nonblocking_verb env descriptor (fun key addr ctx iov =>
    Call.fabric_gather_stride_nonblocking key elementSize firstElement nElements stride addr ctx
      iov)

/-- The member function `gather_nonblocking(local, descriptor, nElements,
elementIndex, elementSize)`. -/
def Fam_Ops_Libfabric.gather_nonblocking_index (env : Env) (descriptor nElements : Nat)
    (elementIndex : List Nat) (elementSize : Nat) : M Unit :=
  nonblocking_verb env descriptor (fun key addr ctx iov =>
    Call.fabric_gather_index_nonblocking key elementSize elementIndex nElements addr ctx iov)

/-- The member function `scatter_nonblocking(local, descriptor, nElements,
firstElement, stride, elementSize)`. -/
def Fam_Ops_Libfabric.scatter_nonblocking (env : Env) (loc : Bytes) (descriptor nElements
    firstElement stride elementSize : Nat) : M Unit :=
  nonblocking_verb env descriptor (fun key addr ctx iov =>
    Call.fabric_scatter_stride_nonblocking key loc elementSize firstElement nElements stride addr
      ctx iov)

/-- The member function `scatter_nonblocking(local, descriptor, nElements,
elementIndex, elementSize)`. -/
def Fam_Ops_Libfabric.scatter_nonblocking_index (env : Env) (loc : Bytes)
    (descriptor nElements : Nat) (elementIndex : List Nat) (elementSize : Nat) : M Unit :=
  nonblocking_verb env descriptor (fun key addr ctx iov =>
    Call.fabric_scatter_index_nonblocking key loc elementSize elementIndex nElements addr ctx iov)

/-! ## Ordering: fence and quiet -/

/-- The loop of `fence` under `FAM_CONTEXT_DEFAULT`:
`for (auto fam_ctx : *defContexts) { fabric_fence((*fiAddr)[nodeId], fam_ctx.second); nodeId++; }`
over the entries still to visit, with the current value of `nodeId`. -/
def fence_defContexts (env : Env) : StdMap Nat → Nat → M Unit
  | [], _ => pure ()
  | (_, ctx) :: rest, nodeId => do
    let w ← M.get
    fabric_fence env (fiAddr_at w.eng nodeId) ctx
    fence_defContexts env rest (nodeId + 1)

/-- The loop of `fence` under `FAM_CONTEXT_REGION` with a `NULL` descriptor:
`for (auto fam_ctx : *contexts) fabric_fence((*fiAddr)[fam_ctx.first >> MEMSERVERID_SHIFT], fam_ctx.second);`
over the entries still to visit. -/
def fence_contexts (env : Env) (MEMSERVERID_SHIFT : Nat) : StdMap Nat → M Unit
  | [] => pure ()
  | (regionId, ctx) :: rest => do
    let w ← M.get
    fabric_fence env (fiAddr_at w.eng (regionId >>> MEMSERVERID_SHIFT)) ctx
    fence_contexts env MEMSERVERID_SHIFT rest

/-- The `try` block of `fence` (the code run between locking and unlocking
`ctxLock`). -/
def fence_locked (env : Env) (MEMSERVERID_SHIFT : Nat) (descriptor : Option Nat) : M Unit := do
  let w ← M.get
  match descriptor with
  | some r =>
    let nodeId := (w.regions r).memserver_id
    match (w.regions r).context with
    | some ctx => fabric_fence env (fiAddr_at w.eng nodeId) ctx
    | none =>
      let regionId := (w.regions r).regionId
      match w.eng.contexts.find regionId with
      | some ctx => do
        set_region_context r ctx
        fabric_fence env (fiAddr_at w.eng nodeId) ctx
      | none => pure ()
  | none => fence_contexts env MEMSERVERID_SHIFT w.eng.contexts

/-- The member function `void Fam_Ops_Libfabric::fence(Fam_Region_Descriptor *)`
(`none` is a `NULL` descriptor).  The constant `MEMSERVERID_SHIFT` comes from a
header that is not part of the sources at hand and is a parameter here. -/
def Fam_Ops_Libfabric.fence (env : Env) (MEMSERVERID_SHIFT : Nat) (descriptor : Option Nat) :
    M Unit := do
  let w ← M.get
  if w.eng.famContextModel = Fam_Context_Model.FAM_CONTEXT_DEFAULT then
    fence_defContexts env w.eng.defContexts 0
  else if w.eng.famContextModel = Fam_Context_Model.FAM_CONTEXT_REGION then do
    lock_ctxLock
    M.tryRethrow (fence_locked env MEMSERVERID_SHIFT descriptor) unlock_ctxLock
    unlock_ctxLock
  else pure ()

/-- The loop of `quiet_context` under `FAM_CONTEXT_DEFAULT`:
`for (auto context : *defContexts) fabric_quiet(context.second);`. -/
def quiet_defContexts (env : Env) : StdMap Nat → M Unit
  | [] => pure ()
  | (_, ctx) :: rest => do
    fabric_quiet env ctx
    quiet_defContexts env rest

/-- The member function `void Fam_Ops_Libfabric::quiet_context(Fam_Context *)`
(`none` is the default argument `NULL`, whose endpoint `fabric_quiet` would
have to read). -/
def Fam_Ops_Libfabric.quiet_context (env : Env) (context : Option Nat) : M Unit := do
  let w ← M.get
  if w.eng.famContextModel = Fam_Context_Model.FAM_CONTEXT_DEFAULT then
    quiet_defContexts env w.eng.defContexts
  else if w.eng.famContextModel = Fam_Context_Model.FAM_CONTEXT_REGION then
    match context with
    | some ctx => fabric_quiet env ctx
    | none => M.halt Stuck.nullDeref
  else pure ()

/-- The loop of `quiet` under `FAM_CONTEXT_REGION` with a `NULL` descriptor:
`for (auto fam_ctx : *contexts) quiet_context(fam_ctx.second);`. -/
def quiet_contexts (env : Env) : StdMap Nat → M Unit
  | [] => pure ()
  | (_, ctx) :: rest => do
    Fam_Ops_Libfabric.quiet_context env (some ctx)
    quiet_contexts env rest

/-- The `try` block of `quiet` (the code run between locking and unlocking
`ctxLock`). -/
def quiet_locked (env : Env) (descriptor : Option Nat) : M Unit := do
  let w ← M.get
  match descriptor with
  | some r =>
    match (w.regions r).context with
    | some ctx => Fam_Ops_Libfabric.quiet_context env (some ctx)
    | none =>
      let regionId := (w.regions r).regionId
      match w.eng.contexts.find regionId with
      | some ctx => do
        set_region_context r ctx
        Fam_Ops_Libfabric.quiet_context env (some ctx)
      | none => pure ()
  | none => quiet_contexts env w.eng.contexts

/-- The member function `void Fam_Ops_Libfabric::quiet(Fam_Region_Descriptor *)`
(`none` is a `NULL` descriptor). -/
def Fam_Ops_Libfabric.quiet (env : Env) (descriptor : Option Nat) : M Unit := do
  let w ← M.get
  if w.eng.famContextModel = Fam_Context_Model.FAM_CONTEXT_DEFAULT then
    Fam_Ops_Libfabric.quiet_context env none
  else if w.eng.famContextModel = Fam_Context_Model.FAM_CONTEXT_REGION then do
    lock_ctxLock
    M.tryRethrow (quiet_locked env descriptor) unlock_ctxLock
    unlock_ctxLock
  else pure ()

/-! ## Native atomics

An overload set of the source is one definition here: the operand type `T`
selects the overload, and each overload is an arm with the codes its body
passes. -/

/-- The operand types of the bitwise atomics. -/
inductive CUnsigned where
  | uint32_t
  | uint64_t
  deriving DecidableEq, Repr

/-- The operand type as a `CType`. -/
def CUnsigned.toCType : CUnsigned → CType
  | CUnsigned.uint32_t => CType.uint32_t
  | CUnsigned.uint64_t => CType.uint64_t

/-- The operand types of the native `compare_swap`. -/
inductive CInteger where
  | int32_t
  | int64_t
  | uint32_t
  | uint64_t
  deriving DecidableEq, Repr

/-- The operand type as a `CType`. -/
def CInteger.toCType : CInteger → CType
  | CInteger.int32_t => CType.int32_t
  | CInteger.int64_t => CType.int64_t
  | CInteger.uint32_t => CType.uint32_t
  | CInteger.uint64_t => CType.uint64_t

/-- The body the overloads of a non-fetching native atomic share:
`key = descriptor->get_key(); nodeId = descriptor->get_memserver_id();
fabric_atomic(key, &value, offset, op, datatype, (*fiAddr)[nodeId], get_context(descriptor));`. -/
def post_atomic (env : Env) (descriptor offset : Nat) (value : Bytes) (op : fi_op)
    (datatype : fi_datatype) : M Unit := do
  let w ← M.get
  let key := (w.descs descriptor).key
  let nodeId := (w.descs descriptor).memserver_id
  let ctx ← Fam_Ops_Libfabric.get_context env descriptor
  fabric_atomic env key value offset op datatype (fiAddr_at w.eng nodeId) ctx

/-- The body the overloads of a fetching native atomic share:
`fabric_fetch_atomic(key, &value, &old, offset, op, datatype, (*fiAddr)[nodeId],
get_context(descriptor)); return old;`. -/
def post_fetch_atomic (env : Env) (descriptor offset : Nat) (value : Bytes) (op : fi_op)
    (datatype : fi_datatype) : M (Buffer datatype.size) := do
  let w ← M.get
  let key := (w.descs descriptor).key
  let nodeId := (w.descs descriptor).memserver_id
  let ctx ← Fam_Ops_Libfabric.get_context env descriptor
  let old ← fabric_fetch_atomic env key value offset op datatype (fiAddr_at w.eng nodeId) ctx
  pure old

/-- The body the overloads of the native `compare_swap` share:
`fabric_compare_atomic(key, &oldValue, &old, &newValue, offset, op, datatype,
(*fiAddr)[nodeId], get_context(descriptor)); return old;`. -/
def post_compare_atomic (env : Env) (descriptor offset : Nat) (oldValue newValue : Bytes)
    (op : fi_op) (datatype : fi_datatype) : M (Buffer datatype.size) := do
  let w ← M.get
  let key := (w.descs descriptor).key
  let nodeId := (w.descs descriptor).memserver_id
  let ctx ← Fam_Ops_Libfabric.get_context env descriptor
  let old ← fabric_compare_atomic env key oldValue newValue offset op datatype
    (fiAddr_at w.eng nodeId) ctx
  pure old

/-- The overloads `void Fam_Ops_Libfabric::atomic_set(Fam_Descriptor *, uint64_t offset, T value)`. -/
def Fam_Ops_Libfabric.atomic_set_native (env : Env) (T : CType) (descriptor offset : Nat)
    (value : CValue T) : M Unit :=
  match T with
  | CType.int32_t =>
    post_atomic env descriptor offset value.1 fi_op.FI_ATOMIC_WRITE fi_datatype.FI_INT32
  | CType.int64_t =>
    post_atomic env descriptor offset value.1 fi_op.FI_ATOMIC_WRITE fi_datatype.FI_INT64
  | CType.uint32_t =>
    post_atomic env descriptor offset value.1 fi_op.FI_ATOMIC_WRITE fi_datatype.FI_UINT32
  | CType.uint64_t =>
    post_atomic env descriptor offset value.1 fi_op.FI_ATOMIC_WRITE fi_datatype.FI_UINT64
  | CType.float =>
    post_atomic env descriptor offset value.1 fi_op.FI_ATOMIC_WRITE fi_datatype.FI_FLOAT
  | CType.double =>
    post_atomic env descriptor offset value.1 fi_op.FI_ATOMIC_WRITE fi_datatype.FI_DOUBLE

/-- The overloads `void Fam_Ops_Libfabric::atomic_add(Fam_Descriptor *, uint64_t offset, T value)`. -/
def Fam_Ops_Libfabric.atomic_add (env : Env) (T : CType) (descriptor offset : Nat)
    (value : CValue T) : M Unit :=
  match T with
  | CType.int32_t =>
    post_atomic env descriptor offset value.1 fi_op.FI_SUM fi_datatype.FI_INT32
  | CType.int64_t =>
    post_atomic env descriptor offset value.1 fi_op.FI_SUM fi_datatype.FI_INT64
  | CType.uint32_t =>
    post_atomic env descriptor offset value.1 fi_op.FI_SUM fi_datatype.FI_UINT32
  | CType.uint64_t =>
    post_atomic env descriptor offset value.1 fi_op.FI_SUM fi_datatype.FI_UINT64
  | CType.float =>
    post_atomic env descriptor offset value.1 fi_op.FI_SUM fi_datatype.FI_FLOAT
  | CType.double =>
    post_atomic env descriptor offset value.1 fi_op.FI_SUM fi_datatype.FI_DOUBLE

/-- The overloads `void Fam_Ops_Libfabric::atomic_subtract(Fam_Descriptor *, uint64_t offset,
T value)`: each is `atomic_add(descriptor, offset, -value)`. -/
def Fam_Ops_Libfabric.atomic_subtract (env : Env) (T : CType) (descriptor offset : Nat)
    (value : CValue T) : M Unit :=
  Fam_Ops_Libfabric.atomic_add env T descriptor offset (CValue.neg T value)

/-- The overloads `void Fam_Ops_Libfabric::atomic_min(Fam_Descriptor *, uint64_t offset, T value)`. -/
def Fam_Ops_Libfabric.atomic_min (env : Env) (T : CType) (descriptor offset : Nat)
    (value : CValue T) : M Unit :=
  match T with
  | CType.int32_t =>
    post_atomic env descriptor offset value.1 fi_op.FI_MIN fi_datatype.FI_INT32
  | CType.int64_t =>
    post_atomic env descriptor offset value.1 fi_op.FI_MIN fi_datatype.FI_INT64
  | CType.uint32_t =>
    post_atomic env descriptor offset value.1 fi_op.FI_MIN fi_datatype.FI_UINT32
  | CType.uint64_t =>
    post_atomic env descriptor offset value.1 fi_op.FI_MIN fi_datatype.FI_UINT64
  | CType.float =>
    post_atomic env descriptor offset value.1 fi_op.FI_MIN fi_datatype.FI_FLOAT
  | CType.double =>
    post_atomic env descriptor offset value.1 fi_op.FI_MIN fi_datatype.FI_DOUBLE

/-- The overloads `void Fam_Ops_Libfabric::atomic_max(Fam_Descriptor *, uint64_t offset, T value)`. -/
def Fam_Ops_Libfabric.atomic_max (env : Env) (T : CType) (descriptor offset : Nat)
    (value : CValue T) : M Unit :=
  match T with
  | CType.int32_t =>
    post_atomic env descriptor offset value.1 fi_op.FI_MAX fi_datatype.FI_INT32
  | CType.int64_t =>
    post_atomic env descriptor offset value.1 fi_op.FI_MAX fi_datatype.FI_INT64
  | CType.uint32_t =>
    post_atomic env descriptor offset value.1 fi_op.FI_MAX fi_datatype.FI_UINT32
  | CType.uint64_t =>
    post_atomic env descriptor offset value.1 fi_op.FI_MAX fi_datatype.FI_UINT64
  | CType.float =>
    post_atomic env descriptor offset value.1 fi_op.FI_MAX fi_datatype.FI_FLOAT
  | CType.double =>
    post_atomic env descriptor offset value.1 fi_op.FI_MAX fi_datatype.FI_DOUBLE

/-- The overloads `void Fam_Ops_Libfabric::atomic_and(Fam_Descriptor *, uint64_t offset, T value)`. -/
def Fam_Ops_Libfabric.atomic_and (env : Env) (T : CUnsigned) (descriptor offset : Nat)
    (value : CValue T.toCType) : M Unit :=
  match T with
  | CUnsigned.uint32_t =>
    post_atomic env descriptor offset value.1 fi_op.FI_BAND fi_datatype.FI_UINT32
  | CUnsigned.uint64_t =>
    post_atomic env descriptor offset value.1 fi_op.FI_BAND fi_datatype.FI_UINT64

/-- The overloads `void Fam_Ops_Libfabric::atomic_or(Fam_Descriptor *, uint64_t offset, T value)`. -/
def Fam_Ops_Libfabric.atomic_or (env : Env) (T : CUnsigned) (descriptor offset : Nat)
    (value : CValue T.toCType) : M Unit :=
  match T with
  | CUnsigned.uint32_t =>
    post_atomic env descriptor offset value.1 fi_op.FI_BOR fi_datatype.FI_UINT32
  | CUnsigned.uint64_t =>
    post_atomic env descriptor offset value.1 fi_op.FI_BOR fi_datatype.FI_UINT64

/-- The overloads `void Fam_Ops_Libfabric::atomic_xor(Fam_Descriptor *, uint64_t offset, T value)`. -/
def Fam_Ops_Libfabric.atomic_xor (env : Env) (T : CUnsigned) (descriptor offset : Nat)
    (value : CValue T.toCType) : M Unit :=
  match T with
  | CUnsigned.uint32_t =>
    post_atomic env descriptor offset value.1 fi_op.FI_BXOR fi_datatype.FI_UINT32
  | CUnsigned.uint64_t =>
    post_atomic env descriptor offset value.1 fi_op.FI_BXOR fi_datatype.FI_UINT64

/-- The overloads `T Fam_Ops_Libfabric::swap(Fam_Descriptor *, uint64_t offset, T value)`. -/
def Fam_Ops_Libfabric.swap (env : Env) (T : CType) (descriptor offset : Nat)
    (value : CValue T) : M (CValue T) :=
  match T, value with
  | CType.int32_t, value =>
    post_fetch_atomic env descriptor offset value.1 fi_op.FI_ATOMIC_WRITE fi_datatype.FI_INT32
  | CType.int64_t, value =>
    post_fetch_atomic env descriptor offset value.1 fi_op.FI_ATOMIC_WRITE fi_datatype.FI_INT64
  | CType.uint32_t, value =>
    post_fetch_atomic env descriptor offset value.1 fi_op.FI_ATOMIC_WRITE fi_datatype.FI_UINT32
  | CType.uint64_t, value =>
    post_fetch_atomic env descriptor offset value.1 fi_op.FI_ATOMIC_WRITE fi_datatype.FI_UINT64
  | CType.float, value =>
    post_fetch_atomic env descriptor offset value.1 fi_op.FI_ATOMIC_WRITE fi_datatype.FI_FLOAT
  | CType.double, value =>
    post_fetch_atomic env descriptor offset value.1 fi_op.FI_ATOMIC_WRITE fi_datatype.FI_DOUBLE

/-- The overloads `T Fam_Ops_Libfabric::compare_swap(Fam_Descriptor *, uint64_t offset,
T oldValue, T newValue)` for the 32-bit and 64-bit integer types. -/
def Fam_Ops_Libfabric.compare_swap_native (env : Env) (T : CInteger) (descriptor offset : Nat)
    (oldValue newValue : CValue T.toCType) : M (CValue T.toCType) :=
  match T, oldValue, newValue with
  | CInteger.int32_t, oldValue, newValue =>
    post_compare_atomic env descriptor offset oldValue.1 newValue.1 fi_op.FI_CSWAP
      fi_datatype.FI_INT32
  | CInteger.int64_t, oldValue, newValue =>
    post_compare_atomic env descriptor offset oldValue.1 newValue.1 fi_op.FI_CSWAP
      fi_datatype.FI_INT64
  | CInteger.uint32_t, oldValue, newValue =>
    post_compare_atomic env descriptor offset oldValue.1 newValue.1 fi_op.FI_CSWAP
      fi_datatype.FI_UINT32
  | CInteger.uint64_t, oldValue, newValue =>
    post_compare_atomic env descriptor offset oldValue.1 newValue.1 fi_op.FI_CSWAP
      fi_datatype.FI_UINT64

/-- The member function `int32_t Fam_Ops_Libfabric::atomic_fetch_int32(Fam_Descriptor *,
uint64_t offset)`; the operand passed is the local `result`, not yet written. -/
def Fam_Ops_Libfabric.atomic_fetch_int32 (env : Env) (descriptor offset : Nat) :
    M (CValue CType.int32_t) := do
  let w ← M.get
  post_fetch_atomic env descriptor offset (env.uninitialized w.trace.length)
    fi_op.FI_ATOMIC_READ fi_datatype.FI_INT32

/-- The member function `int64_t Fam_Ops_Libfabric::atomic_fetch_int64(Fam_Descriptor *,
uint64_t offset)`; the operand passed is the local `result`, not yet written. -/
def Fam_Ops_Libfabric.atomic_fetch_int64 (env : Env) (descriptor offset : Nat) :
    M (CValue CType.int64_t) := do
  let w ← M.get
  post_fetch_atomic env descriptor offset (env.uninitialized w.trace.length)
    fi_op.FI_ATOMIC_READ fi_datatype.FI_INT64

/-- The member function `uint32_t Fam_Ops_Libfabric::atomic_fetch_uint32(Fam_Descriptor *,
uint64_t offset)`; the operand passed is the local `result`, not yet written. -/
def Fam_Ops_Libfabric.atomic_fetch_uint32 (env : Env) (descriptor offset : Nat) :
    M (CValue CType.uint32_t) := do
  let w ← M.get
  post_fetch_atomic env descriptor offset (env.uninitialized w.trace.length)
    fi_op.FI_ATOMIC_READ fi_datatype.FI_UINT32

/-- The member function `uint64_t Fam_Ops_Libfabric::atomic_fetch_uint64(Fam_Descriptor *,
uint64_t offset)`; the operand passed is the local `result`, not yet written. -/
def Fam_Ops_Libfabric.atomic_fetch_uint64 (env : Env) (descriptor offset : Nat) :
    M (CValue CType.uint64_t) := do
  let w ← M.get
  post_fetch_atomic env descriptor offset (env.uninitialized w.trace.length)
    fi_op.FI_ATOMIC_READ fi_datatype.FI_UINT64

/-- The member function `float Fam_Ops_Libfabric::atomic_fetch_float(Fam_Descriptor *,
uint64_t offset)`; the operand passed is the local `result`, not yet written. -/
def Fam_Ops_Libfabric.atomic_fetch_float (env : Env) (descriptor offset : Nat) :
    M (CValue CType.float) := do
  let w ← M.get
  post_fetch_atomic env descriptor offset (env.uninitialized w.trace.length)
    fi_op.FI_ATOMIC_READ fi_datatype.FI_FLOAT

/-- The member function `double Fam_Ops_Libfabric::atomic_fetch_double(Fam_Descriptor *,
uint64_t offset)`; the operand passed is the local `result`, not yet written. -/
def Fam_Ops_Libfabric.atomic_fetch_double (env : Env) (descriptor offset : Nat) :
    M (CValue CType.double) := do
  let w ← M.get
  post_fetch_atomic env descriptor offset (env.uninitialized w.trace.length)
    fi_op.FI_ATOMIC_READ fi_datatype.FI_DOUBLE

/-- The overloads `T Fam_Ops_Libfabric::atomic_fetch_add(Fam_Descriptor *, uint64_t offset, T value)`. -/
def Fam_Ops_Libfabric.atomic_fetch_add (env : Env) (T : CType) (descriptor offset : Nat)
    (value : CValue T) : M (CValue T) :=
  match T, value with
  | CType.int32_t, value =>
    post_fetch_atomic env descriptor offset value.1 fi_op.FI_SUM fi_datatype.FI_INT32
  | CType.int64_t, value =>
    post_fetch_atomic env descriptor offset value.1 fi_op.FI_SUM fi_datatype.FI_INT64
  | CType.uint32_t, value =>
    post_fetch_atomic env descriptor offset value.1 fi_op.FI_SUM fi_datatype.FI_UINT32
  | CType.uint64_t, value =>
    post_fetch_atomic env descriptor offset value.1 fi_op.FI_SUM fi_datatype.FI_UINT64
  | CType.float, value =>
    post_fetch_atomic env descriptor offset value.1 fi_op.FI_SUM fi_datatype.FI_FLOAT
  | CType.double, value =>
    post_fetch_atomic env descriptor offset value.1 fi_op.FI_SUM fi_datatype.FI_DOUBLE

/-- The overloads `T Fam_Ops_Libfabric::atomic_fetch_subtract(Fam_Descriptor *,
uint64_t offset, T value)`: each is `return atomic_fetch_add(descriptor, offset, -value)`. -/
def Fam_Ops_Libfabric.atomic_fetch_subtract (env : Env) (T : CType) (descriptor offset : Nat)
    (value : CValue T) : M (CValue T) :=
  Fam_Ops_Libfabric.atomic_fetch_add env T descriptor offset (CValue.neg T value)

/-- The overloads `T Fam_Ops_Libfabric::atomic_fetch_min(Fam_Descriptor *, uint64_t offset, T value)`. -/
def Fam_Ops_Libfabric.atomic_fetch_min (env : Env) (T : CType) (descriptor offset : Nat)
    (value : CValue T) : M (CValue T) :=
  match T, value with
  | CType.int32_t, value =>
    post_fetch_atomic env descriptor offset value.1 fi_op.FI_MIN fi_datatype.FI_INT32
  | CType.int64_t, value =>
    post_fetch_atomic env descriptor offset value.1 fi_op.FI_MIN fi_datatype.FI_INT64
  | CType.uint32_t, value =>
    post_fetch_atomic env descriptor offset value.1 fi_op.FI_MIN fi_datatype.FI_UINT32
  | CType.uint64_t, value =>
    post_fetch_atomic env descriptor offset value.1 fi_op.FI_MIN fi_datatype.FI_UINT64
  | CType.float, value =>
    post_fetch_atomic env descriptor offset value.1 fi_op.FI_MIN fi_datatype.FI_FLOAT
  | CType.double, value =>
    post_fetch_atomic env descriptor offset value.1 fi_op.FI_MIN fi_datatype.FI_DOUBLE

/-- The overloads `T Fam_Ops_Libfabric::atomic_fetch_max(Fam_Descriptor *, uint64_t offset, T value)`. -/
def Fam_Ops_Libfabric.atomic_fetch_max (env : Env) (T : CType) (descriptor offset : Nat)
    (value : CValue T) : M (CValue T) :=
  match T, value with
  | CType.int32_t, value =>
    post_fetch_atomic env descriptor offset value.1 fi_op.FI_MAX fi_datatype.FI_INT32
  | CType.int64_t, value =>
    post_fetch_atomic env descriptor offset value.1 fi_op.FI_MAX fi_datatype.FI_INT64
  | CType.uint32_t, value =>
    post_fetch_atomic env descriptor offset value.1 fi_op.FI_MAX fi_datatype.FI_UINT32
  | CType.uint64_t, value =>
    post_fetch_atomic env descriptor offset value.1 fi_op.FI_MAX fi_datatype.FI_UINT64
  | CType.float, value =>
    post_fetch_atomic env descriptor offset value.1 fi_op.FI_MAX fi_datatype.FI_FLOAT
  | CType.double, value =>
    post_fetch_atomic env descriptor offset value.1 fi_op.FI_MAX fi_datatype.FI_DOUBLE

/-- The overloads `T Fam_Ops_Libfabric::atomic_fetch_and(Fam_Descriptor *, uint64_t offset, T value)`. -/
def Fam_Ops_Libfabric.atomic_fetch_and (env : Env) (T : CUnsigned) (descriptor offset : Nat)
    (value : CValue T.toCType) : M (CValue T.toCType) :=
  match T, value with
  | CUnsigned.uint32_t, value =>
    post_fetch_atomic env descriptor offset value.1 fi_op.FI_BAND fi_datatype.FI_UINT32
  | CUnsigned.uint64_t, value =>
    post_fetch_atomic env descriptor offset value.1 fi_op.FI_BAND fi_datatype.FI_UINT64

/-- The overloads `T Fam_Ops_Libfabric::atomic_fetch_or(Fam_Descriptor *, uint64_t offset, T value)`. -/
def Fam_Ops_Libfabric.atomic_fetch_or (env : Env) (T : CUnsigned) (descriptor offset : Nat)
    (value : CValue T.toCType) : M (CValue T.toCType) :=
  match T, value with
  | CUnsigned.uint32_t, value =>
    post_fetch_atomic env descriptor offset value.1 fi_op.FI_BOR fi_datatype.FI_UINT32
  | CUnsigned.uint64_t, value =>
    post_fetch_atomic env descriptor offset value.1 fi_op.FI_BOR fi_datatype.FI_UINT64

/-- The overloads `T Fam_Ops_Libfabric::atomic_fetch_xor(Fam_Descriptor *, uint64_t offset, T value)`. -/
def Fam_Ops_Libfabric.atomic_fetch_xor (env : Env) (T : CUnsigned) (descriptor offset : Nat)
    (value : CValue T.toCType) : M (CValue T.toCType) :=
  match T, value with
  | CUnsigned.uint32_t, value =>
    post_fetch_atomic env descriptor offset value.1 fi_op.FI_BXOR fi_datatype.FI_UINT32
  | CUnsigned.uint64_t, value =>
    post_fetch_atomic env descriptor offset value.1 fi_op.FI_BXOR fi_datatype.FI_UINT64

/-! ## The allocator's name service -/

/-- Modelled from the spec: a descriptor as the class `fam` hands it out to the
application (the classes `fam`, `Fam_Region_Descriptor` and `Fam_Descriptor`
are not among the sources at hand; only the test `fam_size_reg_test.cpp` uses
them): the name of the object and the size `fam_size` reports for it. -/
structure NamedDescriptor where
  name : String
  size : Nat
  deriving DecidableEq, Repr

/-- Modelled from the spec: the allocator's name service behind
`fam_create_region`, `fam_lookup_region`, `fam_allocate` and `fam_lookup`
(not among the sources at hand): the regions by name and the data items by
region name and item name, each with its size. -/
structure FamNames where
  regions : List (String × Nat)
  items : List ((String × String) × Nat)
  deriving DecidableEq, Repr

/-- Modelled from the spec: `fam_size(descriptor)`, the size of the object the
descriptor stands for. -/
def fam_size (d : NamedDescriptor) : Nat := d.size

/-- Modelled from the spec: `fam_create_region(name, size, ...)` (permissions
and redundancy level are not modelled).  The region is entered under its name
with a size of at least `size` (scenario S2: `fam_size(R) ≥ 8192`), `extra`
being what the memory server adds to the size asked for; a name already taken
is refused (`none`). -/
def fam_create_region (st : FamNames) (name : String) (size extra : Nat) :
    Option (NamedDescriptor × FamNames) :=
  match st.regions.lookup name with
  | some _ => none
  | none =>
    some (⟨name, size + extra⟩, { st with regions := (name, size + extra) :: st.regions })

/-- Modelled from the spec: `fam_lookup_region(name)`: a descriptor of the
region entered under `name`, with the size entered (scenario S2: lookup
returns a descriptor with equal size); `none` when there is no such region. -/
def fam_lookup_region (st : FamNames) (name : String) : Option NamedDescriptor :=
  (st.regions.lookup name).map (fun s => ⟨name, s⟩)

/-- Modelled from the spec: `fam_allocate(name, size, ..., region)`: the item
is entered under the region's name and its own, with the size asked for
(scenario S2: `fam_size(I) == 1024`); refused (`none`) when the region does not
exist or the item name is taken in it. -/
def fam_allocate (st : FamNames) (name : String) (size : Nat) (region : NamedDescriptor) :
    Option (NamedDescriptor × FamNames) :=
  match st.regions.lookup region.name with
  | none => none
  | some _ =>
    match st.items.lookup (region.name, name) with
    | some _ => none
    | none => some (⟨name, size⟩, { st with items := ((region.name, name), size) :: st.items })

/-- Modelled from the spec: `fam_lookup(itemName, regionName)`: a descriptor of
the item entered under the two names, with the size entered; `none` when there
is no such item. -/
def fam_lookup (st : FamNames) (itemName regionName : String) : Option NamedDescriptor :=
  (st.items.lookup (regionName, itemName)).map (fun s => ⟨itemName, s⟩)

/-! ## Vocabulary of the statements -/

/-- The calls by which a context comes into being: its constructor and the
enable-and-bind step on its endpoint. -/
def Call.isContextCall : Call → Bool
  | Call.new_Fam_Context _ => true
  | Call.fabric_enable_bind_ep _ => true
  | _ => false

/-- The calls `famAllocator->release_CAS_lock(..)`. -/
def Call.isRelease : Call → Bool
  | Call.release_CAS_lock _ => true
  | _ => false

/-- The calls `famAllocator->acquire_CAS_lock(..)`. -/
def Call.isAcquire : Call → Bool
  | Call.acquire_CAS_lock _ => true
  | _ => false

/-- The calls `fabric_write(..)`. -/
def Call.isWrite : Call → Bool
  | Call.fabric_write _ _ _ _ _ => true
  | _ => false

/-- The number of `release_CAS_lock` calls in a stretch of the log. -/
def releaseCount (evs : List Event) : Nat := evs.countP (fun e => e.call.isRelease)

/-- The number of `release_CAS_lock(descriptor)` calls in a stretch of the log. -/
def releaseCountOn (descriptor : Nat) (evs : List Event) : Nat :=
  evs.countP (fun e => decide (e.call = Call.release_CAS_lock descriptor))

/-- The release discipline of a piece of code `m` run between an acquire and
the end of an emulated atomic on `descriptor`: the allocator handle is kept,
nothing is acquired, only `descriptor` is released, and the number of releases
is `kOk` when `m` returns and `kThrow` when it throws. -/
def ReleaseSpec {α : Type} (descriptor : Nat) (m : M α) (kOk kThrow : Nat) : Prop :=
  ∀ w : World, w.eng.famAllocator ≠ none →
    (m w).2.eng.famAllocator ≠ none ∧
    ∃ evs, (m w).2.trace = w.trace ++ evs ∧
      (∀ e ∈ evs, e.call.isAcquire = false) ∧
      (∀ e ∈ evs, e.call.isRelease = true → e.call = Call.release_CAS_lock descriptor) ∧
      (∀ a, (m w).1 = Outcome.ok a → releaseCount evs = kOk) ∧
      (∀ e, (m w).1 = Outcome.throw e → releaseCount evs = kThrow)

/-- The CAS-lock discipline of an emulated atomic on `descriptor`, read off the
calls logged between the world `w` at the call and the outcome `r`: when the
acquire succeeded there is exactly one release and it is a release of
`descriptor`; when the acquire failed there is no release. -/
def CASLockDiscipline {α : Type} (descriptor : Nat) (w : World) (r : Outcome α × World) : Prop :=
  ((∃ s, (⟨Call.acquire_CAS_lock descriptor, Except.ok s⟩ : Event) ∈ newEvents w r.2) →
    releaseCount (newEvents w r.2) = 1 ∧ releaseCountOn descriptor (newEvents w r.2) = 1) ∧
  ((∃ e, (⟨Call.acquire_CAS_lock descriptor, Except.error e⟩ : Event) ∈ newEvents w r.2) →
    releaseCount (newEvents w r.2) = 0)

/-- A failure reported by the allocator during `initialize`, as the code tests
it: `get_addr_size` returned and left a non-positive address length, or
`get_addr` returned a negative status. -/
def allocatorFailure (env : Env) (ev : Event) : Prop :=
  (∃ i s, ev = ⟨Call.get_addr_size i, Except.ok s⟩ ∧ (env.get_addr_size i).1 ≤ 0) ∨
  (∃ i s, ev = ⟨Call.get_addr i, Except.ok s⟩ ∧ s < 0)

/-- A piece of `initialize` in which a logged event of kind `B` has the last
word: it is the last call logged, the code does not carry on to the next
memory server, and the outcome is as `C` says. -/
def LastWord (B : Event → Prop) (C : Event → Outcome (Option Int) → Prop)
    (m : M (Option Int)) : Prop :=
  ∀ w : World, ∃ evs, (m w).2.trace = w.trace ++ evs ∧
    ∀ ev ∈ evs, B ev →
      C ev (m w).1 ∧ evs.getLast? = some ev ∧ (m w).1 ≠ Outcome.ok none

/-- The world in which `initialize` makes its first fabric call: the mutexes
are initialised and `name[0]` has been evaluated. -/
def initialize_entry (w : World) : World :=
  { w with
    eng := { w.eng with
      fiMrLock := false
      ctxLock :=
        if w.eng.famContextModel = Fam_Context_Model.FAM_CONTEXT_REGION then false
        else w.eng.ctxLock
      name :=
        match w.eng.name.find 0 with
        | some _ => w.eng.name
        | none => w.eng.name.insert 0 "" } }

/-- The default table is sound: every entry points to a live context on which
enable-and-bind completed successfully, and no context is filed under two
memory servers. -/
def DefaultTableSound (w : World) : Prop :=
  (∀ k p, w.eng.defContexts.find k = some p →
    ∃ c, w.heap[p]? = some c ∧ c.enabled = true ∧ c.alive = true) ∧
  (∀ k1 k2 p, w.eng.defContexts.find k1 = some p → w.eng.defContexts.find k2 = some p →
    k1 = k2)

/-- The state in which `get_context` answers `ctx` for `descriptor` without
doing anything: the default table holds `ctx` for its memory server
(`FAM_CONTEXT_DEFAULT`), or the descriptor caches `ctx` (`FAM_CONTEXT_REGION`). -/
def ContextReady (w : World) (descriptor ctx : Nat) : Prop :=
  (w.eng.famContextModel = Fam_Context_Model.FAM_CONTEXT_DEFAULT ∧
    w.eng.defContexts.find (w.descs descriptor).memserver_id = some ctx) ∨
  (w.eng.famContextModel = Fam_Context_Model.FAM_CONTEXT_REGION ∧
    (w.descs descriptor).context = some ctx)

/-- The cached context pointers agree with the region table: a descriptor that
caches a context caches the entry of its region. -/
def Coherent (w : World) : Prop :=
  ∀ i ctx, (w.descs i).context = some ctx →
    w.eng.contexts.find (w.descs i).regionId = some ctx

/-- Two descriptors share the key under which the policy files contexts: the
memory server under `FAM_CONTEXT_DEFAULT`, the region under
`FAM_CONTEXT_REGION`. -/
def sameContextKey (w : World) (d1 d2 : Nat) : Prop :=
  match w.eng.famContextModel with
  | Fam_Context_Model.FAM_CONTEXT_DEFAULT =>
    (w.descs d1).memserver_id = (w.descs d2).memserver_id
  | Fam_Context_Model.FAM_CONTEXT_REGION => (w.descs d1).regionId = (w.descs d2).regionId
  | Fam_Context_Model.other _ => False

/-- What one `get_context` call of a sequential run did: the descriptor passed,
the outcome, and whether a `Fam_Context` object was constructed during it. -/
structure CallRecord where
  descriptor : Nat
  outcome : Outcome Nat
  created : Bool
  deriving DecidableEq, Repr

/-- A sequential run of `get_context` calls, one per descriptor of the list,
each in the world the previous one left (an exception is caught by the caller,
the next call is made all the same; after a call that never returns there is
no next call). -/
def get_context_calls (env : Env) : List Nat → World → List CallRecord × World
  | [], w => ([], w)
  | d :: ds, w =>
    let r := Fam_Ops_Libfabric.get_context env d w
    let record : CallRecord := ⟨d, r.1, decide (w.heap.length < r.2.heap.length)⟩
    match r.1 with
    | Outcome.stuck _ => ([record], r.2)
    | _ => (record :: (get_context_calls env ds r.2).1, (get_context_calls env ds r.2).2)

/-- A call of a member function made between `initialize` and `finalize`, with
its arguments: `get_context`, the data-path operations, `fence`, `quiet` and
`quiet_context`. -/
inductive Operation where
  | get_context (descriptor : Nat)
  | put_blocking (loc : Bytes) (descriptor offset : Nat)
  | get_blocking (descriptor offset nbytes : Nat)
  | put_nonblocking (loc : Bytes) (descriptor offset : Nat)
  | get_nonblocking (descriptor offset nbytes : Nat)
  | gather_blocking (descriptor nElements firstElement stride elementSize : Nat)
  | gather_blocking_index (descriptor nElements : Nat) (elementIndex : List Nat) (elementSize : Nat)
  | gather_nonblocking (descriptor nElements firstElement stride elementSize : Nat)
  | gather_nonblocking_index (descriptor nElements : Nat) (elementIndex : List Nat) (elementSize : Nat)
  | scatter_blocking (loc : Bytes) (descriptor nElements firstElement stride elementSize : Nat)
  | scatter_blocking_index (loc : Bytes) (descriptor nElements : Nat) (elementIndex : List Nat) (elementSize : Nat)
  | scatter_nonblocking (loc : Bytes) (descriptor nElements firstElement stride elementSize : Nat)
  | scatter_nonblocking_index (loc : Bytes) (descriptor nElements : Nat) (elementIndex : List Nat) (elementSize : Nat)
  | atomic_set_native (T : CType) (descriptor offset : Nat) (value : CValue T)
  | atomic_add (T : CType) (descriptor offset : Nat) (value : CValue T)
  | atomic_subtract (T : CType) (descriptor offset : Nat) (value : CValue T)
  | atomic_min (T : CType) (descriptor offset : Nat) (value : CValue T)
  | atomic_max (T : CType) (descriptor offset : Nat) (value : CValue T)
  | atomic_and (T : CUnsigned) (descriptor offset : Nat) (value : CValue T.toCType)
  | atomic_or (T : CUnsigned) (descriptor offset : Nat) (value : CValue T.toCType)
  | atomic_xor (T : CUnsigned) (descriptor offset : Nat) (value : CValue T.toCType)
  | swap (T : CType) (descriptor offset : Nat) (value : CValue T)
  | compare_swap_native (T : CInteger) (descriptor offset : Nat) (oldValue newValue : CValue T.toCType)
  | atomic_fetch_int32 (descriptor offset : Nat)
  | atomic_fetch_int64 (descriptor offset : Nat)
  | atomic_fetch_uint32 (descriptor offset : Nat)
  | atomic_fetch_uint64 (descriptor offset : Nat)
  | atomic_fetch_float (descriptor offset : Nat)
  | atomic_fetch_double (descriptor offset : Nat)
  | atomic_fetch_add (T : CType) (descriptor offset : Nat) (value : CValue T)
  | atomic_fetch_subtract (T : CType) (descriptor offset : Nat) (value : CValue T)
  | atomic_fetch_min (T : CType) (descriptor offset : Nat) (value : CValue T)
  | atomic_fetch_max (T : CType) (descriptor offset : Nat) (value : CValue T)
  | atomic_fetch_and (T : CUnsigned) (descriptor offset : Nat) (value : CValue T.toCType)
  | atomic_fetch_or (T : CUnsigned) (descriptor offset : Nat) (value : CValue T.toCType)
  | atomic_fetch_xor (T : CUnsigned) (descriptor offset : Nat) (value : CValue T.toCType)
  | compare_swap (descriptor offset : Nat) (oldValue newValue : int128_t)
  | atomic_set (descriptor offset : Nat) (value : int128_t)
  | atomic_fetch_int128 (descriptor offset : Nat)
  | copy (src srcOffset destOffset nbytes : Nat)
  | wait_for_copy (waitObj : Int)
  | fence (descriptor : Option Nat)
  | quiet_context (context : Option Nat)
  | quiet (descriptor : Option Nat)

/-- A call made for its effect: the value returned is dropped. -/
def M.discard {α : Type} (m : M α) : M Unit := do
  let _ ← m
  pure ()

/-- The member function call an `Operation` stands for. -/
def Operation.run (env : Env) (MEMSERVERID_SHIFT : Nat) : Operation → M Unit
  | Operation.get_context descriptor => M.discard (Fam_Ops_Libfabric.get_context env descriptor)
  | Operation.put_blocking loc descriptor offset =>
    M.discard (Fam_Ops_Libfabric.put_blocking env (⟨loc, rfl⟩ : Buffer loc.length) descriptor offset)
  | Operation.get_blocking descriptor offset nbytes =>
    M.discard (Fam_Ops_Libfabric.get_blocking env descriptor offset nbytes)
  | Operation.put_nonblocking loc descriptor offset =>
    M.discard (Fam_Ops_Libfabric.put_nonblocking env (⟨loc, rfl⟩ : Buffer loc.length) descriptor offset)
  | Operation.get_nonblocking descriptor offset nbytes =>
    M.discard (Fam_Ops_Libfabric.get_nonblocking env descriptor offset nbytes)
  | Operation.gather_blocking descriptor nElements firstElement stride elementSize =>
    M.discard (Fam_Ops_Libfabric.gather_blocking env descriptor nElements firstElement stride elementSize)
  | Operation.gather_blocking_index descriptor nElements elementIndex elementSize =>
    M.discard (Fam_Ops_Libfabric.gather_blocking_index env descriptor nElements elementIndex elementSize)
  | Operation.gather_nonblocking descriptor nElements firstElement stride elementSize =>
    M.discard (Fam_Ops_Libfabric.gather_nonblocking env descriptor nElements firstElement stride elementSize)
  | Operation.gather_nonblocking_index descriptor nElements elementIndex elementSize =>
    M.discard (Fam_Ops_Libfabric.gather_nonblocking_index env descriptor nElements elementIndex elementSize)
  | Operation.scatter_blocking loc descriptor nElements firstElement stride elementSize =>
    M.discard (Fam_Ops_Libfabric.scatter_blocking env loc descriptor nElements firstElement stride elementSize)
  | Operation.scatter_blocking_index loc descriptor nElements elementIndex elementSize =>
    M.discard (Fam_Ops_Libfabric.scatter_blocking_index env loc descriptor nElements elementIndex elementSize)
  | Operation.scatter_nonblocking loc descriptor nElements firstElement stride elementSize =>
    M.discard (Fam_Ops_Libfabric.scatter_nonblocking env loc descriptor nElements firstElement stride elementSize)
  | Operation.scatter_nonblocking_index loc descriptor nElements elementIndex elementSize =>
    M.discard (Fam_Ops_Libfabric.scatter_nonblocking_index env loc descriptor nElements elementIndex elementSize)
  | Operation.atomic_set_native T descriptor offset value =>
    M.discard (Fam_Ops_Libfabric.atomic_set_native env T descriptor offset value)
  | Operation.atomic_add T descriptor offset value =>
    M.discard (Fam_Ops_Libfabric.atomic_add env T descriptor offset value)
  | Operation.atomic_subtract T descriptor offset value =>
    M.discard (Fam_Ops_Libfabric.atomic_subtract env T descriptor offset value)
  | Operation.atomic_min T descriptor offset value =>
    M.discard (Fam_Ops_Libfabric.atomic_min env T descriptor offset value)
  | Operation.atomic_max T descriptor offset value =>
    M.discard (Fam_Ops_Libfabric.atomic_max env T descriptor offset value)
  | Operation.atomic_and T descriptor offset value =>
    M.discard (Fam_Ops_Libfabric.atomic_and env T descriptor offset value)
  | Operation.atomic_or T descriptor offset value =>
    M.discard (Fam_Ops_Libfabric.atomic_or env T descriptor offset value)
  | Operation.atomic_xor T descriptor offset value =>
    M.discard (Fam_Ops_Libfabric.atomic_xor env T descriptor offset value)
  | Operation.swap T descriptor offset value =>
    M.discard (Fam_Ops_Libfabric.swap env T descriptor offset value)
  | Operation.compare_swap_native T descriptor offset oldValue newValue =>
    M.discard (Fam_Ops_Libfabric.compare_swap_native env T descriptor offset oldValue newValue)
  | Operation.atomic_fetch_int32 descriptor offset =>
    M.discard (Fam_Ops_Libfabric.atomic_fetch_int32 env descriptor offset)
  | Operation.atomic_fetch_int64 descriptor offset =>
    M.discard (Fam_Ops_Libfabric.atomic_fetch_int64 env descriptor offset)
  | Operation.atomic_fetch_uint32 descriptor offset =>
    M.discard (Fam_Ops_Libfabric.atomic_fetch_uint32 env descriptor offset)
  | Operation.atomic_fetch_uint64 descriptor offset =>
    M.discard (Fam_Ops_Libfabric.atomic_fetch_uint64 env descriptor offset)
  | Operation.atomic_fetch_float descriptor offset =>
    M.discard (Fam_Ops_Libfabric.atomic_fetch_float env descriptor offset)
  | Operation.atomic_fetch_double descriptor offset =>
    M.discard (Fam_Ops_Libfabric.atomic_fetch_double env descriptor offset)
  | Operation.atomic_fetch_add T descriptor offset value =>
    M.discard (Fam_Ops_Libfabric.atomic_fetch_add env T descriptor offset value)
  | Operation.atomic_fetch_subtract T descriptor offset value =>
    M.discard (Fam_Ops_Libfabric.atomic_fetch_subtract env T descriptor offset value)
  | Operation.atomic_fetch_min T descriptor offset value =>
    M.discard (Fam_Ops_Libfabric.atomic_fetch_min env T descriptor offset value)
  | Operation.atomic_fetch_max T descriptor offset value =>
    M.discard (Fam_Ops_Libfabric.atomic_fetch_max env T descriptor offset value)
  | Operation.atomic_fetch_and T descriptor offset value =>
    M.discard (Fam_Ops_Libfabric.atomic_fetch_and env T descriptor offset value)
  | Operation.atomic_fetch_or T descriptor offset value =>
    M.discard (Fam_Ops_Libfabric.atomic_fetch_or env T descriptor offset value)
  | Operation.atomic_fetch_xor T descriptor offset value =>
    M.discard (Fam_Ops_Libfabric.atomic_fetch_xor env T descriptor offset value)
  | Operation.compare_swap descriptor offset oldValue newValue =>
    M.discard (Fam_Ops_Libfabric.compare_swap env descriptor offset oldValue newValue)
  | Operation.atomic_set descriptor offset value =>
    M.discard (Fam_Ops_Libfabric.atomic_set env descriptor offset value)
  | Operation.atomic_fetch_int128 descriptor offset =>
    M.discard (Fam_Ops_Libfabric.atomic_fetch_int128 env descriptor offset)
  | Operation.copy src srcOffset destOffset nbytes =>
    M.discard (Fam_Ops_Libfabric.copy env src srcOffset destOffset nbytes)
  | Operation.wait_for_copy waitObj => Fam_Ops_Libfabric.wait_for_copy env waitObj
  | Operation.fence descriptor => Fam_Ops_Libfabric.fence env MEMSERVERID_SHIFT descriptor
  | Operation.quiet_context context => Fam_Ops_Libfabric.quiet_context env context
  | Operation.quiet descriptor => Fam_Ops_Libfabric.quiet env descriptor

/-- A sequential run of operations, each in the world the previous one left (an
exception is caught by the caller, the next call is made all the same; after a
call that never returns there is no next call): the world at the end. -/
def run_operations (env : Env) (MEMSERVERID_SHIFT : Nat) : List Operation → World → World
  | [], w => w
  | op :: ops, w =>
    match (op.run env MEMSERVERID_SHIFT w).1 with
    | Outcome.stuck _ => (op.run env MEMSERVERID_SHIFT w).2
    | _ => run_operations env MEMSERVERID_SHIFT ops (op.run env MEMSERVERID_SHIFT w).2

/-- The code `m` keeps the relation `R` between the world at the call and the
world at the outcome, whatever the outcome. -/
def Keeps (R : World → World → Prop) {α : Type} (m : M α) : Prop := ∀ w, R w (m w).2

/-- What the operations between `initialize` and `finalize` keep of the
engine: the policy, the default table and the address registry are as they
were, every entry of the region table is still there, and under the default
policy the region table is as it was. -/
def EngineKept (w w1 : World) : Prop :=
  w1.eng.famContextModel = w.eng.famContextModel ∧
  w1.eng.defContexts = w.eng.defContexts ∧
  w1.eng.fiAddrs = w.eng.fiAddrs ∧
  (∀ k c, w.eng.contexts.find k = some c → w1.eng.contexts.find k = some c) ∧
  (w.eng.famContextModel = Fam_Context_Model.FAM_CONTEXT_DEFAULT →
    w1.eng.contexts = w.eng.contexts)

/-- Keys in strictly ascending order: the order a `std::map` keeps. -/
def StdMap.Ascending {V : Type} (m : StdMap V) : Prop := m.keys.Pairwise (· < ·)

/-- What `initialize` keeps of the tables: the policy and the region table are
as they were, the default table is as it was unless the policy is
`FAM_CONTEXT_DEFAULT`, and a default table with ascending keys keeps its
entries and its order. -/
def InitKept (w w1 : World) : Prop :=
  w1.eng.famContextModel = w.eng.famContextModel ∧
  w1.eng.contexts = w.eng.contexts ∧
  (w.eng.famContextModel ≠ Fam_Context_Model.FAM_CONTEXT_DEFAULT →
    w1.eng.defContexts = w.eng.defContexts) ∧
  (w.eng.defContexts.Ascending →
    w1.eng.defContexts.Ascending ∧
    ∀ k c, w.eng.defContexts.find k = some c → w1.eng.defContexts.find k = some c)

/-- Whether the keys are ascending can be computed. -/
instance StdMap.decidableAscending {V : Type} (m : StdMap V) : Decidable m.Ascending :=
  inferInstanceAs (Decidable (m.keys.Pairwise (· < ·)))

/-- The address token the fabric gives for memory server `m`: the one obtained
by inserting the address the allocator returned for `m`. -/
def registry_token (env : Env) (m : Nat) : Nat :=
  (env.fabric_insert_av m (env.get_addr m).2).2

/-- Collaborators that let `initialize` run to its end: no call throws, no
status is negative and every address length is positive. -/
def Cooperative (env : Env) : Prop :=
  (∀ k, env.throws k = none) ∧ 0 ≤ env.fabric_initialize_ret ∧
  0 ≤ env.fabric_initialize_av_ret ∧ (∀ m, 0 < (env.get_addr_size m).1) ∧
  (∀ m, 0 ≤ (env.get_addr m).1) ∧ (∀ m b, 0 ≤ (env.fabric_insert_av m b).1) ∧
  (∀ p, 0 ≤ env.fabric_enable_bind_ep p)

/-- A run `r` from the world `w` of code that makes the calls `calls` in that
order and stops at the first one that throws: control comes back; the calls
logged are `calls`, or a beginning of it when a call threw; an exception that
leaves the code is the one thrown by the last call logged. -/
def VerbRun (r : Outcome Unit × World) (w : World) (calls : List Call) : Prop :=
  (∀ s, r.1 ≠ Outcome.stuck s) ∧
  ∃ evs, r.2.trace = w.trace ++ evs ∧
    evs.map Event.call <+: calls ∧
    (r.1 = Outcome.ok () → evs.map Event.call = calls) ∧
    (∀ e, r.1 = Outcome.throw e → ∃ pre c, evs = pre ++ [⟨c, Except.error e⟩])

/-- The calls the loop of `fence` under `FAM_CONTEXT_DEFAULT` makes for the
entries `l`, `nodeId` being the value of the counter at its start. -/
def fence_defContexts_calls (eng : Fam_Ops_Libfabric) : StdMap Nat → Nat → List Call
  | [], _ => []
  | (_, ctx) :: rest, nodeId =>
    Call.fabric_fence (fiAddr_at eng nodeId) ctx :: fence_defContexts_calls eng rest (nodeId + 1)

/-- The heap after the operations outstanding on each of the contexts `ps`
have completed. -/
def quieted (heap : List Fam_Context) : List Nat → List Fam_Context
  | [] => heap
  | p :: ps => quieted (heap.modify (fun c => { c with outstanding := [] }) p) ps

/-- A run of one of the loops of `quiet` over the entries `l`: the calls are one
`fabric_quiet` per entry, and the heap is the one in which the contexts of the
calls that returned have been quieted. -/
def QuietRun (r : Outcome Unit × World) (w : World) (l : StdMap Nat) : Prop :=
  VerbRun r w (l.map (fun kc => Call.fabric_quiet kc.2)) ∧
  r.2 = { w with heap := r.2.heap, trace := r.2.trace } ∧
  ∃ ps, ps <+: l.map Prod.snd ∧ r.2.heap = quieted w.heap ps ∧
    (r.1 = Outcome.ok () → ps = l.map Prod.snd)

/-- The world in which `ctxLock` is held (`true`) or free (`false`) and all
else is as in `w`. -/
def World.withCtxLock (w : World) (held : Bool) : World :=
  { w with eng := { w.eng with ctxLock := held } }

/-- The context the engine has for the region of region descriptor `r`: the
pointer cached in the descriptor, else the region table's entry for its region
id. -/
def region_context (w : World) (r : Nat) : Option Nat :=
  match (w.regions r).context with
  | some ctx => some ctx
  | none => w.eng.contexts.find (w.regions r).regionId

/-- The fabric calls the specification prescribes for `fence(scope)` under the
region policy: for a region descriptor one fence on the context of its region,
none when there is no such context yet; for the null scope one fence per entry
of the region table, with the address of the memory server
`region_id >> MEMSERVERID_SHIFT`. -/
def scope_fence_calls (w : World) (MEMSERVERID_SHIFT : Nat) : Option Nat → List Call
  | some r =>
    match region_context w r with
    | some ctx => [Call.fabric_fence (fiAddr_at w.eng (w.regions r).memserver_id) ctx]
    | none => []
  | none =>
    w.eng.contexts.map
      (fun kc => Call.fabric_fence (fiAddr_at w.eng (kc.1 >>> MEMSERVERID_SHIFT)) kc.2)

/-- The fabric calls the specification prescribes for `quiet(scope)` under the
region policy: for a region descriptor one quiet on the context of its region,
none when there is no such context yet; for the null scope one quiet per entry
of the region table. -/
def scope_quiet_calls (w : World) : Option Nat → List Call
  | some r =>
    match region_context w r with
    | some ctx => [Call.fabric_quiet ctx]
    | none => []
  | none => w.eng.contexts.map (fun kc => Call.fabric_quiet kc.2)

/-- The region descriptors after a `fence` or `quiet` on `scope` under the
region policy: the descriptor passed caches the context of its region, when
there is one. -/
def scope_cached (w : World) : Option Nat → Nat → Fam_Region_Descriptor
  | none => w.regions
  | some r =>
    match region_context w r with
    | some ctx => Function.update w.regions r { w.regions r with context := some ctx }
    | none => w.regions

/-- Two worlds with the same engine state: the data members of the engine (the
context tables and the address registry among them), the region descriptors
with their cached contexts, and the heap of contexts with their outstanding
operations. -/
def SameEngineState (a b : World) : Prop :=
  a.eng = b.eng ∧ a.regions = b.regions ∧ a.heap = b.heap

/-- The code that produced the run `r` from the world `w` resolved the context
of `descriptor` with `get_context` and then made exactly one more call, the
call `verb ctx` on the context `ctx` that `get_context` returned; when
`get_context` did not return, it made no further call. -/
def PostsOne {α : Type} (env : Env) (descriptor : Nat) (w : World) (r : Outcome α × World)
    (verb : Nat → Call) : Prop :=
  match Fam_Ops_Libfabric.get_context env descriptor w with
  | (Outcome.ok ctx, w1) => ∃ ret, r.2.trace = w1.trace ++ [⟨verb ctx, ret⟩]
  | (_, w1) => r.2.trace = w1.trace

/-- The non-fetching atomics on the six operand types, by the names of the
specification's table. -/
inductive ArithOp where
  | set
  | add
  | min
  | max
  deriving DecidableEq, Repr

/-- The bitwise atomics, on the unsigned operand types only. -/
inductive BitOp where
  | and
  | or
  | xor
  deriving DecidableEq, Repr

/-- The operation code the specification's table gives: `set` is
`ATOMIC_WRITE`, `add` is `SUM`, `min` is `MIN`, `max` is `MAX`. -/
def ArithOp.code : ArithOp → fi_op
  | ArithOp.set => fi_op.FI_ATOMIC_WRITE
  | ArithOp.add => fi_op.FI_SUM
  | ArithOp.min => fi_op.FI_MIN
  | ArithOp.max => fi_op.FI_MAX

/-- The operation code the specification's table gives: `and` is `BAND`, `or`
is `BOR`, `xor` is `BXOR`. -/
def BitOp.code : BitOp → fi_op
  | BitOp.and => fi_op.FI_BAND
  | BitOp.or => fi_op.FI_BOR
  | BitOp.xor => fi_op.FI_BXOR

/-- The datatype code of an operand type: the code that names the type. -/
def CType.code : CType → fi_datatype
  | CType.int32_t => fi_datatype.FI_INT32
  | CType.int64_t => fi_datatype.FI_INT64
  | CType.uint32_t => fi_datatype.FI_UINT32
  | CType.uint64_t => fi_datatype.FI_UINT64
  | CType.float => fi_datatype.FI_FLOAT
  | CType.double => fi_datatype.FI_DOUBLE

/-- The member function that implements the non-fetching atomic `op` on the
operand type `T`. -/
def ArithOp.run (env : Env) (op : ArithOp) (T : CType) (descriptor offset : Nat)
    (value : CValue T) : M Unit :=
  match op with
  | ArithOp.set => Fam_Ops_Libfabric.atomic_set_native env T descriptor offset value
  | ArithOp.add => Fam_Ops_Libfabric.atomic_add env T descriptor offset value
  | ArithOp.min => Fam_Ops_Libfabric.atomic_min env T descriptor offset value
  | ArithOp.max => Fam_Ops_Libfabric.atomic_max env T descriptor offset value

/-- The member function that implements the bitwise atomic `op` on the
unsigned operand type `T`. -/
def BitOp.run (env : Env) (op : BitOp) (T : CUnsigned) (descriptor offset : Nat)
    (value : CValue T.toCType) : M Unit :=
  match op with
  | BitOp.and => Fam_Ops_Libfabric.atomic_and env T descriptor offset value
  | BitOp.or => Fam_Ops_Libfabric.atomic_or env T descriptor offset value
  | BitOp.xor => Fam_Ops_Libfabric.atomic_xor env T descriptor offset value

/-- The fetching atomics on the six operand types that have a non-fetching
counterpart in the specification's table. -/
inductive FetchOp where
  | add
  | min
  | max
  deriving DecidableEq, Repr

/-- The non-fetching counterpart of a fetching atomic. -/
def FetchOp.counterpart : FetchOp → ArithOp
  | FetchOp.add => ArithOp.add
  | FetchOp.min => ArithOp.min
  | FetchOp.max => ArithOp.max

/-- The member function that implements the fetching atomic `op` on the operand
type `T`. -/
def FetchOp.run (env : Env) (op : FetchOp) (T : CType) (descriptor offset : Nat)
    (value : CValue T) : M (CValue T) :=
  match op with
  | FetchOp.add => Fam_Ops_Libfabric.atomic_fetch_add env T descriptor offset value
  | FetchOp.min => Fam_Ops_Libfabric.atomic_fetch_min env T descriptor offset value
  | FetchOp.max => Fam_Ops_Libfabric.atomic_fetch_max env T descriptor offset value

/-- The member function that implements the fetching bitwise atomic `op` on the
unsigned operand type `T`. -/
def BitOp.fetch_run (env : Env) (op : BitOp) (T : CUnsigned) (descriptor offset : Nat)
    (value : CValue T.toCType) : M (CValue T.toCType) :=
  match op with
  | BitOp.and => Fam_Ops_Libfabric.atomic_fetch_and env T descriptor offset value
  | BitOp.or => Fam_Ops_Libfabric.atomic_fetch_or env T descriptor offset value
  | BitOp.xor => Fam_Ops_Libfabric.atomic_fetch_xor env T descriptor offset value

/-- The member function `atomic_fetch_<type>` for the operand type `T`. -/
def atomic_fetch_typed (env : Env) (T : CType) (descriptor offset : Nat) : M (CValue T) :=
  match T with
  | CType.int32_t => Fam_Ops_Libfabric.atomic_fetch_int32 env descriptor offset
  | CType.int64_t => Fam_Ops_Libfabric.atomic_fetch_int64 env descriptor offset
  | CType.uint32_t => Fam_Ops_Libfabric.atomic_fetch_uint32 env descriptor offset
  | CType.uint64_t => Fam_Ops_Libfabric.atomic_fetch_uint64 env descriptor offset
  | CType.float => Fam_Ops_Libfabric.atomic_fetch_float env descriptor offset
  | CType.double => Fam_Ops_Libfabric.atomic_fetch_double env descriptor offset

/-- The run `r` from the world `w` posted the one call `verb ctx` after
`get_context` (see `PostsOne`) and, when it returned, returned the `n` bytes
stored at `offset` of the item of `descriptor` in the world `w`: the value the
fabric fetched. -/
def FetchesOne {n : Nat} (env : Env) (descriptor offset : Nat) (w : World)
    (r : Outcome (Buffer n) × World) (verb : Nat → Call) : Prop :=
  PostsOne env descriptor w r verb ∧
  ∀ v, r.1 = Outcome.ok v →
    v = readBytes w.mem (fiAddr_at w.eng (w.descs descriptor).memserver_id)
      (w.descs descriptor).key offset n

/-- A nonblocking data-path operation, with its arguments. -/
inductive Nonblocking where
  | put (loc : Bytes) (descriptor offset : Nat)
  | get (descriptor offset nbytes : Nat)
  | gather (descriptor nElements firstElement stride elementSize : Nat)
  | gather_index (descriptor nElements : Nat) (elementIndex : List Nat) (elementSize : Nat)
  | scatter (loc : Bytes) (descriptor nElements firstElement stride elementSize : Nat)
  | scatter_index (loc : Bytes) (descriptor nElements : Nat) (elementIndex : List Nat)
      (elementSize : Nat)

/-- The item the operation is made on. -/
def Nonblocking.descriptor : Nonblocking → Nat
  | Nonblocking.put _ d _ => d
  | Nonblocking.get d _ _ => d
  | Nonblocking.gather d _ _ _ _ => d
  | Nonblocking.gather_index d _ _ _ => d
  | Nonblocking.scatter _ d _ _ _ _ => d
  | Nonblocking.scatter_index _ d _ _ _ => d

/-- The member function call the operation stands for. -/
def Nonblocking.toOperation : Nonblocking → Operation
  | Nonblocking.put loc d o => Operation.put_nonblocking loc d o
  | Nonblocking.get d o n => Operation.get_nonblocking d o n
  | Nonblocking.gather d n f s e => Operation.gather_nonblocking d n f s e
  | Nonblocking.gather_index d n ix e => Operation.gather_nonblocking_index d n ix e
  | Nonblocking.scatter loc d n f s e => Operation.scatter_nonblocking loc d n f s e
  | Nonblocking.scatter_index loc d n ix e => Operation.scatter_nonblocking_index loc d n ix e

/-- What a nonblocking operation does once `get_context` has answered: when it
returned `ctx`, the verb `call ctx` is made and, unless it throws, the
operation is outstanding on `ctx` under the position of that call in the log. -/
def post_after (env : Env) (call : Nat → Call) (g : Outcome Nat × World) : Outcome Unit × World :=
  match g with
  | (Outcome.ok ctx, v1) =>
    match env.throws v1.trace.length with
    | some e => (Outcome.throw e, { v1 with trace := v1.trace ++ [⟨call ctx, Except.error e⟩] })
    | none =>
      (Outcome.ok (),
        { v1 with
          heap := v1.heap.modify
            (fun c => { c with outstanding := c.outstanding ++ [v1.trace.length] }) ctx
          trace := v1.trace ++ [⟨call ctx, Except.ok 0⟩] })
  | (Outcome.throw e, v1) => (Outcome.throw e, v1)
  | (Outcome.stuck s, v1) => (Outcome.stuck s, v1)

/-- The cached context pointers of the region descriptors agree with the region
table: a region descriptor that caches a context caches the entry of its
region. -/
def RegionCoherent (w : World) : Prop :=
  ∀ r ctx, (w.regions r).context = some ctx →
    w.eng.contexts.find (w.regions r).regionId = some ctx

/-- The item of `descriptor` lies within the scope: any item for the null
scope, an item of the descriptor's region for a region descriptor. -/
def InScope (w : World) (scope : Option Nat) (descriptor : Nat) : Prop :=
  match scope with
  | none => True
  | some r => (w.descs descriptor).regionId = (w.regions r).regionId

/-- The context `p` serves items within the scope: under the default policy it
is an entry of the default table; under the region policy an entry of the
region table, the entry of the descriptor's region for a region descriptor. -/
def ScopeContext (v : World) (scope : Option Nat) (p : Nat) : Prop :=
  match v.eng.famContextModel with
  | Fam_Context_Model.FAM_CONTEXT_DEFAULT => ∃ k, v.eng.defContexts.find k = some p
  | Fam_Context_Model.FAM_CONTEXT_REGION =>
    match scope with
    | none => ∃ k, v.eng.contexts.find k = some p
    | some r => v.eng.contexts.find (v.regions r).regionId = some p
  | Fam_Context_Model.other _ => False

/-- What holds of the world `v` reached from `w` by nonblocking operations on
items within the scope: the policy, the default table, the region descriptors
and the regions of the items are those of `w`, the cached contexts agree with
the region table, which has kept its entries, and an operation posted since `w`
is outstanding only on a context that serves the scope. -/
def PostedInScope (w : World) (scope : Option Nat) (v : World) : Prop :=
  v.eng.famContextModel = w.eng.famContextModel ∧
  v.eng.defContexts = w.eng.defContexts ∧
  v.regions = w.regions ∧
  (∀ i, (v.descs i).regionId = (w.descs i).regionId) ∧
  Coherent v ∧
  (∀ k c, w.eng.contexts.find k = some c → v.eng.contexts.find k = some c) ∧
  w.trace.length ≤ v.trace.length ∧
  ∀ (p : Nat) (c : Fam_Context) (id : Nat), v.heap[p]? = some c → id ∈ c.outstanding →
    w.trace.length ≤ id → ScopeContext v scope p

/-- The code that produced the run `r` from the world `w` resolved the context
of `descriptor` with `get_context`, made exactly one more call, `verb ctx` on
the context that `get_context` returned, and handed back what that call
answered: it returned a value whose status is the status of the call, or left
with the exception the call threw.  When `get_context` did not return, it made
no further call and did not return. -/
def PostsOneStatus {α : Type} (env : Env) (descriptor : Nat) (w : World)
    (r : Outcome α × World) (verb : Nat → Call) (status : α → Int) : Prop :=
  match Fam_Ops_Libfabric.get_context env descriptor w with
  | (Outcome.ok ctx, w1) =>
    ∃ ret, r.2.trace = w1.trace ++ [⟨verb ctx, ret⟩] ∧
      (∀ s, ret = Except.ok s → ∃ a, r.1 = Outcome.ok a ∧ status a = s) ∧
      (∀ e, ret = Except.error e → r.1 = Outcome.throw e)
  | (_, w1) => r.2.trace = w1.trace ∧ ∀ a, r.1 ≠ Outcome.ok a

/-- The `n` bytes stored at `offset` of the item of `descriptor` in the world
`w`: the bytes of the fabric-attached memory registered under the item's key at
the registry entry of its memory server. -/
def item_bytes (w : World) (descriptor offset n : Nat) : Buffer n :=
  readBytes w.mem (fiAddr_at w.eng (w.descs descriptor).memserver_id)
    (w.descs descriptor).key offset n

/-- The integer datatype codes. -/
def fi_datatype.isInteger : fi_datatype → Bool
  | fi_datatype.FI_INT32 => true
  | fi_datatype.FI_UINT32 => true
  | fi_datatype.FI_INT64 => true
  | fi_datatype.FI_UINT64 => true
  | _ => false

/-- The reference fabric of the specification's atomic properties:
`ATOMIC_WRITE` stores its operand, `SUM` on an integer datatype of `w` bits
stores the sum of the stored value and the operand modulo `2 ^ w`, and
`ATOMIC_READ` leaves the stored value.  (That a fetching atomic hands back the
value stored before the update is how `fabric_fetch_atomic` is read.) -/
def ReferenceFabric (env : Env) : Prop :=
  (∀ dt stored operand, env.atomic_op fi_op.FI_ATOMIC_WRITE dt stored operand = operand) ∧
  (∀ dt stored operand, dt.isInteger = true →
    env.atomic_op fi_op.FI_SUM dt stored operand =
      (le_encode dt.size ((le_decode stored + le_decode operand) % 2 ^ (8 * dt.size))).1) ∧
  (∀ dt stored operand, env.atomic_op fi_op.FI_ATOMIC_READ dt stored operand = stored)

/-- The number of bits of a value of the operand type. -/
def CType.bits (T : CType) : Nat := 8 * T.sizeof

/-- The calls of the specification's property 4 on one item and offset:
`atomic_set(a)`, `atomic_add(b)`, `atomic_fetch`; the value fetched. -/
def set_add_fetch (env : Env) (T : CType) (descriptor offset : Nat) (a b : CValue T) :
    M (CValue T) := do
  Fam_Ops_Libfabric.atomic_set_native env T descriptor offset a
  Fam_Ops_Libfabric.atomic_add env T descriptor offset b
  atomic_fetch_typed env T descriptor offset

/-- The calls `atomic_set(a)`, `atomic_fetch_add(b)`, `atomic_fetch` on one
item and offset; the value `atomic_fetch_add` returned and the value fetched
after it. -/
def set_fetch_add_fetch (env : Env) (T : CType) (descriptor offset : Nat) (a b : CValue T) :
    M (CValue T × CValue T) := do
  Fam_Ops_Libfabric.atomic_set_native env T descriptor offset a
  let old ← Fam_Ops_Libfabric.atomic_fetch_add env T descriptor offset b
  let now ← atomic_fetch_typed env T descriptor offset
  pure (old, now)

/-- The heap after the contexts `ps` have been deleted. -/
def deleted (heap : List Fam_Context) : List Nat → List Fam_Context
  | [] => heap
  | p :: ps => deleted (heap.modify (fun c => { c with alive := false }) p) ps

/-- The calls by which `finalize` releases the handles that are set, in the
order of the code: the info, the fabric, the event queue, the domain, the
address vector. -/
def handle_release_calls (eng : Fam_Ops_Libfabric) : List Call :=
  (if eng.fi then [Call.fi_freeinfo] else []) ++
  ((if eng.fabric then [Call.fi_close Fid.fabric] else []) ++
  ((if eng.eq then [Call.fi_close Fid.eq] else []) ++
  ((if eng.domain then [Call.fi_close Fid.domain] else []) ++
  (if eng.av then [Call.fi_close Fid.av] else []))))

/-- The calls of `finalize`, in the order of the code: `fabric_finalize`, a
close of every registered memory region, a delete of every context of the
region table and of the default table, and the releases of the handles. -/
def finalize_calls (eng : Fam_Ops_Libfabric) : List Call :=
  Call.fabric_finalize ::
    (eng.fiMrs.map (fun kv => Call.fi_close (Fid.mr kv.2)) ++
    (eng.contexts.map (fun kc => Call.delete_Fam_Context kc.2) ++
    (eng.defContexts.map (fun kc => Call.delete_Fam_Context kc.2) ++
    handle_release_calls eng)))

/-- The data members after a `finalize` that returned: the tables of memory
regions and contexts and the server names are empty, the handles are `NULL`;
the address registry and the other members are as they were. -/
def finalized (eng : Fam_Ops_Libfabric) : Fam_Ops_Libfabric :=
  { eng with
    fiMrs := [], contexts := [], defContexts := [], fi := false, fabric := false,
    eq := false, domain := false, av := false, name := [] }

/-- A run `r` from the world `w` of a piece of `finalize`: it makes the calls
`calls` in order, stopping at the first that throws (see `VerbRun`); it leaves
the descriptors and the fabric-attached memory as they were; when it returns,
the data members are `eng1` and the contexts `ps` have been deleted. -/
def TeardownRun (r : Outcome Unit × World) (w : World) (calls : List Call)
    (eng1 : Fam_Ops_Libfabric) (ps : List Nat) : Prop :=
  VerbRun r w calls ∧ r.2.descs = w.descs ∧ r.2.regions = w.regions ∧ r.2.mem = w.mem ∧
  (r.1 = Outcome.ok () → r.2.eng = eng1 ∧ r.2.heap = deleted w.heap ps)

/-- What a step of `fence` or `quiet` keeps: the item descriptors and the
fabric-attached memory are as they were, the heap holds the same context
objects with the enabled and alive status they had, and no call by which a
context comes into being is logged. -/
def FrameKept (w w1 : World) : Prop :=
  w1.descs = w.descs ∧ w1.mem = w.mem ∧
  w1.heap.map (fun c => (c.enabled, c.alive)) = w.heap.map (fun c => (c.enabled, c.alive)) ∧
  ∃ evs, w1.trace = w.trace ++ evs ∧ ∀ e ∈ evs, e.call.isContextCall = false

/-- What `fence` or `quiet` on `scope`, called in the world `w`, leaves in the
world `w1` of its outcome: the data members of the engine (the two context
tables and the address registry among them) are as they were; no context was
created (same heap objects, no constructor or enable call logged); the item
descriptors are as they were; the region descriptors are as they were, except
that the descriptor passed as scope, if it cached nothing, may now cache the
region table's entry for its region id. -/
def ScopeFrame (w : World) (scope : Option Nat) (w1 : World) : Prop :=
  w1.eng = w.eng ∧
  w1.heap.length = w.heap.length ∧
  w1.heap.map (fun c => (c.enabled, c.alive)) = w.heap.map (fun c => (c.enabled, c.alive)) ∧
  (∀ ev ∈ newEvents w w1, ev.call.isContextCall = false) ∧
  w1.descs = w.descs ∧
  (w1.regions = w.regions ∨
    ∃ r ctx, scope = some r ∧ (w.regions r).context = none ∧
      w.eng.contexts.find (w.regions r).regionId = some ctx ∧
      w1.regions = Function.update w.regions r { w.regions r with context := some ctx })

/-- The relation `R` between the world at a call and the world at its outcome
is kept by the steps the operations are made of: it is transitive, it holds
when the data members of the engine and the descriptors are as they were, and
`get_context`, `fence` and `quiet` keep it. -/
structure StepKept (env : Env) (R : World → World → Prop) : Prop where
  trans : ∀ a b c, R a b → R b c → R a c
  same : ∀ w w1, w1.eng = w.eng → w1.descs = w.descs → w1.regions = w.regions → R w w1
  get_context : ∀ d, Keeps R ( Fam_Ops_Libfabric.get_context env d)
  fence : ∀ sh r, Keeps R ( Fam_Ops_Libfabric.fence env sh r)
  quiet : ∀ r, Keeps R ( Fam_Ops_Libfabric.quiet env r)

/-- A context pointer cached in a descriptor, of an item or of a region, is
still cached there: once set, the pointer has not been changed. -/
def CacheKept (w w1 : World) : Prop :=
  (∀ d c, (w.descs d).context = some c → (w1.descs d).context = some c) ∧
  (∀ r c, (w.regions r).context = some c → (w1.regions r).context = some c)

/-- A call `fabric_fence((*fiAddr)[i], ctx)` whose address was read at a
position `i` of the registry that exists. -/
def ReadsRegistryInBounds (eng : Fam_Ops_Libfabric) (c : Call) : Prop :=
  ∃ i ctx, i < eng.fiAddrs.length ∧ c = Call.fabric_fence (fiAddr_at eng i) ctx

/-- The context `p` is a default context of the engine: it is filed in the
default table (`defContexts`), under some memory-server key. -/
def isDefaultContext (w : World) (p : Nat) : Prop := p ∈ w.eng.defContexts.map Prod.snd

instance isDefaultContext.decidable (w : World) (p : Nat) : Decidable (isDefaultContext w p) :=
  inferInstanceAs (Decidable (p ∈ w.eng.defContexts.map Prod.snd))

/-- Collaborators that always succeed: no call throws, every status is `0`,
memory server `n` has the one-byte address name `[n]` and receives the address
token `100 + n`; a fabric atomic stores its operand, a compare atomic stores the
swap operand when the bytes stored equal the compare operand. -/
def demoEnv : Env :=
  { throws := fun _ => none, status := fun _ => 0, fabric_initialize_ret := 0,
    ep_type_is_RDM := true, rma_iov_limit := 4, fabric_initialize_av_ret := 0,
    get_addr_size := fun _ => (8, 0), get_addr := fun n => (0, [n.toUInt8]),
    fabric_insert_av := fun n _ => (0, 100 + n), fabric_enable_bind_ep := fun _ => 0,
    fabric_getname_len := fun _ => (8, 0), fabric_getname := fun _ => (0, [7]),
    atomic_op := fun _ _ _ operand => operand,
    compare_op := fun _ _ stored compare swap => if stored = compare then swap else stored,
    uninitialized := fun _ => [] }

/-- As `demoEnv`, except that enabling and binding an endpoint always reports
the status `-1`. -/
def demoEnvEnableFails : Env := { demoEnv with fabric_enable_bind_ep := fun _ => -1 }

/-- As `demoEnv`, except that the call logged at position `3` throws
`Fam_Datapath_Exception`. -/
def demoEnvThrowsAt3 : Env :=
  { demoEnv with throws := fun k => if k = 3 then some Fam_Error.Datapath else none }

/-- As `demoEnv`, except that `get_addr_size` reports the status `-1` while
writing the length `8`. -/
def demoEnvAddrSizeStatus : Env := { demoEnv with get_addr_size := fun _ => (8, -1) }

/-- As `demoEnv`, except that `get_addr_size` reports the status `-1` and
writes the length `0`. -/
def demoEnvNoAddrSize : Env := { demoEnv with get_addr_size := fun _ => (0, -1) }

/-- The 16-byte operand whose bytes are all `b`. -/
def int128_of_byte (b : UInt8) : int128_t := ⟨List.replicate 16 b, rfl⟩

/-- The object the constructors leave for memory servers `names`, a non-null
allocator and the given mode and policy. -/
def demoEngine (names : StdMap String) (source : Bool) (cm : Fam_Context_Model) :
    Fam_Ops_Libfabric :=
  { name := names, service := "7500", provider := "sockets",
    isSource := source, famThreadModel := Fam_Thread_Model.FAM_THREAD_SERIALIZE,
    famContextModel := cm, famAllocator := some 1, fiAddrs := [], fiMrs := [], contexts := [],
    defContexts := [], fi := false, fabric := false, eq := false, domain := false,
    av := false, serverAddrNameLen := 0, serverAddrName := none,
    fabric_iov_limit := 0, fiMrLock := false, ctxLock := false }

/-- A world around an engine: empty heap and log, zeroed memory, descriptor `i`
on memory server `i % 2`, region `10 + i / 2`, key `50 + i`, nothing cached. -/
def demoWorld (eng : Fam_Ops_Libfabric) : World :=
  { eng := eng, heap := [], descs := fun i => ⟨i % 2, 10 + i / 2, 50 + i, none⟩,
    regions := fun i => ⟨i % 2, 10 + i, none⟩, mem := fun _ _ _ => 0, trace := [] }

/-- A client engine for one memory server under the default policy, as
constructed (not yet initialised). -/
def demoDefaultWorld : World :=
  demoWorld (demoEngine [(0, "a")] false Fam_Context_Model.FAM_CONTEXT_DEFAULT)

/-- A client engine for one memory server under the region policy, as
constructed (not yet initialised). -/
def demoRegionWorld : World :=
  demoWorld (demoEngine [(0, "a")] false Fam_Context_Model.FAM_CONTEXT_REGION)

/-- A client engine under the default policy as `initialize` leaves it for two
memory servers: default contexts `0` and `1`, both enabled, filed under memory
servers `0` and `1`, and the address tokens `100` and `101`. -/
def demoTwoNodeWorld : World :=
  { demoWorld
      { demoEngine [(0, "a"), (1, "b")] false Fam_Context_Model.FAM_CONTEXT_DEFAULT with
        defContexts := [(0, 0), (1, 1)], fiAddrs := [100, 101], fi := true, fabric := true,
        eq := true, domain := true, av := true, fabric_iov_limit := 4 } with
    heap := [⟨true, [], true⟩, ⟨true, [], true⟩] }

/-- A client engine under the region policy constructed for the single memory
server `5`. -/
def demoSparseWorld : World :=
  demoWorld (demoEngine [(5, "x")] false Fam_Context_Model.FAM_CONTEXT_REGION)

/-- A client engine under the region policy that has served region `10` of
memory server `0`: context `0`, enabled, is the region table's entry for the
region; nothing is cached in the region descriptors. -/
def demoRegionServedWorld : World :=
  { demoWorld
      { demoEngine [(0, "a")] false Fam_Context_Model.FAM_CONTEXT_REGION with
        contexts := [(10, 0)], fiAddrs := [100], fi := true, fabric := true, eq := true,
        domain := true, av := true, fabric_iov_limit := 4 } with
    heap := [⟨true, [7], true⟩] }

/-- As `demoEnv`, except that the call logged at position `0` throws
`Fam_Timeout_Exception`. -/
def demoEnvThrowsAt0 : Env :=
  { demoEnv with throws := fun k => if k = 0 then some Fam_Error.Timeout else none }

/-- As `demoEnv`, with the atomics of the reference fabric: `SUM` adds modulo
`2 ^ w`, `ATOMIC_READ` leaves the stored value, every other operation stores
its operand. -/
def demoRefEnv : Env :=
  { demoEnv with
    atomic_op := fun op dt stored operand =>
      match op with
      | fi_op.FI_SUM =>
        (le_encode dt.size ((le_decode stored + le_decode operand) % 2 ^ (8 * dt.size))).1
      | fi_op.FI_ATOMIC_READ => stored
      | _ => operand }

/-- A client engine under the region policy whose descriptor `0` caches the
context of its region: `demoRegionServedWorld` after `get_context` on
descriptor `0`. -/
def demoRegionCachedWorld : World :=
  ( Fam_Ops_Libfabric.get_context demoEnv 0 demoRegionServedWorld).2

/-- As `demoEnv`, except that the call logged at position `1` throws
`Fam_Timeout_Exception`. -/
def demoEnvThrowsAt1 : Env :=
  { demoEnv with throws := fun k => if k = 1 then some Fam_Error.Timeout else none }

/-- An engine that is itself the memory server (`isSource`), for one memory
server under the default policy, as constructed (not yet initialised). -/
def demoServerWorld : World :=
  demoWorld (demoEngine [(0, "a")] true Fam_Context_Model.FAM_CONTEXT_DEFAULT)

/-! ## How the state transformers compute -/

theorem M.bind_apply {α β : Type} (m : M α) (f : α → M β) (w : World) :
    (m >>= f) w = M.andThen m f w := rfl

theorem M.pure_apply {α : Type} (a : α) (w : World) :
    (pure a : M α) w = (Outcome.ok a, w) := rfl

theorem modify_length_append {α : Type} (f : α → α) (l : List α) (a : α) :
    List.modify f l.length (l ++ [a]) = l ++ [f a] := by
  induction l with
  | nil => rfl
  | cons x xs ih => simp [ih]

/-- The outcome and final world of `get_context`, path by path. -/
theorem get_context_eq (env : Env) (d : Nat) (w : World) :
    Fam_Ops_Libfabric.get_context env d w =
      if w.eng.famContextModel = Fam_Context_Model.FAM_CONTEXT_DEFAULT then
        match w.eng.defContexts.find (w.descs d).memserver_id with
        | some ctx => (Outcome.ok ctx, w)
        | none => (Outcome.throw Fam_Error.Datapath, w)
      else if w.eng.famContextModel = Fam_Context_Model.FAM_CONTEXT_REGION then
        match (w.descs d).context with
        | some ctx => (Outcome.ok ctx, w)
        | none =>
          if w.eng.ctxLock = true then (Outcome.stuck Stuck.deadlock, w)
          else
            match w.eng.contexts.find (w.descs d).regionId with
            | some ctx =>
              (Outcome.ok ctx,
                { w with
                  eng := { w.eng with ctxLock := false }
                  descs := Function.update w.descs d { w.descs d with context := some ctx } })
            | none =>
              match env.throws w.trace.length with
              | some e =>
                (Outcome.throw e,
                  { w with
                    eng := { w.eng with ctxLock := true }
                    trace := w.trace ++ [⟨Call.new_Fam_Context w.heap.length, Except.error e⟩] })
              | none =>
                match env.throws (w.trace.length + 1) with
                | some e =>
                  (Outcome.throw e,
                    { w with
                      eng := { w.eng with
                        ctxLock := true
                        contexts := w.eng.contexts.insert (w.descs d).regionId w.heap.length }
                      heap := w.heap ++ [⟨false, [], true⟩]
                      trace := w.trace ++ [⟨Call.new_Fam_Context w.heap.length, Except.ok 0⟩,
                        ⟨Call.fabric_enable_bind_ep w.heap.length, Except.error e⟩] })
                | none =>
                  if env.fabric_enable_bind_ep w.heap.length < 0 then
                    (Outcome.throw Fam_Error.Datapath,
                      { w with
                        eng := { w.eng with
                          ctxLock := false
                          contexts := w.eng.contexts.insert (w.descs d).regionId w.heap.length }
                        heap := w.heap ++ [⟨false, [], true⟩]
                        trace := w.trace ++ [⟨Call.new_Fam_Context w.heap.length, Except.ok 0⟩,
                          ⟨Call.fabric_enable_bind_ep w.heap.length,
                            Except.ok (env.fabric_enable_bind_ep w.heap.length)⟩] })
                  else
                    (Outcome.ok w.heap.length,
                      { w with
                        eng := { w.eng with
                          ctxLock := false
                          contexts := w.eng.contexts.insert (w.descs d).regionId w.heap.length }
                        heap := w.heap ++ [⟨true, [], true⟩]
                        descs := Function.update w.descs d
                          { w.descs d with context := some w.heap.length }
                        trace := w.trace ++ [⟨Call.new_Fam_Context w.heap.length, Except.ok 0⟩,
                          ⟨Call.fabric_enable_bind_ep w.heap.length,
                            Except.ok (env.fabric_enable_bind_ep w.heap.length)⟩] })
      else (Outcome.throw Fam_Error.InvalidOption, w) := by
  by_cases hD : w.eng.famContextModel = Fam_Context_Model.FAM_CONTEXT_DEFAULT
  · cases hf : w.eng.defContexts.find (w.descs d).memserver_id <;>
      simp only [Fam_Ops_Libfabric.get_context, get_defaultCtx, M.bind_apply, M.andThen, M.get,
        M.raise, M.pure_apply, hD, hf, if_true]
  by_cases hR : w.eng.famContextModel = Fam_Context_Model.FAM_CONTEXT_REGION
  swap
  · simp only [Fam_Ops_Libfabric.get_context, M.bind_apply, M.andThen, M.get,
      M.raise, M.pure_apply, hD, hR, if_false]
  cases hc : (w.descs d).context
  swap
  · simp only [Fam_Ops_Libfabric.get_context, M.bind_apply, M.andThen, M.get,
      M.raise, M.pure_apply, hR, hc, reduceCtorEq, if_false, if_true]
  cases hl : w.eng.ctxLock
  swap
  · simp only [Fam_Ops_Libfabric.get_context, lock_ctxLock, M.bind_apply, M.andThen, M.get,
      M.raise, M.halt, M.pure_apply, hR, hc, hl, reduceCtorEq, if_false, if_true]
  cases hf : w.eng.contexts.find (w.descs d).regionId
  swap
  · simp only [Fam_Ops_Libfabric.get_context, lock_ctxLock, unlock_ctxLock, set_context,
      M.bind_apply, M.andThen, M.get, M.modify, M.modifyEng,
      M.raise, M.halt, M.pure_apply, hR, hc, hl, hf, reduceCtorEq, if_false, if_true]
  cases ht : env.throws w.trace.length
  swap
  · simp only [Fam_Ops_Libfabric.get_context, lock_ctxLock, unlock_ctxLock, set_context,
      new_Fam_Context, extern_call,
      M.bind_apply, M.andThen, M.get, M.modify, M.modifyEng,
      M.raise, M.halt, M.pure_apply, hR, hc, hl, hf, ht, reduceCtorEq, if_false, if_true]
  cases ht2 : env.throws (w.trace.length + 1)
  swap
  · simp only [Fam_Ops_Libfabric.get_context, lock_ctxLock, unlock_ctxLock, set_context,
      new_Fam_Context, fabric_enable_bind_ep, extern_call,
      M.bind_apply, M.andThen, M.get, M.modify, M.modifyEng,
      M.raise, M.halt, M.pure_apply, hR, hc, hl, hf, ht, ht2, reduceCtorEq, if_false, if_true,
      List.length_append, List.length_singleton, List.append_assoc, List.singleton_append]
  by_cases hr : env.fabric_enable_bind_ep w.heap.length < 0
  · have hr2 : ¬ (0 ≤ env.fabric_enable_bind_ep w.heap.length) := not_le.mpr hr
    simp only [Fam_Ops_Libfabric.get_context, lock_ctxLock, unlock_ctxLock, set_context,
      new_Fam_Context, fabric_enable_bind_ep, extern_call,
      M.bind_apply, M.andThen, M.get, M.modify, M.modifyEng,
      M.raise, M.halt, M.pure_apply, hR, hc, hl, hf, ht, ht2, hr, hr2, reduceCtorEq, if_false,
      if_true, List.length_append, List.length_singleton, List.append_assoc,
      List.singleton_append]
  · have hr2 : 0 ≤ env.fabric_enable_bind_ep w.heap.length := not_lt.mp hr
    simp only [Fam_Ops_Libfabric.get_context, lock_ctxLock, unlock_ctxLock, set_context,
      new_Fam_Context, fabric_enable_bind_ep, extern_call,
      M.bind_apply, M.andThen, M.get, M.modify, M.modifyEng,
      M.raise, M.halt, M.pure_apply, hR, hc, hl, hf, ht, ht2, hr, hr2, reduceCtorEq, if_false,
      if_true, List.length_append, List.length_singleton, modify_length_append,
      List.append_assoc, List.singleton_append]


/-! ## Construction and the empty server list (C6, C7) -/

theorem construct_eq (name : StdMap String) (port : String) (source : Bool) (prov : String)
    (tm : Fam_Thread_Model) (alloc : Option Nat) (cm : Fam_Context_Model) :
    construct name port source prov tm alloc cm =
      if source = false ∧ alloc = none then Except.error Fam_Error.InvalidOption
      else Except.ok
        { name := name, service := port, provider := prov,
          isSource := source, famThreadModel := tm, famContextModel := cm,
          famAllocator := alloc, fiAddrs := [], fiMrs := [], contexts := [],
          defContexts := [], fi := false, fabric := false, eq := false, domain := false,
          av := false, serverAddrNameLen := 0, serverAddrName := none,
          fabric_iov_limit := 0, fiMrLock := false, ctxLock := false } := by
  cases source <;> cases alloc <;> simp [construct]

/-- C6: each of the two constructors throws `Fam_InvalidOption_Exception`
exactly when the engine is a client (`source = false`) and the allocator handle
is `NULL`; in every other case, in particular in server mode with a `NULL`
allocator, construction succeeds. -/
theorem constructor_invalid_option_iff (memServerName : String) (memServerList : StdMap String)
    (port : String) (source : Bool) (prov : String) (tm : Fam_Thread_Model)
    (alloc : Option Nat) (cm : Fam_Context_Model) :
    ( Fam_Ops_Libfabric.new_single memServerName port source prov tm alloc cm
        = Except.error Fam_Error.InvalidOption ↔ (source = false ∧ alloc = none)) ∧
    ( Fam_Ops_Libfabric.new_map memServerList port source prov tm alloc cm
        = Except.error Fam_Error.InvalidOption ↔ (source = false ∧ alloc = none)) ∧
    (¬ (source = false ∧ alloc = none) →
      (∃ e, Fam_Ops_Libfabric.new_single memServerName port source prov tm alloc cm = Except.ok e) ∧
      (∃ e, Fam_Ops_Libfabric.new_map memServerList port source prov tm alloc cm = Except.ok e)) ∧
    (∃ e, Fam_Ops_Libfabric.new_single memServerName port true prov tm none cm = Except.ok e) ∧
    (∃ e, Fam_Ops_Libfabric.new_map memServerList port true prov tm none cm = Except.ok e) := by
  simp only [Fam_Ops_Libfabric.new_single, Fam_Ops_Libfabric.new_map, construct_eq]
  refine ⟨?_, ?_, ?_, ?_, ?_⟩
  · by_cases h : source = false ∧ alloc = none <;> simp [h]
  · by_cases h : source = false ∧ alloc = none <;> simp [h]
  · intro h; simp [h]
  · simp
  · simp

/-- C7 (as amended): with an empty memory-server map `initialize` throws
`Fam_Datapath_Exception`, and it does so before anything else happens: no call
to the fabric or to the allocator is logged and the world is unchanged. -/
theorem initialize_empty_name_throws_datapath (env : Env) (w : World)
    (h : w.eng.name = []) :
    Fam_Ops_Libfabric.initialize env w = (Outcome.throw Fam_Error.Datapath, w) := by
  simp [ Fam_Ops_Libfabric.initialize, M.bind_apply, M.andThen, M.get, M.raise, h]
/-- C7 (witness): the world around the engine built from the empty server map. -/
theorem initialize_empty_name_throws_datapath_witness :
    (demoWorld (demoEngine [] false Fam_Context_Model.FAM_CONTEXT_DEFAULT)).eng.name = [] ∧
    Fam_Ops_Libfabric.initialize demoEnv
        (demoWorld (demoEngine [] false Fam_Context_Model.FAM_CONTEXT_DEFAULT)) =
      (Outcome.throw Fam_Error.Datapath,
        demoWorld (demoEngine [] false Fam_Context_Model.FAM_CONTEXT_DEFAULT)) :=
  ⟨rfl, initialize_empty_name_throws_datapath demoEnv _ rfl⟩

/-- C7 (counterexample): an engine constructed from the empty server map does
not fail `initialize` with the invalid-option exception; the exception thrown
is `Fam_Datapath_Exception`. -/
theorem initialize_empty_name_not_invalid_option :
    Fam_Ops_Libfabric.new_map [] "7500" false "sockets" Fam_Thread_Model.FAM_THREAD_SERIALIZE
        (some 1) Fam_Context_Model.FAM_CONTEXT_DEFAULT =
      Except.ok (demoEngine [] false Fam_Context_Model.FAM_CONTEXT_DEFAULT) ∧
    ( Fam_Ops_Libfabric.initialize demoEnv
        (demoWorld (demoEngine [] false Fam_Context_Model.FAM_CONTEXT_DEFAULT))).1 =
      Outcome.throw Fam_Error.Datapath ∧
    ( Fam_Ops_Libfabric.initialize demoEnv
        (demoWorld (demoEngine [] false Fam_Context_Model.FAM_CONTEXT_DEFAULT))).1 ≠
      Outcome.throw Fam_Error.InvalidOption := by
  refine ⟨rfl, rfl, ?_⟩
  decide

/-! ## Failures of `get_context` (C4, C5) -/

/-- C5: unless a collaborator itself throws the invalid-option exception,
`get_context` throws `Fam_InvalidOption_Exception` exactly when the policy is
neither `FAM_CONTEXT_DEFAULT` nor `FAM_CONTEXT_REGION`; and under
`FAM_CONTEXT_REGION`, when it has to create the context of the region (nothing
cached, no table entry, lock free, constructor returned) and
`fabric_enable_bind_ep` returns a negative status, it throws
`Fam_Datapath_Exception`. -/
theorem get_context_failures (env : Env) (d : Nat) (w : World)
    (hext : ∀ k, env.throws k ≠ some Fam_Error.InvalidOption) :
    (( Fam_Ops_Libfabric.get_context env d w).1 = Outcome.throw Fam_Error.InvalidOption ↔
      (w.eng.famContextModel ≠ Fam_Context_Model.FAM_CONTEXT_DEFAULT ∧
        w.eng.famContextModel ≠ Fam_Context_Model.FAM_CONTEXT_REGION)) ∧
    (∀ p s, (⟨Call.fabric_enable_bind_ep p, Except.ok s⟩ : Event) ∈
        newEvents w ( Fam_Ops_Libfabric.get_context env d w).2 → s < 0 →
      ( Fam_Ops_Libfabric.get_context env d w).1 = Outcome.throw Fam_Error.Datapath) ∧
    (w.eng.famContextModel = Fam_Context_Model.FAM_CONTEXT_REGION →
      (w.descs d).context = none → w.eng.ctxLock = false →
      w.eng.contexts.find (w.descs d).regionId = none →
      env.throws w.trace.length = none → env.throws (w.trace.length + 1) = none →
      env.fabric_enable_bind_ep w.heap.length < 0 →
      (⟨Call.fabric_enable_bind_ep w.heap.length,
          Except.ok (env.fabric_enable_bind_ep w.heap.length)⟩ : Event) ∈
        newEvents w ( Fam_Ops_Libfabric.get_context env d w).2) := by
  refine ⟨?_, ?_, ?_⟩
  · rw [get_context_eq]
    have h1 := hext w.trace.length
    have h2 := hext (w.trace.length + 1)
    repeat' split
    all_goals simp_all
  · intro p s
    rw [get_context_eq]
    repeat' split
    all_goals simp [newEvents]
    all_goals intro h1 h2; omega
  · intro hR hc hl hf ht ht2 hr
    rw [get_context_eq]
    simp [hR, hc, hl, hf, ht, ht2, hr, newEvents]

/-- C5 (witness): a region-policy engine whose first enable-and-bind reports `-1`. -/
theorem get_context_failures_witness :
    (∀ k, demoEnvEnableFails.throws k ≠ some Fam_Error.InvalidOption) ∧
    ( Fam_Ops_Libfabric.get_context demoEnvEnableFails 0
      (demoWorld (demoEngine [(0, "a")] false Fam_Context_Model.FAM_CONTEXT_REGION))).1 =
      Outcome.throw Fam_Error.Datapath :=
  ⟨fun _ h => Option.noConfusion h,
    (get_context_failures demoEnvEnableFails 0
      (demoWorld (demoEngine [(0, "a")] false Fam_Context_Model.FAM_CONTEXT_REGION))
      (fun _ h => Option.noConfusion h)).2.1 0 (-1) (by simp [newEvents, get_context_eq, demoWorld, demoEngine, demoEnvEnableFails, demoEnv, StdMap.find]) (by decide)⟩

/-- C4 (the code at the failing input): under `FAM_CONTEXT_REGION`, when the
enable-and-bind step of the first call reports `-1`, that call throws
`Fam_Datapath_Exception` after the new context was inserted into the region
table; the next call for the same descriptor succeeds and returns that context
(pointer `0`), on which enable-and-bind has not completed successfully. -/
theorem get_context_returns_context_not_enabled :
    get_context_calls demoEnvEnableFails [0, 0]
        (demoWorld (demoEngine [(0, "a")] false Fam_Context_Model.FAM_CONTEXT_REGION)) =
      ([⟨0, Outcome.throw Fam_Error.Datapath, true⟩, ⟨0, Outcome.ok 0, false⟩],
        (get_context_calls demoEnvEnableFails [0, 0]
          (demoWorld (demoEngine [(0, "a")] false Fam_Context_Model.FAM_CONTEXT_REGION))).2) ∧
    (get_context_calls demoEnvEnableFails [0, 0]
        (demoWorld (demoEngine [(0, "a")] false Fam_Context_Model.FAM_CONTEXT_REGION))).2.heap =
      [⟨false, [], true⟩] ∧
    (get_context_calls demoEnvEnableFails [0, 0]
        (demoWorld (demoEngine [(0, "a")] false Fam_Context_Model.FAM_CONTEXT_REGION))).2.eng.contexts =
      [(10, 0)] := by
  refine ⟨?_, ?_, ?_⟩ <;> rfl
/-! ## One context per key (C3) -/

theorem StdMap.find_insert_of_none {V : Type} (m : StdMap V) (k : Nat) (v : V) (k' : Nat)
    (h : m.find k = none) :
    (m.insert k v).find k' = if k' = k then some v else m.find k' := by
  induction m with
  | nil =>
    by_cases hk : k' = k
    · subst hk; simp [StdMap.insert, StdMap.find]
    · have hk' : ¬ k = k' := fun h => hk h.symm
      simp [StdMap.insert, StdMap.find, hk, hk']
  | cons x xs ih =>
    obtain ⟨k0, v0⟩ := x
    have hne : ¬ k0 = k := by
      intro h0
      simp [StdMap.find, h0] at h
    have hrest : StdMap.find xs k = none := by
      simpa [StdMap.find, hne] using h
    have hne' : ¬ k = k0 := fun h => hne h.symm
    by_cases hlt : k < k0
    · by_cases hk : k' = k
      · subst hk; simp [StdMap.insert, StdMap.find, hlt]
      · have hk' : ¬ k = k' := fun h => hk h.symm
        simp [StdMap.insert, StdMap.find, hlt, hk, hk']
    · by_cases h0 : k0 = k'
      · subst h0
        simp [StdMap.insert, StdMap.find, hlt, hne', hne]
      · simp [StdMap.insert, StdMap.find, hlt, hne', h0, ih hrest]

/-- What a `get_context` call never changes. -/
theorem get_context_frame (env : Env) (d : Nat) (w : World) :
    ( Fam_Ops_Libfabric.get_context env d w).2.eng.famContextModel = w.eng.famContextModel ∧
    ( Fam_Ops_Libfabric.get_context env d w).2.eng.defContexts = w.eng.defContexts ∧
    (∀ i, (( Fam_Ops_Libfabric.get_context env d w).2.descs i).regionId = (w.descs i).regionId) ∧
    (∀ i, (( Fam_Ops_Libfabric.get_context env d w).2.descs i).memserver_id =
      (w.descs i).memserver_id) := by
  rw [get_context_eq]
  repeat' split
  all_goals simp [Function.update_apply]
  all_goals constructor <;> intro i <;> split <;> simp_all

/-- Under the default policy `get_context` is a lookup in the default table. -/
theorem get_context_default (env : Env) (d : Nat) (w : World)
    (hD : w.eng.famContextModel = Fam_Context_Model.FAM_CONTEXT_DEFAULT) :
    ( Fam_Ops_Libfabric.get_context env d w).2 = w ∧
    ∀ c, ( Fam_Ops_Libfabric.get_context env d w).1 = Outcome.ok c ↔
      w.eng.defContexts.find (w.descs d).memserver_id = some c := by
  rw [get_context_eq]
  simp only [hD, if_true]
  split <;> simp_all

/-- Under the region policy: the cache stays coherent with the region table,
entries of the table stay, a context returned is the table's entry for the
region, and a context is constructed only for a region that had no entry and
has one afterwards. -/
theorem get_context_region (env : Env) (d : Nat) (w : World)
    (hR : w.eng.famContextModel = Fam_Context_Model.FAM_CONTEXT_REGION) (hco : Coherent w) :
    Coherent ( Fam_Ops_Libfabric.get_context env d w).2 ∧
    (∀ k c, w.eng.contexts.find k = some c →
      ( Fam_Ops_Libfabric.get_context env d w).2.eng.contexts.find k = some c) ∧
    (∀ c, ( Fam_Ops_Libfabric.get_context env d w).1 = Outcome.ok c →
      ( Fam_Ops_Libfabric.get_context env d w).2.eng.contexts.find (w.descs d).regionId =
        some c) ∧
    (w.heap.length < ( Fam_Ops_Libfabric.get_context env d w).2.heap.length →
      w.eng.contexts.find (w.descs d).regionId = none ∧
      ( Fam_Ops_Libfabric.get_context env d w).2.eng.contexts.find (w.descs d).regionId =
        some w.heap.length) := by
  rw [get_context_eq]
  simp only [hR, reduceCtorEq, if_false, if_true]
  cases hc : (w.descs d).context with
  | some ctx =>
    simp only []
    exact ⟨hco, fun _ _ h => h, fun c h => by
      have : ctx = c := by simpa using h
      subst this; exact hco d ctx hc, fun h => absurd h (lt_irrefl _)⟩
  | none =>
    simp only []
    cases hl : w.eng.ctxLock with
    | true => simp [hco]
    | false =>
      simp only [Bool.false_eq_true, if_false]
      cases hf : w.eng.contexts.find (w.descs d).regionId with
      | some ctx =>
        simp only []
        refine ⟨?_, fun _ _ h => h, fun c h => ?_, fun h => absurd h (lt_irrefl _)⟩
        swap
        · have : ctx = c := by simpa using h
          subst this
          simpa using hf
        intro i c hi
        simp only [Function.update_apply] at hi ⊢
        split at hi
        · rename_i hid
          subst hid
          simp at hi
          subst hi
          simpa using hf
        · rename_i hid
          simp only [hid, if_false]
          exact hco i c hi
      | none =>
        have hins : ∀ (c0 : Nat) i c, (w.descs i).context = some c →
            (w.eng.contexts.insert (w.descs d).regionId c0).find (w.descs i).regionId = some c := by
          intro c0 i c hi
          rw [StdMap.find_insert_of_none _ _ _ _ hf]
          have h1 := hco i c hi
          have hne : ¬ (w.descs i).regionId = (w.descs d).regionId := by
            intro heq
            rw [heq, hf] at h1
            cases h1
          simp [hne, h1]
        have hmono : ∀ (c0 : Nat) k c, w.eng.contexts.find k = some c →
            (w.eng.contexts.insert (w.descs d).regionId c0).find k = some c := by
          intro c0 k c hk
          rw [StdMap.find_insert_of_none _ _ _ _ hf]
          have hne : ¬ k = (w.descs d).regionId := by
            intro heq
            rw [heq, hf] at hk
            cases hk
          simp [hne, hk]
        have hself : ∀ (c0 : Nat),
            (w.eng.contexts.insert (w.descs d).regionId c0).find (w.descs d).regionId = some c0 := by
          intro c0
          rw [StdMap.find_insert_of_none _ _ _ _ hf]
          simp
        simp only []
        cases ht : env.throws w.trace.length with
        | some e =>
          simp only []
          exact ⟨hco, fun _ _ h => h, fun c h => by simp at h, fun h => absurd h (lt_irrefl _)⟩
        | none =>
          simp only []
          cases ht2 : env.throws (w.trace.length + 1) with
          | some e =>
            simp only []
            exact ⟨fun i c hi => hins _ i c hi, hmono _, fun c h => by simp at h,
              fun _ => ⟨trivial, hself _⟩⟩
          | none =>
            simp only []
            split
            · exact ⟨fun i c hi => hins _ i c hi, hmono _, fun c h => by simp at h,
                fun _ => ⟨trivial, hself _⟩⟩
            · refine ⟨?_, hmono _, fun c h => ?_, fun _ => ⟨trivial, hself _⟩⟩
              · intro i c hi
                simp only [Function.update_apply] at hi ⊢
                split at hi
                · rename_i hid
                  subst hid
                  simp at hi
                  subst hi
                  simpa using hself _
                · rename_i hid
                  simp only [hid, if_false]
                  exact hins _ i c hi
              · have : w.heap.length = c := by simpa using h
                subst this
                exact hself _

/-- The records of a run, unfolded by one call. -/
theorem get_context_calls_cons (env : Env) (d : Nat) (ds : List Nat) (w : World) :
    (get_context_calls env (d :: ds) w).1 =
      ⟨d, ( Fam_Ops_Libfabric.get_context env d w).1,
        decide (w.heap.length < ( Fam_Ops_Libfabric.get_context env d w).2.heap.length)⟩ ::
      (match ( Fam_Ops_Libfabric.get_context env d w).1 with
        | Outcome.stuck _ => []
        | _ => (get_context_calls env ds ( Fam_Ops_Libfabric.get_context env d w).2).1) := by
  simp only [get_context_calls]
  split <;> simp_all

/-- The records after the first are records of the run that follows the first call. -/
theorem get_context_calls_tail (env : Env) (d : Nat) (ds : List Nat) (w : World) (j : Nat)
    (r : CallRecord) (h : (get_context_calls env (d :: ds) w).1[j + 1]? = some r) :
    (get_context_calls env ds ( Fam_Ops_Libfabric.get_context env d w).2).1[j]? = some r := by
  rw [get_context_calls_cons, List.getElem?_cons_succ] at h
  split at h
  · simp at h
  · exact h

/-- Region policy: once the table holds `c` for region `k`, every later call
for a descriptor of region `k` that succeeds returns `c`, and none of them
constructs a context. -/
theorem get_context_calls_region_fixed (env : Env) (ds : List Nat) (k c : Nat) :
    ∀ w : World, w.eng.famContextModel = Fam_Context_Model.FAM_CONTEXT_REGION → Coherent w →
      w.eng.contexts.find k = some c →
      ∀ r ∈ (get_context_calls env ds w).1, (w.descs r.descriptor).regionId = k →
        (∀ c', r.outcome = Outcome.ok c' → c' = c) ∧ r.created = false := by
  induction ds with
  | nil => intro w _ _ _ r hr; simp [get_context_calls] at hr
  | cons d ds ih =>
    intro w hR hco hk r hr hkey
    obtain ⟨hco', hmono, hok, hnew⟩ := get_context_region env d w hR hco
    obtain ⟨hpol, _, hreg, _⟩ := get_context_frame env d w
    rw [get_context_calls_cons] at hr
    rcases List.mem_cons.mp hr with h0 | htl
    · subst h0
      simp only at hkey
      constructor
      · intro c' hc'
        have h1 := hok c' hc'
        rw [hkey, hmono k c hk] at h1
        exact (Option.some.inj h1).symm
      · simp only [decide_eq_false_iff_not]
        intro hlt
        have h2 := (hnew hlt).1
        rw [hkey, hk] at h2
        cases h2
    · have htl' : r ∈ (get_context_calls env ds ( Fam_Ops_Libfabric.get_context env d w).2).1 := by
        split at htl
        · simp at htl
        · exact htl
      exact ih _ (hpol.trans hR) hco' (hmono k c hk) r htl' ((hreg _).trans hkey)

/-- Default policy: no call constructs a context, and a call that succeeds
returns the default table's entry for the descriptor's memory server. -/
theorem get_context_calls_default (env : Env) (ds : List Nat) :
    ∀ w : World, w.eng.famContextModel = Fam_Context_Model.FAM_CONTEXT_DEFAULT →
      ∀ r ∈ (get_context_calls env ds w).1,
        (∀ c, r.outcome = Outcome.ok c →
          w.eng.defContexts.find (w.descs r.descriptor).memserver_id = some c) ∧
        r.created = false := by
  induction ds with
  | nil => intro w _ r hr; simp [get_context_calls] at hr
  | cons d ds ih =>
    intro w hD r hr
    obtain ⟨hw, hok⟩ := get_context_default env d w hD
    rw [get_context_calls_cons] at hr
    rcases List.mem_cons.mp hr with h0 | htl
    · subst h0
      exact ⟨fun c hc => (hok c).mp hc, by simp [hw]⟩
    · have htl' : r ∈ (get_context_calls env ds ( Fam_Ops_Libfabric.get_context env d w).2).1 := by
        split at htl
        · simp at htl
        · exact htl
      rw [hw] at htl'
      exact ih w hD r htl'

/-- C3: in a sequential run of `get_context` calls that starts in a world whose
cached pointers agree with the region table, two calls on descriptors that
share the policy's key (memory server under the default policy, region under
the region policy; the two descriptors may be the same one) return the same
context whenever both succeed, and at most one of them constructs a context. -/
theorem get_context_same_key_same_context (env : Env) (ds : List Nat) :
    ∀ (w : World) (i j : Nat) (ri rj : CallRecord), Coherent w → i < j →
      (get_context_calls env ds w).1[i]? = some ri →
      (get_context_calls env ds w).1[j]? = some rj →
      sameContextKey w ri.descriptor rj.descriptor →
      (∀ ci cj, ri.outcome = Outcome.ok ci → rj.outcome = Outcome.ok cj → ci = cj) ∧
      ¬ (ri.created = true ∧ rj.created = true) := by
  induction ds with
  | nil => intro w i j ri rj _ _ hi; simp [get_context_calls] at hi
  | cons d ds ih =>
    intro w i j ri rj hco hij hi hj hkey
    obtain ⟨j', rfl⟩ : ∃ j', j = j' + 1 := ⟨j - 1, by omega⟩
    have hj' := get_context_calls_tail env d ds w j' rj hj
    obtain ⟨hpol, hdef, hreg, hmem⟩ := get_context_frame env d w
    cases hm : w.eng.famContextModel with
    | other raw => simp [sameContextKey, hm] at hkey
    | FAM_CONTEXT_DEFAULT =>
      simp only [sameContextKey, hm] at hkey
      have hi' := get_context_calls_default env (d :: ds) w hm ri (List.getElem?_mem hi)
      have hj'' := get_context_calls_default env (d :: ds) w hm rj (List.getElem?_mem hj)
      refine ⟨fun ci cj hci hcj => ?_, fun h => ?_⟩
      · have h1 := hi'.1 ci hci
        have h2 := hj''.1 cj hcj
        rw [hkey, h2] at h1
        exact (Option.some.inj h1).symm
      · rw [hi'.2] at h
        cases h.1
    | FAM_CONTEXT_REGION =>
      obtain ⟨hco', hmono, hok, hnew⟩ := get_context_region env d w hm hco
      cases i with
      | succ i' =>
        have hi' := get_context_calls_tail env d ds w i' ri hi
        refine ih _ i' j' ri rj hco' (by omega) hi' hj' ?_
        simp only [sameContextKey, hm] at hkey
        simp only [sameContextKey, hpol, hm, hreg]
        exact hkey
      | zero =>
        simp only [sameContextKey, hm] at hkey
        rw [get_context_calls_cons, List.getElem?_cons_zero] at hi
        have hri := (Option.some.inj hi).symm
        subst hri
        simp only at hkey
        refine ⟨fun ci cj hci hcj => ?_, fun h => ?_⟩
        · have h1 := hok ci hci
          have h2 := get_context_calls_region_fixed env ds (w.descs d).regionId ci _
            (hpol.trans hm) hco' h1 rj (List.getElem?_mem hj') ((hreg _).trans hkey.symm)
          exact (h2.1 cj hcj).symm
        · have hlt : w.heap.length < ( Fam_Ops_Libfabric.get_context env d w).2.heap.length := by
            simpa using h.1
          have h1 := (hnew hlt).2
          have h2 := get_context_calls_region_fixed env ds (w.descs d).regionId _ _
            (hpol.trans hm) hco' h1 rj (List.getElem?_mem hj') ((hreg _).trans hkey.symm)
          rw [h2.2] at h
          cases h.2
/-! ## The emulated 128-bit atomics (C1, C2) -/

theorem acquire_CAS_lock_eq (env : Env) (d : Nat) (w : World) :
    acquire_CAS_lock env d w =
      match w.eng.famAllocator with
      | none => (Outcome.stuck Stuck.nullDeref, w)
      | some _ =>
        match env.throws w.trace.length with
        | some e =>
          (Outcome.throw e,
            { w with trace := w.trace ++ [⟨Call.acquire_CAS_lock d, Except.error e⟩] })
        | none =>
          (Outcome.ok (), { w with trace := w.trace ++ [⟨Call.acquire_CAS_lock d, Except.ok 0⟩] }) := by
  cases ha : w.eng.famAllocator <;> cases ht : env.throws w.trace.length <;>
    simp only [acquire_CAS_lock, extern_call, M.bind_apply, M.andThen, M.get, M.halt,
      M.pure_apply, ha, ht]

theorem release_CAS_lock_eq (env : Env) (d : Nat) (w : World) :
    release_CAS_lock env d w =
      match w.eng.famAllocator with
      | none => (Outcome.stuck Stuck.nullDeref, w)
      | some _ =>
        match env.throws w.trace.length with
        | some e =>
          (Outcome.throw e,
            { w with trace := w.trace ++ [⟨Call.release_CAS_lock d, Except.error e⟩] })
        | none =>
          (Outcome.ok (), { w with trace := w.trace ++ [⟨Call.release_CAS_lock d, Except.ok 0⟩] }) := by
  cases ha : w.eng.famAllocator <;> cases ht : env.throws w.trace.length <;>
    simp only [release_CAS_lock, extern_call, M.bind_apply, M.andThen, M.get, M.halt,
      M.pure_apply, ha, ht]

theorem fabric_read_eq (env : Env) (key nbytes offset : Nat) (addr : Option Nat) (ctx : Nat)
    (w : World) :
    fabric_read env key nbytes offset addr ctx w =
      match env.throws w.trace.length with
      | some e =>
        (Outcome.throw e,
          { w with trace := w.trace ++
              [⟨Call.fabric_read key nbytes offset addr ctx, Except.error e⟩] })
      | none =>
        (Outcome.ok (env.status w.trace.length, readBytes w.mem addr key offset nbytes),
          { w with trace := w.trace ++
              [⟨Call.fabric_read key nbytes offset addr ctx,
                Except.ok (env.status w.trace.length)⟩] }) := by
  cases ht : env.throws w.trace.length <;>
    simp only [fabric_read, extern_call, M.bind_apply, M.andThen, M.get, M.pure_apply, ht]

theorem fabric_write_eq (env : Env) (key : Nat) {nbytes : Nat} (data : Buffer nbytes)
    (offset : Nat) (addr : Option Nat) (ctx : Nat) (w : World) :
    fabric_write env key data offset addr ctx w =
      match env.throws w.trace.length with
      | some e =>
        (Outcome.throw e,
          { w with trace := w.trace ++
              [⟨Call.fabric_write key data.1 offset addr ctx, Except.error e⟩] })
      | none =>
        (Outcome.ok (env.status w.trace.length),
          { w with
            mem := writeBytes w.mem addr key offset data.1
            trace := w.trace ++
              [⟨Call.fabric_write key data.1 offset addr ctx,
                Except.ok (env.status w.trace.length)⟩] }) := by
  cases ht : env.throws w.trace.length <;>
    simp only [fabric_write, extern_call, M.bind_apply, M.andThen, M.get, M.modify,
      M.pure_apply, ht]

theorem ReleaseSpec.get_context (env : Env) (d d' : Nat) :
    ReleaseSpec d ( Fam_Ops_Libfabric.get_context env d') 0 0 := by
  intro w ha
  rw [get_context_eq]
  repeat' split
  all_goals
    refine ⟨by simpa using ha, ?_⟩
    simp [releaseCount, Call.isAcquire, Call.isRelease]

theorem ReleaseSpec.fabric_read (env : Env) (d key nbytes offset : Nat) (addr : Option Nat)
    (ctx : Nat) : ReleaseSpec d (fabric_read env key nbytes offset addr ctx) 0 0 := by
  intro w ha
  rw [fabric_read_eq]
  split <;>
    exact ⟨by simpa using ha, by simp [releaseCount, Call.isAcquire, Call.isRelease]⟩

theorem ReleaseSpec.fabric_write (env : Env) (d key : Nat) {nbytes : Nat} (data : Buffer nbytes)
    (offset : Nat) (addr : Option Nat) (ctx : Nat) :
    ReleaseSpec d (fabric_write env key data offset addr ctx) 0 0 := by
  intro w ha
  rw [fabric_write_eq]
  split <;>
    exact ⟨by simpa using ha, by simp [releaseCount, Call.isAcquire, Call.isRelease]⟩

theorem ReleaseSpec.release (env : Env) (d : Nat) :
    ReleaseSpec d (release_CAS_lock env d) 1 1 := by
  intro w ha
  rw [release_CAS_lock_eq]
  cases h : w.eng.famAllocator with
  | none => exact absurd h ha
  | some a =>
    simp only []
    split <;>
      exact ⟨by simp [h], by simp [releaseCount, Call.isAcquire, Call.isRelease]⟩

theorem ReleaseSpec.pure {α : Type} (d : Nat) (a : α) (k : Nat) :
    ReleaseSpec d (pure a : M α) 0 k := by
  intro w ha
  exact ⟨ha, [], by simp [M.pure_apply, releaseCount]⟩

theorem ReleaseSpec.read_world {α : Type} (d : Nat) (f : World → M α) (a b : Nat)
    (h : ∀ w0, ReleaseSpec d (f w0) a b) : ReleaseSpec d (M.get >>= f) a b := by
  intro w ha
  simpa [M.bind_apply, M.andThen, M.get] using h w w ha

theorem ReleaseSpec.bind {α β : Type} (d : Nat) (m : M α) (f : α → M β) (a b c e : Nat)
    (hm : ReleaseSpec d m a b) (hf : ∀ x, ReleaseSpec d (f x) c e) (hb : b = a + e) :
    ReleaseSpec d (m >>= f) (a + c) b := by
  intro w ha
  obtain ⟨ha1, evs1, ht1, hacq1, hrel1, hok1, hthrow1⟩ := hm w ha
  rw [M.bind_apply]
  unfold M.andThen
  rcases hmw : m w with ⟨o, w1⟩
  rw [hmw] at ha1 ht1 hok1 hthrow1
  cases o with
  | ok x =>
    simp only at ha1 ht1 ⊢
    obtain ⟨ha2, evs2, ht2, hacq2, hrel2, hok2, hthrow2⟩ := hf x w1 ha1
    refine ⟨ha2, evs1 ++ evs2, by rw [ht2, ht1, List.append_assoc], ?_, ?_, ?_, ?_⟩
    · intro e he
      rcases List.mem_append.mp he with h | h
      · exact hacq1 e h
      · exact hacq2 e h
    · intro e he
      rcases List.mem_append.mp he with h | h
      · exact hrel1 e h
      · exact hrel2 e h
    · intro y hy
      have h1 := hok1 x rfl
      have h2 := hok2 y hy
      simp only [releaseCount, List.countP_append] at h1 h2 ⊢
      omega
    · intro y hy
      have h1 := hok1 x rfl
      have h2 := hthrow2 y hy
      simp only [releaseCount, List.countP_append] at h1 h2 ⊢
      omega
  | throw e0 =>
    simp only at ha1 ht1 ⊢
    refine ⟨ha1, evs1, ht1, hacq1, hrel1, ?_, ?_⟩
    · intro y hy; simp at hy
    · intro y hy; exact hthrow1 e0 rfl
  | stuck s =>
    simp only at ha1 ht1 ⊢
    refine ⟨ha1, evs1, ht1, hacq1, hrel1, ?_, ?_⟩ <;> intro y hy <;> simp at hy

theorem ReleaseSpec.tryRethrow {α : Type} (d : Nat) (m : M α) (h : M Unit) (a b c : Nat)
    (hm : ReleaseSpec d m a b) (hh : ReleaseSpec d h c c) :
    ReleaseSpec d (M.tryRethrow m h) a (b + c) := by
  intro w ha
  obtain ⟨ha1, evs1, ht1, hacq1, hrel1, hok1, hthrow1⟩ := hm w ha
  unfold M.tryRethrow
  rcases hmw : m w with ⟨o, w1⟩
  rw [hmw] at ha1 ht1 hok1 hthrow1
  cases o with
  | ok x =>
    simp only at ha1 ht1 ⊢
    refine ⟨ha1, evs1, ht1, hacq1, hrel1, ?_, ?_⟩
    · intro y hy; exact hok1 x rfl
    · intro y hy; simp at hy
  | stuck s =>
    simp only at ha1 ht1 ⊢
    refine ⟨ha1, evs1, ht1, hacq1, hrel1, ?_, ?_⟩ <;> intro y hy <;> simp at hy
  | throw e0 =>
    simp only at ha1 ht1 ⊢
    obtain ⟨ha2, evs2, ht2, hacq2, hrel2, hok2, hthrow2⟩ := hh w1 ha1
    have hcount : ∀ n, releaseCount evs2 = n → releaseCount (evs1 ++ evs2) = b + n := by
      intro n hn
      have h1 := hthrow1 e0 rfl
      simp only [releaseCount, List.countP_append] at h1 hn ⊢
      omega
    have hacq : ∀ e ∈ evs1 ++ evs2, e.call.isAcquire = false := by
      intro e he
      rcases List.mem_append.mp he with h | h
      · exact hacq1 e h
      · exact hacq2 e h
    have hrel : ∀ e ∈ evs1 ++ evs2, e.call.isRelease = true →
        e.call = Call.release_CAS_lock d := by
      intro e he
      rcases List.mem_append.mp he with h | h
      · exact hrel1 e h
      · exact hrel2 e h
    rcases hhw : h w1 with ⟨o2, w2⟩
    rw [hhw] at ha2 ht2 hok2 hthrow2
    cases o2 with
    | ok x =>
      simp only at ha2 ht2 ⊢
      refine ⟨ha2, evs1 ++ evs2, by rw [ht2, ht1, List.append_assoc], hacq, hrel, ?_, ?_⟩
      · intro y hy; simp at hy
      · intro y hy; exact hcount c (hok2 x rfl)
    | throw e2 =>
      simp only at ha2 ht2 ⊢
      refine ⟨ha2, evs1 ++ evs2, by rw [ht2, ht1, List.append_assoc], hacq, hrel, ?_, ?_⟩
      · intro y hy; simp at hy
      · intro y hy; exact hcount c (hthrow2 e2 rfl)
    | stuck s =>
      simp only at ha2 ht2 ⊢
      refine ⟨ha2, evs1 ++ evs2, by rw [ht2, ht1, List.append_assoc], hacq, hrel, ?_, ?_⟩ <;>
        intro y hy <;> simp at hy

theorem ReleaseSpec.ite {α : Type} (d : Nat) (c : Prop) [Decidable c] (m1 m2 : M α) (a b : Nat)
    (h1 : ReleaseSpec d m1 a b) (h2 : ReleaseSpec d m2 a b) :
    ReleaseSpec d (if c then m1 else m2) a b := by
  split <;> assumption

theorem releaseCountOn_eq (d : Nat) (evs : List Event)
    (h : ∀ e ∈ evs, e.call.isRelease = true → e.call = Call.release_CAS_lock d) :
    releaseCountOn d evs = releaseCount evs := by
  unfold releaseCountOn releaseCount
  apply List.countP_congr
  intro e he
  constructor
  · intro h1
    have h2 : e.call = Call.release_CAS_lock d := by simpa using h1
    rw [h2]; rfl
  · intro h1
    simpa using h e he h1

/-- An operation that acquires the CAS lock and then runs code with the release
discipline `1, 1` observes the CAS-lock discipline whenever control leaves it. -/
theorem acquire_then_discipline {α : Type} (env : Env) (d : Nat) (rest : World → M α)
    (hrest : ∀ w0, ReleaseSpec d (rest w0) 1 1) (w : World)
    (hleave : ∀ s, ((M.get >>= fun w0 => acquire_CAS_lock env d >>= fun _ => rest w0) w).1 ≠
      Outcome.stuck s) :
    CASLockDiscipline d w
      ((M.get >>= fun w0 => acquire_CAS_lock env d >>= fun _ => rest w0) w) := by
  simp only [M.bind_apply, M.andThen, M.get, acquire_CAS_lock_eq] at hleave ⊢
  cases ha : w.eng.famAllocator with
  | none => simp [ha] at hleave
  | some al =>
    simp only [ha] at hleave ⊢
    cases ht : env.throws w.trace.length with
    | some e =>
      simp [CASLockDiscipline, newEvents, releaseCount, Call.isRelease]
    | none =>
      simp only [ht] at hleave ⊢
      have hne : ({ w with trace := w.trace ++
          [⟨Call.acquire_CAS_lock d, Except.ok 0⟩] } : World).eng.famAllocator ≠ none := by
        simp [ha]
      obtain ⟨_, evs, htr, hacq, hrel, hok, hthrow⟩ := hrest w _ hne
      rcases hr : rest w { w with trace := w.trace ++
          [⟨Call.acquire_CAS_lock d, Except.ok 0⟩] } with ⟨o, w2⟩
      rw [hr] at htr hok hthrow hleave
      simp only at htr
      have hnew : newEvents w w2 = ⟨Call.acquire_CAS_lock d, Except.ok 0⟩ :: evs := by
        simp [newEvents, htr]
      have hcount : releaseCount evs = 1 := by
        cases o with
        | ok x => exact hok x rfl
        | throw e => exact hthrow e rfl
        | stuck s => exact absurd rfl (hleave s)
      have hcount' : releaseCount (newEvents w w2) = 1 := by
        rw [hnew]
        simpa [releaseCount, Call.isRelease] using hcount
      have hrel' : ∀ e ∈ newEvents w w2, e.call.isRelease = true →
          e.call = Call.release_CAS_lock d := by
        intro e he
        rw [hnew] at he
        rcases List.mem_cons.mp he with h | h
        · subst h; simp [Call.isRelease]
        · exact hrel e h
      refine ⟨fun _ => ⟨hcount', (releaseCountOn_eq d _ hrel').trans hcount'⟩, ?_⟩
      rintro ⟨e, he⟩
      rw [hnew] at he
      rcases List.mem_cons.mp he with h | h
      · cases h
      · have := hacq _ h
        simp [Call.isAcquire] at this

/-- C2: for each of the three emulated 128-bit operations, whenever control
leaves the operation (normal return or exception, whatever the context lookup,
the blocking read and the blocking write did), `release_CAS_lock` has been
called exactly once, on the operation's descriptor, if `acquire_CAS_lock`
succeeded, and not at all if `acquire_CAS_lock` threw. -/
theorem cas_lock_released_exactly_once (env : Env) (d offset : Nat)
    (oldValue newValue value : int128_t) (w : World) :
    ((∀ s, ( Fam_Ops_Libfabric.compare_swap env d offset oldValue newValue w).1 ≠
        Outcome.stuck s) →
      CASLockDiscipline d w ( Fam_Ops_Libfabric.compare_swap env d offset oldValue newValue w)) ∧
    ((∀ s, ( Fam_Ops_Libfabric.atomic_set env d offset value w).1 ≠ Outcome.stuck s) →
      CASLockDiscipline d w ( Fam_Ops_Libfabric.atomic_set env d offset value w)) ∧
    ((∀ s, ( Fam_Ops_Libfabric.atomic_fetch_int128 env d offset w).1 ≠ Outcome.stuck s) →
      CASLockDiscipline d w ( Fam_Ops_Libfabric.atomic_fetch_int128 env d offset w)) := by
  have hread : ∀ key nodeId,
      ReleaseSpec d (M.tryRethrow (do
          let w1 ← M.get
          let ctx ← Fam_Ops_Libfabric.get_context env d
          fabric_read env key 16 offset (fiAddr_at w1.eng nodeId) ctx)
        (release_CAS_lock env d)) 0 1 := by
    intro key nodeId
    refine ReleaseSpec.tryRethrow d _ _ 0 0 1 ?_ (ReleaseSpec.release env d)
    refine ReleaseSpec.read_world d _ 0 0 (fun w1 => ?_)
    exact ReleaseSpec.bind d _ _ 0 0 0 0 (ReleaseSpec.get_context env d d)
      (fun ctx => ReleaseSpec.fabric_read env d _ _ _ _ _) rfl
  have hwrite : ∀ key nodeId (v : int128_t),
      ReleaseSpec d (M.tryRethrow (do
          let w1 ← M.get
          let ctx ← Fam_Ops_Libfabric.get_context env d
          fabric_write env key v offset (fiAddr_at w1.eng nodeId) ctx)
        (release_CAS_lock env d)) 0 1 := by
    intro key nodeId v
    refine ReleaseSpec.tryRethrow d _ _ 0 0 1 ?_ (ReleaseSpec.release env d)
    refine ReleaseSpec.read_world d _ 0 0 (fun w1 => ?_)
    exact ReleaseSpec.bind d _ _ 0 0 0 0 (ReleaseSpec.get_context env d d)
      (fun ctx => ReleaseSpec.fabric_write env d _ _ _ _ _) rfl
  have hjp : ∀ {α : Type} (a : α), ReleaseSpec d (do release_CAS_lock env d; pure a) 1 1 :=
    fun a => ReleaseSpec.bind d _ _ 1 1 0 0 (ReleaseSpec.release env d)
      (fun _ => ReleaseSpec.pure d a 0) rfl
  refine ⟨fun hleave => ?_, fun hleave => ?_, fun hleave => ?_⟩
  · refine acquire_then_discipline env d (fun w0 => _) (fun w0 => ?_) w hleave
    refine ReleaseSpec.bind d _ _ 0 1 1 1 (hread _ _) (fun rd => ?_) rfl
    refine ReleaseSpec.ite d _ _ _ 1 1 ?_ ?_
    · refine ReleaseSpec.bind d _ _ 0 1 1 1 (hwrite _ _ _) (fun _ => ?_) rfl
      exact ReleaseSpec.bind d _ _ 0 1 1 1 (ReleaseSpec.pure d _ 1) (fun _ => hjp _) rfl
    · exact ReleaseSpec.bind d _ _ 0 1 1 1 (ReleaseSpec.pure d _ 1) (fun _ => hjp _) rfl
  · refine acquire_then_discipline env d (fun w0 => _) (fun w0 => ?_) w hleave
    refine ReleaseSpec.bind d _ _ 0 1 1 1 (hwrite _ _ _) (fun _ => ?_) rfl
    exact ReleaseSpec.release env d
  · refine acquire_then_discipline env d (fun w0 => _) (fun w0 => ?_) w hleave
    refine ReleaseSpec.bind d _ _ 0 1 1 1 (hread _ _) (fun rd => ?_) rfl
    exact hjp _
theorem writeBytes_below (addr : Option Nat) (key : Nat) (data : Bytes) :
    ∀ (mem : Option Nat → Nat → Nat → UInt8) (offset o : Nat), o < offset →
      writeBytes mem addr key offset data addr key o = mem addr key o := by
  induction data with
  | nil => intro mem offset o _; rfl
  | cons b rest ih =>
    intro mem offset o h
    simp only [writeBytes]
    rw [ih _ (offset + 1) o (by omega)]
    have : ¬ o = offset := by omega
    simp [this]

theorem readBytes_writeBytes (addr : Option Nat) (key : Nat) (data : Bytes) :
    ∀ (mem : Option Nat → Nat → Nat → UInt8) (offset : Nat),
      (readBytes (writeBytes mem addr key offset data) addr key offset data.length).1 = data := by
  induction data with
  | nil => intro mem offset; rfl
  | cons b rest ih =>
    intro mem offset
    simp only [writeBytes, List.length_cons, readBytes]
    rw [ih, writeBytes_below addr key rest _ (offset + 1) offset (by omega)]
    simp

theorem get_context_ready (env : Env) (d : Nat) (w : World) (c : Nat)
    (h : ( Fam_Ops_Libfabric.get_context env d w).1 = Outcome.ok c) :
    ContextReady ( Fam_Ops_Libfabric.get_context env d w).2 d c := by
  revert h
  rw [get_context_eq]
  unfold ContextReady
  repeat' split
  all_goals simp_all

theorem get_context_of_ready (env : Env) (d : Nat) (w : World) (c : Nat)
    (h : ContextReady w d c) :
    Fam_Ops_Libfabric.get_context env d w = (Outcome.ok c, w) := by
  rw [get_context_eq]
  rcases h with ⟨h1, h2⟩ | ⟨h1, h2⟩ <;> simp [h1, h2]

theorem get_context_trace_irrel (env : Env) (d : Nat) (w : World) (t : List Event)
    (hthrows : ∀ k, env.throws k = none) :
    ( Fam_Ops_Libfabric.get_context env d { w with trace := t }).1 =
      ( Fam_Ops_Libfabric.get_context env d w).1 := by
  rw [get_context_eq, get_context_eq]
  simp only [hthrows]
  repeat' split
  all_goals simp_all
theorem get_context_effect (env : Env) (d : Nat) (w : World) :
    (∃ evs, ( Fam_Ops_Libfabric.get_context env d w).2.trace = w.trace ++ evs ∧
      ∀ e ∈ evs, e.call.isContextCall = true) ∧
    ( Fam_Ops_Libfabric.get_context env d w).2.mem = w.mem ∧
    ( Fam_Ops_Libfabric.get_context env d w).2.eng.fiAddrs = w.eng.fiAddrs ∧
    ( Fam_Ops_Libfabric.get_context env d w).2.eng.famAllocator = w.eng.famAllocator ∧
    ( Fam_Ops_Libfabric.get_context env d w).2.eng.famContextModel = w.eng.famContextModel := by
  rw [get_context_eq]
  repeat' split
  all_goals simp [Call.isContextCall]

theorem readBytes_writeBytes_buffer (addr : Option Nat) (key : Nat) {n : Nat} (data : Buffer n)
    (mem : Option Nat → Nat → Nat → UInt8) (offset : Nat) :
    readBytes (writeBytes mem addr key offset data.1) addr key offset n = data := by
  obtain ⟨bs, hbs⟩ := data
  subst hbs
  exact Subtype.ext (readBytes_writeBytes addr key bs mem offset)

/-- C1: when no collaborator call throws, the allocator handle is set and
`get_context` succeeds for the descriptor, the 128-bit `compare_swap` returns
the 16 bytes `m` stored at the item's offset; afterwards that place holds
`newValue` if `m = oldValue` and still holds `m` otherwise, and in the latter
case no `fabric_write` is issued. -/
theorem compare_swap_int128_spec (env : Env) (d offset : Nat) (oldValue newValue : int128_t)
    (w : World) (c : Nat)
    (hthrows : ∀ k, env.throws k = none)
    (halloc : w.eng.famAllocator ≠ none)
    (hctx : ( Fam_Ops_Libfabric.get_context env d w).1 = Outcome.ok c) :
    ( Fam_Ops_Libfabric.compare_swap env d offset oldValue newValue w).1 =
      Outcome.ok (readBytes w.mem (fiAddr_at w.eng (w.descs d).memserver_id)
        (w.descs d).key offset 16) ∧
    readBytes ( Fam_Ops_Libfabric.compare_swap env d offset oldValue newValue w).2.mem
        (fiAddr_at w.eng (w.descs d).memserver_id) (w.descs d).key offset 16 =
      (if readBytes w.mem (fiAddr_at w.eng (w.descs d).memserver_id)
          (w.descs d).key offset 16 = oldValue then newValue
        else readBytes w.mem (fiAddr_at w.eng (w.descs d).memserver_id)
          (w.descs d).key offset 16) ∧
    (readBytes w.mem (fiAddr_at w.eng (w.descs d).memserver_id)
        (w.descs d).key offset 16 ≠ oldValue →
      ∀ e ∈ newEvents w ( Fam_Ops_Libfabric.compare_swap env d offset oldValue newValue w).2,
        e.call.isWrite = false) := by
  obtain ⟨al, hal⟩ := Option.ne_none_iff_exists'.mp halloc
  -- the first context lookup, made after the acquire was logged
  have h1 := get_context_trace_irrel env d w
    (w.trace ++ [⟨Call.acquire_CAS_lock d, Except.ok 0⟩]) hthrows
  rw [hctx] at h1
  have hready := get_context_ready env d _ c h1
  obtain ⟨⟨evs, htr, hevs⟩, hmem, hfi, hfa, _⟩ := get_context_effect env d
    { w with trace := w.trace ++ [⟨Call.acquire_CAS_lock d, Except.ok 0⟩] }
  rcases hgc : Fam_Ops_Libfabric.get_context env d
    { w with trace := w.trace ++ [⟨Call.acquire_CAS_lock d, Except.ok 0⟩] } with ⟨o, w2⟩
  rw [hgc] at h1 hready htr hmem hfi hfa
  simp only at h1 hready htr hmem hfi hfa
  subst h1
  have hal2 : w2.eng.famAllocator = some al := by rw [hfa]; exact hal
  have hfi2 : ∀ n, fiAddr_at w2.eng n = fiAddr_at w.eng n := by
    intro n; simp [fiAddr_at, hfi]
  -- the second lookup finds the context ready
  have hready3 : ∀ t m, ContextReady { w2 with trace := t, mem := m } d c := by
    intro t m
    rcases hready with ⟨h, h'⟩ | ⟨h, h'⟩
    · exact Or.inl ⟨h, h'⟩
    · exact Or.inr ⟨h, h'⟩
  simp only [Fam_Ops_Libfabric.compare_swap, M.bind_apply, M.andThen, M.get, M.tryRethrow,
    acquire_CAS_lock_eq, release_CAS_lock_eq, fabric_read_eq, fabric_write_eq, hthrows, hal,
    hgc, hal2, hmem, M.pure_apply, ite_apply]
  by_cases hm : readBytes w.mem (fiAddr_at w.eng (w.descs d).memserver_id)
      (w.descs d).key offset 16 = oldValue
  · simp only [hm, if_true]
    simp only [M.bind_apply, M.andThen, M.get, M.tryRethrow, release_CAS_lock_eq,
      fabric_write_eq, hthrows, hal2, M.pure_apply,
      get_context_of_ready env d _ c (hready3 _ _), hfi2, readBytes_writeBytes_buffer]
    simp
  · simp only [hm, if_false]
    simp only [M.bind_apply, M.andThen, M.get, M.tryRethrow, release_CAS_lock_eq,
      fabric_write_eq, hthrows, hal2, M.pure_apply]
    refine ⟨trivial, trivial, fun _ e he => ?_⟩
    simp only [newEvents, htr, List.append_assoc, List.drop_left'] at he
    simp only [List.mem_append, List.mem_cons, List.mem_singleton, List.not_mem_nil,
      or_false] at he
    rcases he with h | h | h | h
    · subst h; rfl
    · have := hevs e h
      revert this
      cases e.call <;> simp [Call.isContextCall, Call.isWrite]
    · subst h; rfl
    · subst h; rfl
/-- C1 (witness): a region-policy engine, memory all zero, `oldValue` all zero. -/
theorem compare_swap_int128_spec_witness :
    (∀ k, demoEnv.throws k = none) ∧ demoRegionWorld.eng.famAllocator ≠ none ∧
    ( Fam_Ops_Libfabric.get_context demoEnv 0 demoRegionWorld).1 = Outcome.ok 0 ∧
    ( Fam_Ops_Libfabric.compare_swap demoEnv 0 0 (int128_of_byte 0) (int128_of_byte 1)
        demoRegionWorld).1 =
      Outcome.ok (readBytes demoRegionWorld.mem
        (fiAddr_at demoRegionWorld.eng (demoRegionWorld.descs 0).memserver_id)
        (demoRegionWorld.descs 0).key 0 16) :=
  ⟨fun _ => rfl, by decide, rfl,
    (compare_swap_int128_spec demoEnv 0 0 (int128_of_byte 0) (int128_of_byte 1) demoRegionWorld 0
      (fun _ => rfl) (by decide) rfl).1⟩

/-- C2 (witness): the blocking read (logged at position `3`, after the acquire
and the two calls that create the context) throws; control leaves
`compare_swap` by that exception. -/
theorem cas_lock_released_exactly_once_witness :
    (∀ s, ( Fam_Ops_Libfabric.compare_swap demoEnvThrowsAt3 0 0 (int128_of_byte 0)
        (int128_of_byte 1) demoRegionWorld).1 ≠ Outcome.stuck s) ∧
    CASLockDiscipline 0 demoRegionWorld
      ( Fam_Ops_Libfabric.compare_swap demoEnvThrowsAt3 0 0 (int128_of_byte 0)
        (int128_of_byte 1) demoRegionWorld) :=
  ⟨fun _ h => Outcome.noConfusion h,
    (cas_lock_released_exactly_once demoEnvThrowsAt3 0 0 (int128_of_byte 0) (int128_of_byte 1)
      (int128_of_byte 0) demoRegionWorld).1 (fun _ h => Outcome.noConfusion h)⟩

/-- C3 (witness): descriptors `0` and `1` are items of region `10`; the first
call creates the context, the second returns it. -/
theorem get_context_same_key_same_context_witness :
    Coherent demoRegionWorld ∧
    (get_context_calls demoEnv [0, 1] demoRegionWorld).1[0]? = some ⟨0, Outcome.ok 0, true⟩ ∧
    (get_context_calls demoEnv [0, 1] demoRegionWorld).1[1]? = some ⟨1, Outcome.ok 0, false⟩ ∧
    sameContextKey demoRegionWorld 0 1 ∧
    ((∀ ci cj, (Outcome.ok 0 : Outcome Nat) = Outcome.ok ci → (Outcome.ok 0 : Outcome Nat) = Outcome.ok cj → ci = cj) ∧
      ¬ (true = true ∧ false = true)) :=
  ⟨fun _ _ h => Option.noConfusion h, rfl, rfl, rfl,
    get_context_same_key_same_context demoEnv [0, 1] demoRegionWorld 0 1
      ⟨0, Outcome.ok 0, true⟩ ⟨1, Outcome.ok 0, false⟩
      (fun _ _ h => Option.noConfusion h) (by decide) rfl rfl rfl⟩
/-! ## Initialisation, path by path -/

/-- The outcome and final world of the client branch, path by path. -/
theorem initialize_client_eq (env : Env) (nodeId : Nat) (w : World) :
    initialize_client env nodeId w =
      match w.eng.famAllocator with
      | none => (Outcome.stuck Stuck.nullDeref, w)
      | some _ =>
        match env.throws w.trace.length with
        | some e =>
          (Outcome.throw e,
            { w with trace := w.trace ++ [⟨Call.get_addr_size nodeId, Except.error e⟩] })
        | none =>
          if (env.get_addr_size nodeId).1 ≤ 0 then
            (Outcome.throw Fam_Error.Allocator,
              { w with
                eng := { w.eng with serverAddrNameLen := (env.get_addr_size nodeId).1 }
                trace := w.trace ++
                  [⟨Call.get_addr_size nodeId, Except.ok (env.get_addr_size nodeId).2⟩] })
          else
            match env.throws (w.trace.length + 1) with
            | some e =>
              (Outcome.throw e,
                { w with
                  eng := { w.eng with
                    serverAddrNameLen := (env.get_addr_size nodeId).1
                    serverAddrName :=
                      some (List.replicate (env.get_addr_size nodeId).1.toNat 0) }
                  trace := w.trace ++
                    [⟨Call.get_addr_size nodeId, Except.ok (env.get_addr_size nodeId).2⟩,
                      ⟨Call.get_addr nodeId, Except.error e⟩] })
            | none =>
              if (env.get_addr nodeId).1 < 0 then
                (Outcome.throw Fam_Error.Allocator,
                  { w with
                    eng := { w.eng with
                      serverAddrNameLen := (env.get_addr_size nodeId).1
                      serverAddrName := some (env.get_addr nodeId).2 }
                    trace := w.trace ++
                      [⟨Call.get_addr_size nodeId, Except.ok (env.get_addr_size nodeId).2⟩,
                        ⟨Call.get_addr nodeId, Except.ok (env.get_addr nodeId).1⟩] })
              else
                match env.throws (w.trace.length + 2) with
                | some e =>
                  (Outcome.throw e,
                    { w with
                      eng := { w.eng with
                        serverAddrNameLen := (env.get_addr_size nodeId).1
                        serverAddrName := some (env.get_addr nodeId).2 }
                      trace := w.trace ++
                        [⟨Call.get_addr_size nodeId, Except.ok (env.get_addr_size nodeId).2⟩,
                          ⟨Call.get_addr nodeId, Except.ok (env.get_addr nodeId).1⟩,
                          ⟨Call.fabric_insert_av nodeId (env.get_addr nodeId).2,
                            Except.error e⟩] })
                | none =>
                  if (env.fabric_insert_av nodeId (env.get_addr nodeId).2).1 < 0 then
                    (Outcome.ok (some (env.fabric_insert_av nodeId (env.get_addr nodeId).2).1),
                      { w with
                        eng := { w.eng with
                          serverAddrNameLen := (env.get_addr_size nodeId).1
                          serverAddrName := some (env.get_addr nodeId).2 }
                        trace := w.trace ++
                          [⟨Call.get_addr_size nodeId, Except.ok (env.get_addr_size nodeId).2⟩,
                            ⟨Call.get_addr nodeId, Except.ok (env.get_addr nodeId).1⟩,
                            ⟨Call.fabric_insert_av nodeId (env.get_addr nodeId).2,
                              Except.ok (env.fabric_insert_av nodeId (env.get_addr nodeId).2).1⟩] })
                  else
                    (Outcome.ok none,
                      { w with
                        eng := { w.eng with
                          serverAddrNameLen := (env.get_addr_size nodeId).1
                          serverAddrName := some (env.get_addr nodeId).2
                          fiAddrs := w.eng.fiAddrs ++
                            [(env.fabric_insert_av nodeId (env.get_addr nodeId).2).2] }
                        trace := w.trace ++
                          [⟨Call.get_addr_size nodeId, Except.ok (env.get_addr_size nodeId).2⟩,
                            ⟨Call.get_addr nodeId, Except.ok (env.get_addr nodeId).1⟩,
                            ⟨Call.fabric_insert_av nodeId (env.get_addr nodeId).2,
                              Except.ok
                                (env.fabric_insert_av nodeId (env.get_addr nodeId).2).1⟩] }) := by
  cases ha : w.eng.famAllocator
  · simp only [initialize_client, extern_call, M.bind_apply, M.andThen, M.get, M.halt,
      M.raise, M.modify, M.modifyEng, M.pure_apply, ha, if_false, if_true,
      List.length_append, List.length_singleton, List.append_assoc, List.singleton_append,
      List.cons_append, List.nil_append, List.length_cons, List.length_nil, Nat.add_assoc,
      Nat.zero_add, Nat.reduceAdd, modify_length_append, reduceCtorEq]
  cases ht : env.throws w.trace.length
  swap
  · simp only [initialize_client, extern_call, M.bind_apply, M.andThen, M.get, M.halt,
      M.raise, M.modify, M.modifyEng, M.pure_apply, ha, ht, if_false, if_true,
      List.length_append, List.length_singleton, List.append_assoc, List.singleton_append,
      List.cons_append, List.nil_append, List.length_cons, List.length_nil, Nat.add_assoc,
      Nat.zero_add, Nat.reduceAdd, modify_length_append, reduceCtorEq]
  by_cases hlen : (env.get_addr_size nodeId).1 ≤ 0
  · simp only [initialize_client, extern_call, M.bind_apply, M.andThen, M.get, M.halt,
      M.raise, M.modify, M.modifyEng, M.pure_apply, ha, ht, hlen, if_false, if_true,
      List.length_append, List.length_singleton, List.append_assoc, List.singleton_append,
      List.cons_append, List.nil_append, List.length_cons, List.length_nil, Nat.add_assoc,
      Nat.zero_add, Nat.reduceAdd, modify_length_append, reduceCtorEq]
  cases ht1 : env.throws (w.trace.length + 1)
  swap
  · simp only [initialize_client, extern_call, M.bind_apply, M.andThen, M.get, M.halt,
      M.raise, M.modify, M.modifyEng, M.pure_apply, ha, ht, hlen, ht1, if_false, if_true,
      List.length_append, List.length_singleton, List.append_assoc, List.singleton_append,
      List.cons_append, List.nil_append, List.length_cons, List.length_nil, Nat.add_assoc,
      Nat.zero_add, Nat.reduceAdd, modify_length_append, reduceCtorEq]
  by_cases hret : (env.get_addr nodeId).1 < 0
  · simp only [initialize_client, extern_call, M.bind_apply, M.andThen, M.get, M.halt,
      M.raise, M.modify, M.modifyEng, M.pure_apply, ha, ht, hlen, ht1, hret, if_false, if_true,
      List.length_append, List.length_singleton, List.append_assoc, List.singleton_append,
      List.cons_append, List.nil_append, List.length_cons, List.length_nil, Nat.add_assoc,
      Nat.zero_add, Nat.reduceAdd, modify_length_append, reduceCtorEq]
  cases ht2 : env.throws (w.trace.length + 2)
  swap
  · simp only [initialize_client, extern_call, M.bind_apply, M.andThen, M.get, M.halt,
      M.raise, M.modify, M.modifyEng, M.pure_apply, ha, ht, hlen, ht1, hret, ht2, if_false, if_true,
      List.length_append, List.length_singleton, List.append_assoc, List.singleton_append,
      List.cons_append, List.nil_append, List.length_cons, List.length_nil, Nat.add_assoc,
      Nat.zero_add, Nat.reduceAdd, modify_length_append, reduceCtorEq]
  by_cases hins : (env.fabric_insert_av nodeId (env.get_addr nodeId).2).1 < 0
  · simp only [initialize_client, extern_call, M.bind_apply, M.andThen, M.get, M.halt,
      M.raise, M.modify, M.modifyEng, M.pure_apply, ha, ht, hlen, ht1, hret, ht2, hins, if_false, if_true,
      List.length_append, List.length_singleton, List.append_assoc, List.singleton_append,
      List.cons_append, List.nil_append, List.length_cons, List.length_nil, Nat.add_assoc,
      Nat.zero_add, Nat.reduceAdd, modify_length_append, reduceCtorEq]
  · simp only [initialize_client, extern_call, M.bind_apply, M.andThen, M.get, M.halt,
      M.raise, M.modify, M.modifyEng, M.pure_apply, ha, ht, hlen, ht1, hret, ht2, hins, if_false, if_true,
      List.length_append, List.length_singleton, List.append_assoc, List.singleton_append,
      List.cons_append, List.nil_append, List.length_cons, List.length_nil, Nat.add_assoc,
      Nat.zero_add, Nat.reduceAdd, modify_length_append, reduceCtorEq]

/-- The outcome and final world of the server branch, path by path. -/
theorem initialize_server_eq (env : Env) (w : World) :
    initialize_server env w =
      match env.throws w.trace.length with
      | some e =>
        (Outcome.throw e,
          { w with trace := w.trace ++ [⟨Call.new_Fam_Context w.heap.length, Except.error e⟩] })
      | none =>
        match env.throws (w.trace.length + 1) with
        | some e =>
          (Outcome.throw e,
            { w with
              heap := w.heap ++ [⟨false, [], true⟩]
              trace := w.trace ++ [⟨Call.new_Fam_Context w.heap.length, Except.ok 0⟩,
                ⟨Call.fabric_enable_bind_ep w.heap.length, Except.error e⟩] })
        | none =>
          if env.fabric_enable_bind_ep w.heap.length < 0 then
            (Outcome.throw Fam_Error.Datapath,
              { w with
                heap := w.heap ++ [⟨false, [], true⟩]
                trace := w.trace ++ [⟨Call.new_Fam_Context w.heap.length, Except.ok 0⟩,
                  ⟨Call.fabric_enable_bind_ep w.heap.length,
                  Except.ok (env.fabric_enable_bind_ep w.heap.length)⟩] })
          else
            match env.throws (w.trace.length + 2) with
            | some e =>
              (Outcome.throw e,
                { w with
                  eng := { w.eng with serverAddrNameLen := 0 }
                  heap := w.heap ++ [⟨true, [], true⟩]
                  trace := w.trace ++ [⟨Call.new_Fam_Context w.heap.length, Except.ok 0⟩,
                    ⟨Call.fabric_enable_bind_ep w.heap.length,
                  Except.ok (env.fabric_enable_bind_ep w.heap.length)⟩,
                    ⟨Call.fabric_getname_len w.heap.length, Except.error e⟩] })
            | none =>
              if (env.fabric_getname_len w.heap.length).1 ≤ 0 then
                (Outcome.throw Fam_Error.Datapath,
                  { w with
                    eng := { w.eng with serverAddrNameLen := (env.fabric_getname_len w.heap.length).1 }
                    heap := w.heap ++ [⟨true, [], true⟩]
                    trace := w.trace ++ [⟨Call.new_Fam_Context w.heap.length, Except.ok 0⟩,
                      ⟨Call.fabric_enable_bind_ep w.heap.length,
                  Except.ok (env.fabric_enable_bind_ep w.heap.length)⟩,
                      ⟨Call.fabric_getname_len w.heap.length,
                  Except.ok (env.fabric_getname_len w.heap.length).2⟩] })
              else
                match env.throws (w.trace.length + 3) with
                | some e =>
                  (Outcome.throw e,
                    { w with
                      eng := { w.eng with
                        serverAddrNameLen := (env.fabric_getname_len w.heap.length).1
                        serverAddrName := some (List.replicate (env.fabric_getname_len w.heap.length).1.toNat 0) }
                      heap := w.heap ++ [⟨true, [], true⟩]
                      trace := w.trace ++ [⟨Call.new_Fam_Context w.heap.length, Except.ok 0⟩,
                        ⟨Call.fabric_enable_bind_ep w.heap.length,
                  Except.ok (env.fabric_enable_bind_ep w.heap.length)⟩,
                        ⟨Call.fabric_getname_len w.heap.length,
                  Except.ok (env.fabric_getname_len w.heap.length).2⟩,
                        ⟨Call.fabric_getname w.heap.length, Except.error e⟩] })
                | none =>
                  if (env.fabric_getname w.heap.length).1 < 0 then
                    (Outcome.throw Fam_Error.Datapath,
                      { w with
                        eng := { w.eng with
                          serverAddrNameLen := (env.fabric_getname_len w.heap.length).1
                          serverAddrName := some (env.fabric_getname w.heap.length).2 }
                        heap := w.heap ++ [⟨true, [], true⟩]
                        trace := w.trace ++ [⟨Call.new_Fam_Context w.heap.length, Except.ok 0⟩,
                          ⟨Call.fabric_enable_bind_ep w.heap.length,
                  Except.ok (env.fabric_enable_bind_ep w.heap.length)⟩,
                          ⟨Call.fabric_getname_len w.heap.length,
                  Except.ok (env.fabric_getname_len w.heap.length).2⟩,
                          ⟨Call.fabric_getname w.heap.length,
                  Except.ok (env.fabric_getname w.heap.length).1⟩] })
                  else
                    match env.throws (w.trace.length + 4) with
                    | some e =>
                      (Outcome.throw e,
                        { w with
                          eng := { w.eng with
                            serverAddrNameLen := (env.fabric_getname_len w.heap.length).1
                            serverAddrName := some (env.fabric_getname w.heap.length).2 }
                          heap := w.heap ++ [⟨true, [], true⟩]
                          trace := w.trace ++ [⟨Call.new_Fam_Context w.heap.length, Except.ok 0⟩,
                            ⟨Call.fabric_enable_bind_ep w.heap.length,
                  Except.ok (env.fabric_enable_bind_ep w.heap.length)⟩,
                            ⟨Call.fabric_getname_len w.heap.length,
                  Except.ok (env.fabric_getname_len w.heap.length).2⟩,
                            ⟨Call.fabric_getname w.heap.length,
                  Except.ok (env.fabric_getname w.heap.length).1⟩,
                            ⟨Call.delete_Fam_Context w.heap.length, Except.error e⟩] })
                    | none =>
                      (Outcome.ok none,
                        { w with
                          eng := { w.eng with
                            serverAddrNameLen := (env.fabric_getname_len w.heap.length).1
                            serverAddrName := some (env.fabric_getname w.heap.length).2 }
                          heap := w.heap ++ [⟨true, [], false⟩]
                          trace := w.trace ++ [⟨Call.new_Fam_Context w.heap.length, Except.ok 0⟩,
                            ⟨Call.fabric_enable_bind_ep w.heap.length,
                  Except.ok (env.fabric_enable_bind_ep w.heap.length)⟩,
                            ⟨Call.fabric_getname_len w.heap.length,
                  Except.ok (env.fabric_getname_len w.heap.length).2⟩,
                            ⟨Call.fabric_getname w.heap.length,
                  Except.ok (env.fabric_getname w.heap.length).1⟩,
                            ⟨Call.delete_Fam_Context w.heap.length, Except.ok 0⟩] }) := by
  cases ht : env.throws w.trace.length
  swap
  · simp only [initialize_server, new_Fam_Context, fabric_enable_bind_ep, delete_Fam_Context, extern_call, M.bind_apply, M.andThen, M.get, M.halt,
      M.raise, M.modify, M.modifyEng, M.pure_apply, ht, if_false, if_true,
      List.length_append, List.length_singleton, List.append_assoc, List.singleton_append,
      List.cons_append, List.nil_append, List.length_cons, List.length_nil, Nat.add_assoc,
      Nat.zero_add, Nat.reduceAdd, modify_length_append, reduceCtorEq]
  cases ht1 : env.throws (w.trace.length + 1)
  swap
  · simp only [initialize_server, new_Fam_Context, fabric_enable_bind_ep, delete_Fam_Context, extern_call, M.bind_apply, M.andThen, M.get, M.halt,
      M.raise, M.modify, M.modifyEng, M.pure_apply, ht, ht1, if_false, if_true,
      List.length_append, List.length_singleton, List.append_assoc, List.singleton_append,
      List.cons_append, List.nil_append, List.length_cons, List.length_nil, Nat.add_assoc,
      Nat.zero_add, Nat.reduceAdd, modify_length_append, reduceCtorEq]
  by_cases hen : env.fabric_enable_bind_ep w.heap.length < 0
  · have henn : ¬ (0 ≤ env.fabric_enable_bind_ep w.heap.length) := by omega
    simp only [initialize_server, new_Fam_Context, fabric_enable_bind_ep, delete_Fam_Context, extern_call, M.bind_apply, M.andThen, M.get, M.halt,
      M.raise, M.modify, M.modifyEng, M.pure_apply, ht, ht1, hen, henn, if_false, if_true,
      List.length_append, List.length_singleton, List.append_assoc, List.singleton_append,
      List.cons_append, List.nil_append, List.length_cons, List.length_nil, Nat.add_assoc,
      Nat.zero_add, Nat.reduceAdd, modify_length_append, reduceCtorEq]
  have henp : 0 ≤ env.fabric_enable_bind_ep w.heap.length := by omega
  cases ht2 : env.throws (w.trace.length + 2)
  swap
  · simp only [initialize_server, new_Fam_Context, fabric_enable_bind_ep, delete_Fam_Context, extern_call, M.bind_apply, M.andThen, M.get, M.halt,
      M.raise, M.modify, M.modifyEng, M.pure_apply, ht, ht1, hen, henp, ht2, if_false, if_true,
      List.length_append, List.length_singleton, List.append_assoc, List.singleton_append,
      List.cons_append, List.nil_append, List.length_cons, List.length_nil, Nat.add_assoc,
      Nat.zero_add, Nat.reduceAdd, modify_length_append, reduceCtorEq]
  by_cases hlen : (env.fabric_getname_len w.heap.length).1 ≤ 0
  · simp only [initialize_server, new_Fam_Context, fabric_enable_bind_ep, delete_Fam_Context, extern_call, M.bind_apply, M.andThen, M.get, M.halt,
      M.raise, M.modify, M.modifyEng, M.pure_apply, ht, ht1, hen, henp, ht2, hlen, if_false, if_true,
      List.length_append, List.length_singleton, List.append_assoc, List.singleton_append,
      List.cons_append, List.nil_append, List.length_cons, List.length_nil, Nat.add_assoc,
      Nat.zero_add, Nat.reduceAdd, modify_length_append, reduceCtorEq]
  cases ht3 : env.throws (w.trace.length + 3)
  swap
  · simp only [initialize_server, new_Fam_Context, fabric_enable_bind_ep, delete_Fam_Context, extern_call, M.bind_apply, M.andThen, M.get, M.halt,
      M.raise, M.modify, M.modifyEng, M.pure_apply, ht, ht1, hen, henp, ht2, hlen, ht3, if_false, if_true,
      List.length_append, List.length_singleton, List.append_assoc, List.singleton_append,
      List.cons_append, List.nil_append, List.length_cons, List.length_nil, Nat.add_assoc,
      Nat.zero_add, Nat.reduceAdd, modify_length_append, reduceCtorEq]
  by_cases hgn : (env.fabric_getname w.heap.length).1 < 0
  · simp only [initialize_server, new_Fam_Context, fabric_enable_bind_ep, delete_Fam_Context, extern_call, M.bind_apply, M.andThen, M.get, M.halt,
      M.raise, M.modify, M.modifyEng, M.pure_apply, ht, ht1, hen, henp, ht2, hlen, ht3, hgn, if_false, if_true,
      List.length_append, List.length_singleton, List.append_assoc, List.singleton_append,
      List.cons_append, List.nil_append, List.length_cons, List.length_nil, Nat.add_assoc,
      Nat.zero_add, Nat.reduceAdd, modify_length_append, reduceCtorEq]
  cases ht4 : env.throws (w.trace.length + 4)
  · simp only [initialize_server, new_Fam_Context, fabric_enable_bind_ep, delete_Fam_Context, extern_call, M.bind_apply, M.andThen, M.get, M.halt,
      M.raise, M.modify, M.modifyEng, M.pure_apply, ht, ht1, hen, henp, ht2, hlen, ht3, hgn, ht4, if_false, if_true,
      List.length_append, List.length_singleton, List.append_assoc, List.singleton_append,
      List.cons_append, List.nil_append, List.length_cons, List.length_nil, Nat.add_assoc,
      Nat.zero_add, Nat.reduceAdd, modify_length_append, reduceCtorEq]
  · simp only [initialize_server, new_Fam_Context, fabric_enable_bind_ep, delete_Fam_Context, extern_call, M.bind_apply, M.andThen, M.get, M.halt,
      M.raise, M.modify, M.modifyEng, M.pure_apply, ht, ht1, hen, henp, ht2, hlen, ht3, hgn, ht4, if_false, if_true,
      List.length_append, List.length_singleton, List.append_assoc, List.singleton_append,
      List.cons_append, List.nil_append, List.length_cons, List.length_nil, Nat.add_assoc,
      Nat.zero_add, Nat.reduceAdd, modify_length_append, reduceCtorEq]

/-- The outcome and final world of the default-context step, path by path. -/
theorem initialize_defaultCtx_eq (env : Env) (nodeId : Nat) (w : World) :
    initialize_defaultCtx env nodeId w =
      if w.eng.famContextModel = Fam_Context_Model.FAM_CONTEXT_DEFAULT then
        match env.throws w.trace.length with
        | some e =>
          (Outcome.throw e,
            { w with trace := w.trace ++ [⟨Call.new_Fam_Context w.heap.length, Except.error e⟩] })
        | none =>
          match env.throws (w.trace.length + 1) with
          | some e =>
            (Outcome.throw e,
              { w with
                eng := { w.eng with defContexts := w.eng.defContexts.insert nodeId w.heap.length }
                heap := w.heap ++ [⟨false, [], true⟩]
                trace := w.trace ++ [⟨Call.new_Fam_Context w.heap.length, Except.ok 0⟩,
                  ⟨Call.fabric_enable_bind_ep w.heap.length, Except.error e⟩] })
          | none =>
            if env.fabric_enable_bind_ep w.heap.length < 0 then
              (Outcome.ok (some (env.fabric_enable_bind_ep w.heap.length)),
                { w with
                  eng := { w.eng with
                    defContexts := w.eng.defContexts.insert nodeId w.heap.length }
                  heap := w.heap ++ [⟨false, [], true⟩]
                  trace := w.trace ++ [⟨Call.new_Fam_Context w.heap.length, Except.ok 0⟩,
                    ⟨Call.fabric_enable_bind_ep w.heap.length,
                  Except.ok (env.fabric_enable_bind_ep w.heap.length)⟩] })
            else
              (Outcome.ok none,
                { w with
                  eng := { w.eng with
                    defContexts := w.eng.defContexts.insert nodeId w.heap.length }
                  heap := w.heap ++ [⟨true, [], true⟩]
                  trace := w.trace ++ [⟨Call.new_Fam_Context w.heap.length, Except.ok 0⟩,
                    ⟨Call.fabric_enable_bind_ep w.heap.length,
                  Except.ok (env.fabric_enable_bind_ep w.heap.length)⟩] })
      else (Outcome.ok none, w) := by
  by_cases hD : w.eng.famContextModel = Fam_Context_Model.FAM_CONTEXT_DEFAULT
  swap
  · simp only [initialize_defaultCtx, new_Fam_Context, fabric_enable_bind_ep, extern_call, M.bind_apply, M.andThen, M.get, M.halt,
      M.raise, M.modify, M.modifyEng, M.pure_apply, hD, if_false, if_true,
      List.length_append, List.length_singleton, List.append_assoc, List.singleton_append,
      List.cons_append, List.nil_append, List.length_cons, List.length_nil, Nat.add_assoc,
      Nat.zero_add, Nat.reduceAdd, modify_length_append, reduceCtorEq]
  cases ht : env.throws w.trace.length
  swap
  · simp only [initialize_defaultCtx, new_Fam_Context, fabric_enable_bind_ep, extern_call, M.bind_apply, M.andThen, M.get, M.halt,
      M.raise, M.modify, M.modifyEng, M.pure_apply, hD, ht, if_false, if_true,
      List.length_append, List.length_singleton, List.append_assoc, List.singleton_append,
      List.cons_append, List.nil_append, List.length_cons, List.length_nil, Nat.add_assoc,
      Nat.zero_add, Nat.reduceAdd, modify_length_append, reduceCtorEq]
  cases ht1 : env.throws (w.trace.length + 1)
  swap
  · simp only [initialize_defaultCtx, new_Fam_Context, fabric_enable_bind_ep, extern_call, M.bind_apply, M.andThen, M.get, M.halt,
      M.raise, M.modify, M.modifyEng, M.pure_apply, hD, ht, ht1, if_false, if_true,
      List.length_append, List.length_singleton, List.append_assoc, List.singleton_append,
      List.cons_append, List.nil_append, List.length_cons, List.length_nil, Nat.add_assoc,
      Nat.zero_add, Nat.reduceAdd, modify_length_append, reduceCtorEq]
  by_cases hen : env.fabric_enable_bind_ep w.heap.length < 0
  · have henn : ¬ (0 ≤ env.fabric_enable_bind_ep w.heap.length) := by omega
    simp only [initialize_defaultCtx, new_Fam_Context, fabric_enable_bind_ep, extern_call, M.bind_apply, M.andThen, M.get, M.halt,
      M.raise, M.modify, M.modifyEng, M.pure_apply, hD, ht, ht1, hen, henn, if_false, if_true,
      List.length_append, List.length_singleton, List.append_assoc, List.singleton_append,
      List.cons_append, List.nil_append, List.length_cons, List.length_nil, Nat.add_assoc,
      Nat.zero_add, Nat.reduceAdd, modify_length_append, reduceCtorEq]
  · have henp : 0 ≤ env.fabric_enable_bind_ep w.heap.length := by omega
    simp only [initialize_defaultCtx, new_Fam_Context, fabric_enable_bind_ep, extern_call, M.bind_apply, M.andThen, M.get, M.halt,
      M.raise, M.modify, M.modifyEng, M.pure_apply, hD, ht, ht1, hen, henp, if_false, if_true,
      List.length_append, List.length_singleton, List.append_assoc, List.singleton_append,
      List.cons_append, List.nil_append, List.length_cons, List.length_nil, Nat.add_assoc,
      Nat.zero_add, Nat.reduceAdd, modify_length_append, reduceCtorEq]
/-! ## Failures reported during initialisation (C8, C9) -/

theorem LastWord.seq (B : Event → Prop) (C : Event → Outcome (Option Int) → Prop)
    (m1 m2 : M (Option Int)) (h1 : LastWord B C m1) (h2 : LastWord B C m2) :
    LastWord B C (do
      let r ← m1
      match r with
      | some ret => pure (some ret)
      | none => m2) := by
  intro w
  obtain ⟨evs1, ht1, hb1⟩ := h1 w
  rw [M.bind_apply]
  unfold M.andThen
  rcases hm : m1 w with ⟨o, w1⟩
  rw [hm] at ht1 hb1
  cases o with
  | throw e => exact ⟨evs1, ht1, hb1⟩
  | stuck s => exact ⟨evs1, ht1, hb1⟩
  | ok r =>
    cases r with
    | some ret => exact ⟨evs1, ht1, hb1⟩
    | none =>
      simp only at ht1 hb1 ⊢
      obtain ⟨evs2, ht2, hb2⟩ := h2 w1
      refine ⟨evs1 ++ evs2, by rw [ht2, ht1, List.append_assoc], ?_⟩
      intro ev hev hB
      rcases List.mem_append.mp hev with h | h
      · exact absurd rfl (hb1 ev h hB).2.2
      · obtain ⟨hc, hlast, hne⟩ := hb2 ev h hB
        refine ⟨hc, ?_, hne⟩
        have hne2 : evs2 ≠ [] := by
          intro h0; rw [h0] at h; simp at h
        rw [List.getLast?_append_of_ne_nil _ hne2]
        exact hlast

theorem LastWord.client_allocator (env : Env) (nodeId : Nat) :
    LastWord (allocatorFailure env)
      (fun _ o => o = Outcome.throw Fam_Error.Allocator)
      (initialize_client env nodeId) := by
  intro w
  rw [initialize_client_eq]
  repeat' split
  all_goals first
    | refine ⟨[], (List.append_nil _).symm, ?_⟩
    | refine ⟨_, rfl, ?_⟩
  all_goals simp [allocatorFailure]
  all_goals omega

theorem LastWord.server_allocator (env : Env) :
    LastWord (allocatorFailure env)
      (fun _ o => o = Outcome.throw Fam_Error.Allocator)
      (initialize_server env) := by
  intro w
  rw [initialize_server_eq]
  repeat' split
  all_goals first
    | refine ⟨[], (List.append_nil _).symm, ?_⟩
    | refine ⟨_, rfl, ?_⟩
  all_goals simp [allocatorFailure]

theorem LastWord.defaultCtx_allocator (env : Env) (nodeId : Nat) :
    LastWord (allocatorFailure env)
      (fun _ o => o = Outcome.throw Fam_Error.Allocator)
      (initialize_defaultCtx env nodeId) := by
  intro w
  rw [initialize_defaultCtx_eq]
  repeat' split
  all_goals first
    | refine ⟨[], (List.append_nil _).symm, ?_⟩
    | refine ⟨_, rfl, ?_⟩
  all_goals simp [allocatorFailure]

theorem LastWord.node (B : Event → Prop) (C : Event → Outcome (Option Int) → Prop) (env : Env)
    (hc : ∀ nodeId, LastWord B C (initialize_client env nodeId))
    (hs : LastWord B C (initialize_server env))
    (hd : ∀ nodeId, LastWord B C (initialize_defaultCtx env nodeId)) (nodeId : Nat) :
    LastWord B C (initialize_node env nodeId) := by
  intro w
  have h1 : LastWord B C
      (if !w.eng.isSource then initialize_client env nodeId else initialize_server env) := by
    split
    · exact hc nodeId
    · exact hs
  exact LastWord.seq B C _ _ h1 (hd nodeId) w

theorem LastWord.loop (B : Event → Prop) (C : Event → Outcome (Option Int) → Prop) (env : Env)
    (hn : ∀ nodeId, LastWord B C (initialize_node env nodeId)) :
    ∀ todo nodeId, LastWord B C (initialize_loop env todo nodeId) := by
  intro todo
  induction todo with
  | zero =>
    intro nodeId w
    exact ⟨[], (List.append_nil _).symm, fun ev hev => absurd hev (List.not_mem_nil ev)⟩
  | succ todo ih =>
    intro nodeId
    exact LastWord.seq B C _ _ (hn nodeId) (ih (nodeId + 1))

/-- The loop of `initialize`: an allocator failure has the last word and makes
the loop throw `Fam_Allocator_Exception`. -/
theorem initialize_loop_allocator (env : Env) (todo nodeId : Nat) :
    LastWord (allocatorFailure env) (fun _ o => o = Outcome.throw Fam_Error.Allocator)
      (initialize_loop env todo nodeId) :=
  LastWord.loop _ _ env
    (LastWord.node _ _ env (LastWord.client_allocator env) (LastWord.server_allocator env)
      (LastWord.defaultCtx_allocator env)) todo nodeId

/-- The end of `initialize`: how the result of the loop becomes the result. -/
theorem initialize_servers_eq (env : Env) (w : World) :
    initialize_servers env w =
      match initialize_loop env w.eng.name.length 0 w with
      | (Outcome.ok (some ret), w1) => (Outcome.ok ret, w1)
      | (Outcome.ok none, w1) =>
        (Outcome.ok 0, { w1 with eng := { w1.eng with fabric_iov_limit := env.rma_iov_limit } })
      | (Outcome.throw e, w1) => (Outcome.throw e, w1)
      | (Outcome.stuck s, w1) => (Outcome.stuck s, w1) := by
  simp only [initialize_servers, M.bind_apply, M.andThen, M.get]
  rcases initialize_loop env w.eng.name.length 0 w with ⟨o, w1⟩
  cases o with
  | ok r => cases r <;> rfl
  | throw e => rfl
  | stuck s => rfl

/-- The outcome and final world of `initialize` up to the loop over the memory
servers, path by path. -/
theorem initialize_eq (env : Env) (w : World) :
    Fam_Ops_Libfabric.initialize env w =
      if w.eng.name.length = 0 then (Outcome.throw Fam_Error.Datapath, w)
      else
        match env.throws w.trace.length with
        | some e =>
          (Outcome.throw e,
            { initialize_entry w with
              trace := w.trace ++ [⟨Call.fabric_initialize, Except.error e⟩] })
        | none =>
          if env.fabric_initialize_ret < 0 then
            (Outcome.ok env.fabric_initialize_ret,
              { initialize_entry w with trace := w.trace ++ [⟨Call.fabric_initialize, Except.ok env.fabric_initialize_ret⟩] })
          else if env.ep_type_is_RDM = true then
            match env.throws (w.trace.length + 1) with
            | some e =>
              (Outcome.throw e,
                { initialize_entry w with
                  eng := { (initialize_entry w).eng with
                    fi := true, fabric := true, eq := true, domain := true }
                  trace := w.trace ++ [⟨Call.fabric_initialize, Except.ok env.fabric_initialize_ret⟩,
                    ⟨Call.fabric_initialize_av, Except.error e⟩] })
            | none =>
              if env.fabric_initialize_av_ret < 0 then
                (Outcome.ok env.fabric_initialize_av_ret,
                  { initialize_entry w with
                    eng := { (initialize_entry w).eng with
                      fi := true, fabric := true, eq := true, domain := true }
                    trace := w.trace ++ [⟨Call.fabric_initialize, Except.ok env.fabric_initialize_ret⟩,
                      ⟨Call.fabric_initialize_av, Except.ok env.fabric_initialize_av_ret⟩] })
              else
                initialize_servers env
                  { initialize_entry w with
                    eng := { (initialize_entry w).eng with
                      fi := true, fabric := true, eq := true, domain := true, av := true }
                    trace := w.trace ++ [⟨Call.fabric_initialize, Except.ok env.fabric_initialize_ret⟩,
                      ⟨Call.fabric_initialize_av, Except.ok env.fabric_initialize_av_ret⟩] }
          else
            initialize_servers env
              { initialize_entry w with
                eng := { (initialize_entry w).eng with
                  fi := true, fabric := true, eq := true, domain := true }
                trace := w.trace ++ [⟨Call.fabric_initialize, Except.ok env.fabric_initialize_ret⟩] } := by
  by_cases hn : w.eng.name.length = 0
  · simp only [ Fam_Ops_Libfabric.initialize, name_at, initialize_entry, extern_call, M.bind_apply, M.andThen, M.get, M.halt,
      M.raise, M.modify, M.modifyEng, M.pure_apply, hn, if_false, if_true,
      List.length_append, List.length_singleton, List.append_assoc, List.singleton_append,
      List.cons_append, List.nil_append, List.length_cons, List.length_nil, Nat.add_assoc,
      Nat.zero_add, Nat.reduceAdd, modify_length_append, reduceCtorEq]
  by_cases hR : w.eng.famContextModel = Fam_Context_Model.FAM_CONTEXT_REGION
  · cases hf : w.eng.name.find 0
    ·
      cases ht : env.throws w.trace.length
      swap
      · simp only [ Fam_Ops_Libfabric.initialize, name_at, initialize_entry, extern_call, M.bind_apply, M.andThen, M.get, M.halt,
          M.raise, M.modify, M.modifyEng, M.pure_apply, hn, hR, hf, ht, if_false, if_true,
          List.length_append, List.length_singleton, List.append_assoc, List.singleton_append,
          List.cons_append, List.nil_append, List.length_cons, List.length_nil, Nat.add_assoc,
          Nat.zero_add, Nat.reduceAdd, modify_length_append, reduceCtorEq]
      by_cases hfi : env.fabric_initialize_ret < 0
      · simp only [ Fam_Ops_Libfabric.initialize, name_at, initialize_entry, extern_call, M.bind_apply, M.andThen, M.get, M.halt,
          M.raise, M.modify, M.modifyEng, M.pure_apply, hn, hR, hf, ht, hfi, if_false, if_true,
          List.length_append, List.length_singleton, List.append_assoc, List.singleton_append,
          List.cons_append, List.nil_append, List.length_cons, List.length_nil, Nat.add_assoc,
          Nat.zero_add, Nat.reduceAdd, modify_length_append, reduceCtorEq]
      cases hrdm : env.ep_type_is_RDM
      · simp only [ Fam_Ops_Libfabric.initialize, name_at, initialize_entry, extern_call, M.bind_apply, M.andThen, M.get, M.halt,
          M.raise, M.modify, M.modifyEng, M.pure_apply, hn, hR, hf, ht, hfi, hrdm, if_false, if_true,
          List.length_append, List.length_singleton, List.append_assoc, List.singleton_append,
          List.cons_append, List.nil_append, List.length_cons, List.length_nil, Nat.add_assoc,
          Nat.zero_add, Nat.reduceAdd, modify_length_append, reduceCtorEq]
      cases ht1 : env.throws (w.trace.length + 1)
      swap
      · simp only [ Fam_Ops_Libfabric.initialize, name_at, initialize_entry, extern_call, M.bind_apply, M.andThen, M.get, M.halt,
          M.raise, M.modify, M.modifyEng, M.pure_apply, hn, hR, hf, ht, hfi, hrdm, ht1, if_false, if_true,
          List.length_append, List.length_singleton, List.append_assoc, List.singleton_append,
          List.cons_append, List.nil_append, List.length_cons, List.length_nil, Nat.add_assoc,
          Nat.zero_add, Nat.reduceAdd, modify_length_append, reduceCtorEq]
      by_cases hav : env.fabric_initialize_av_ret < 0
      · simp only [ Fam_Ops_Libfabric.initialize, name_at, initialize_entry, extern_call, M.bind_apply, M.andThen, M.get, M.halt,
          M.raise, M.modify, M.modifyEng, M.pure_apply, hn, hR, hf, ht, hfi, hrdm, ht1, hav, if_false, if_true,
          List.length_append, List.length_singleton, List.append_assoc, List.singleton_append,
          List.cons_append, List.nil_append, List.length_cons, List.length_nil, Nat.add_assoc,
          Nat.zero_add, Nat.reduceAdd, modify_length_append, reduceCtorEq]
      · simp only [ Fam_Ops_Libfabric.initialize, name_at, initialize_entry, extern_call, M.bind_apply, M.andThen, M.get, M.halt,
          M.raise, M.modify, M.modifyEng, M.pure_apply, hn, hR, hf, ht, hfi, hrdm, ht1, hav, if_false, if_true,
          List.length_append, List.length_singleton, List.append_assoc, List.singleton_append,
          List.cons_append, List.nil_append, List.length_cons, List.length_nil, Nat.add_assoc,
          Nat.zero_add, Nat.reduceAdd, modify_length_append, reduceCtorEq]
    ·
      cases ht : env.throws w.trace.length
      swap
      · simp only [ Fam_Ops_Libfabric.initialize, name_at, initialize_entry, extern_call, M.bind_apply, M.andThen, M.get, M.halt,
          M.raise, M.modify, M.modifyEng, M.pure_apply, hn, hR, hf, ht, if_false, if_true,
          List.length_append, List.length_singleton, List.append_assoc, List.singleton_append,
          List.cons_append, List.nil_append, List.length_cons, List.length_nil, Nat.add_assoc,
          Nat.zero_add, Nat.reduceAdd, modify_length_append, reduceCtorEq]
      by_cases hfi : env.fabric_initialize_ret < 0
      · simp only [ Fam_Ops_Libfabric.initialize, name_at, initialize_entry, extern_call, M.bind_apply, M.andThen, M.get, M.halt,
          M.raise, M.modify, M.modifyEng, M.pure_apply, hn, hR, hf, ht, hfi, if_false, if_true,
          List.length_append, List.length_singleton, List.append_assoc, List.singleton_append,
          List.cons_append, List.nil_append, List.length_cons, List.length_nil, Nat.add_assoc,
          Nat.zero_add, Nat.reduceAdd, modify_length_append, reduceCtorEq]
      cases hrdm : env.ep_type_is_RDM
      · simp only [ Fam_Ops_Libfabric.initialize, name_at, initialize_entry, extern_call, M.bind_apply, M.andThen, M.get, M.halt,
          M.raise, M.modify, M.modifyEng, M.pure_apply, hn, hR, hf, ht, hfi, hrdm, if_false, if_true,
          List.length_append, List.length_singleton, List.append_assoc, List.singleton_append,
          List.cons_append, List.nil_append, List.length_cons, List.length_nil, Nat.add_assoc,
          Nat.zero_add, Nat.reduceAdd, modify_length_append, reduceCtorEq]
      cases ht1 : env.throws (w.trace.length + 1)
      swap
      · simp only [ Fam_Ops_Libfabric.initialize, name_at, initialize_entry, extern_call, M.bind_apply, M.andThen, M.get, M.halt,
          M.raise, M.modify, M.modifyEng, M.pure_apply, hn, hR, hf, ht, hfi, hrdm, ht1, if_false, if_true,
          List.length_append, List.length_singleton, List.append_assoc, List.singleton_append,
          List.cons_append, List.nil_append, List.length_cons, List.length_nil, Nat.add_assoc,
          Nat.zero_add, Nat.reduceAdd, modify_length_append, reduceCtorEq]
      by_cases hav : env.fabric_initialize_av_ret < 0
      · simp only [ Fam_Ops_Libfabric.initialize, name_at, initialize_entry, extern_call, M.bind_apply, M.andThen, M.get, M.halt,
          M.raise, M.modify, M.modifyEng, M.pure_apply, hn, hR, hf, ht, hfi, hrdm, ht1, hav, if_false, if_true,
          List.length_append, List.length_singleton, List.append_assoc, List.singleton_append,
          List.cons_append, List.nil_append, List.length_cons, List.length_nil, Nat.add_assoc,
          Nat.zero_add, Nat.reduceAdd, modify_length_append, reduceCtorEq]
      · simp only [ Fam_Ops_Libfabric.initialize, name_at, initialize_entry, extern_call, M.bind_apply, M.andThen, M.get, M.halt,
          M.raise, M.modify, M.modifyEng, M.pure_apply, hn, hR, hf, ht, hfi, hrdm, ht1, hav, if_false, if_true,
          List.length_append, List.length_singleton, List.append_assoc, List.singleton_append,
          List.cons_append, List.nil_append, List.length_cons, List.length_nil, Nat.add_assoc,
          Nat.zero_add, Nat.reduceAdd, modify_length_append, reduceCtorEq]
  · cases hf : w.eng.name.find 0
    ·
      cases ht : env.throws w.trace.length
      swap
      · simp only [ Fam_Ops_Libfabric.initialize, name_at, initialize_entry, extern_call, M.bind_apply, M.andThen, M.get, M.halt,
          M.raise, M.modify, M.modifyEng, M.pure_apply, hn, hR, hf, ht, if_false, if_true,
          List.length_append, List.length_singleton, List.append_assoc, List.singleton_append,
          List.cons_append, List.nil_append, List.length_cons, List.length_nil, Nat.add_assoc,
          Nat.zero_add, Nat.reduceAdd, modify_length_append, reduceCtorEq]
      by_cases hfi : env.fabric_initialize_ret < 0
      · simp only [ Fam_Ops_Libfabric.initialize, name_at, initialize_entry, extern_call, M.bind_apply, M.andThen, M.get, M.halt,
          M.raise, M.modify, M.modifyEng, M.pure_apply, hn, hR, hf, ht, hfi, if_false, if_true,
          List.length_append, List.length_singleton, List.append_assoc, List.singleton_append,
          List.cons_append, List.nil_append, List.length_cons, List.length_nil, Nat.add_assoc,
          Nat.zero_add, Nat.reduceAdd, modify_length_append, reduceCtorEq]
      cases hrdm : env.ep_type_is_RDM
      · simp only [ Fam_Ops_Libfabric.initialize, name_at, initialize_entry, extern_call, M.bind_apply, M.andThen, M.get, M.halt,
          M.raise, M.modify, M.modifyEng, M.pure_apply, hn, hR, hf, ht, hfi, hrdm, if_false, if_true,
          List.length_append, List.length_singleton, List.append_assoc, List.singleton_append,
          List.cons_append, List.nil_append, List.length_cons, List.length_nil, Nat.add_assoc,
          Nat.zero_add, Nat.reduceAdd, modify_length_append, reduceCtorEq]
      cases ht1 : env.throws (w.trace.length + 1)
      swap
      · simp only [ Fam_Ops_Libfabric.initialize, name_at, initialize_entry, extern_call, M.bind_apply, M.andThen, M.get, M.halt,
          M.raise, M.modify, M.modifyEng, M.pure_apply, hn, hR, hf, ht, hfi, hrdm, ht1, if_false, if_true,
          List.length_append, List.length_singleton, List.append_assoc, List.singleton_append,
          List.cons_append, List.nil_append, List.length_cons, List.length_nil, Nat.add_assoc,
          Nat.zero_add, Nat.reduceAdd, modify_length_append, reduceCtorEq]
      by_cases hav : env.fabric_initialize_av_ret < 0
      · simp only [ Fam_Ops_Libfabric.initialize, name_at, initialize_entry, extern_call, M.bind_apply, M.andThen, M.get, M.halt,
          M.raise, M.modify, M.modifyEng, M.pure_apply, hn, hR, hf, ht, hfi, hrdm, ht1, hav, if_false, if_true,
          List.length_append, List.length_singleton, List.append_assoc, List.singleton_append,
          List.cons_append, List.nil_append, List.length_cons, List.length_nil, Nat.add_assoc,
          Nat.zero_add, Nat.reduceAdd, modify_length_append, reduceCtorEq]
      · simp only [ Fam_Ops_Libfabric.initialize, name_at, initialize_entry, extern_call, M.bind_apply, M.andThen, M.get, M.halt,
          M.raise, M.modify, M.modifyEng, M.pure_apply, hn, hR, hf, ht, hfi, hrdm, ht1, hav, if_false, if_true,
          List.length_append, List.length_singleton, List.append_assoc, List.singleton_append,
          List.cons_append, List.nil_append, List.length_cons, List.length_nil, Nat.add_assoc,
          Nat.zero_add, Nat.reduceAdd, modify_length_append, reduceCtorEq]
    ·
      cases ht : env.throws w.trace.length
      swap
      · simp only [ Fam_Ops_Libfabric.initialize, name_at, initialize_entry, extern_call, M.bind_apply, M.andThen, M.get, M.halt,
          M.raise, M.modify, M.modifyEng, M.pure_apply, hn, hR, hf, ht, if_false, if_true,
          List.length_append, List.length_singleton, List.append_assoc, List.singleton_append,
          List.cons_append, List.nil_append, List.length_cons, List.length_nil, Nat.add_assoc,
          Nat.zero_add, Nat.reduceAdd, modify_length_append, reduceCtorEq]
      by_cases hfi : env.fabric_initialize_ret < 0
      · simp only [ Fam_Ops_Libfabric.initialize, name_at, initialize_entry, extern_call, M.bind_apply, M.andThen, M.get, M.halt,
          M.raise, M.modify, M.modifyEng, M.pure_apply, hn, hR, hf, ht, hfi, if_false, if_true,
          List.length_append, List.length_singleton, List.append_assoc, List.singleton_append,
          List.cons_append, List.nil_append, List.length_cons, List.length_nil, Nat.add_assoc,
          Nat.zero_add, Nat.reduceAdd, modify_length_append, reduceCtorEq]
      cases hrdm : env.ep_type_is_RDM
      · simp only [ Fam_Ops_Libfabric.initialize, name_at, initialize_entry, extern_call, M.bind_apply, M.andThen, M.get, M.halt,
          M.raise, M.modify, M.modifyEng, M.pure_apply, hn, hR, hf, ht, hfi, hrdm, if_false, if_true,
          List.length_append, List.length_singleton, List.append_assoc, List.singleton_append,
          List.cons_append, List.nil_append, List.length_cons, List.length_nil, Nat.add_assoc,
          Nat.zero_add, Nat.reduceAdd, modify_length_append, reduceCtorEq]
      cases ht1 : env.throws (w.trace.length + 1)
      swap
      · simp only [ Fam_Ops_Libfabric.initialize, name_at, initialize_entry, extern_call, M.bind_apply, M.andThen, M.get, M.halt,
          M.raise, M.modify, M.modifyEng, M.pure_apply, hn, hR, hf, ht, hfi, hrdm, ht1, if_false, if_true,
          List.length_append, List.length_singleton, List.append_assoc, List.singleton_append,
          List.cons_append, List.nil_append, List.length_cons, List.length_nil, Nat.add_assoc,
          Nat.zero_add, Nat.reduceAdd, modify_length_append, reduceCtorEq]
      by_cases hav : env.fabric_initialize_av_ret < 0
      · simp only [ Fam_Ops_Libfabric.initialize, name_at, initialize_entry, extern_call, M.bind_apply, M.andThen, M.get, M.halt,
          M.raise, M.modify, M.modifyEng, M.pure_apply, hn, hR, hf, ht, hfi, hrdm, ht1, hav, if_false, if_true,
          List.length_append, List.length_singleton, List.append_assoc, List.singleton_append,
          List.cons_append, List.nil_append, List.length_cons, List.length_nil, Nat.add_assoc,
          Nat.zero_add, Nat.reduceAdd, modify_length_append, reduceCtorEq]
      · simp only [ Fam_Ops_Libfabric.initialize, name_at, initialize_entry, extern_call, M.bind_apply, M.andThen, M.get, M.halt,
          M.raise, M.modify, M.modifyEng, M.pure_apply, hn, hR, hf, ht, hfi, hrdm, ht1, hav, if_false, if_true,
          List.length_append, List.length_singleton, List.append_assoc, List.singleton_append,
          List.cons_append, List.nil_append, List.length_cons, List.length_nil, Nat.add_assoc,
          Nat.zero_add, Nat.reduceAdd, modify_length_append, reduceCtorEq]
theorem initialize_servers_allocator (env : Env) (w : World) :
    ∃ evs, (initialize_servers env w).2.trace = w.trace ++ evs ∧
      ∀ ev ∈ evs, allocatorFailure env ev →
        (initialize_servers env w).1 = Outcome.throw Fam_Error.Allocator ∧
        evs.getLast? = some ev := by
  obtain ⟨evs, htr, h⟩ := initialize_loop_allocator env w.eng.name.length 0 w
  rw [initialize_servers_eq]
  rcases hl : initialize_loop env w.eng.name.length 0 w with ⟨o, w1⟩
  rw [hl] at htr h
  refine ⟨evs, ?_, fun ev hev hB => ?_⟩
  · cases o with
    | ok r => cases r <;> exact htr
    | throw e => exact htr
    | stuck s => exact htr
  · obtain ⟨h1, h2, _⟩ := h ev hev hB
    simp only at h1
    subst h1
    exact ⟨rfl, h2⟩

theorem newEvents_append (w w1 w2 : World) (pre evs : List Event)
    (h1 : w1.trace = w.trace ++ pre) (h2 : w2.trace = w1.trace ++ evs) :
    newEvents w w2 = pre ++ evs := by
  simp [newEvents, h2, h1]

theorem initialize_servers_allocator_from (env : Env) (w w1 : World) (pre : List Event)
    (hw : w1.trace = w.trace ++ pre) (hpre : ∀ e ∈ pre, ¬ allocatorFailure env e)
    (ev : Event) (hev : ev ∈ newEvents w (initialize_servers env w1).2)
    (hfail : allocatorFailure env ev) :
    (initialize_servers env w1).1 = Outcome.throw Fam_Error.Allocator ∧
    (newEvents w (initialize_servers env w1).2).getLast? = some ev := by
  obtain ⟨evs, htr, h⟩ := initialize_servers_allocator env w1
  rw [newEvents_append w w1 _ pre evs hw htr] at hev ⊢
  rcases List.mem_append.mp hev with h0 | h0
  · exact absurd hfail (hpre ev h0)
  · obtain ⟨h1, h2⟩ := h ev h0 hfail
    refine ⟨h1, ?_⟩
    have hne : evs ≠ [] := by
      intro hnil; rw [hnil] at h0; simp at h0
    rw [List.getLast?_append_of_ne_nil _ hne]
    exact h2

/-- C8 (as amended): when, during `initialize`, `get_addr_size` returns and
leaves a non-positive address length, or `get_addr` returns a negative status,
`initialize` throws `Fam_Allocator_Exception`, and that allocator call is the
last call it makes: no address is inserted into the address vector after it. -/
theorem initialize_allocator_failure (env : Env) (w : World) (ev : Event)
    (hev : ev ∈ newEvents w ( Fam_Ops_Libfabric.initialize env w).2)
    (hfail : allocatorFailure env ev) :
    ( Fam_Ops_Libfabric.initialize env w).1 = Outcome.throw Fam_Error.Allocator ∧
    (newEvents w ( Fam_Ops_Libfabric.initialize env w).2).getLast? = some ev := by
  revert hev
  rw [initialize_eq]
  have hnot1 : ∀ r, ¬ allocatorFailure env ⟨Call.fabric_initialize, r⟩ := by
    intro r h; simp [allocatorFailure] at h
  have hnot2 : ∀ r, ¬ allocatorFailure env ⟨Call.fabric_initialize_av, r⟩ := by
    intro r h; simp [allocatorFailure] at h
  have hpre : ∀ pre : List Event,
      (∀ e ∈ pre, e.call = Call.fabric_initialize ∨ e.call = Call.fabric_initialize_av) →
      ∀ e ∈ pre, ¬ allocatorFailure env e := by
    intro pre h e he hf
    obtain ⟨c, r⟩ := e
    rcases h _ he with h1 | h1
    · simp only at h1; subst h1; exact hnot1 _ hf
    · simp only at h1; subst h1; exact hnot2 _ hf
  repeat' split
  all_goals intro hev
  · simp [newEvents] at hev
  · simp [newEvents] at hev
    subst hev
    exact absurd hfail (hnot1 _)
  · simp [newEvents] at hev
    subst hev
    exact absurd hfail (hnot1 _)
  · simp [newEvents] at hev
    rcases hev with rfl | rfl
    · exact absurd hfail (hnot1 _)
    · exact absurd hfail (hnot2 _)
  · simp [newEvents] at hev
    rcases hev with rfl | rfl
    · exact absurd hfail (hnot1 _)
    · exact absurd hfail (hnot2 _)
  · exact initialize_servers_allocator_from env w _ _ rfl (hpre _ (by simp)) ev hev hfail
  · exact initialize_servers_allocator_from env w _ _ rfl (hpre _ (by simp)) ev hev hfail

set_option maxHeartbeats 1000000 in
/-- C8 (counterexample): `get_addr_size` reports the failure status `-1` for
memory server `0` (the length it wrote is `8`); `initialize` does not throw
the allocator exception: it goes on to insert the address and returns `0`. -/
theorem initialize_ignores_get_addr_size_status :
    newEvents demoDefaultWorld ( Fam_Ops_Libfabric.initialize demoEnvAddrSizeStatus
        demoDefaultWorld).2 =
      [⟨Call.fabric_initialize, Except.ok 0⟩, ⟨Call.fabric_initialize_av, Except.ok 0⟩,
        ⟨Call.get_addr_size 0, Except.ok (-1)⟩, ⟨Call.get_addr 0, Except.ok 0⟩,
        ⟨Call.fabric_insert_av 0 [0], Except.ok 0⟩, ⟨Call.new_Fam_Context 0, Except.ok 0⟩,
        ⟨Call.fabric_enable_bind_ep 0, Except.ok 0⟩] ∧
    ( Fam_Ops_Libfabric.initialize demoEnvAddrSizeStatus demoDefaultWorld).1 = Outcome.ok 0 ∧
    ( Fam_Ops_Libfabric.initialize demoEnvAddrSizeStatus demoDefaultWorld).1 ≠
      Outcome.throw Fam_Error.Allocator := by
  refine ⟨rfl, rfl, ?_⟩
  decide

set_option maxHeartbeats 1000000 in
/-- C8 (witness): `get_addr_size` leaves the length `0` for memory server `0`. -/
theorem initialize_allocator_failure_witness :
    (⟨Call.get_addr_size 0, Except.ok (-1)⟩ : Event) ∈
      newEvents demoDefaultWorld ( Fam_Ops_Libfabric.initialize demoEnvNoAddrSize
        demoDefaultWorld).2 ∧
    allocatorFailure demoEnvNoAddrSize ⟨Call.get_addr_size 0, Except.ok (-1)⟩ ∧
    ( Fam_Ops_Libfabric.initialize demoEnvNoAddrSize demoDefaultWorld).1 =
      Outcome.throw Fam_Error.Allocator ∧
    (newEvents demoDefaultWorld ( Fam_Ops_Libfabric.initialize demoEnvNoAddrSize
        demoDefaultWorld).2).getLast? = some ⟨Call.get_addr_size 0, Except.ok (-1)⟩ :=
  have hev : (⟨Call.get_addr_size 0, Except.ok (-1)⟩ : Event) ∈
      newEvents demoDefaultWorld ( Fam_Ops_Libfabric.initialize demoEnvNoAddrSize
        demoDefaultWorld).2 :=
    List.mem_cons_of_mem _ (List.mem_cons_of_mem _ (List.mem_cons_self _ _))
  have hfail : allocatorFailure demoEnvNoAddrSize ⟨Call.get_addr_size 0, Except.ok (-1)⟩ :=
    Or.inl ⟨0, -1, rfl, by decide⟩
  ⟨hev, hfail, initialize_allocator_failure demoEnvNoAddrSize demoDefaultWorld _ hev hfail⟩

theorem StdMap.find_eq_none_iff {V : Type} (m : StdMap V) (k : Nat) :
    m.find k = none ↔ k ∉ m.keys := by
  induction m with
  | nil => simp [StdMap.find, StdMap.keys]
  | cons x xs ih =>
    obtain ⟨k0, v0⟩ := x
    by_cases h : k0 = k
    · simp [StdMap.find, StdMap.keys, h]
    · have h' : ¬ k = k0 := fun e => h e.symm
      simp only [StdMap.find, h, if_false, ih]
      simp [StdMap.keys, h']

theorem StdMap.insert_of_keys_lt {V : Type} (m : StdMap V) (k : Nat) (v : V)
    (h : ∀ k' ∈ m.keys, k' < k) : m.insert k v = m ++ [(k, v)] := by
  induction m with
  | nil => rfl
  | cons x xs ih =>
    obtain ⟨k0, v0⟩ := x
    have h0 : k0 < k := h k0 (by simp [StdMap.keys])
    have h1 : ¬ k < k0 := by omega
    have h2 : ¬ k = k0 := by omega
    have hxs : ∀ k' ∈ StdMap.keys xs, k' < k := by
      intro k' hk'
      exact h k' (by simp only [StdMap.keys, List.map_cons, List.mem_cons] at hk' ⊢; exact Or.inr hk')
    simp [StdMap.insert, h1, h2, ih hxs]

theorem StdMap.keys_insert_range {V : Type} (m : StdMap V) (j : Nat) (v : V)
    (h : m.keys = List.range j) : (m.insert j v).keys = List.range (j + 1) := by
  rw [StdMap.insert_of_keys_lt m j v (by intro k hk; rw [h] at hk; exact List.mem_range.mp hk)]
  simp [StdMap.keys, List.range_succ] at h ⊢
  exact h

/-- The loop body composes its two halves: the second runs only when the first
falls through. -/
theorem initialize_node_eq (env : Env) (nodeId : Nat) (w : World) :
    initialize_node env nodeId w =
      if ((if !w.eng.isSource then initialize_client env nodeId
          else initialize_server env) w).1 = Outcome.ok none then
        initialize_defaultCtx env nodeId
          ((if !w.eng.isSource then initialize_client env nodeId else initialize_server env) w).2
      else (if !w.eng.isSource then initialize_client env nodeId else initialize_server env) w := by
  simp only [initialize_node, M.bind_apply, M.andThen, M.get]
  rcases (if !w.eng.isSource then initialize_client env nodeId else initialize_server env) w
    with ⟨o, w1⟩
  cases o with
  | ok r => cases r <;> simp [M.pure_apply]
  | throw e => simp
  | stuck s => simp

/-- The loop goes on to the next memory server only when the body falls through. -/
theorem initialize_loop_succ (env : Env) (todo nodeId : Nat) (w : World) :
    initialize_loop env (todo + 1) nodeId w =
      if (initialize_node env nodeId w).1 = Outcome.ok none then
        initialize_loop env todo (nodeId + 1) (initialize_node env nodeId w).2
      else initialize_node env nodeId w := by
  simp only [initialize_loop, M.bind_apply, M.andThen]
  rcases initialize_node env nodeId w with ⟨o, w1⟩
  cases o with
  | ok r => cases r <;> simp [M.pure_apply]
  | throw e => simp
  | stuck s => simp

/-- The client branch: what it never changes, what it appends to the address
registry when it falls through, and the sign of a status it returns. -/
theorem initialize_client_frame (env : Env) (nodeId : Nat) (w : World) :
    (initialize_client env nodeId w).2.heap = w.heap ∧
    (initialize_client env nodeId w).2.eng.defContexts = w.eng.defContexts ∧
    (initialize_client env nodeId w).2.eng.contexts = w.eng.contexts ∧
    (initialize_client env nodeId w).2.eng.name = w.eng.name ∧
    (initialize_client env nodeId w).2.eng.famContextModel = w.eng.famContextModel ∧
    (initialize_client env nodeId w).2.eng.isSource = w.eng.isSource ∧
    (initialize_client env nodeId w).2.descs = w.descs ∧
    ((initialize_client env nodeId w).1 = Outcome.ok none →
      (initialize_client env nodeId w).2.eng.fiAddrs =
        w.eng.fiAddrs ++ [(env.fabric_insert_av nodeId (env.get_addr nodeId).2).2]) ∧
    (∀ r, (initialize_client env nodeId w).1 = Outcome.ok (some r) → r < 0) := by
  rw [initialize_client_eq]
  repeat' split
  all_goals simp
  all_goals assumption

/-- The server branch: what it never changes; it only appends to the heap and
never returns a status. -/
theorem initialize_server_frame (env : Env) (w : World) :
    (∃ suffix, (initialize_server env w).2.heap = w.heap ++ suffix) ∧
    (initialize_server env w).2.eng.defContexts = w.eng.defContexts ∧
    (initialize_server env w).2.eng.contexts = w.eng.contexts ∧
    (initialize_server env w).2.eng.name = w.eng.name ∧
    (initialize_server env w).2.eng.famContextModel = w.eng.famContextModel ∧
    (initialize_server env w).2.eng.isSource = w.eng.isSource ∧
    (initialize_server env w).2.descs = w.descs ∧
    (initialize_server env w).2.eng.fiAddrs = w.eng.fiAddrs ∧
    (∀ r, (initialize_server env w).1 ≠ Outcome.ok (some r)) := by
  rw [initialize_server_eq]
  repeat' split
  all_goals simp

/-- The default-context step: what it never changes, the sign of a status it
returns, and, when it falls through under the default policy, the entry it
adds to the default table: a fresh, enabled context. -/
theorem initialize_defaultCtx_frame (env : Env) (nodeId : Nat) (w : World) :
    (initialize_defaultCtx env nodeId w).2.eng.contexts = w.eng.contexts ∧
    (initialize_defaultCtx env nodeId w).2.eng.name = w.eng.name ∧
    (initialize_defaultCtx env nodeId w).2.eng.famContextModel = w.eng.famContextModel ∧
    (initialize_defaultCtx env nodeId w).2.eng.isSource = w.eng.isSource ∧
    (initialize_defaultCtx env nodeId w).2.descs = w.descs ∧
    (initialize_defaultCtx env nodeId w).2.eng.fiAddrs = w.eng.fiAddrs ∧
    (∀ r, (initialize_defaultCtx env nodeId w).1 = Outcome.ok (some r) → r < 0) ∧
    (w.eng.famContextModel = Fam_Context_Model.FAM_CONTEXT_DEFAULT →
      (initialize_defaultCtx env nodeId w).1 = Outcome.ok none →
      (initialize_defaultCtx env nodeId w).2.eng.defContexts =
        w.eng.defContexts.insert nodeId w.heap.length ∧
      (initialize_defaultCtx env nodeId w).2.heap = w.heap ++ [⟨true, [], true⟩]) ∧
    (w.eng.famContextModel ≠ Fam_Context_Model.FAM_CONTEXT_DEFAULT →
      initialize_defaultCtx env nodeId w = (Outcome.ok none, w)) := by
  rw [initialize_defaultCtx_eq]
  repeat' split
  all_goals simp_all
/-- The first half of the loop body, whichever branch it is: what it never
changes. -/
theorem initialize_branch_frame (env : Env) (nodeId : Nat) (w : World) :
    (∃ suffix, ((if !w.eng.isSource then initialize_client env nodeId
        else initialize_server env) w).2.heap = w.heap ++ suffix) ∧
    ((if !w.eng.isSource then initialize_client env nodeId
        else initialize_server env) w).2.eng.defContexts = w.eng.defContexts ∧
    ((if !w.eng.isSource then initialize_client env nodeId
        else initialize_server env) w).2.eng.contexts = w.eng.contexts ∧
    ((if !w.eng.isSource then initialize_client env nodeId
        else initialize_server env) w).2.eng.name = w.eng.name ∧
    ((if !w.eng.isSource then initialize_client env nodeId
        else initialize_server env) w).2.eng.famContextModel = w.eng.famContextModel ∧
    ((if !w.eng.isSource then initialize_client env nodeId
        else initialize_server env) w).2.descs = w.descs ∧
    (∀ r, ((if !w.eng.isSource then initialize_client env nodeId
        else initialize_server env) w).1 = Outcome.ok (some r) → r < 0) := by
  split
  · obtain ⟨h1, h2, h3, h4, h5, _, h7, _, h9⟩ := initialize_client_frame env nodeId w
    exact ⟨⟨[], by rw [h1, List.append_nil]⟩, h2, h3, h4, h5, h7, h9⟩
  · obtain ⟨h1, h2, h3, h4, h5, _, h7, _, h9⟩ := initialize_server_frame env w
    exact ⟨h1, h2, h3, h4, h5, h7, fun r hr => absurd hr (h9 r)⟩

/-- The loop body: a status it returns is negative, and the region table, the
server names, the policy and the descriptors are left alone. -/
theorem initialize_node_frame (env : Env) (nodeId : Nat) (w : World) :
    (initialize_node env nodeId w).2.eng.contexts = w.eng.contexts ∧
    (initialize_node env nodeId w).2.eng.name = w.eng.name ∧
    (initialize_node env nodeId w).2.eng.famContextModel = w.eng.famContextModel ∧
    (initialize_node env nodeId w).2.descs = w.descs ∧
    (∀ r, (initialize_node env nodeId w).1 = Outcome.ok (some r) → r < 0) := by
  obtain ⟨_, _, h3, h4, h5, h6, h7⟩ := initialize_branch_frame env nodeId w
  rw [initialize_node_eq]
  generalize (if !w.eng.isSource then initialize_client env nodeId
    else initialize_server env) w = br at *
  by_cases hb : br.1 = Outcome.ok none
  · rw [if_pos hb]
    obtain ⟨g1, g2, g3, _, g5, _, g7, _, _⟩ := initialize_defaultCtx_frame env nodeId br.2
    exact ⟨g1.trans h3, g2.trans h4, g3.trans h5, g5.trans h6, g7⟩
  · rw [if_neg hb]
    exact ⟨h3, h4, h5, h6, h7⟩

/-- The loop body under the default policy, when it falls through: the default
table gains the entry of memory server `nodeId` and stays sound. -/
theorem initialize_node_default (env : Env) (nodeId : Nat) (w : World)
    (hD : w.eng.famContextModel = Fam_Context_Model.FAM_CONTEXT_DEFAULT)
    (hok : (initialize_node env nodeId w).1 = Outcome.ok none)
    (hkeys : w.eng.defContexts.keys = List.range nodeId) (hsound : DefaultTableSound w) :
    (initialize_node env nodeId w).2.eng.defContexts.keys = List.range (nodeId + 1) ∧
    DefaultTableSound (initialize_node env nodeId w).2 := by
  obtain ⟨⟨suffix, h1⟩, h2, _, _, h5, _, _⟩ := initialize_branch_frame env nodeId w
  rw [initialize_node_eq] at hok ⊢
  generalize (if !w.eng.isSource then initialize_client env nodeId
    else initialize_server env) w = br at *
  by_cases hbr : br.1 = Outcome.ok none
  swap
  · rw [if_neg hbr] at hok; exact absurd hok hbr
  rw [if_pos hbr] at hok ⊢
  obtain ⟨_, _, _, _, _, _, _, g8, _⟩ := initialize_defaultCtx_frame env nodeId br.2
  obtain ⟨gd, gh⟩ := g8 (h5.trans hD) hok
  rw [h2] at gd
  rw [h1] at gh gd
  have hnone : w.eng.defContexts.find nodeId = none := by
    rw [StdMap.find_eq_none_iff, hkeys]
    simp
  have hfind : ∀ k, (w.eng.defContexts.insert nodeId (w.heap ++ suffix).length).find k =
      if k = nodeId then some (w.heap ++ suffix).length else w.eng.defContexts.find k :=
    fun k => StdMap.find_insert_of_none _ _ _ k hnone
  have hold : ∀ k p, w.eng.defContexts.find k = some p → p < w.heap.length := by
    intro k p hk
    obtain ⟨c, hc, _⟩ := hsound.1 k p hk
    by_contra hlt
    rw [List.getElem?_eq_none (by omega)] at hc
    cases hc
  refine ⟨?_, ?_, ?_⟩
  · rw [gd]
    exact StdMap.keys_insert_range _ _ _ hkeys
  · intro k p hk
    rw [gd, hfind] at hk
    rw [gh]
    split at hk
    · have hp : p = (w.heap ++ suffix).length := (Option.some.inj hk).symm
      subst hp
      exact ⟨⟨true, [], true⟩, List.getElem?_concat_length _ _, rfl, rfl⟩
    · obtain ⟨c, hc, hen⟩ := hsound.1 k p hk
      have hlt := hold k p hk
      refine ⟨c, ?_, hen⟩
      rw [List.append_assoc, List.getElem?_append_left hlt]
      exact hc
  · intro k1 k2 p hk1 hk2
    rw [gd, hfind] at hk1 hk2
    split at hk1 <;> split at hk2
    · rename_i e1 e2; rw [e1, e2]
    · have hp : p = (w.heap ++ suffix).length := (Option.some.inj hk1).symm
      have := hold k2 p hk2
      simp at hp
      omega
    · have hp : p = (w.heap ++ suffix).length := (Option.some.inj hk2).symm
      have := hold k1 p hk1
      simp at hp
      omega
    · exact hsound.2 k1 k2 p hk1 hk2

/-- The loop: a status it returns is negative, and the region table, the server
names, the policy and the descriptors are left alone. -/
theorem initialize_loop_frame (env : Env) :
    ∀ (todo nodeId : Nat) (w : World),
      (initialize_loop env todo nodeId w).2.eng.contexts = w.eng.contexts ∧
      (initialize_loop env todo nodeId w).2.eng.name = w.eng.name ∧
      (initialize_loop env todo nodeId w).2.eng.famContextModel = w.eng.famContextModel ∧
      (initialize_loop env todo nodeId w).2.descs = w.descs ∧
      (∀ r, (initialize_loop env todo nodeId w).1 = Outcome.ok (some r) → r < 0) := by
  intro todo
  induction todo with
  | zero =>
    intro nodeId w
    refine ⟨rfl, rfl, rfl, rfl, fun r hr => ?_⟩
    simp [initialize_loop, M.pure_apply] at hr
  | succ todo ih =>
    intro nodeId w
    obtain ⟨h1, h2, h3, h4, h5⟩ := initialize_node_frame env nodeId w
    rw [initialize_loop_succ]
    by_cases hb : (initialize_node env nodeId w).1 = Outcome.ok none
    · rw [if_pos hb]
      obtain ⟨g1, g2, g3, g4, g5⟩ := ih (nodeId + 1) (initialize_node env nodeId w).2
      exact ⟨g1.trans h1, g2.trans h2, g3.trans h3, g4.trans h4, g5⟩
    · rw [if_neg hb]
      exact ⟨h1, h2, h3, h4, h5⟩

/-- The loop under the default policy, when it runs to its end: the default
table has gained the entries of the memory servers visited and stays sound. -/
theorem initialize_loop_default (env : Env) :
    ∀ (todo nodeId : Nat) (w : World),
      w.eng.famContextModel = Fam_Context_Model.FAM_CONTEXT_DEFAULT →
      (initialize_loop env todo nodeId w).1 = Outcome.ok none →
      w.eng.defContexts.keys = List.range nodeId → DefaultTableSound w →
      (initialize_loop env todo nodeId w).2.eng.defContexts.keys = List.range (nodeId + todo) ∧
      DefaultTableSound (initialize_loop env todo nodeId w).2 := by
  intro todo
  induction todo with
  | zero =>
    intro nodeId w _ _ hkeys hsound
    exact ⟨hkeys, hsound⟩
  | succ todo ih =>
    intro nodeId w hD hok hkeys hsound
    rw [initialize_loop_succ] at hok ⊢
    by_cases hb : (initialize_node env nodeId w).1 = Outcome.ok none
    · rw [if_pos hb] at hok ⊢
      obtain ⟨hk1, hs1⟩ := initialize_node_default env nodeId w hD hb hkeys hsound
      have hD1 := (initialize_node_frame env nodeId w).2.2.1.trans hD
      have := ih (nodeId + 1) _ hD1 hok hk1 hs1
      rw [show nodeId + (todo + 1) = nodeId + 1 + todo by omega]
      exact this
    · rw [if_neg hb] at hok
      exact absurd hok hb

/-- After a run of `initialize` from the loop on that returns `0` under the
default policy, with memory servers keyed `0 .. n-1` and empty tables at the
start. -/
theorem initialize_servers_default (env : Env) (w : World) (n : Nat)
    (hD : w.eng.famContextModel = Fam_Context_Model.FAM_CONTEXT_DEFAULT)
    (hnames : w.eng.name.keys = List.range n)
    (hdef : w.eng.defContexts = []) (hctx : w.eng.contexts = [])
    (hinit : (initialize_servers env w).1 = Outcome.ok 0) :
    (initialize_servers env w).2.eng.defContexts.keys = List.range n ∧
    DefaultTableSound (initialize_servers env w).2 ∧
    (initialize_servers env w).2.eng.contexts = [] ∧
    (initialize_servers env w).2.eng.famContextModel =
      Fam_Context_Model.FAM_CONTEXT_DEFAULT := by
  have hlen : w.eng.name.length = n := by
    have := congrArg List.length hnames
    simpa [StdMap.keys] using this
  obtain ⟨f1, f2, f3, f4, f5⟩ := initialize_loop_frame env w.eng.name.length 0 w
  have hl := initialize_loop_default env w.eng.name.length 0 w hD
  rw [initialize_servers_eq] at hinit ⊢
  rcases hr : initialize_loop env w.eng.name.length 0 w with ⟨o, w1⟩
  rw [hr] at hinit f1 f3 f5 hl
  cases o with
  | throw e => simp at hinit
  | stuck s => simp at hinit
  | ok r =>
    cases r with
    | some ret =>
      have hneg := f5 ret rfl
      simp only [Outcome.ok.injEq] at hinit
      omega
    | none =>
      have hsound0 : DefaultTableSound w := by
        constructor
        · intro k p hk; rw [hdef] at hk; simp [StdMap.find] at hk
        · intro k1 k2 p hk; rw [hdef] at hk; simp [StdMap.find] at hk
      obtain ⟨hk, hs⟩ := hl rfl (by rw [hdef]; rfl) hsound0
      simp only at hk hs f1 f3 ⊢
      rw [hlen, Nat.zero_add] at hk
      exact ⟨hk, hs, f1.trans hctx, f3.trans hD⟩

/-- C10: when `initialize` returns `0` under the default policy on an engine
whose memory servers are keyed `0 .. n-1` and whose context tables are empty
(as the constructors leave them), the default table has exactly the keys
`0 .. n-1`, each entry is its own live context on which enable-and-bind
succeeded, the region table is empty, and for every descriptor with
`memserver_id < n` `get_context` returns the default-table entry of that
memory server and changes nothing. -/
theorem initialize_default_policy (env : Env) (w : World) (n : Nat)
    (hD : w.eng.famContextModel = Fam_Context_Model.FAM_CONTEXT_DEFAULT)
    (hnames : w.eng.name.keys = List.range n)
    (hdef : w.eng.defContexts = []) (hctx : w.eng.contexts = [])
    (hinit : ( Fam_Ops_Libfabric.initialize env w).1 = Outcome.ok 0) :
    ( Fam_Ops_Libfabric.initialize env w).2.eng.defContexts.keys = List.range n ∧
    DefaultTableSound ( Fam_Ops_Libfabric.initialize env w).2 ∧
    ( Fam_Ops_Libfabric.initialize env w).2.eng.contexts = [] ∧
    ∀ d, (( Fam_Ops_Libfabric.initialize env w).2.descs d).memserver_id < n →
      ∃ c, ( Fam_Ops_Libfabric.initialize env w).2.eng.defContexts.find
          (( Fam_Ops_Libfabric.initialize env w).2.descs d).memserver_id = some c ∧
        Fam_Ops_Libfabric.get_context env d ( Fam_Ops_Libfabric.initialize env w).2 =
          (Outcome.ok c, ( Fam_Ops_Libfabric.initialize env w).2) := by
  -- the facts about the table give the behaviour of `get_context`
  suffices h : ( Fam_Ops_Libfabric.initialize env w).2.eng.defContexts.keys = List.range n ∧
      DefaultTableSound ( Fam_Ops_Libfabric.initialize env w).2 ∧
      ( Fam_Ops_Libfabric.initialize env w).2.eng.contexts = [] ∧
      ( Fam_Ops_Libfabric.initialize env w).2.eng.famContextModel =
        Fam_Context_Model.FAM_CONTEXT_DEFAULT by
    obtain ⟨hk, hs, hc, hp⟩ := h
    refine ⟨hk, hs, hc, fun d hd => ?_⟩
    cases hf : ( Fam_Ops_Libfabric.initialize env w).2.eng.defContexts.find
        (( Fam_Ops_Libfabric.initialize env w).2.descs d).memserver_id with
    | none =>
      rw [StdMap.find_eq_none_iff, hk] at hf
      exact absurd (List.mem_range.mpr hd) hf
    | some c =>
      refine ⟨c, rfl, ?_⟩
      rw [get_context_eq, if_pos hp, hf]
  -- the world in which the loop starts has the names and the tables of `w`
  have hlen : w.eng.name.length = n := by
    have := congrArg List.length hnames
    simpa [StdMap.keys] using this
  have hentry : w.eng.name.length ≠ 0 → (initialize_entry w).eng.name = w.eng.name := by
    intro hn
    have h0 : (0 : Nat) ∈ w.eng.name.keys := by
      rw [hnames]; exact List.mem_range.mpr (by omega)
    cases hf : w.eng.name.find 0 with
    | none => exact absurd h0 ((StdMap.find_eq_none_iff _ _).mp hf)
    | some v => simp [initialize_entry, hf]
  revert hinit
  rw [initialize_eq]
  repeat' split
  all_goals intro hinit
  all_goals try (simp at hinit; done)
  all_goals try (simp only [Outcome.ok.injEq] at hinit; omega)
  · rename_i hn _ _ _ _ _ _ _
    exact initialize_servers_default env _ n hD (by simp only [hentry hn]; exact hnames)
      hdef hctx hinit
  · rename_i hn _ _ _ _
    exact initialize_servers_default env _ n hD (by simp only [hentry hn]; exact hnames)
      hdef hctx hinit

set_option maxHeartbeats 1000000 in
/-- C10 (witness): a client engine for the single memory server `0` under the
default policy, all collaborators succeeding. -/
theorem initialize_default_policy_witness :
    demoDefaultWorld.eng.famContextModel = Fam_Context_Model.FAM_CONTEXT_DEFAULT ∧
    demoDefaultWorld.eng.name.keys = List.range 1 ∧
    demoDefaultWorld.eng.defContexts = [] ∧ demoDefaultWorld.eng.contexts = [] ∧
    ( Fam_Ops_Libfabric.initialize demoEnv demoDefaultWorld).1 = Outcome.ok 0 ∧
    ( Fam_Ops_Libfabric.initialize demoEnv demoDefaultWorld).2.eng.defContexts.keys =
      List.range 1 :=
  ⟨rfl, rfl, rfl, rfl, rfl,
    (initialize_default_policy demoEnv demoDefaultWorld 1 rfl rfl rfl rfl rfl).1⟩

/-! ## What the operations keep of the engine -/

theorem keeps_bind {R : World → World → Prop} (htrans : ∀ a b c, R a b → R b c → R a c)
    {α β : Type} {m : M α} {f : α → M β} (hm : Keeps R m) (hf : ∀ a, Keeps R (f a)) :
    Keeps R (m >>= f) := by
  intro w
  have h1 := hm w
  rw [M.bind_apply]
  unfold M.andThen
  cases h : m w with
  | mk o w1 =>
    rw [h] at h1
    cases o with
    | ok a => exact htrans _ _ _ h1 (hf a w1)
    | throw e => exact h1
    | stuck s => exact h1

theorem keeps_read {R : World → World → Prop} {α : Type} {f : World → M α}
    (hf : ∀ w, Keeps R (f w)) : Keeps R (M.get >>= f) := fun w => hf w w

theorem keeps_pure {R : World → World → Prop} (hrefl : ∀ a, R a a) {α : Type} (a : α) :
    Keeps R (pure a : M α) := fun w => hrefl w

theorem keeps_raise {R : World → World → Prop} (hrefl : ∀ a, R a a) {α : Type} (e : Fam_Error) :
    Keeps R (M.raise e : M α) := fun w => hrefl w

theorem keeps_halt {R : World → World → Prop} (hrefl : ∀ a, R a a) {α : Type} (s : Stuck) :
    Keeps R (M.halt s : M α) := fun w => hrefl w

theorem keeps_tryRethrow {R : World → World → Prop} (htrans : ∀ a b c, R a b → R b c → R a c)
    {α : Type} {m : M α} {h : M Unit} (hm : Keeps R m) (hh : Keeps R h) :
    Keeps R (M.tryRethrow m h) := by
  intro w
  have h1 := hm w
  unfold M.tryRethrow
  cases hmw : m w with
  | mk o w1 =>
    rw [hmw] at h1
    cases o with
    | ok a => exact h1
    | stuck s => exact h1
    | throw e =>
      have h2 := hh w1
      simp only
      cases hhw : h w1 with
      | mk o2 w2 =>
        rw [hhw] at h2
        cases o2 <;> exact htrans _ _ _ h1 h2

theorem keeps_discard {R : World → World → Prop} (hrefl : ∀ a, R a a)
    (htrans : ∀ a b c, R a b → R b c → R a c) {α : Type} {m : M α} (hm : Keeps R m) :
    Keeps R (M.discard m) :=
  keeps_bind htrans hm (fun _ => keeps_pure hrefl _)

theorem engineKept_refl (w : World) : EngineKept w w :=
  ⟨rfl, rfl, rfl, fun _ _ h => h, fun _ => rfl⟩

theorem engineKept_trans (a b c : World) (h1 : EngineKept a b) (h2 : EngineKept b c) :
    EngineKept a c := by
  obtain ⟨p1, d1, f1, c1, e1⟩ := h1
  obtain ⟨p2, d2, f2, c2, e2⟩ := h2
  exact ⟨p2.trans p1, d2.trans d1, f2.trans f1, fun k c h => c2 k c (c1 k c h),
    fun h => (e2 (p1.trans h)).trans (e1 h)⟩

/-- A step that leaves the policy, the tables and the registry as they are. -/
theorem engineKept_of_eq (w w1 : World)
    (h1 : w1.eng.famContextModel = w.eng.famContextModel)
    (h2 : w1.eng.defContexts = w.eng.defContexts)
    (h3 : w1.eng.fiAddrs = w.eng.fiAddrs)
    (h4 : w1.eng.contexts = w.eng.contexts) : EngineKept w w1 :=
  ⟨h1, h2, h3, fun k c h => by rw [h4]; exact h, fun _ => h4⟩

theorem extern_call_kept (env : Env) (c : Call) (s : Int) : Keeps EngineKept (extern_call env c s) := by
  intro w
  unfold extern_call
  split <;> exact engineKept_of_eq _ _ rfl rfl rfl rfl

theorem modify_kept (f : World → World)
    (h : ∀ w, (f w).eng.famContextModel = w.eng.famContextModel ∧
      (f w).eng.defContexts = w.eng.defContexts ∧ (f w).eng.fiAddrs = w.eng.fiAddrs ∧
      (f w).eng.contexts = w.eng.contexts) : Keeps EngineKept (M.modify f) := by
  intro w
  obtain ⟨h1, h2, h3, h4⟩ := h w
  exact engineKept_of_eq _ _ h1 h2 h3 h4

theorem get_context_kept (env : Env) (d : Nat) :
    Keeps EngineKept ( Fam_Ops_Libfabric.get_context env d) := by
  intro w
  unfold EngineKept
  rw [get_context_eq]
  repeat' split
  all_goals simp_all [StdMap.find_insert_of_none]
  all_goals (intro k c h hk; rw [hk] at h; simp_all)

theorem fabric_read_kept (env : Env) (key nbytes offset : Nat) (addr : Option Nat) (ctx : Nat) :
    Keeps EngineKept (fabric_read env key nbytes offset addr ctx) :=
  keeps_read (fun _ => keeps_bind engineKept_trans (extern_call_kept env _ _)
    (fun _ => keeps_pure engineKept_refl _))

theorem fabric_write_kept (env : Env) (key : Nat) {nbytes : Nat} (data : Buffer nbytes)
    (offset : Nat) (addr : Option Nat) (ctx : Nat) :
    Keeps EngineKept (fabric_write env key data offset addr ctx) :=
  keeps_read (fun _ => keeps_bind engineKept_trans (extern_call_kept env _ _)
    (fun _ => keeps_bind engineKept_trans
      (modify_kept _ (fun _ => ⟨rfl, rfl, rfl, rfl⟩)) (fun _ => keeps_pure engineKept_refl _)))

theorem post_outstanding_kept (ctx id : Nat) : Keeps EngineKept (post_outstanding ctx id) :=
  modify_kept _ (fun _ => ⟨rfl, rfl, rfl, rfl⟩)

theorem fabric_write_nonblocking_kept (env : Env) (key : Nat) {nbytes : Nat}
    (data : Buffer nbytes) (offset : Nat) (addr : Option Nat) (ctx : Nat) :
    Keeps EngineKept (fabric_write_nonblocking env key data offset addr ctx) :=
  keeps_read (fun _ => keeps_bind engineKept_trans (extern_call_kept env _ _)
    (fun _ => post_outstanding_kept _ _))

theorem fabric_read_nonblocking_kept (env : Env) (key nbytes offset : Nat) (addr : Option Nat)
    (ctx : Nat) : Keeps EngineKept (fabric_read_nonblocking env key nbytes offset addr ctx) :=
  keeps_read (fun _ => keeps_bind engineKept_trans (extern_call_kept env _ _)
    (fun _ => post_outstanding_kept _ _))

theorem fabric_fence_kept (env : Env) (addr : Option Nat) (ctx : Nat) :
    Keeps EngineKept (fabric_fence env addr ctx) :=
  keeps_bind engineKept_trans (extern_call_kept env _ _) (fun _ => keeps_pure engineKept_refl _)

theorem fabric_quiet_kept (env : Env) (ctx : Nat) : Keeps EngineKept (fabric_quiet env ctx) :=
  keeps_bind engineKept_trans (extern_call_kept env _ _)
    (fun _ => modify_kept _ (fun _ => ⟨rfl, rfl, rfl, rfl⟩))

theorem fabric_atomic_kept (env : Env) (key : Nat) (value : Bytes) (offset : Nat) (op : fi_op)
    (datatype : fi_datatype) (addr : Option Nat) (ctx : Nat) :
    Keeps EngineKept (fabric_atomic env key value offset op datatype addr ctx) :=
  keeps_bind engineKept_trans (extern_call_kept env _ _)
    (fun _ => modify_kept _ (fun _ => ⟨rfl, rfl, rfl, rfl⟩))

theorem fabric_fetch_atomic_kept (env : Env) (key : Nat) (value : Bytes) (offset : Nat)
    (op : fi_op) (datatype : fi_datatype) (addr : Option Nat) (ctx : Nat) :
    Keeps EngineKept (fabric_fetch_atomic env key value offset op datatype addr ctx) :=
  keeps_bind engineKept_trans (extern_call_kept env _ _)
    (fun _ => keeps_read (fun _ => keeps_bind engineKept_trans
      (modify_kept _ (fun _ => ⟨rfl, rfl, rfl, rfl⟩)) (fun _ => keeps_pure engineKept_refl _)))

theorem fabric_compare_atomic_kept (env : Env) (key : Nat) (compare swap : Bytes) (offset : Nat)
    (op : fi_op) (datatype : fi_datatype) (addr : Option Nat) (ctx : Nat) :
    Keeps EngineKept (fabric_compare_atomic env key compare swap offset op datatype addr ctx) :=
  keeps_bind engineKept_trans (extern_call_kept env _ _)
    (fun _ => keeps_read (fun _ => keeps_bind engineKept_trans
      (modify_kept _ (fun _ => ⟨rfl, rfl, rfl, rfl⟩)) (fun _ => keeps_pure engineKept_refl _)))

theorem acquire_CAS_lock_kept (env : Env) (d : Nat) : Keeps EngineKept (acquire_CAS_lock env d) := by
  intro w
  rw [acquire_CAS_lock_eq]
  repeat' split
  all_goals exact engineKept_of_eq _ _ rfl rfl rfl rfl

theorem release_CAS_lock_kept (env : Env) (d : Nat) : Keeps EngineKept (release_CAS_lock env d) := by
  intro w
  rw [release_CAS_lock_eq]
  repeat' split
  all_goals exact engineKept_of_eq _ _ rfl rfl rfl rfl

theorem lock_ctxLock_kept : Keeps EngineKept lock_ctxLock := by
  intro w
  unfold lock_ctxLock
  simp only [M.bind_apply, M.andThen, M.get]
  split
  · exact engineKept_refl w
  · exact engineKept_of_eq _ _ rfl rfl rfl rfl

theorem unlock_ctxLock_kept : Keeps EngineKept unlock_ctxLock :=
  modify_kept _ (fun _ => ⟨rfl, rfl, rfl, rfl⟩)

theorem set_region_context_kept (r ctx : Nat) : Keeps EngineKept (set_region_context r ctx) :=
  modify_kept _ (fun _ => ⟨rfl, rfl, rfl, rfl⟩)

theorem post_atomic_kept (env : Env) (d offset : Nat) (value : Bytes) (op : fi_op)
    (datatype : fi_datatype) : Keeps EngineKept (post_atomic env d offset value op datatype) :=
  keeps_read (fun _ => keeps_bind engineKept_trans (get_context_kept env d)
    (fun _ => fabric_atomic_kept env _ _ _ _ _ _ _))

theorem post_fetch_atomic_kept (env : Env) (d offset : Nat) (value : Bytes) (op : fi_op)
    (datatype : fi_datatype) :
    Keeps EngineKept (post_fetch_atomic env d offset value op datatype) :=
  keeps_read (fun _ => keeps_bind engineKept_trans (get_context_kept env d)
    (fun _ => keeps_bind engineKept_trans (fabric_fetch_atomic_kept env _ _ _ _ _ _ _)
      (fun _ => keeps_pure engineKept_refl _)))

theorem post_compare_atomic_kept (env : Env) (d offset : Nat) (oldValue newValue : Bytes)
    (op : fi_op) (datatype : fi_datatype) :
    Keeps EngineKept (post_compare_atomic env d offset oldValue newValue op datatype) :=
  keeps_read (fun _ => keeps_bind engineKept_trans (get_context_kept env d)
    (fun _ => keeps_bind engineKept_trans (fabric_compare_atomic_kept env _ _ _ _ _ _ _ _)
      (fun _ => keeps_pure engineKept_refl _)))

theorem blocking_verb_kept (env : Env) (d : Nat) (verb : Nat → Option Nat → Nat → Nat → Call) :
    Keeps EngineKept (blocking_verb env d verb) :=
  keeps_read (fun _ => keeps_bind engineKept_trans (get_context_kept env d)
    (fun _ => keeps_read (fun _ => keeps_bind engineKept_trans (extern_call_kept env _ _)
      (fun _ => keeps_pure engineKept_refl _))))

theorem nonblocking_verb_kept (env : Env) (d : Nat)
    (verb : Nat → Option Nat → Nat → Nat → Call) :
    Keeps EngineKept (nonblocking_verb env d verb) :=
  keeps_read (fun _ => keeps_bind engineKept_trans (get_context_kept env d)
    (fun _ => keeps_read (fun _ => keeps_bind engineKept_trans (extern_call_kept env _ _)
      (fun _ => post_outstanding_kept _ _))))

theorem put_blocking_kept (env : Env) {n : Nat} (loc : Buffer n) (d offset : Nat) :
    Keeps EngineKept ( Fam_Ops_Libfabric.put_blocking env loc d offset) :=
  keeps_read (fun _ => keeps_bind engineKept_trans (get_context_kept env d)
    (fun _ => keeps_bind engineKept_trans (fabric_write_kept env _ _ _ _ _)
      (fun _ => keeps_pure engineKept_refl _)))

theorem get_blocking_kept (env : Env) (d offset n : Nat) :
    Keeps EngineKept ( Fam_Ops_Libfabric.get_blocking env d offset n) :=
  keeps_read (fun _ => keeps_bind engineKept_trans (get_context_kept env d)
    (fun _ => keeps_bind engineKept_trans (fabric_read_kept env _ _ _ _ _)
      (fun _ => keeps_pure engineKept_refl _)))

theorem put_nonblocking_kept (env : Env) {n : Nat} (loc : Buffer n) (d offset : Nat) :
    Keeps EngineKept ( Fam_Ops_Libfabric.put_nonblocking env loc d offset) :=
  keeps_read (fun _ => keeps_bind engineKept_trans (get_context_kept env d)
    (fun _ => fabric_write_nonblocking_kept env _ _ _ _ _))

theorem get_nonblocking_kept (env : Env) (d offset n : Nat) :
    Keeps EngineKept ( Fam_Ops_Libfabric.get_nonblocking env d offset n) :=
  keeps_read (fun _ => keeps_bind engineKept_trans (get_context_kept env d)
    (fun _ => fabric_read_nonblocking_kept env _ _ _ _ _))

theorem cas_read_kept (env : Env) (d key offset nodeId : Nat) :
    Keeps EngineKept (M.tryRethrow (do
        let w1 ← M.get
        let ctx ← Fam_Ops_Libfabric.get_context env d
        fabric_read env key 16 offset (fiAddr_at w1.eng nodeId) ctx)
      (release_CAS_lock env d)) :=
  keeps_tryRethrow engineKept_trans
    (keeps_read (fun _ => keeps_bind engineKept_trans (get_context_kept env d)
      (fun _ => fabric_read_kept env _ _ _ _ _)))
    (release_CAS_lock_kept env d)

theorem cas_write_kept (env : Env) (d key offset nodeId : Nat) (v : int128_t) :
    Keeps EngineKept (M.tryRethrow (do
        let w1 ← M.get
        let ctx ← Fam_Ops_Libfabric.get_context env d
        fabric_write env key v offset (fiAddr_at w1.eng nodeId) ctx)
      (release_CAS_lock env d)) :=
  keeps_tryRethrow engineKept_trans
    (keeps_read (fun _ => keeps_bind engineKept_trans (get_context_kept env d)
      (fun _ => fabric_write_kept env _ _ _ _ _)))
    (release_CAS_lock_kept env d)

theorem compare_swap_kept (env : Env) (d offset : Nat) (oldValue newValue : int128_t) :
    Keeps EngineKept ( Fam_Ops_Libfabric.compare_swap env d offset oldValue newValue) := by
  refine keeps_read (fun _ => keeps_bind engineKept_trans (acquire_CAS_lock_kept env d)
    (fun _ => keeps_bind engineKept_trans (cas_read_kept env d _ _ _) (fun rd => ?_)))
  have hjp : Keeps EngineKept (do release_CAS_lock env d; pure rd.2 : M int128_t) :=
    keeps_bind engineKept_trans (release_CAS_lock_kept env d)
      (fun _ => keeps_pure engineKept_refl _)
  show Keeps EngineKept (if rd.2 = oldValue then _ else _)
  split
  · exact keeps_bind engineKept_trans (cas_write_kept env d _ _ _ _)
      (fun _ => keeps_bind engineKept_trans (keeps_pure engineKept_refl _) (fun _ => hjp))
  · exact keeps_bind engineKept_trans (keeps_pure engineKept_refl _) (fun _ => hjp)

theorem atomic_set_kept (env : Env) (d offset : Nat) (value : int128_t) :
    Keeps EngineKept ( Fam_Ops_Libfabric.atomic_set env d offset value) :=
  keeps_read (fun _ => keeps_bind engineKept_trans (acquire_CAS_lock_kept env d)
    (fun _ => keeps_bind engineKept_trans (cas_write_kept env d _ _ _ _)
      (fun _ => release_CAS_lock_kept env d)))

theorem atomic_fetch_int128_kept (env : Env) (d offset : Nat) :
    Keeps EngineKept ( Fam_Ops_Libfabric.atomic_fetch_int128 env d offset) :=
  keeps_read (fun _ => keeps_bind engineKept_trans (acquire_CAS_lock_kept env d)
    (fun _ => keeps_bind engineKept_trans (cas_read_kept env d _ _ _)
      (fun _ => keeps_bind engineKept_trans (release_CAS_lock_kept env d)
        (fun _ => keeps_pure engineKept_refl _))))

theorem fence_defContexts_kept (env : Env) :
    ∀ (l : StdMap Nat) (nodeId : Nat), Keeps EngineKept (fence_defContexts env l nodeId) := by
  intro l
  induction l with
  | nil => intro nodeId; exact keeps_pure engineKept_refl _
  | cons x xs ih =>
    intro nodeId
    obtain ⟨k, c⟩ := x
    exact keeps_read (fun _ => keeps_bind engineKept_trans (fabric_fence_kept env _ _)
      (fun _ => ih _))

theorem fence_contexts_kept (env : Env) (sh : Nat) :
    ∀ (l : StdMap Nat), Keeps EngineKept (fence_contexts env sh l) := by
  intro l
  induction l with
  | nil => exact keeps_pure engineKept_refl _
  | cons x xs ih =>
    obtain ⟨k, c⟩ := x
    exact keeps_read (fun _ => keeps_bind engineKept_trans (fabric_fence_kept env _ _)
      (fun _ => ih))

theorem fence_locked_kept (env : Env) (sh : Nat) (r : Option Nat) :
    Keeps EngineKept (fence_locked env sh r) := by
  refine keeps_read (fun w => ?_)
  cases r with
  | none => exact fence_contexts_kept env sh _
  | some r =>
    show Keeps EngineKept (match (w.regions r).context with
      | some ctx => _
      | none => _)
    split
    · exact fabric_fence_kept env _ _
    · show Keeps EngineKept (match w.eng.contexts.find (w.regions r).regionId with
        | some ctx => _
        | none => _)
      split
      · exact keeps_bind engineKept_trans (set_region_context_kept _ _)
          (fun _ => fabric_fence_kept env _ _)
      · exact keeps_pure engineKept_refl _

theorem fence_kept (env : Env) (sh : Nat) (r : Option Nat) :
    Keeps EngineKept ( Fam_Ops_Libfabric.fence env sh r) := by
  refine keeps_read (fun w => ?_)
  split
  · exact fence_defContexts_kept env _ _
  · split
    · exact keeps_bind engineKept_trans lock_ctxLock_kept
        (fun _ => keeps_bind engineKept_trans
          (keeps_tryRethrow engineKept_trans (fence_locked_kept env sh r) unlock_ctxLock_kept)
          (fun _ => unlock_ctxLock_kept))
    · exact keeps_pure engineKept_refl _

theorem quiet_defContexts_kept (env : Env) :
    ∀ (l : StdMap Nat), Keeps EngineKept (quiet_defContexts env l) := by
  intro l
  induction l with
  | nil => exact keeps_pure engineKept_refl _
  | cons x xs ih =>
    obtain ⟨k, c⟩ := x
    exact keeps_bind engineKept_trans (fabric_quiet_kept env _) (fun _ => ih)

theorem quiet_context_kept (env : Env) (c : Option Nat) :
    Keeps EngineKept ( Fam_Ops_Libfabric.quiet_context env c) := by
  refine keeps_read (fun w => ?_)
  split
  · exact quiet_defContexts_kept env _
  · split
    · cases c with
      | none => exact keeps_halt engineKept_refl _
      | some c => exact fabric_quiet_kept env c
    · exact keeps_pure engineKept_refl _

theorem quiet_contexts_kept (env : Env) :
    ∀ (l : StdMap Nat), Keeps EngineKept (quiet_contexts env l) := by
  intro l
  induction l with
  | nil => exact keeps_pure engineKept_refl _
  | cons x xs ih =>
    obtain ⟨k, c⟩ := x
    exact keeps_bind engineKept_trans (quiet_context_kept env _) (fun _ => ih)

theorem quiet_locked_kept (env : Env) (r : Option Nat) :
    Keeps EngineKept (quiet_locked env r) := by
  refine keeps_read (fun w => ?_)
  cases r with
  | none => exact quiet_contexts_kept env _
  | some r =>
    show Keeps EngineKept (match (w.regions r).context with
      | some ctx => _
      | none => _)
    split
    · exact quiet_context_kept env _
    · show Keeps EngineKept (match w.eng.contexts.find (w.regions r).regionId with
        | some ctx => _
        | none => _)
      split
      · exact keeps_bind engineKept_trans (set_region_context_kept _ _)
          (fun _ => quiet_context_kept env _)
      · exact keeps_pure engineKept_refl _

theorem quiet_kept (env : Env) (r : Option Nat) :
    Keeps EngineKept ( Fam_Ops_Libfabric.quiet env r) := by
  refine keeps_read (fun w => ?_)
  split
  · exact quiet_context_kept env _
  · split
    · exact keeps_bind engineKept_trans lock_ctxLock_kept
        (fun _ => keeps_bind engineKept_trans
          (keeps_tryRethrow engineKept_trans (quiet_locked_kept env r) unlock_ctxLock_kept)
          (fun _ => unlock_ctxLock_kept))
    · exact keeps_pure engineKept_refl _

theorem atomic_set_native_kept (env : Env) (T : CType) (d offset : Nat) (value : CValue T) :
    Keeps EngineKept ( Fam_Ops_Libfabric.atomic_set_native env T d offset value) := by
  cases T <;> exact post_atomic_kept env _ _ _ _ _

theorem atomic_add_kept (env : Env) (T : CType) (d offset : Nat) (value : CValue T) :
    Keeps EngineKept ( Fam_Ops_Libfabric.atomic_add env T d offset value) := by
  cases T <;> exact post_atomic_kept env _ _ _ _ _

theorem atomic_min_kept (env : Env) (T : CType) (d offset : Nat) (value : CValue T) :
    Keeps EngineKept ( Fam_Ops_Libfabric.atomic_min env T d offset value) := by
  cases T <;> exact post_atomic_kept env _ _ _ _ _

theorem atomic_max_kept (env : Env) (T : CType) (d offset : Nat) (value : CValue T) :
    Keeps EngineKept ( Fam_Ops_Libfabric.atomic_max env T d offset value) := by
  cases T <;> exact post_atomic_kept env _ _ _ _ _

theorem atomic_and_kept (env : Env) (T : CUnsigned) (d offset : Nat) (value : CValue T.toCType) :
    Keeps EngineKept ( Fam_Ops_Libfabric.atomic_and env T d offset value) := by
  cases T <;> exact post_atomic_kept env _ _ _ _ _

theorem atomic_or_kept (env : Env) (T : CUnsigned) (d offset : Nat) (value : CValue T.toCType) :
    Keeps EngineKept ( Fam_Ops_Libfabric.atomic_or env T d offset value) := by
  cases T <;> exact post_atomic_kept env _ _ _ _ _

theorem atomic_xor_kept (env : Env) (T : CUnsigned) (d offset : Nat) (value : CValue T.toCType) :
    Keeps EngineKept ( Fam_Ops_Libfabric.atomic_xor env T d offset value) := by
  cases T <;> exact post_atomic_kept env _ _ _ _ _

theorem swap_kept (env : Env) (T : CType) (d offset : Nat) (value : CValue T) :
    Keeps EngineKept ( Fam_Ops_Libfabric.swap env T d offset value) := by
  cases T <;> exact post_fetch_atomic_kept env _ _ _ _ _

theorem atomic_fetch_add_kept (env : Env) (T : CType) (d offset : Nat) (value : CValue T) :
    Keeps EngineKept ( Fam_Ops_Libfabric.atomic_fetch_add env T d offset value) := by
  cases T <;> exact post_fetch_atomic_kept env _ _ _ _ _

theorem atomic_fetch_min_kept (env : Env) (T : CType) (d offset : Nat) (value : CValue T) :
    Keeps EngineKept ( Fam_Ops_Libfabric.atomic_fetch_min env T d offset value) := by
  cases T <;> exact post_fetch_atomic_kept env _ _ _ _ _

theorem atomic_fetch_max_kept (env : Env) (T : CType) (d offset : Nat) (value : CValue T) :
    Keeps EngineKept ( Fam_Ops_Libfabric.atomic_fetch_max env T d offset value) := by
  cases T <;> exact post_fetch_atomic_kept env _ _ _ _ _

theorem atomic_fetch_and_kept (env : Env) (T : CUnsigned) (d offset : Nat) (value : CValue T.toCType) :
    Keeps EngineKept ( Fam_Ops_Libfabric.atomic_fetch_and env T d offset value) := by
  cases T <;> exact post_fetch_atomic_kept env _ _ _ _ _

theorem atomic_fetch_or_kept (env : Env) (T : CUnsigned) (d offset : Nat) (value : CValue T.toCType) :
    Keeps EngineKept ( Fam_Ops_Libfabric.atomic_fetch_or env T d offset value) := by
  cases T <;> exact post_fetch_atomic_kept env _ _ _ _ _

theorem atomic_fetch_xor_kept (env : Env) (T : CUnsigned) (d offset : Nat) (value : CValue T.toCType) :
    Keeps EngineKept ( Fam_Ops_Libfabric.atomic_fetch_xor env T d offset value) := by
  cases T <;> exact post_fetch_atomic_kept env _ _ _ _ _

theorem compare_swap_native_kept (env : Env) (T : CInteger) (d offset : Nat)
    (oldValue newValue : CValue T.toCType) :
    Keeps EngineKept ( Fam_Ops_Libfabric.compare_swap_native env T d offset oldValue newValue) := by
  cases T <;> exact post_compare_atomic_kept env _ _ _ _ _ _

theorem copy_kept (env : Env) (src srcOffset destOffset nbytes : Nat) :
    Keeps EngineKept ( Fam_Ops_Libfabric.copy env src srcOffset destOffset nbytes) := by
  refine keeps_read (fun w => ?_)
  split
  · exact keeps_halt engineKept_refl _
  · exact extern_call_kept env _ _

theorem wait_for_copy_kept (env : Env) (waitObj : Int) :
    Keeps EngineKept ( Fam_Ops_Libfabric.wait_for_copy env waitObj) := by
  refine keeps_read (fun w => ?_)
  split
  · exact keeps_halt engineKept_refl _
  · exact keeps_bind engineKept_trans (extern_call_kept env _ _)
      (fun _ => keeps_pure engineKept_refl _)

theorem Operation.run_kept (env : Env) (sh : Nat) (op : Operation) :
    Keeps EngineKept (op.run env sh) := by
  have hd : ∀ {α : Type} {m : M α}, Keeps EngineKept m → Keeps EngineKept (M.discard m) :=
    fun h => keeps_discard engineKept_refl engineKept_trans h
  cases op with
  | fence r => exact fence_kept env sh r
  | quiet r => exact quiet_kept env r
  | quiet_context c => exact quiet_context_kept env c
  | copy a b c d => exact hd (copy_kept env a b c d)
  | wait_for_copy a => exact wait_for_copy_kept env a
  | get_context d => exact hd (get_context_kept env d)
  | put_blocking loc d o => exact hd (put_blocking_kept env _ d o)
  | get_blocking d o n => exact hd (get_blocking_kept env d o n)
  | put_nonblocking loc d o => exact hd (put_nonblocking_kept env _ d o)
  | get_nonblocking d o n => exact hd (get_nonblocking_kept env d o n)
  | compare_swap d o a b => exact hd (compare_swap_kept env d o a b)
  | atomic_set d o a => exact hd (atomic_set_kept env d o a)
  | atomic_fetch_int128 d o => exact hd (atomic_fetch_int128_kept env d o)
  | atomic_subtract T d o v => exact hd (atomic_add_kept env T d o _)
  | atomic_fetch_subtract T d o v => exact hd (atomic_fetch_add_kept env T d o _)
  | compare_swap_native T d o a b => exact hd (compare_swap_native_kept env T d o a b)
  | gather_blocking => exact hd (blocking_verb_kept env _ _)
  | gather_blocking_index => exact hd (blocking_verb_kept env _ _)
  | gather_nonblocking => exact hd (nonblocking_verb_kept env _ _)
  | gather_nonblocking_index => exact hd (nonblocking_verb_kept env _ _)
  | scatter_blocking => exact hd (blocking_verb_kept env _ _)
  | scatter_blocking_index => exact hd (blocking_verb_kept env _ _)
  | scatter_nonblocking => exact hd (nonblocking_verb_kept env _ _)
  | scatter_nonblocking_index => exact hd (nonblocking_verb_kept env _ _)
  | atomic_set_native T d o v => exact hd (atomic_set_native_kept env T d o v)
  | atomic_add T d o v => exact hd (atomic_add_kept env T d o v)
  | atomic_min T d o v => exact hd (atomic_min_kept env T d o v)
  | atomic_max T d o v => exact hd (atomic_max_kept env T d o v)
  | atomic_and T d o v => exact hd (atomic_and_kept env T d o v)
  | atomic_or T d o v => exact hd (atomic_or_kept env T d o v)
  | atomic_xor T d o v => exact hd (atomic_xor_kept env T d o v)
  | swap T d o v => exact hd (swap_kept env T d o v)
  | atomic_fetch_add T d o v => exact hd (atomic_fetch_add_kept env T d o v)
  | atomic_fetch_min T d o v => exact hd (atomic_fetch_min_kept env T d o v)
  | atomic_fetch_max T d o v => exact hd (atomic_fetch_max_kept env T d o v)
  | atomic_fetch_and T d o v => exact hd (atomic_fetch_and_kept env T d o v)
  | atomic_fetch_or T d o v => exact hd (atomic_fetch_or_kept env T d o v)
  | atomic_fetch_xor T d o v => exact hd (atomic_fetch_xor_kept env T d o v)
  | atomic_fetch_int32 d o =>
    exact hd (keeps_read (fun _ => post_fetch_atomic_kept env _ _ _ _ _))
  | atomic_fetch_int64 d o =>
    exact hd (keeps_read (fun _ => post_fetch_atomic_kept env _ _ _ _ _))
  | atomic_fetch_uint32 d o =>
    exact hd (keeps_read (fun _ => post_fetch_atomic_kept env _ _ _ _ _))
  | atomic_fetch_uint64 d o =>
    exact hd (keeps_read (fun _ => post_fetch_atomic_kept env _ _ _ _ _))
  | atomic_fetch_float d o =>
    exact hd (keeps_read (fun _ => post_fetch_atomic_kept env _ _ _ _ _))
  | atomic_fetch_double d o =>
    exact hd (keeps_read (fun _ => post_fetch_atomic_kept env _ _ _ _ _))

theorem run_operations_kept (env : Env) (sh : Nat) :
    ∀ (ops : List Operation) (w : World), EngineKept w (run_operations env sh ops w) := by
  intro ops
  induction ops with
  | nil => intro w; exact engineKept_refl w
  | cons op ops ih =>
    intro w
    have h := Operation.run_kept env sh op w
    unfold run_operations
    split
    · exact h
    · exact engineKept_trans _ _ _ h (ih _)

/-! ## What `initialize` keeps of the tables -/

theorem StdMap.find_of_lt_keys {V : Type} (m : StdMap V) (k : Nat)
    (h : ∀ k' ∈ m.keys, k < k') : m.find k = none := by
  rw [StdMap.find_eq_none_iff]
  intro hk
  exact absurd (h k hk) (Nat.lt_irrefl k)

theorem StdMap.ascending_insert {V : Type} (m : StdMap V) (k : Nat) (v : V)
    (h : m.Ascending) : (m.insert k v).Ascending ∧ ∀ k' ∈ (m.insert k v).keys, k' = k ∨ k' ∈ m.keys := by
  induction m with
  | nil => simp [StdMap.insert, StdMap.Ascending, StdMap.keys]
  | cons x xs ih =>
    obtain ⟨k0, v0⟩ := x
    have hxs : StdMap.Ascending xs := by
      unfold StdMap.Ascending StdMap.keys at h ⊢
      simp only [List.map_cons, List.pairwise_cons] at h
      exact h.2
    have hhead : ∀ k' ∈ StdMap.keys xs, k0 < k' := by
      unfold StdMap.Ascending StdMap.keys at h
      simp only [List.map_cons, List.pairwise_cons] at h
      exact h.1
    obtain ⟨ih1, ih2⟩ := ih hxs
    unfold StdMap.insert
    by_cases hlt : k < k0
    · simp only [hlt, if_true]
      constructor
      · unfold StdMap.Ascending StdMap.keys at h ⊢
        simp only [List.map_cons, List.pairwise_cons] at h ⊢
        refine ⟨?_, h⟩
        intro a ha
        simp only [List.mem_cons] at ha
        rcases ha with ha | ha
        · omega
        · have := h.1 a ha; omega
      · intro k' hk'
        simp only [StdMap.keys, List.map_cons, List.mem_cons] at hk' ⊢
        rcases hk' with h1 | h1 | h1
        · exact Or.inl h1
        · exact Or.inr (Or.inl h1)
        · exact Or.inr (Or.inr h1)
    · simp only [hlt, if_false]
      by_cases heq : k = k0
      · simp only [heq, if_true]
        exact ⟨h, fun k' hk' => Or.inr hk'⟩
      · simp only [heq, if_false]
        constructor
        · unfold StdMap.Ascending StdMap.keys at ih1 ⊢
          simp only [List.map_cons, List.pairwise_cons]
          refine ⟨?_, ih1⟩
          intro a ha
          rcases ih2 a ha with h1 | h1
          · omega
          · exact hhead a h1
        · intro k' hk'
          simp only [StdMap.keys, List.map_cons, List.mem_cons] at hk' ⊢
          rcases hk' with h1 | h1
          · exact Or.inr (Or.inl h1)
          · rcases ih2 k' h1 with h2 | h2
            · exact Or.inl h2
            · exact Or.inr (Or.inr h2)

theorem StdMap.find_insert_of_ascending {V : Type} (m : StdMap V) (k : Nat) (v : V) (k' : Nat)
    (c : V) (h : m.Ascending) (hf : m.find k' = some c) : (m.insert k v).find k' = some c := by
  induction m with
  | nil => simp [StdMap.find] at hf
  | cons x xs ih =>
    obtain ⟨k0, v0⟩ := x
    have hxs : StdMap.Ascending xs := by
      unfold StdMap.Ascending StdMap.keys at h ⊢
      simp only [List.map_cons, List.pairwise_cons] at h
      exact h.2
    have hhead : ∀ a ∈ StdMap.keys xs, k0 < a := by
      unfold StdMap.Ascending StdMap.keys at h
      simp only [List.map_cons, List.pairwise_cons] at h
      exact h.1
    unfold StdMap.insert
    by_cases hlt : k < k0
    · simp only [hlt, if_true]
      have hne : ¬ k = k' := by
        intro hkk
        subst hkk
        have : StdMap.find ((k0, v0) :: xs) k = none := by
          apply StdMap.find_of_lt_keys
          intro a ha
          simp only [StdMap.keys, List.map_cons, List.mem_cons] at ha
          rcases ha with ha | ha
          · omega
          · have := hhead a ha; omega
        rw [this] at hf
        exact absurd hf (by simp)
      rw [StdMap.find, if_neg hne]
      exact hf
    · simp only [hlt, if_false]
      by_cases heq : k = k0
      · simp only [heq, if_true]
        exact hf
      · simp only [heq, if_false]
        unfold StdMap.find at hf ⊢
        by_cases h0 : k0 = k'
        · simp only [h0, if_true] at hf ⊢
          exact hf
        · simp only [h0, if_false] at hf ⊢
          exact ih hxs hf

theorem initKept_refl (w : World) : InitKept w w :=
  ⟨rfl, rfl, fun _ => rfl, fun h => ⟨h, fun _ _ h => h⟩⟩

theorem initKept_trans (a b c : World) (h1 : InitKept a b) (h2 : InitKept b c) :
    InitKept a c := by
  obtain ⟨p1, c1, d1, s1⟩ := h1
  obtain ⟨p2, c2, d2, s2⟩ := h2
  refine ⟨p2.trans p1, c2.trans c1, fun h => (d2 (by rw [p1]; exact h)).trans (d1 h), fun h => ?_⟩
  obtain ⟨a1, f1⟩ := s1 h
  obtain ⟨a2, f2⟩ := s2 a1
  exact ⟨a2, fun k c hk => f2 k c (f1 k c hk)⟩

theorem initKept_of_eq (w w1 : World)
    (h1 : w1.eng.famContextModel = w.eng.famContextModel)
    (h2 : w1.eng.contexts = w.eng.contexts)
    (h3 : w1.eng.defContexts = w.eng.defContexts) : InitKept w w1 :=
  ⟨h1, h2, fun _ => h3, fun h => by rw [h3]; exact ⟨h, fun _ _ h => h⟩⟩

theorem initialize_defaultCtx_initKept (env : Env) (nodeId : Nat) :
    Keeps InitKept (initialize_defaultCtx env nodeId) := by
  intro w
  rw [initialize_defaultCtx_eq]
  repeat' split
  all_goals first
    | exact initKept_of_eq _ _ rfl rfl rfl
    | (refine ⟨rfl, rfl, fun h => absurd ‹_› h, fun h => ?_⟩
       exact ⟨(StdMap.ascending_insert _ _ _ h).1,
         fun k c hk => StdMap.find_insert_of_ascending _ _ _ _ _ h hk⟩)

theorem initialize_node_initKept (env : Env) (nodeId : Nat) :
    Keeps InitKept (initialize_node env nodeId) := by
  intro w
  obtain ⟨_, h2, h3, _, h5, _, _⟩ := initialize_branch_frame env nodeId w
  rw [initialize_node_eq]
  have hb := initKept_of_eq _ _ h5 h3 h2
  generalize (if !w.eng.isSource then initialize_client env nodeId
    else initialize_server env) w = br at *
  by_cases hc : br.1 = Outcome.ok none
  · rw [if_pos hc]
    exact initKept_trans _ _ _ hb (initialize_defaultCtx_initKept env nodeId _)
  · rw [if_neg hc]
    exact hb

theorem initialize_loop_initKept (env : Env) :
    ∀ (todo nodeId : Nat), Keeps InitKept (initialize_loop env todo nodeId) := by
  intro todo
  induction todo with
  | zero => intro nodeId w; exact initKept_refl w
  | succ todo ih =>
    intro nodeId w
    rw [initialize_loop_succ]
    split
    · exact initKept_trans _ _ _ (initialize_node_initKept env nodeId w) (ih _ _)
    · exact initialize_node_initKept env nodeId w

theorem initialize_servers_initKept (env : Env) : Keeps InitKept (initialize_servers env) := by
  intro w
  have h := initialize_loop_initKept env w.eng.name.length 0 w
  rw [initialize_servers_eq]
  split
  all_goals rename_i heq
  all_goals rw [heq] at h
  all_goals exact h

theorem initialize_initKept (env : Env) : Keeps InitKept ( Fam_Ops_Libfabric.initialize env) := by
  intro w
  rw [initialize_eq]
  repeat' split
  all_goals first
    | exact initKept_refl w
    | exact initKept_of_eq _ _ rfl rfl rfl
    | exact initKept_trans _ _ _ (initKept_of_eq _ _ rfl rfl rfl) (initialize_servers_initKept env _)

/-! ## The tables by policy, and contexts that stay (C11, C12) -/

/-- C12: a context filed in a table stays where it is.  For `initialize` (on
an engine whose default table is a `std::map`: keys ascending) and for every
operation other than `finalize` (`get_context`, the data-path operations,
`fence`, `quiet`), every key that maps to a context in the default table or in
the region table before the call maps to the same context in the same table in
the world the call leaves, whatever its outcome. -/
theorem published_contexts_stay (env : Env) (MEMSERVERID_SHIFT : Nat) (w : World) :
    (w.eng.defContexts.Ascending → ∀ k c,
      (w.eng.defContexts.find k = some c →
        ( Fam_Ops_Libfabric.initialize env w).2.eng.defContexts.find k = some c) ∧
      (w.eng.contexts.find k = some c →
        ( Fam_Ops_Libfabric.initialize env w).2.eng.contexts.find k = some c)) ∧
    (∀ (op : Operation) k c,
      (w.eng.defContexts.find k = some c →
        (op.run env MEMSERVERID_SHIFT w).2.eng.defContexts.find k = some c) ∧
      (w.eng.contexts.find k = some c →
        (op.run env MEMSERVERID_SHIFT w).2.eng.contexts.find k = some c)) := by
  constructor
  · intro hmap k c
    obtain ⟨_, h2, _, h4⟩ := initialize_initKept env w
    refine ⟨fun h => (h4 hmap).2 k c h, fun h => ?_⟩
    rw [h2]
    exact h
  · intro op k c
    obtain ⟨_, h2, _, h4, _⟩ := Operation.run_kept env MEMSERVERID_SHIFT op w
    refine ⟨fun h => ?_, fun h => h4 k c h⟩
    rw [h2]
    exact h

set_option maxHeartbeats 1000000 in
/-- C12 (witness): on the engine of two memory servers, `initialize` called
again and a fence over everything both leave the default context of memory
server `1` where it is. -/
theorem published_contexts_stay_witness :
    demoTwoNodeWorld.eng.defContexts.Ascending ∧
    demoTwoNodeWorld.eng.defContexts.find 1 = some 1 ∧
    ( Fam_Ops_Libfabric.initialize demoEnv demoTwoNodeWorld).2.eng.defContexts.find 1 = some 1 ∧
    ((Operation.fence none).run demoEnv 34 demoTwoNodeWorld).2.eng.defContexts.find 1 = some 1 :=
  ⟨by decide, rfl,
    ((published_contexts_stay demoEnv 34 demoTwoNodeWorld).1 (by decide) 1 1).1 rfl,
    ((published_contexts_stay demoEnv 34 demoTwoNodeWorld).2 (Operation.fence none) 1 1).1 rfl⟩

theorem StdMap.insert_ne_nil {V : Type} (m : StdMap V) (k : Nat) (v : V) : m.insert k v ≠ [] := by
  cases m with
  | nil => simp [StdMap.insert]
  | cons x xs =>
    obtain ⟨k0, v0⟩ := x
    unfold StdMap.insert
    split
    · simp
    · split <;> simp

theorem initialize_entry_name (w : World) (hn : w.eng.name.length ≠ 0) :
    (initialize_entry w).eng.name.length ≠ 0 := by
  unfold initialize_entry
  simp only
  split
  · exact hn
  · intro h
    exact StdMap.insert_ne_nil _ _ _ (List.length_eq_zero.mp h)

/-- When `initialize` returns `0` it has run the loop over the memory servers
to its end, from a world that has the tables, the registry, the heap and the
mode of the world at the call and the names of `initialize_entry`. -/
theorem initialize_ok_zero (env : Env) (w : World)
    (hinit : ( Fam_Ops_Libfabric.initialize env w).1 = Outcome.ok 0) :
    ∃ w0 w1, initialize_loop env w0.eng.name.length 0 w0 = (Outcome.ok none, w1) ∧
      ( Fam_Ops_Libfabric.initialize env w).2 =
        { w1 with eng := { w1.eng with fabric_iov_limit := env.rma_iov_limit } } ∧
      w0.eng.name = (initialize_entry w).eng.name ∧ w0.eng.name.length ≠ 0 ∧
      w0.eng.defContexts = w.eng.defContexts ∧ w0.eng.contexts = w.eng.contexts ∧
      w0.eng.fiAddrs = w.eng.fiAddrs ∧ w0.eng.famContextModel = w.eng.famContextModel ∧
      w0.eng.isSource = w.eng.isSource ∧ w0.eng.famAllocator = w.eng.famAllocator ∧
      w0.heap = w.heap ∧ w0.descs = w.descs ∧ w0.regions = w.regions := by
  have hserv : ∀ w0 : World, (initialize_servers env w0).1 = Outcome.ok 0 →
      ∃ w1, initialize_loop env w0.eng.name.length 0 w0 = (Outcome.ok none, w1) ∧
        (initialize_servers env w0).2 =
          { w1 with eng := { w1.eng with fabric_iov_limit := env.rma_iov_limit } } := by
    intro w0 h0
    obtain ⟨_, _, _, _, f5⟩ := initialize_loop_frame env w0.eng.name.length 0 w0
    rw [initialize_servers_eq] at h0 ⊢
    rcases hr : initialize_loop env w0.eng.name.length 0 w0 with ⟨o, w1⟩
    rw [hr] at h0 f5
    cases o with
    | throw e => simp at h0
    | stuck s => simp at h0
    | ok r =>
      cases r with
      | some ret =>
        have hneg := f5 ret rfl
        simp only [Outcome.ok.injEq] at h0
        omega
      | none => exact ⟨w1, rfl, rfl⟩
  have hn : w.eng.name.length ≠ 0 := by
    intro hn
    rw [initialize_eq, if_pos hn] at hinit
    simp at hinit
  revert hinit
  rw [initialize_eq]
  repeat' split
  all_goals intro hinit
  all_goals try (simp at hinit; done)
  all_goals try (simp only [Outcome.ok.injEq] at hinit; omega)
  all_goals
    obtain ⟨w1, h1, h2⟩ := hserv _ hinit
    exact ⟨_, w1, h1, h2, rfl, initialize_entry_name w hn, rfl, rfl, rfl, rfl, rfl, rfl, rfl,
      rfl, rfl⟩

/-- C11 (as amended): on an engine whose tables are empty at construction,
in every state reached after `initialize` returned `0` through any sequence of
`get_context`, data-path, `fence` and `quiet` calls, at most one of the two
tables is non-empty: under the default policy the default table is non-empty
and the region table is empty; under the region policy the default table is
empty, and the region table is empty when `initialize` returns (it is filled
by `get_context`, one region at a time). -/
theorem tables_by_policy (env : Env) (MEMSERVERID_SHIFT : Nat) (w : World) (ops : List Operation)
    (hdef : w.eng.defContexts = []) (hctx : w.eng.contexts = [])
    (hinit : ( Fam_Ops_Libfabric.initialize env w).1 = Outcome.ok 0) :
    (w.eng.famContextModel = Fam_Context_Model.FAM_CONTEXT_DEFAULT →
      (run_operations env MEMSERVERID_SHIFT ops
        ( Fam_Ops_Libfabric.initialize env w).2).eng.defContexts ≠ [] ∧
      (run_operations env MEMSERVERID_SHIFT ops
        ( Fam_Ops_Libfabric.initialize env w).2).eng.contexts = []) ∧
    (w.eng.famContextModel = Fam_Context_Model.FAM_CONTEXT_REGION →
      (run_operations env MEMSERVERID_SHIFT ops
        ( Fam_Ops_Libfabric.initialize env w).2).eng.defContexts = [] ∧
      ( Fam_Ops_Libfabric.initialize env w).2.eng.contexts = []) := by
  obtain ⟨k1, k2, k3, _, k5⟩ :=
    run_operations_kept env MEMSERVERID_SHIFT ops ( Fam_Ops_Libfabric.initialize env w).2
  obtain ⟨i1, i2, i3, _⟩ := initialize_initKept env w
  constructor
  · intro hD
    rw [k2, k5 (i1.trans hD), i2]
    refine ⟨?_, hctx⟩
    obtain ⟨w0, w1, hloop, hw, _, hlen, hd0, _, _, hp0, _⟩ := initialize_ok_zero env w hinit
    have hsound : DefaultTableSound w0 := by
      constructor
      · intro k p hk; rw [hd0, hdef] at hk; simp [StdMap.find] at hk
      · intro k1 k2 p hk; rw [hd0, hdef] at hk; simp [StdMap.find] at hk
    have hl := initialize_loop_default env w0.eng.name.length 0 w0 (hp0.trans hD)
      (by rw [hloop]) (by rw [hd0, hdef]; rfl) hsound
    rw [hloop] at hl
    rw [hw]
    intro hnil
    have hk := hl.1
    simp only at hnil hk
    rw [hnil, Nat.zero_add] at hk
    cases hname : w0.eng.name.length with
    | zero => exact hlen hname
    | succ n =>
      rw [hname] at hk
      simp [StdMap.keys, List.range_succ] at hk
  · intro hR
    rw [k2, i3 (by rw [hR]; decide), i2]
    exact ⟨hdef, hctx⟩

set_option maxHeartbeats 1000000 in
/-- C11 (witness): the client engine for one memory server under the default
policy, after `initialize` and a `put_nonblocking` followed by a `quiet`. -/
theorem tables_by_policy_witness :
    demoDefaultWorld.eng.defContexts = [] ∧ demoDefaultWorld.eng.contexts = [] ∧
    ( Fam_Ops_Libfabric.initialize demoEnv demoDefaultWorld).1 = Outcome.ok 0 ∧
    (run_operations demoEnv 34 [Operation.put_nonblocking [1] 0 0, Operation.quiet none]
      ( Fam_Ops_Libfabric.initialize demoEnv demoDefaultWorld).2).eng.defContexts ≠ [] :=
  ⟨rfl, rfl, rfl,
    ((tables_by_policy demoEnv 34 demoDefaultWorld
      [Operation.put_nonblocking [1] 0 0, Operation.quiet none] rfl rfl rfl).1 rfl).1⟩

set_option maxHeartbeats 1000000 in
/-- C11 (counterexample): under the region policy, when `initialize` has
returned `0` and no `get_context` has been made yet, neither table is
non-empty. -/
theorem tables_both_empty_after_initialize :
    ( Fam_Ops_Libfabric.initialize demoEnv demoRegionWorld).1 = Outcome.ok 0 ∧
    ( Fam_Ops_Libfabric.initialize demoEnv demoRegionWorld).2.eng.famContextModel =
      Fam_Context_Model.FAM_CONTEXT_REGION ∧
    (run_operations demoEnv 34 []
      ( Fam_Ops_Libfabric.initialize demoEnv demoRegionWorld).2).eng.contexts = [] ∧
    (run_operations demoEnv 34 []
      ( Fam_Ops_Libfabric.initialize demoEnv demoRegionWorld).2).eng.defContexts = [] :=
  ⟨rfl, rfl, rfl, rfl⟩

/-! ## The address registry after initialisation (C13) -/

theorem initialize_node_client (env : Env) (nodeId : Nat) (w : World)
    (hsrc : w.eng.isSource = false) :
    (initialize_node env nodeId w).2.eng.isSource = false ∧
    ((initialize_node env nodeId w).1 = Outcome.ok none →
      (initialize_node env nodeId w).2.eng.fiAddrs = w.eng.fiAddrs ++ [registry_token env nodeId]) := by
  obtain ⟨_, _, _, _, _, c6, _, c8, _⟩ := initialize_client_frame env nodeId w
  rw [initialize_node_eq]
  simp only [hsrc, Bool.not_false, if_true]
  by_cases hc : (initialize_client env nodeId w).1 = Outcome.ok none
  · rw [if_pos hc]
    obtain ⟨_, _, _, d4, _, d6, _⟩ := initialize_defaultCtx_frame env nodeId
      (initialize_client env nodeId w).2
    exact ⟨d4.trans (c6.trans hsrc), fun _ => d6.trans (c8 hc)⟩
  · rw [if_neg hc]
    exact ⟨c6.trans hsrc, fun h => absurd h hc⟩

theorem initialize_loop_registry (env : Env) :
    ∀ (todo nodeId : Nat) (w w1 : World), w.eng.isSource = false →
      initialize_loop env todo nodeId w = (Outcome.ok none, w1) →
      w1.eng.fiAddrs = w.eng.fiAddrs ++ (List.range' nodeId todo).map (registry_token env) := by
  intro todo
  induction todo with
  | zero =>
    intro nodeId w w1 _ h
    simp only [initialize_loop, M.pure_apply, Prod.mk.injEq] at h
    simp [← h.2]
  | succ todo ih =>
    intro nodeId w w1 hsrc h
    obtain ⟨n1, n2⟩ := initialize_node_client env nodeId w hsrc
    rw [initialize_loop_succ] at h
    by_cases hc : (initialize_node env nodeId w).1 = Outcome.ok none
    · rw [if_pos hc] at h
      rw [ih (nodeId + 1) _ w1 n1 h, n2 hc]
      simp [List.range'_succ]
    · rw [if_neg hc] at h
      rw [h] at hc
      exact absurd rfl hc

/-- The registry after a client-mode `initialize` that returned `0`: one token
per position `0 .. size-1`, `size` being the size of `name` once `name[0]` has
been evaluated. -/
theorem initialize_registry (env : Env) (w : World) (hsrc : w.eng.isSource = false)
    (hinit : ( Fam_Ops_Libfabric.initialize env w).1 = Outcome.ok 0) :
    ( Fam_Ops_Libfabric.initialize env w).2.eng.fiAddrs =
      w.eng.fiAddrs ++
        (List.range (initialize_entry w).eng.name.length).map (registry_token env) := by
  obtain ⟨w0, w1, hloop, hw, hname, _, _, _, hfi, _, hs0, _⟩ := initialize_ok_zero env w hinit
  have h := initialize_loop_registry env _ 0 w0 w1 (hs0.trans hsrc) hloop
  rw [hw]
  simp only
  rw [h, hfi, hname, List.range_eq_range']

theorem initialize_node_succeeds (env : Env) (hco : Cooperative env) (nodeId : Nat) (w : World)
    (hsrc : w.eng.isSource = false) (halloc : w.eng.famAllocator ≠ none) :
    (initialize_node env nodeId w).1 = Outcome.ok none ∧
    (initialize_node env nodeId w).2.eng.famAllocator = w.eng.famAllocator := by
  obtain ⟨hthrows, _, _, hlen, haddr, hins, hen⟩ := hco
  obtain ⟨a, ha⟩ := Option.ne_none_iff_exists'.mp halloc
  have hc : (initialize_client env nodeId w).1 = Outcome.ok none ∧
      (initialize_client env nodeId w).2.eng.famAllocator = w.eng.famAllocator := by
    rw [initialize_client_eq, ha]
    simp only [hthrows, not_le.mpr (hlen nodeId), not_lt.mpr (haddr nodeId),
      not_lt.mpr (hins nodeId _), if_false]
    exact ⟨trivial, ha⟩
  rw [initialize_node_eq]
  simp only [hsrc, Bool.not_false, if_true]
  rw [if_pos hc.1, initialize_defaultCtx_eq]
  split
  · simp only [hthrows, not_lt.mpr (hen _), if_false]
    exact ⟨trivial, hc.2⟩
  · exact ⟨rfl, hc.2⟩

theorem initialize_loop_succeeds (env : Env) (hco : Cooperative env) :
    ∀ (todo nodeId : Nat) (w : World), w.eng.isSource = false → w.eng.famAllocator ≠ none →
      (initialize_loop env todo nodeId w).1 = Outcome.ok none := by
  intro todo
  induction todo with
  | zero => intro nodeId w _ _; rfl
  | succ todo ih =>
    intro nodeId w hsrc halloc
    obtain ⟨h1, h2⟩ := initialize_node_succeeds env hco nodeId w hsrc halloc
    rw [initialize_loop_succ, if_pos h1]
    exact ih _ _ (initialize_node_client env nodeId w hsrc).1 (by rw [h2]; exact halloc)

/-- With collaborators that cooperate, a client engine that has an allocator
and at least one memory server is initialised: `initialize` returns `0`. -/
theorem initialize_succeeds (env : Env) (hco : Cooperative env) (w : World)
    (hsrc : w.eng.isSource = false) (halloc : w.eng.famAllocator ≠ none)
    (hname : w.eng.name.length ≠ 0) :
    ( Fam_Ops_Libfabric.initialize env w).1 = Outcome.ok 0 := by
  have hserv : ∀ w0 : World, w0.eng.isSource = false → w0.eng.famAllocator ≠ none →
      (initialize_servers env w0).1 = Outcome.ok 0 := by
    intro w0 h1 h2
    have hl := initialize_loop_succeeds env hco w0.eng.name.length 0 w0 h1 h2
    rw [initialize_servers_eq]
    rcases hr : initialize_loop env w0.eng.name.length 0 w0 with ⟨o, w1⟩
    rw [hr] at hl
    simp only at hl
    subst hl
    rfl
  obtain ⟨hthrows, hfi, hav, _⟩ := hco
  rw [initialize_eq, if_neg hname]
  simp only [hthrows, not_lt.mpr hfi, not_lt.mpr hav, if_false]
  split
  · exact hserv _ hsrc halloc
  · exact hserv _ hsrc halloc

theorem demoEnv_cooperative : Cooperative demoEnv :=
  ⟨fun _ => rfl, by decide, by decide, fun _ => (by decide : (0 : Int) < 8),
    fun _ => (by decide : (0 : Int) ≤ 0), fun _ _ => (by decide : (0 : Int) ≤ 0),
    fun _ => (by decide : (0 : Int) ≤ 0)⟩

/-- C13 (as amended): for every memory-server map whose `n` entries are keyed
`0 .. n-1`, after a client-mode `initialize` on an empty registry returns `0`
the registry holds exactly `n` tokens, and for every configured memory server
`m` the token at position `m` is the one obtained by inserting the address the
allocator returned for `m`. -/
theorem initialize_fills_registry (env : Env) (w : World) (n : Nat)
    (hsrc : w.eng.isSource = false) (hnames : w.eng.name.keys = List.range n)
    (hfi : w.eng.fiAddrs = [])
    (hinit : ( Fam_Ops_Libfabric.initialize env w).1 = Outcome.ok 0) :
    ( Fam_Ops_Libfabric.initialize env w).2.eng.fiAddrs.length = n ∧
    ∀ m ∈ w.eng.name.keys,
      fiAddr_at ( Fam_Ops_Libfabric.initialize env w).2.eng m = some (registry_token env m) := by
  have hlen : w.eng.name.length = n := by
    have := congrArg List.length hnames
    simpa [StdMap.keys] using this
  have hn : w.eng.name.length ≠ 0 := by
    intro hn
    rw [initialize_eq, if_pos hn] at hinit
    simp at hinit
  have hentry : (initialize_entry w).eng.name = w.eng.name := by
    have h0 : (0 : Nat) ∈ w.eng.name.keys := by
      rw [hnames]; exact List.mem_range.mpr (by omega)
    cases hf : w.eng.name.find 0 with
    | none => exact absurd h0 ((StdMap.find_eq_none_iff _ _).mp hf)
    | some v => simp [initialize_entry, hf]
  have h := initialize_registry env w hsrc hinit
  rw [hentry, hlen, hfi, List.nil_append] at h
  constructor
  · rw [h]; simp
  · intro m hm
    rw [hnames, List.mem_range] at hm
    unfold fiAddr_at
    rw [h]
    simp [hm]

set_option maxHeartbeats 1000000 in
/-- C13 (witness): the client engine for the single memory server `0`. -/
theorem initialize_fills_registry_witness :
    demoDefaultWorld.eng.isSource = false ∧ demoDefaultWorld.eng.name.keys = List.range 1 ∧
    demoDefaultWorld.eng.fiAddrs = [] ∧
    ( Fam_Ops_Libfabric.initialize demoEnv demoDefaultWorld).1 = Outcome.ok 0 ∧
    ( Fam_Ops_Libfabric.initialize demoEnv demoDefaultWorld).2.eng.fiAddrs.length = 1 :=
  ⟨rfl, rfl, rfl, rfl,
    (initialize_fills_registry demoEnv demoDefaultWorld 1 rfl rfl rfl rfl).1⟩

/-- C13 (counterexample): a client engine constructed for the single memory
server `5`.  `initialize` returns `0`; the registry then holds two tokens, the
ones of the memory servers `0` and `1`, and has no position `5`. -/
theorem initialize_registry_not_by_memserver_id :
    demoSparseWorld.eng.name.keys = [5] ∧
    ( Fam_Ops_Libfabric.initialize demoEnv demoSparseWorld).1 = Outcome.ok 0 ∧
    ( Fam_Ops_Libfabric.initialize demoEnv demoSparseWorld).2.eng.fiAddrs =
      [registry_token demoEnv 0, registry_token demoEnv 1] ∧
    fiAddr_at ( Fam_Ops_Libfabric.initialize demoEnv demoSparseWorld).2.eng 5 = none := by
  have hinit : ( Fam_Ops_Libfabric.initialize demoEnv demoSparseWorld).1 = Outcome.ok 0 :=
    initialize_succeeds demoEnv demoEnv_cooperative demoSparseWorld rfl (by decide) (by decide)
  have h := initialize_registry demoEnv demoSparseWorld rfl hinit
  have hlen : (initialize_entry demoSparseWorld).eng.name.length = 2 := by decide
  rw [hlen] at h
  refine ⟨rfl, hinit, h, ?_⟩
  unfold fiAddr_at
  rw [h]
  rfl

/-! ## Fence and quiet, call by call -/

theorem fabric_fence_eq (env : Env) (addr : Option Nat) (ctx : Nat) (w : World) :
    fabric_fence env addr ctx w =
      match env.throws w.trace.length with
      | some e =>
        (Outcome.throw e,
          { w with trace := w.trace ++ [⟨Call.fabric_fence addr ctx, Except.error e⟩] })
      | none =>
        (Outcome.ok (), { w with trace := w.trace ++ [⟨Call.fabric_fence addr ctx, Except.ok 0⟩] }) := by
  cases h : env.throws w.trace.length <;>
    simp only [fabric_fence, extern_call, M.bind_apply, M.andThen, M.pure_apply, h]

theorem fabric_quiet_eq (env : Env) (ctx : Nat) (w : World) :
    fabric_quiet env ctx w =
      match env.throws w.trace.length with
      | some e =>
        (Outcome.throw e, { w with trace := w.trace ++ [⟨Call.fabric_quiet ctx, Except.error e⟩] })
      | none =>
        (Outcome.ok (),
          { w with
            heap := w.heap.modify (fun c => { c with outstanding := [] }) ctx
            trace := w.trace ++ [⟨Call.fabric_quiet ctx, Except.ok 0⟩] }) := by
  cases h : env.throws w.trace.length <;>
    simp only [fabric_quiet, extern_call, M.bind_apply, M.andThen, M.modify, h]

theorem fence_defContexts_cons (env : Env) (k c : Nat) (rest : StdMap Nat) (nodeId : Nat)
    (w : World) :
    fence_defContexts env ((k, c) :: rest) nodeId w =
      match env.throws w.trace.length with
      | some e =>
        (Outcome.throw e,
          { w with
            trace := w.trace ++
              [⟨Call.fabric_fence (fiAddr_at w.eng nodeId) c, Except.error e⟩] })
      | none =>
        fence_defContexts env rest (nodeId + 1)
          { w with
            trace := w.trace ++ [⟨Call.fabric_fence (fiAddr_at w.eng nodeId) c, Except.ok 0⟩] } := by
  cases h : env.throws w.trace.length <;>
    simp only [fence_defContexts, fabric_fence, extern_call, M.bind_apply, M.andThen, M.get,
      M.pure_apply, h]

theorem fence_contexts_cons (env : Env) (sh k c : Nat) (rest : StdMap Nat) (w : World) :
    fence_contexts env sh ((k, c) :: rest) w =
      match env.throws w.trace.length with
      | some e =>
        (Outcome.throw e,
          { w with
            trace := w.trace ++
              [⟨Call.fabric_fence (fiAddr_at w.eng (k >>> sh)) c, Except.error e⟩] })
      | none =>
        fence_contexts env sh rest
          { w with
            trace := w.trace ++
              [⟨Call.fabric_fence (fiAddr_at w.eng (k >>> sh)) c, Except.ok 0⟩] } := by
  cases h : env.throws w.trace.length <;>
    simp only [fence_contexts, fabric_fence, extern_call, M.bind_apply, M.andThen, M.get,
      M.pure_apply, h]

theorem quiet_defContexts_cons (env : Env) (k c : Nat) (rest : StdMap Nat) (w : World) :
    quiet_defContexts env ((k, c) :: rest) w =
      match env.throws w.trace.length with
      | some e =>
        (Outcome.throw e, { w with trace := w.trace ++ [⟨Call.fabric_quiet c, Except.error e⟩] })
      | none =>
        quiet_defContexts env rest
          { w with
            heap := w.heap.modify (fun x => { x with outstanding := [] }) c
            trace := w.trace ++ [⟨Call.fabric_quiet c, Except.ok 0⟩] } := by
  cases h : env.throws w.trace.length <;>
    simp only [quiet_defContexts, fabric_quiet, extern_call, M.bind_apply, M.andThen, M.modify, h]

theorem quiet_context_region (env : Env) (c : Nat) (w : World)
    (hR : w.eng.famContextModel = Fam_Context_Model.FAM_CONTEXT_REGION) :
    Fam_Ops_Libfabric.quiet_context env (some c) w = fabric_quiet env c w := by
  simp only [ Fam_Ops_Libfabric.quiet_context, M.bind_apply, M.andThen, M.get, hR, reduceCtorEq,
    if_false, if_true]

theorem quiet_contexts_cons (env : Env) (k c : Nat) (rest : StdMap Nat) (w : World)
    (hR : w.eng.famContextModel = Fam_Context_Model.FAM_CONTEXT_REGION) :
    quiet_contexts env ((k, c) :: rest) w =
      match env.throws w.trace.length with
      | some e =>
        (Outcome.throw e, { w with trace := w.trace ++ [⟨Call.fabric_quiet c, Except.error e⟩] })
      | none =>
        quiet_contexts env rest
          { w with
            heap := w.heap.modify (fun x => { x with outstanding := [] }) c
            trace := w.trace ++ [⟨Call.fabric_quiet c, Except.ok 0⟩] } := by
  have h1 : quiet_contexts env ((k, c) :: rest) w =
      M.andThen ( Fam_Ops_Libfabric.quiet_context env (some c))
        (fun _ => quiet_contexts env rest) w := rfl
  rw [h1]
  unfold M.andThen
  rw [quiet_context_region env c w hR, fabric_quiet_eq]
  cases h : env.throws w.trace.length <;> rfl

theorem verbRun_nil (w : World) : VerbRun (Outcome.ok (), w) w [] := by
  refine ⟨?_, [], ?_, ?_, ?_, ?_⟩
  · intro s h; cases h
  · simp
  · simp
  · intro _; rfl
  · intro e h; cases h

theorem verbRun_throw (w : World) (c : Call) (e : Fam_Error) (calls : List Call) :
    VerbRun (Outcome.throw e, { w with trace := w.trace ++ [⟨c, Except.error e⟩] }) w
      (c :: calls) := by
  refine ⟨?_, [⟨c, Except.error e⟩], rfl, ?_, ?_, ?_⟩
  · intro s h; cases h
  · simp
  · intro h; cases h
  · intro e' h
    simp only [Outcome.throw.injEq] at h
    subst h
    exact ⟨[], c, rfl⟩

theorem verbRun_step (w : World) (c : Call) (s : Int) (calls : List Call)
    (r : Outcome Unit × World)
    (h : VerbRun r { w with trace := w.trace ++ [⟨c, Except.ok s⟩] } calls) :
    VerbRun r w (c :: calls) := by
  obtain ⟨h1, evs, h2, h3, h4, h5⟩ := h
  refine ⟨h1, ⟨c, Except.ok s⟩ :: evs, ?_, ?_, ?_, ?_⟩
  · rw [h2]; simp
  · simpa using h3
  · intro hok; simp [h4 hok]
  · intro e he
    obtain ⟨pre, c', hpre⟩ := h5 e he
    exact ⟨⟨c, Except.ok s⟩ :: pre, c', by rw [hpre]; rfl⟩

theorem fence_defContexts_run (env : Env) :
    ∀ (l : StdMap Nat) (nodeId : Nat) (w : World),
      VerbRun (fence_defContexts env l nodeId w) w (fence_defContexts_calls w.eng l nodeId) ∧
      (fence_defContexts env l nodeId w).2 =
        { w with trace := (fence_defContexts env l nodeId w).2.trace } := by
  intro l
  induction l with
  | nil => intro nodeId w; exact ⟨verbRun_nil w, rfl⟩
  | cons x xs ih =>
    intro nodeId w
    obtain ⟨k, c⟩ := x
    rw [fence_defContexts_cons]
    cases h : env.throws w.trace.length with
    | some e => exact ⟨verbRun_throw w _ e _, rfl⟩
    | none =>
      obtain ⟨i1, i2⟩ := ih (nodeId + 1)
        { w with trace := w.trace ++ [⟨Call.fabric_fence (fiAddr_at w.eng nodeId) c, Except.ok 0⟩] }
      refine ⟨verbRun_step w _ 0 _ _ i1, ?_⟩
      simp only
      rw [i2]

theorem fence_contexts_run (env : Env) (sh : Nat) :
    ∀ (l : StdMap Nat) (w : World),
      VerbRun (fence_contexts env sh l w) w
        (l.map (fun kc => Call.fabric_fence (fiAddr_at w.eng (kc.1 >>> sh)) kc.2)) ∧
      (fence_contexts env sh l w).2 = { w with trace := (fence_contexts env sh l w).2.trace } := by
  intro l
  induction l with
  | nil => intro w; exact ⟨verbRun_nil w, rfl⟩
  | cons x xs ih =>
    intro w
    obtain ⟨k, c⟩ := x
    rw [fence_contexts_cons]
    cases h : env.throws w.trace.length with
    | some e => exact ⟨verbRun_throw w _ e _, rfl⟩
    | none =>
      obtain ⟨i1, i2⟩ := ih
        { w with
          trace := w.trace ++ [⟨Call.fabric_fence (fiAddr_at w.eng (k >>> sh)) c, Except.ok 0⟩] }
      refine ⟨verbRun_step w _ 0 _ _ i1, ?_⟩
      simp only
      rw [i2]

theorem quieted_getElem? (ps : List Nat) :
    ∀ (heap : List Fam_Context) (p : Nat),
      (quieted heap ps)[p]? =
        if p ∈ ps then (heap[p]?).map (fun c => { c with outstanding := [] }) else heap[p]? := by
  induction ps with
  | nil => intro heap p; simp [quieted]
  | cons q qs ih =>
    intro heap p
    rw [quieted, ih, List.getElem?_modify]
    by_cases hq : q = p
    · subst hq
      by_cases hm : q ∈ qs
      · cases heap[q]? <;> simp [hm]
      · cases heap[q]? <;> simp [hm]
    · have hq' : ¬ p = q := fun h => hq h.symm
      by_cases hm : p ∈ qs
      · cases heap[p]? <;> simp [hm, hq]
      · cases heap[p]? <;> simp [hm, hq, hq']

theorem quieted_quieted (heap : List Fam_Context) (ps qs : List Nat) (h : ∀ q ∈ qs, q ∈ ps) :
    quieted (quieted heap ps) qs = quieted heap ps := by
  apply List.ext_getElem?
  intro p
  rw [quieted_getElem? qs, quieted_getElem? ps]
  by_cases hq : p ∈ qs
  · have hp := h p hq
    cases heap[p]? <;> simp [hq, hp]
  · simp [hq]

theorem quieted_append (heap : List Fam_Context) (ps qs : List Nat) :
    quieted heap (ps ++ qs) = quieted (quieted heap ps) qs := by
  induction ps generalizing heap with
  | nil => rfl
  | cons p ps ih => simp only [List.cons_append, quieted]; exact ih _

theorem quietRun_step (w : World) (k c : Nat) (rest : StdMap Nat) (r : Outcome Unit × World)
    (h : QuietRun r
      { w with
        heap := w.heap.modify (fun x => { x with outstanding := [] }) c
        trace := w.trace ++ [⟨Call.fabric_quiet c, Except.ok 0⟩] } rest) :
    QuietRun r w ((k, c) :: rest) := by
  obtain ⟨h1, h2, ps, h3, h4, h5⟩ := h
  refine ⟨verbRun_step w _ 0 _ _ ?_, ?_, c :: ps, ?_, ?_, ?_⟩
  · exact h1
  · rw [h2]
  · simpa using h3
  · rw [h4]; rfl
  · intro hok; rw [h5 hok]; rfl

theorem quietRun_throw (w : World) (k c : Nat) (rest : StdMap Nat) (e : Fam_Error) :
    QuietRun (Outcome.throw e, { w with trace := w.trace ++ [⟨Call.fabric_quiet c, Except.error e⟩] })
      w ((k, c) :: rest) := by
  refine ⟨verbRun_throw w _ e _, rfl, [], ?_, rfl, ?_⟩
  · simp
  · intro h; cases h

theorem quiet_defContexts_run (env : Env) :
    ∀ (l : StdMap Nat) (w : World), QuietRun (quiet_defContexts env l w) w l := by
  intro l
  induction l with
  | nil =>
    intro w
    exact ⟨verbRun_nil w, rfl, [], by simp, rfl, fun _ => rfl⟩
  | cons x xs ih =>
    intro w
    obtain ⟨k, c⟩ := x
    rw [quiet_defContexts_cons]
    cases h : env.throws w.trace.length with
    | some e => exact quietRun_throw w k c xs e
    | none => exact quietRun_step w k c xs _ (ih _)

theorem quiet_contexts_run (env : Env) :
    ∀ (l : StdMap Nat) (w : World),
      w.eng.famContextModel = Fam_Context_Model.FAM_CONTEXT_REGION →
      QuietRun (quiet_contexts env l w) w l := by
  intro l
  induction l with
  | nil =>
    intro w _
    exact ⟨verbRun_nil w, rfl, [], by simp, rfl, fun _ => rfl⟩
  | cons x xs ih =>
    intro w hR
    obtain ⟨k, c⟩ := x
    rw [quiet_contexts_cons env k c xs w hR]
    cases h : env.throws w.trace.length with
    | some e => exact quietRun_throw w k c xs e
    | none => exact quietRun_step w k c xs _ (ih _ hR)

/-- The code `lock; try { body } catch (...) { unlock; throw; } unlock` on a
free `ctxLock`: the body runs with the lock held, and the lock is released
when control leaves the body. -/
theorem locked_section_eq (body : M Unit) (w : World) (hfree : w.eng.ctxLock = false) :
    (do lock_ctxLock; M.tryRethrow body unlock_ctxLock; unlock_ctxLock : M Unit) w =
      match body (w.withCtxLock true) with
      | (Outcome.stuck s, w2) => (Outcome.stuck s, w2)
      | (o, w2) => (o, w2.withCtxLock false) := by
  simp only [lock_ctxLock, unlock_ctxLock, M.bind_apply, M.andThen, M.get, M.modifyEng, M.modify,
    M.tryRethrow, hfree, World.withCtxLock, Bool.false_eq_true, if_false]
  rcases h : body { w with eng := { w.eng with ctxLock := true } } with ⟨o, w2⟩
  cases o <;> rfl

theorem fence_default_eq (env : Env) (sh : Nat) (r : Option Nat) (w : World)
    (hD : w.eng.famContextModel = Fam_Context_Model.FAM_CONTEXT_DEFAULT) :
    Fam_Ops_Libfabric.fence env sh r w = fence_defContexts env w.eng.defContexts 0 w := by
  simp only [ Fam_Ops_Libfabric.fence, M.bind_apply, M.andThen, M.get, hD, if_true]

theorem fence_region_eq (env : Env) (sh : Nat) (r : Option Nat) (w : World)
    (hR : w.eng.famContextModel = Fam_Context_Model.FAM_CONTEXT_REGION)
    (hfree : w.eng.ctxLock = false) :
    Fam_Ops_Libfabric.fence env sh r w =
      match fence_locked env sh r (w.withCtxLock true) with
      | (Outcome.stuck s, w2) => (Outcome.stuck s, w2)
      | (o, w2) => (o, w2.withCtxLock false) := by
  rw [← locked_section_eq _ w hfree]
  simp only [ Fam_Ops_Libfabric.fence, M.bind_apply, M.andThen, M.get, hR, reduceCtorEq, if_false,
    if_true]

theorem fence_region_held (env : Env) (sh : Nat) (r : Option Nat) (w : World)
    (hR : w.eng.famContextModel = Fam_Context_Model.FAM_CONTEXT_REGION)
    (hheld : w.eng.ctxLock = true) :
    Fam_Ops_Libfabric.fence env sh r w = (Outcome.stuck Stuck.deadlock, w) := by
  simp only [ Fam_Ops_Libfabric.fence, lock_ctxLock, M.bind_apply, M.andThen, M.get, M.halt, hR,
    hheld, reduceCtorEq, if_false, if_true]

theorem quiet_default_eq (env : Env) (r : Option Nat) (w : World)
    (hD : w.eng.famContextModel = Fam_Context_Model.FAM_CONTEXT_DEFAULT) :
    Fam_Ops_Libfabric.quiet env r w = quiet_defContexts env w.eng.defContexts w := by
  simp only [ Fam_Ops_Libfabric.quiet, Fam_Ops_Libfabric.quiet_context, M.bind_apply, M.andThen,
    M.get, hD, if_true]

theorem quiet_region_eq (env : Env) (r : Option Nat) (w : World)
    (hR : w.eng.famContextModel = Fam_Context_Model.FAM_CONTEXT_REGION)
    (hfree : w.eng.ctxLock = false) :
    Fam_Ops_Libfabric.quiet env r w =
      match quiet_locked env r (w.withCtxLock true) with
      | (Outcome.stuck s, w2) => (Outcome.stuck s, w2)
      | (o, w2) => (o, w2.withCtxLock false) := by
  rw [← locked_section_eq _ w hfree]
  simp only [ Fam_Ops_Libfabric.quiet, M.bind_apply, M.andThen, M.get, hR, reduceCtorEq, if_false,
    if_true]

theorem quiet_region_held (env : Env) (r : Option Nat) (w : World)
    (hR : w.eng.famContextModel = Fam_Context_Model.FAM_CONTEXT_REGION)
    (hheld : w.eng.ctxLock = true) :
    Fam_Ops_Libfabric.quiet env r w = (Outcome.stuck Stuck.deadlock, w) := by
  simp only [ Fam_Ops_Libfabric.quiet, lock_ctxLock, M.bind_apply, M.andThen, M.get, M.halt, hR,
    hheld, reduceCtorEq, if_false, if_true]

/-- The `try` block of `fence` for a region descriptor, path by path. -/
theorem fence_locked_some_eq (env : Env) (sh r : Nat) (w : World) :
    fence_locked env sh (some r) w =
      match (w.regions r).context with
      | some ctx => fabric_fence env (fiAddr_at w.eng (w.regions r).memserver_id) ctx w
      | none =>
        match w.eng.contexts.find (w.regions r).regionId with
        | some ctx =>
          fabric_fence env (fiAddr_at w.eng (w.regions r).memserver_id) ctx
            { w with
              regions := Function.update w.regions r { w.regions r with context := some ctx } }
        | none => (Outcome.ok (), w) := by
  cases h1 : (w.regions r).context with
  | some ctx => simp only [fence_locked, M.bind_apply, M.andThen, M.get, h1]
  | none =>
    cases h2 : w.eng.contexts.find (w.regions r).regionId <;>
      simp only [fence_locked, set_region_context, M.bind_apply, M.andThen, M.get, M.modify,
        M.pure_apply, h1, h2]

/-- The `try` block of `quiet` for a region descriptor, path by path. -/
theorem quiet_locked_some_eq (env : Env) (r : Nat) (w : World)
    (hR : w.eng.famContextModel = Fam_Context_Model.FAM_CONTEXT_REGION) :
    quiet_locked env (some r) w =
      match (w.regions r).context with
      | some ctx => fabric_quiet env ctx w
      | none =>
        match w.eng.contexts.find (w.regions r).regionId with
        | some ctx =>
          fabric_quiet env ctx
            { w with
              regions := Function.update w.regions r { w.regions r with context := some ctx } }
        | none => (Outcome.ok (), w) := by
  cases h1 : (w.regions r).context with
  | some ctx =>
    simp only [quiet_locked, M.bind_apply, M.andThen, M.get, h1]
    exact quiet_context_region env ctx w hR
  | none =>
    cases h2 : w.eng.contexts.find (w.regions r).regionId with
    | none => simp only [quiet_locked, M.bind_apply, M.andThen, M.get, M.pure_apply, h1, h2]
    | some ctx =>
      simp only [quiet_locked, set_region_context, M.bind_apply, M.andThen, M.get, M.modify,
        h1, h2]
      exact quiet_context_region env ctx _ hR

theorem verbRun_of_trace_eq (r : Outcome Unit × World) (w w1 : World) (calls : List Call)
    (ht : w1.trace = w.trace) (h : VerbRun r w1 calls) : VerbRun r w calls := by
  unfold VerbRun at h ⊢
  rw [ht] at h
  exact h

theorem fabric_fence_run (env : Env) (addr : Option Nat) (ctx : Nat) (w : World) :
    VerbRun (fabric_fence env addr ctx w) w [Call.fabric_fence addr ctx] ∧
    (fabric_fence env addr ctx w).2 = { w with trace := (fabric_fence env addr ctx w).2.trace } := by
  rw [fabric_fence_eq]
  cases h : env.throws w.trace.length with
  | some e => exact ⟨verbRun_throw w _ e _, rfl⟩
  | none => exact ⟨verbRun_step w _ 0 _ _ (verbRun_nil _), rfl⟩

theorem fabric_quiet_run (env : Env) (ctx : Nat) (w : World) :
    QuietRun (fabric_quiet env ctx w) w [(0, ctx)] := by
  rw [fabric_quiet_eq]
  cases h : env.throws w.trace.length with
  | some e => exact quietRun_throw w 0 ctx [] e
  | none =>
    exact quietRun_step w 0 ctx [] _ ⟨verbRun_nil _, rfl, [], by simp, rfl, fun _ => rfl⟩

/-- The `try` block of `fence`: it makes the calls prescribed for the scope and
changes nothing of the engine or the heap. -/
theorem fence_locked_run (env : Env) (sh : Nat) (scope : Option Nat) (w : World) :
    VerbRun (fence_locked env sh scope w) w (scope_fence_calls w sh scope) ∧
    (fence_locked env sh scope w).2.eng = w.eng ∧
    (fence_locked env sh scope w).2.heap = w.heap := by
  cases scope with
  | none =>
    have h : fence_locked env sh none w = fence_contexts env sh w.eng.contexts w := rfl
    obtain ⟨h1, h2⟩ := fence_contexts_run env sh w.eng.contexts w
    rw [h]
    refine ⟨h1, ?_, ?_⟩
    · rw [h2]
    · rw [h2]
  | some r =>
    rw [fence_locked_some_eq]
    cases h1 : (w.regions r).context with
    | some ctx =>
      simp only [scope_fence_calls, region_context, h1]
      obtain ⟨g1, g2⟩ := fabric_fence_run env (fiAddr_at w.eng (w.regions r).memserver_id) ctx w
      refine ⟨g1, ?_, ?_⟩
      · rw [g2]
      · rw [g2]
    | none =>
      cases h2 : w.eng.contexts.find (w.regions r).regionId with
      | none =>
        simp only [scope_fence_calls, region_context, h1, h2]
        exact ⟨verbRun_nil w, trivial, trivial⟩
      | some ctx =>
        simp only [scope_fence_calls, region_context, h1, h2]
        obtain ⟨g1, g2⟩ := fabric_fence_run env (fiAddr_at w.eng (w.regions r).memserver_id) ctx
          { w with
            regions := Function.update w.regions r { w.regions r with context := some ctx } }
        refine ⟨verbRun_of_trace_eq _ w _ _ rfl g1, ?_, ?_⟩
        · rw [g2]
        · rw [g2]

/-- The `try` block of `quiet` under the region policy: it makes the calls
prescribed for the scope, changes nothing of the engine, and leaves the heap
in which the contexts of the calls that returned have been quieted. -/
theorem quiet_locked_run (env : Env) (scope : Option Nat) (w : World)
    (hR : w.eng.famContextModel = Fam_Context_Model.FAM_CONTEXT_REGION) :
    VerbRun (quiet_locked env scope w) w (scope_quiet_calls w scope) ∧
    (quiet_locked env scope w).2.eng = w.eng ∧
    ∃ ps, (quiet_locked env scope w).2.heap = quieted w.heap ps ∧
      (∀ p ∈ ps, Call.fabric_quiet p ∈ scope_quiet_calls w scope) ∧
      ((quiet_locked env scope w).1 = Outcome.ok () →
        ∀ p, Call.fabric_quiet p ∈ scope_quiet_calls w scope → p ∈ ps) := by
  have hq : ∀ (l : StdMap Nat) (r : Outcome Unit × World) (w1 : World), w1.trace = w.trace →
      w1.eng = w.eng → w1.heap = w.heap → QuietRun r w1 l →
      VerbRun r w (l.map (fun kc => Call.fabric_quiet kc.2)) ∧ r.2.eng = w.eng ∧
      ∃ ps, r.2.heap = quieted w.heap ps ∧
        (∀ p ∈ ps, Call.fabric_quiet p ∈ l.map (fun kc => Call.fabric_quiet kc.2)) ∧
        (r.1 = Outcome.ok () →
          ∀ p, Call.fabric_quiet p ∈ l.map (fun kc => Call.fabric_quiet kc.2) → p ∈ ps) := by
    intro l r w1 ht he hh ⟨q1, q2, ps, q3, q4, q5⟩
    refine ⟨verbRun_of_trace_eq _ w _ _ ht q1, ?_, ps, ?_, ?_, ?_⟩
    · rw [q2]; exact he
    · rw [q4, hh]
    · intro p hp
      have := q3.subset hp
      simp only [List.mem_map] at this ⊢
      obtain ⟨kc, hkc, hkc2⟩ := this
      exact ⟨kc, hkc, by rw [hkc2]⟩
    · intro hok p hp
      rw [q5 hok]
      simp only [List.mem_map, Call.fabric_quiet.injEq] at hp ⊢
      exact hp
  cases scope with
  | none =>
    have h : quiet_locked env none w = quiet_contexts env w.eng.contexts w := rfl
    rw [h]
    exact hq _ _ w rfl rfl rfl (quiet_contexts_run env w.eng.contexts w hR)
  | some r =>
    rw [quiet_locked_some_eq env r w hR]
    cases h1 : (w.regions r).context with
    | some ctx =>
      simp only [scope_quiet_calls, region_context, h1]
      exact hq [(0, ctx)] _ w rfl rfl rfl (fabric_quiet_run env ctx w)
    | none =>
      cases h2 : w.eng.contexts.find (w.regions r).regionId with
      | none =>
        simp only [scope_quiet_calls, region_context, h1, h2]
        refine ⟨verbRun_nil w, trivial, [], rfl, ?_, ?_⟩
        · intro p hp; cases hp
        · intro _ p hp; cases hp
      | some ctx =>
        simp only [scope_quiet_calls, region_context, h1, h2]
        exact hq [(0, ctx)] _
          { w with
            regions := Function.update w.regions r { w.regions r with context := some ctx } }
          rfl rfl rfl (fabric_quiet_run env ctx _)

theorem verbRun_events (r : Outcome Unit × World) (w : World) (calls : List Call)
    (h : VerbRun r w calls) :
    (∀ s, r.1 ≠ Outcome.stuck s) ∧
    (newEvents w r.2).map Event.call <+: calls ∧
    (r.1 = Outcome.ok () → (newEvents w r.2).map Event.call = calls) ∧
    (∀ e, r.1 = Outcome.throw e → ∃ pre c, newEvents w r.2 = pre ++ [⟨c, Except.error e⟩]) := by
  obtain ⟨h1, evs, h2, h3, h4, h5⟩ := h
  have : newEvents w r.2 = evs := by
    unfold newEvents
    rw [h2]
    simp
  rw [this]
  exact ⟨h1, h3, h4, h5⟩

theorem unlock_after_lock (w w2 : World) (h : w2.eng = (w.withCtxLock true).eng)
    (hfree : w.eng.ctxLock = false) : (w2.withCtxLock false).eng = w.eng := by
  obtain ⟨eng, _, _, _, _, _⟩ := w
  obtain ⟨eng2, _, _, _, _, _⟩ := w2
  simp only [World.withCtxLock] at h hfree ⊢
  subst h
  cases eng
  simp only at hfree
  subst hfree
  rfl

/-- Under the region policy with `ctxLock` free: `fence` is its `try` block run
with the lock held, followed by the release of the lock. -/
theorem fence_region_run (env : Env) (sh : Nat) (scope : Option Nat) (w : World)
    (hR : w.eng.famContextModel = Fam_Context_Model.FAM_CONTEXT_REGION)
    (hfree : w.eng.ctxLock = false) :
    Fam_Ops_Libfabric.fence env sh scope w =
      ((fence_locked env sh scope (w.withCtxLock true)).1,
        (fence_locked env sh scope (w.withCtxLock true)).2.withCtxLock false) ∧
    VerbRun ( Fam_Ops_Libfabric.fence env sh scope w) w (scope_fence_calls w sh scope) ∧
    ( Fam_Ops_Libfabric.fence env sh scope w).2.eng = w.eng ∧
    ( Fam_Ops_Libfabric.fence env sh scope w).2.heap = w.heap := by
  obtain ⟨h1, h2, h3⟩ := fence_locked_run env sh scope (w.withCtxLock true)
  have heq : Fam_Ops_Libfabric.fence env sh scope w =
      ((fence_locked env sh scope (w.withCtxLock true)).1,
        (fence_locked env sh scope (w.withCtxLock true)).2.withCtxLock false) := by
    rw [fence_region_eq env sh scope w hR hfree]
    rcases hr : fence_locked env sh scope (w.withCtxLock true) with ⟨o, w2⟩
    rw [hr] at h1
    cases o with
    | stuck s => exact absurd rfl (h1.1 s)
    | ok a => rfl
    | throw e => rfl
  refine ⟨heq, ?_, ?_, ?_⟩
  · rw [heq]
    exact verbRun_of_trace_eq _ w _ _ rfl h1
  · rw [heq]
    exact unlock_after_lock w _ h2 hfree
  · rw [heq]
    exact h3

/-- Under the region policy with `ctxLock` free: `quiet` is its `try` block run
with the lock held, followed by the release of the lock. -/
theorem quiet_region_run (env : Env) (scope : Option Nat) (w : World)
    (hR : w.eng.famContextModel = Fam_Context_Model.FAM_CONTEXT_REGION)
    (hfree : w.eng.ctxLock = false) :
    Fam_Ops_Libfabric.quiet env scope w =
      ((quiet_locked env scope (w.withCtxLock true)).1,
        (quiet_locked env scope (w.withCtxLock true)).2.withCtxLock false) ∧
    VerbRun ( Fam_Ops_Libfabric.quiet env scope w) w (scope_quiet_calls w scope) ∧
    ( Fam_Ops_Libfabric.quiet env scope w).2.eng = w.eng ∧
    ∃ ps, ( Fam_Ops_Libfabric.quiet env scope w).2.heap = quieted w.heap ps ∧
      (∀ p ∈ ps, Call.fabric_quiet p ∈ scope_quiet_calls w scope) ∧
      (( Fam_Ops_Libfabric.quiet env scope w).1 = Outcome.ok () →
        ∀ p, Call.fabric_quiet p ∈ scope_quiet_calls w scope → p ∈ ps) := by
  obtain ⟨h1, h2, ps, h3, h4, h5⟩ := quiet_locked_run env scope (w.withCtxLock true) hR
  have heq : Fam_Ops_Libfabric.quiet env scope w =
      ((quiet_locked env scope (w.withCtxLock true)).1,
        (quiet_locked env scope (w.withCtxLock true)).2.withCtxLock false) := by
    rw [quiet_region_eq env scope w hR hfree]
    rcases hr : quiet_locked env scope (w.withCtxLock true) with ⟨o, w2⟩
    rw [hr] at h1
    cases o with
    | stuck s => exact absurd rfl (h1.1 s)
    | ok a => rfl
    | throw e => rfl
  refine ⟨heq, ?_, ?_, ps, ?_, h4, ?_⟩
  · rw [heq]
    exact verbRun_of_trace_eq _ w _ _ rfl h1
  · rw [heq]
    exact unlock_after_lock w _ h2 hfree
  · rw [heq]
    exact h3
  · rw [heq]
    exact h5

/-! ## The lock around fence and quiet (C18) -/

/-- The loop of `fence` over `l1 ++ l2` is the loop over `l1` followed, when no
call threw, by the loop over `l2`: the world the loop over `l1` leaves is the
world in which the iteration has visited the entries `l1`. -/
theorem fence_contexts_append (env : Env) (sh : Nat) (l1 l2 : StdMap Nat) :
    fence_contexts env sh (l1 ++ l2) =
      (do fence_contexts env sh l1; fence_contexts env sh l2 : M Unit) := by
  funext w
  induction l1 generalizing w with
  | nil => rfl
  | cons x xs ih =>
    obtain ⟨k, c⟩ := x
    rw [List.cons_append, fence_contexts_cons, M.bind_apply]
    unfold M.andThen
    rw [fence_contexts_cons]
    cases h : env.throws w.trace.length with
    | some e => rfl
    | none =>
      simp only
      rw [ih]
      rfl

/-- The loop of `quiet` over `l1 ++ l2` is the loop over `l1` followed, when no
call threw, by the loop over `l2`. -/
theorem quiet_contexts_append (env : Env) (l1 l2 : StdMap Nat) :
    quiet_contexts env (l1 ++ l2) =
      (do quiet_contexts env l1; quiet_contexts env l2 : M Unit) := by
  funext w
  induction l1 generalizing w with
  | nil => rfl
  | cons x xs ih =>
    obtain ⟨k, c⟩ := x
    have h1 : quiet_contexts env ((k, c) :: xs ++ l2) w =
        M.andThen ( Fam_Ops_Libfabric.quiet_context env (some c))
          (fun _ => quiet_contexts env (xs ++ l2)) w := rfl
    have h2 : (do quiet_contexts env ((k, c) :: xs); quiet_contexts env l2 : M Unit) w =
        M.andThen ( Fam_Ops_Libfabric.quiet_context env (some c))
          (fun _ => (do quiet_contexts env xs; quiet_contexts env l2 : M Unit)) w := by
      simp only [quiet_contexts, M.bind_apply, M.andThen]
      rcases Fam_Ops_Libfabric.quiet_context env (some c) w with ⟨o, w1⟩
      cases o <;> rfl
    rw [h1, h2]
    unfold M.andThen
    rcases Fam_Ops_Libfabric.quiet_context env (some c) w with ⟨o, w1⟩
    cases o with
    | ok a => exact ih w1
    | throw e => rfl
    | stuck s => rfl

/-- C14 (as amended): under the region policy, for every region descriptor `r`,
the fabric calls of `fence(r)` are at most the one fence on the context of
`r`'s region (the pointer cached in `r`, else the region table's entry for its
region id), at the address of `r`'s memory server, and the fabric calls of
`quiet(r)` at most the one quiet on that context; there is no call at all when
the region has no context yet, and exactly that call when the function returns
normally.  Under the default policy the descriptor is not looked at: `fence(r)`
and `quiet(r)` are `fence(NULL)` and `quiet(NULL)`. -/
theorem fence_quiet_region_scope (env : Env) (MEMSERVERID_SHIFT : Nat) (r : Nat) (w : World) :
    (w.eng.famContextModel = Fam_Context_Model.FAM_CONTEXT_REGION →
      ((newEvents w ( Fam_Ops_Libfabric.fence env MEMSERVERID_SHIFT (some r) w).2).map Event.call
          <+: scope_fence_calls w MEMSERVERID_SHIFT (some r) ∧
        (( Fam_Ops_Libfabric.fence env MEMSERVERID_SHIFT (some r) w).1 = Outcome.ok () →
          (newEvents w ( Fam_Ops_Libfabric.fence env MEMSERVERID_SHIFT (some r) w).2).map
            Event.call = scope_fence_calls w MEMSERVERID_SHIFT (some r))) ∧
      ((newEvents w ( Fam_Ops_Libfabric.quiet env (some r) w).2).map Event.call
          <+: scope_quiet_calls w (some r) ∧
        (( Fam_Ops_Libfabric.quiet env (some r) w).1 = Outcome.ok () →
          (newEvents w ( Fam_Ops_Libfabric.quiet env (some r) w).2).map Event.call =
            scope_quiet_calls w (some r))) ∧
      (region_context w r = none →
        scope_fence_calls w MEMSERVERID_SHIFT (some r) = [] ∧ scope_quiet_calls w (some r) = [])) ∧
    (w.eng.famContextModel = Fam_Context_Model.FAM_CONTEXT_DEFAULT →
      Fam_Ops_Libfabric.fence env MEMSERVERID_SHIFT (some r) w =
        Fam_Ops_Libfabric.fence env MEMSERVERID_SHIFT none w ∧
      Fam_Ops_Libfabric.quiet env (some r) w = Fam_Ops_Libfabric.quiet env none w) := by
  constructor
  · intro hR
    refine ⟨?_, ?_, ?_⟩
    · cases hl : w.eng.ctxLock with
      | false =>
        obtain ⟨_, h2, _⟩ := fence_region_run env MEMSERVERID_SHIFT (some r) w hR hl
        obtain ⟨_, v2, v3, _⟩ := verbRun_events _ _ _ h2
        exact ⟨v2, v3⟩
      | true =>
        rw [fence_region_held env MEMSERVERID_SHIFT (some r) w hR hl]
        simp [newEvents]
    · cases hl : w.eng.ctxLock with
      | false =>
        obtain ⟨_, h2, _⟩ := quiet_region_run env (some r) w hR hl
        obtain ⟨_, v2, v3, _⟩ := verbRun_events _ _ _ h2
        exact ⟨v2, v3⟩
      | true =>
        rw [quiet_region_held env (some r) w hR hl]
        simp [newEvents]
    · intro hnone
      simp [scope_fence_calls, scope_quiet_calls, hnone]
  · intro hD
    constructor
    · rw [fence_default_eq env _ _ w hD, fence_default_eq env _ _ w hD]
    · rw [quiet_default_eq env _ w hD, quiet_default_eq env _ w hD]

/-- C14 (witness): a fence on region descriptor `0` (region `10`) of the engine
that has served that region makes one call, on the region's context `0`. -/
theorem fence_quiet_region_scope_witness :
    demoRegionServedWorld.eng.famContextModel = Fam_Context_Model.FAM_CONTEXT_REGION ∧
    ( Fam_Ops_Libfabric.fence demoEnv 34 (some 0) demoRegionServedWorld).1 = Outcome.ok () ∧
    (newEvents demoRegionServedWorld
      ( Fam_Ops_Libfabric.fence demoEnv 34 (some 0) demoRegionServedWorld).2).map Event.call =
      [Call.fabric_fence (some 100) 0] :=
  ⟨rfl, rfl, ((fence_quiet_region_scope demoEnv 34 0 demoRegionServedWorld).1 rfl).1.2 rfl⟩

/-- C14 (counterexample): under the default policy with two memory servers, a
fence and a quiet on region descriptor `0`, a region of memory server `0`,
also fence and quiet the default context `1` of memory server `1`. -/
theorem fence_quiet_default_ignore_scope :
    demoTwoNodeWorld.eng.famContextModel = Fam_Context_Model.FAM_CONTEXT_DEFAULT ∧
    (demoTwoNodeWorld.regions 0).memserver_id = 0 ∧
    demoTwoNodeWorld.eng.defContexts.find 1 = some 1 ∧
    (newEvents demoTwoNodeWorld
      ( Fam_Ops_Libfabric.fence demoEnv 34 (some 0) demoTwoNodeWorld).2).map Event.call =
      [Call.fabric_fence (some 100) 0, Call.fabric_fence (some 101) 1] ∧
    (newEvents demoTwoNodeWorld
      ( Fam_Ops_Libfabric.quiet demoEnv (some 0) demoTwoNodeWorld).2).map Event.call =
      [Call.fabric_quiet 0, Call.fabric_quiet 1] :=
  ⟨rfl, rfl, rfl, rfl, rfl⟩

theorem update_cached (w : World) (r ctx : Nat) (h : (w.regions r).context = some ctx) :
    Function.update w.regions r { w.regions r with context := some ctx } = w.regions := by
  have : ({ w.regions r with context := some ctx } : Fam_Region_Descriptor) = w.regions r := by
    cases hreg : w.regions r with
    | mk a b c =>
      rw [hreg] at h
      simp only at h
      subst h
      rfl
  rw [this, Function.update_eq_self]

theorem fence_locked_regions (env : Env) (sh : Nat) (scope : Option Nat) (w : World) :
    (fence_locked env sh scope w).2.regions = scope_cached w scope := by
  cases scope with
  | none =>
    have h : fence_locked env sh none w = fence_contexts env sh w.eng.contexts w := rfl
    rw [h, (fence_contexts_run env sh w.eng.contexts w).2]
    rfl
  | some r =>
    rw [fence_locked_some_eq]
    cases h1 : (w.regions r).context with
    | some ctx =>
      simp only [scope_cached, region_context, h1]
      rw [(fabric_fence_run env _ ctx w).2, update_cached w r ctx h1]
    | none =>
      cases h2 : w.eng.contexts.find (w.regions r).regionId with
      | none => simp only [scope_cached, region_context, h1, h2]
      | some ctx =>
        simp only [scope_cached, region_context, h1, h2]
        rw [(fabric_fence_run env _ ctx _).2]

theorem quiet_locked_regions (env : Env) (scope : Option Nat) (w : World)
    (hR : w.eng.famContextModel = Fam_Context_Model.FAM_CONTEXT_REGION) :
    (quiet_locked env scope w).2.regions = scope_cached w scope := by
  cases scope with
  | none =>
    have h : quiet_locked env none w = quiet_contexts env w.eng.contexts w := rfl
    rw [h, (quiet_contexts_run env w.eng.contexts w hR).2.1]
    rfl
  | some r =>
    rw [quiet_locked_some_eq env r w hR]
    cases h1 : (w.regions r).context with
    | some ctx =>
      simp only [scope_cached, region_context, h1]
      rw [(fabric_quiet_run env ctx w).2.1, update_cached w r ctx h1]
    | none =>
      cases h2 : w.eng.contexts.find (w.regions r).regionId with
      | none => simp only [scope_cached, region_context, h1, h2]
      | some ctx =>
        simp only [scope_cached, region_context, h1, h2]
        rw [(fabric_quiet_run env ctx _).2.1]

/-- Once the scope's descriptor caches the context of its region, the context
of the region and the calls prescribed for the scope are as before, and there
is nothing left to cache. -/
theorem scope_cached_idem (w w1 : World) (sh : Nat) (scope : Option Nat)
    (heng : w1.eng = w.eng) (hreg : w1.regions = scope_cached w scope) :
    scope_cached w1 scope = w1.regions ∧
    scope_fence_calls w1 sh scope = scope_fence_calls w sh scope ∧
    scope_quiet_calls w1 scope = scope_quiet_calls w scope := by
  cases scope with
  | none =>
    simp only [scope_cached, scope_fence_calls, scope_quiet_calls, heng]
    exact ⟨trivial, trivial, trivial⟩
  | some r =>
    simp only [scope_cached] at hreg
    cases h1 : (w.regions r).context with
    | some ctx =>
      have hrc : region_context w r = some ctx := by simp only [region_context, h1]
      rw [hrc] at hreg
      simp only at hreg
      rw [update_cached w r ctx h1] at hreg
      have hrc1 : region_context w1 r = some ctx := by
        simp only [region_context, hreg, h1]
      simp only [scope_cached, scope_fence_calls, scope_quiet_calls, hrc, hrc1, heng, hreg]
      exact ⟨update_cached w r ctx h1, trivial, trivial⟩
    | none =>
      cases h2 : w.eng.contexts.find (w.regions r).regionId with
      | none =>
        have hrc : region_context w r = none := by simp only [region_context, h1, h2]
        rw [hrc] at hreg
        simp only at hreg
        have hrc1 : region_context w1 r = none := by
          simp only [region_context, hreg, h1, heng, h2]
        simp only [scope_cached, scope_fence_calls, scope_quiet_calls, hrc, hrc1]
        exact ⟨trivial, trivial, trivial⟩
      | some ctx =>
        have hrc : region_context w r = some ctx := by simp only [region_context, h1, h2]
        rw [hrc] at hreg
        simp only at hreg
        have hc1 : (w1.regions r).context = some ctx := by
          rw [hreg]; simp
        have hrc1 : region_context w1 r = some ctx := by
          simp only [region_context, hc1]
        have hms : (w1.regions r).memserver_id = (w.regions r).memserver_id := by
          rw [hreg]; simp
        refine ⟨?_, ?_, ?_⟩
        · simp only [scope_cached, hrc1]
          exact update_cached w1 r ctx hc1
        · simp only [scope_fence_calls, hrc, hrc1, heng, hms]
        · simp only [scope_quiet_calls, hrc, hrc1]

theorem fence_twice (env : Env) (sh : Nat) (scope : Option Nat) (w : World) :
    SameEngineState
      ( Fam_Ops_Libfabric.fence env sh scope ( Fam_Ops_Libfabric.fence env sh scope w).2).2
      ( Fam_Ops_Libfabric.fence env sh scope w).2 := by
  have hdefault : ∀ v : World,
      v.eng.famContextModel = Fam_Context_Model.FAM_CONTEXT_DEFAULT →
      SameEngineState ( Fam_Ops_Libfabric.fence env sh scope v).2 v := by
    intro v hD
    rw [fence_default_eq env sh scope v hD, (fence_defContexts_run env _ 0 v).2]
    exact ⟨rfl, rfl, rfl⟩
  by_cases hD : w.eng.famContextModel = Fam_Context_Model.FAM_CONTEXT_DEFAULT
  · have h1 := hdefault w hD
    exact hdefault _ (by rw [h1.1]; exact hD)
  · by_cases hR : w.eng.famContextModel = Fam_Context_Model.FAM_CONTEXT_REGION
    · cases hl : w.eng.ctxLock with
      | true =>
        rw [fence_region_held env sh scope w hR hl, fence_region_held env sh scope w hR hl]
        exact ⟨rfl, rfl, rfl⟩
      | false =>
        obtain ⟨e1, _, e3, e4⟩ := fence_region_run env sh scope w hR hl
        have hreg1 : ( Fam_Ops_Libfabric.fence env sh scope w).2.regions = scope_cached w scope := by
          rw [e1]
          exact fence_locked_regions env sh scope (w.withCtxLock true)
        have hR1 : ( Fam_Ops_Libfabric.fence env sh scope w).2.eng.famContextModel =
            Fam_Context_Model.FAM_CONTEXT_REGION := by rw [e3]; exact hR
        have hl1 : ( Fam_Ops_Libfabric.fence env sh scope w).2.eng.ctxLock = false := by
          rw [e3]; exact hl
        obtain ⟨f1, _, f3, f4⟩ := fence_region_run env sh scope _ hR1 hl1
        refine ⟨f3, ?_, f4⟩
        rw [f1]
        have := fence_locked_regions env sh scope
          (( Fam_Ops_Libfabric.fence env sh scope w).2.withCtxLock true)
        exact this.trans (scope_cached_idem w _ sh scope e3 hreg1).1
    · have hother : ∀ v : World, v.eng.famContextModel = w.eng.famContextModel →
          Fam_Ops_Libfabric.fence env sh scope v = (Outcome.ok (), v) := by
        intro v hv
        simp only [ Fam_Ops_Libfabric.fence, M.bind_apply, M.andThen, M.get, M.pure_apply, hv,
          hD, hR, if_false]
      rw [hother w rfl, hother w rfl]
      exact ⟨rfl, rfl, rfl⟩

theorem quiet_twice (env : Env) (scope : Option Nat) (w : World)
    (hok : ( Fam_Ops_Libfabric.quiet env scope w).1 = Outcome.ok ()) :
    SameEngineState
      ( Fam_Ops_Libfabric.quiet env scope ( Fam_Ops_Libfabric.quiet env scope w).2).2
      ( Fam_Ops_Libfabric.quiet env scope w).2 := by
  by_cases hD : w.eng.famContextModel = Fam_Context_Model.FAM_CONTEXT_DEFAULT
  · obtain ⟨_, q2, ps, _, q4, q5⟩ := quiet_defContexts_run env w.eng.defContexts w
    rw [quiet_default_eq env scope w hD] at hok ⊢
    have hD1 : (quiet_defContexts env w.eng.defContexts w).2.eng.famContextModel =
        Fam_Context_Model.FAM_CONTEXT_DEFAULT := by rw [q2]; exact hD
    rw [quiet_default_eq env scope _ hD1]
    obtain ⟨_, p2, ps', p3, p4, _⟩ := quiet_defContexts_run env
      (quiet_defContexts env w.eng.defContexts w).2.eng.defContexts
      (quiet_defContexts env w.eng.defContexts w).2
    refine ⟨?_, ?_, ?_⟩
    · rw [p2]
    · rw [p2]
    · rw [p4, q4]
      apply quieted_quieted
      intro q hq
      have := p3.subset hq
      rw [q5 hok]
      rw [q2] at this
      exact this
  · by_cases hR : w.eng.famContextModel = Fam_Context_Model.FAM_CONTEXT_REGION
    · cases hl : w.eng.ctxLock with
      | true =>
        rw [quiet_region_held env scope w hR hl] at hok
        cases hok
      | false =>
        obtain ⟨e1, _, e3, ps, e4, _, e6⟩ := quiet_region_run env scope w hR hl
        have hreg1 : ( Fam_Ops_Libfabric.quiet env scope w).2.regions = scope_cached w scope := by
          rw [e1]
          exact quiet_locked_regions env scope (w.withCtxLock true) hR
        have hR1 : ( Fam_Ops_Libfabric.quiet env scope w).2.eng.famContextModel =
            Fam_Context_Model.FAM_CONTEXT_REGION := by rw [e3]; exact hR
        have hl1 : ( Fam_Ops_Libfabric.quiet env scope w).2.eng.ctxLock = false := by
          rw [e3]; exact hl
        obtain ⟨f1, _, f3, ps', f4, f5, _⟩ := quiet_region_run env scope _ hR1 hl1
        obtain ⟨i1, _, i3⟩ := scope_cached_idem w _ 0 scope e3 hreg1
        refine ⟨f3, ?_, ?_⟩
        · rw [f1]
          have := quiet_locked_regions env scope
            (( Fam_Ops_Libfabric.quiet env scope w).2.withCtxLock true) hR1
          exact this.trans i1
        · rw [f4, e4]
          apply quieted_quieted
          intro q hq
          have := f5 q hq
          rw [i3] at this
          exact e6 hok q this
    · have hother : ∀ v : World, v.eng.famContextModel = w.eng.famContextModel →
          Fam_Ops_Libfabric.quiet env scope v = (Outcome.ok (), v) := by
        intro v hv
        simp only [ Fam_Ops_Libfabric.quiet, M.bind_apply, M.andThen, M.get, M.pure_apply, hv,
          hD, hR, if_false]
      rw [hother w rfl, hother w rfl]
      exact ⟨rfl, rfl, rfl⟩

/-- C17: `fence` and `quiet` are idempotent on the engine state.  A second
`fence(scope)` leaves the data members of the engine (context tables and
address registry among them), the cached context of every region descriptor and
the outstanding operations of every context as the first call left them; so
does a second `quiet(scope)` after a first one that returned normally. -/
theorem fence_quiet_idempotent (env : Env) (MEMSERVERID_SHIFT : Nat) (scope : Option Nat)
    (w : World) :
    SameEngineState
      ( Fam_Ops_Libfabric.fence env MEMSERVERID_SHIFT scope
        ( Fam_Ops_Libfabric.fence env MEMSERVERID_SHIFT scope w).2).2
      ( Fam_Ops_Libfabric.fence env MEMSERVERID_SHIFT scope w).2 ∧
    (( Fam_Ops_Libfabric.quiet env scope w).1 = Outcome.ok () →
      SameEngineState
        ( Fam_Ops_Libfabric.quiet env scope ( Fam_Ops_Libfabric.quiet env scope w).2).2
        ( Fam_Ops_Libfabric.quiet env scope w).2) :=
  ⟨fence_twice env MEMSERVERID_SHIFT scope w, quiet_twice env scope w⟩

/-- C17 (witness): `quiet` on region descriptor `0` of the engine that has
served its region, with an operation outstanding on the region's context. -/
theorem fence_quiet_idempotent_witness :
    ( Fam_Ops_Libfabric.quiet demoEnv (some 0) demoRegionServedWorld).1 = Outcome.ok () ∧
    SameEngineState
      ( Fam_Ops_Libfabric.quiet demoEnv (some 0)
        ( Fam_Ops_Libfabric.quiet demoEnv (some 0) demoRegionServedWorld).2).2
      ( Fam_Ops_Libfabric.quiet demoEnv (some 0) demoRegionServedWorld).2 :=
  ⟨rfl, (fence_quiet_idempotent demoEnv 34 (some 0) demoRegionServedWorld).2 rfl⟩

/-! ## The native atomics (C19, C20) -/

theorem post_atomic_posts (env : Env) (d offset : Nat) (value : Bytes) (op : fi_op)
    (datatype : fi_datatype) (w : World) :
    PostsOne env d w (post_atomic env d offset value op datatype w)
      (Call.fabric_atomic (w.descs d).key value offset op datatype
        (fiAddr_at w.eng (w.descs d).memserver_id)) := by
  unfold PostsOne post_atomic
  simp only [M.bind_apply, M.andThen, M.get]
  rcases h : Fam_Ops_Libfabric.get_context env d w with ⟨o, w1⟩
  cases o with
  | ok ctx =>
    simp only [fabric_atomic, extern_call, M.bind_apply, M.andThen, M.modify]
    cases ht : env.throws w1.trace.length with
    | some e => exact ⟨_, rfl⟩
    | none => exact ⟨_, rfl⟩
  | throw e => rfl
  | stuck s => rfl

/-- C19: every non-fetching native atomic (`set`, `add`, `min`, `max` on the
six operand types, `and`, `or`, `xor` on the two unsigned ones) resolves the
context with `get_context` and then posts exactly one fabric atomic, with the
operation code of the specification's table, the datatype code of the operand's
own type, the descriptor's access key, the operand, the given offset, the
registry entry at the descriptor's `memserver_id` and the context that
`get_context` returned; no atomic is posted when `get_context` does not
return. -/
theorem native_atomic_posts_one (env : Env) (d offset : Nat) (w : World) :
    (∀ (op : ArithOp) (T : CType) (value : CValue T),
      PostsOne env d w (op.run env T d offset value w)
        (Call.fabric_atomic (w.descs d).key value.1 offset op.code T.code
          (fiAddr_at w.eng (w.descs d).memserver_id))) ∧
    (∀ (op : BitOp) (T : CUnsigned) (value : CValue T.toCType),
      PostsOne env d w (op.run env T d offset value w)
        (Call.fabric_atomic (w.descs d).key value.1 offset op.code T.toCType.code
          (fiAddr_at w.eng (w.descs d).memserver_id))) := by
  constructor
  · intro op T value
    cases op <;> cases T <;> exact post_atomic_posts env d offset _ _ _ w
  · intro op T value
    cases op <;> cases T <;> exact post_atomic_posts env d offset _ _ _ w

theorem post_fetch_atomic_fetches (env : Env) (d offset : Nat) (value : Bytes) (op : fi_op)
    (datatype : fi_datatype) (w : World) :
    FetchesOne env d offset w (post_fetch_atomic env d offset value op datatype w)
      (Call.fabric_fetch_atomic (w.descs d).key value offset op datatype
        (fiAddr_at w.eng (w.descs d).memserver_id)) := by
  have hmem := (get_context_effect env d w).2.1
  unfold FetchesOne PostsOne post_fetch_atomic
  simp only [M.bind_apply, M.andThen, M.get]
  rcases h : Fam_Ops_Libfabric.get_context env d w with ⟨o, w1⟩
  rw [h] at hmem
  simp only at hmem
  cases o with
  | ok ctx =>
    simp only [fabric_fetch_atomic, extern_call, M.bind_apply, M.andThen, M.modify, M.get,
      M.pure_apply]
    cases ht : env.throws w1.trace.length with
    | some e =>
      refine ⟨⟨_, rfl⟩, ?_⟩
      intro v hv
      cases hv
    | none =>
      refine ⟨⟨_, rfl⟩, ?_⟩
      intro v hv
      simp only [Outcome.ok.injEq] at hv
      rw [← hv, hmem]
  | throw e =>
    refine ⟨rfl, ?_⟩
    intro v hv
    cases hv
  | stuck s =>
    refine ⟨rfl, ?_⟩
    intro v hv
    cases hv

theorem post_compare_atomic_fetches (env : Env) (d offset : Nat) (oldValue newValue : Bytes)
    (op : fi_op) (datatype : fi_datatype) (w : World) :
    FetchesOne env d offset w (post_compare_atomic env d offset oldValue newValue op datatype w)
      (Call.fabric_compare_atomic (w.descs d).key oldValue newValue offset op datatype
        (fiAddr_at w.eng (w.descs d).memserver_id)) := by
  have hmem := (get_context_effect env d w).2.1
  unfold FetchesOne PostsOne post_compare_atomic
  simp only [M.bind_apply, M.andThen, M.get]
  rcases h : Fam_Ops_Libfabric.get_context env d w with ⟨o, w1⟩
  rw [h] at hmem
  simp only at hmem
  cases o with
  | ok ctx =>
    simp only [fabric_compare_atomic, extern_call, M.bind_apply, M.andThen, M.modify, M.get,
      M.pure_apply]
    cases ht : env.throws w1.trace.length with
    | some e =>
      refine ⟨⟨_, rfl⟩, ?_⟩
      intro v hv
      cases hv
    | none =>
      refine ⟨⟨_, rfl⟩, ?_⟩
      intro v hv
      simp only [Outcome.ok.injEq] at hv
      rw [← hv, hmem]
  | throw e =>
    refine ⟨rfl, ?_⟩
    intro v hv
    cases hv
  | stuck s =>
    refine ⟨rfl, ?_⟩
    intro v hv
    cases hv

/-- C20: every fetching native atomic resolves the context with `get_context`,
posts exactly one fabric call and returns the value the fabric fetched, the
bytes stored at the target before the call.  `atomic_fetch_add/min/max` on the
six operand types and `atomic_fetch_and/or/xor` on the two unsigned ones post a
fetch-atomic with the operation code and datatype code of their non-fetching
counterpart; the typed `atomic_fetch` posts a fetch-atomic with `ATOMIC_READ`
and the code of its own type; `swap` posts a fetch-atomic with `ATOMIC_WRITE`
and the code of its operand type; `compare_swap` on the 32-bit and 64-bit
signed and unsigned types posts a compare-atomic with `CSWAP`, `oldValue` as
the compare operand and `newValue` as the swap operand. -/
theorem native_fetching_atomic_posts_one (env : Env) (d offset : Nat) (w : World) :
    (∀ (op : FetchOp) (T : CType) (value : CValue T),
      FetchesOne env d offset w (op.run env T d offset value w)
        (Call.fabric_fetch_atomic (w.descs d).key value.1 offset op.counterpart.code T.code
          (fiAddr_at w.eng (w.descs d).memserver_id))) ∧
    (∀ (op : BitOp) (T : CUnsigned) (value : CValue T.toCType),
      FetchesOne env d offset w (op.fetch_run env T d offset value w)
        (Call.fabric_fetch_atomic (w.descs d).key value.1 offset op.code T.toCType.code
          (fiAddr_at w.eng (w.descs d).memserver_id))) ∧
    (∀ (T : CType),
      FetchesOne env d offset w (atomic_fetch_typed env T d offset w)
        (Call.fabric_fetch_atomic (w.descs d).key (env.uninitialized w.trace.length) offset
          fi_op.FI_ATOMIC_READ T.code (fiAddr_at w.eng (w.descs d).memserver_id))) ∧
    (∀ (T : CType) (value : CValue T),
      FetchesOne env d offset w ( Fam_Ops_Libfabric.swap env T d offset value w)
        (Call.fabric_fetch_atomic (w.descs d).key value.1 offset fi_op.FI_ATOMIC_WRITE T.code
          (fiAddr_at w.eng (w.descs d).memserver_id))) ∧
    (∀ (T : CInteger) (oldValue newValue : CValue T.toCType),
      FetchesOne env d offset w
        ( Fam_Ops_Libfabric.compare_swap_native env T d offset oldValue newValue w)
        (Call.fabric_compare_atomic (w.descs d).key oldValue.1 newValue.1 offset fi_op.FI_CSWAP
          T.toCType.code (fiAddr_at w.eng (w.descs d).memserver_id))) := by
  refine ⟨?_, ?_, ?_, ?_, ?_⟩
  · intro op T value
    cases op <;> cases T <;> exact post_fetch_atomic_fetches env d offset _ _ _ w
  · intro op T value
    cases op <;> cases T <;> exact post_fetch_atomic_fetches env d offset _ _ _ w
  · intro T
    cases T <;> exact post_fetch_atomic_fetches env d offset _ _ _ w
  · intro T value
    cases T <;> exact post_fetch_atomic_fetches env d offset _ _ _ w
  · intro T oldValue newValue
    cases T <;> exact post_compare_atomic_fetches env d offset _ _ _ _ w

/-! ## Quiet completes what was posted (C16) -/

theorem nonblocking_verb_eq (env : Env) (d : Nat) (verb : Nat → Option Nat → Nat → Nat → Call)
    (v : World) :
    M.discard (nonblocking_verb env d verb) v =
      post_after env
        (fun ctx => verb (v.descs d).key (fiAddr_at v.eng (v.descs d).memserver_id) ctx
          v.eng.fabric_iov_limit)
        ( Fam_Ops_Libfabric.get_context env d v) := by
  unfold M.discard nonblocking_verb post_after
  simp only [M.bind_apply, M.andThen, M.get]
  rcases Fam_Ops_Libfabric.get_context env d v with ⟨o, v1⟩
  cases o with
  | ok ctx =>
    simp only [extern_call, post_outstanding, M.bind_apply, M.andThen, M.modify, M.pure_apply]
    cases env.throws v1.trace.length <;> rfl
  | throw e => rfl
  | stuck s => rfl

theorem Nonblocking.run_eq (env : Env) (sh : Nat) (op : Nonblocking) (v : World) :
    ∃ call, op.toOperation.run env sh v =
      post_after env call ( Fam_Ops_Libfabric.get_context env op.descriptor v) := by
  cases op with
  | put loc d o =>
    refine ⟨Call.fabric_write_nonblocking (v.descs d).key loc o
      (fiAddr_at v.eng (v.descs d).memserver_id), ?_⟩
    simp only [Nonblocking.toOperation, Nonblocking.descriptor, Operation.run, M.discard,
      Fam_Ops_Libfabric.put_nonblocking, post_after, M.bind_apply, M.andThen, M.get]
    rcases Fam_Ops_Libfabric.get_context env d v with ⟨o, v1⟩
    cases o with
    | ok ctx =>
      simp only [fabric_write_nonblocking, extern_call, post_outstanding, M.bind_apply,
        M.andThen, M.modify, M.pure_apply, M.get]
      cases env.throws v1.trace.length <;> rfl
    | throw e => rfl
    | stuck s => rfl
  | get d o n =>
    refine ⟨Call.fabric_read_nonblocking (v.descs d).key n o
      (fiAddr_at v.eng (v.descs d).memserver_id), ?_⟩
    simp only [Nonblocking.toOperation, Nonblocking.descriptor, Operation.run, M.discard,
      Fam_Ops_Libfabric.get_nonblocking, post_after, M.bind_apply, M.andThen, M.get]
    rcases Fam_Ops_Libfabric.get_context env d v with ⟨o, v1⟩
    cases o with
    | ok ctx =>
      simp only [fabric_read_nonblocking, extern_call, post_outstanding, M.bind_apply,
        M.andThen, M.modify, M.pure_apply, M.get]
      cases env.throws v1.trace.length <;> rfl
    | throw e => rfl
    | stuck s => rfl
  | gather d n f s e => exact ⟨_, nonblocking_verb_eq env d _ v⟩
  | gather_index d n ix e => exact ⟨_, nonblocking_verb_eq env d _ v⟩
  | scatter loc d n f s e => exact ⟨_, nonblocking_verb_eq env d _ v⟩
  | scatter_index loc d n ix e => exact ⟨_, nonblocking_verb_eq env d _ v⟩

/-- What `get_context` does to the region descriptors and to the outstanding
operations: nothing; a context it constructs has none. -/
theorem get_context_outstanding (env : Env) (d : Nat) (v : World) :
    ( Fam_Ops_Libfabric.get_context env d v).2.regions = v.regions ∧
    ∀ (p : Nat) (c : Fam_Context),
      ( Fam_Ops_Libfabric.get_context env d v).2.heap[p]? = some c →
      c.outstanding = [] ∨
        ∃ c0 : Fam_Context, v.heap[p]? = some c0 ∧ c0.outstanding = c.outstanding := by
  rw [get_context_eq]
  repeat' split
  all_goals refine ⟨rfl, fun p c hc => ?_⟩
  all_goals try (exact Or.inr ⟨c, hc, rfl⟩)
  all_goals
    simp only at hc
    by_cases hp : p < v.heap.length
    · rw [List.getElem?_append_left hp] at hc
      exact Or.inr ⟨c, hc, rfl⟩
    · rw [List.getElem?_append_right (not_lt.mp hp)] at hc
      left
      cases hq : p - v.heap.length with
      | zero =>
        rw [hq] at hc
        simp only [List.getElem?_cons_zero, Option.some.injEq] at hc
        rw [← hc]
      | succ n =>
        rw [hq] at hc
        simp at hc

theorem scopeContext_mono (v v1 : World) (scope : Option Nat) (p : Nat)
    (h1 : v1.eng.famContextModel = v.eng.famContextModel)
    (h2 : v1.eng.defContexts = v.eng.defContexts) (h3 : v1.regions = v.regions)
    (h4 : ∀ k c, v.eng.contexts.find k = some c → v1.eng.contexts.find k = some c)
    (h : ScopeContext v scope p) : ScopeContext v1 scope p := by
  unfold ScopeContext at h ⊢
  rw [h1, h2, h3]
  cases hp : v.eng.famContextModel with
  | FAM_CONTEXT_DEFAULT => rw [hp] at h; exact h
  | FAM_CONTEXT_REGION =>
    rw [hp] at h
    cases scope with
    | none =>
      obtain ⟨k, hk⟩ := h
      exact ⟨k, h4 k p hk⟩
    | some r => exact h4 _ p h
  | other n => rw [hp] at h; exact h

theorem get_context_coherent (env : Env) (d : Nat) (v : World) (hco : Coherent v) :
    Coherent ( Fam_Ops_Libfabric.get_context env d v).2 := by
  by_cases hD : v.eng.famContextModel = Fam_Context_Model.FAM_CONTEXT_DEFAULT
  · rw [(get_context_default env d v hD).1]
    exact hco
  · by_cases hR : v.eng.famContextModel = Fam_Context_Model.FAM_CONTEXT_REGION
    · exact (get_context_region env d v hR hco).1
    · rw [get_context_eq]
      simp only [hD, hR, if_false]
      exact hco

theorem get_context_in_scope (env : Env) (d : Nat) (v w : World) (scope : Option Nat)
    (ctx : Nat) (hco : Coherent v) (hreg : v.regions = w.regions)
    (hid : (v.descs d).regionId = (w.descs d).regionId) (hin : InScope w scope d)
    (hok : ( Fam_Ops_Libfabric.get_context env d v).1 = Outcome.ok ctx) :
    ScopeContext ( Fam_Ops_Libfabric.get_context env d v).2 scope ctx := by
  obtain ⟨f1, f2, _, _⟩ := get_context_frame env d v
  obtain ⟨g1, _⟩ := get_context_outstanding env d v
  unfold ScopeContext
  rw [f1, f2, g1]
  cases hp : v.eng.famContextModel with
  | FAM_CONTEXT_DEFAULT =>
    exact ⟨_, ((get_context_default env d v hp).2 ctx).mp hok⟩
  | FAM_CONTEXT_REGION =>
    have h3 := (get_context_region env d v hp hco).2.2.1 ctx hok
    cases scope with
    | none => exact ⟨_, h3⟩
    | some r =>
      simp only [InScope] at hin
      simp only
      rw [hreg, ← hin, ← hid]
      exact h3
  | other n =>
    rw [get_context_eq] at hok
    simp [hp] at hok

theorem post_after_inScope (env : Env) (call : Nat → Call) (d : Nat) (w v : World)
    (scope : Option Nat) (hv : PostedInScope w scope v) (hin : InScope w scope d) :
    PostedInScope w scope
      (post_after env call ( Fam_Ops_Libfabric.get_context env d v)).2 := by
  obtain ⟨a1, a2, a3, a4, a5, a6, a7, a8⟩ := hv
  obtain ⟨f1, f2, f3, _⟩ := get_context_frame env d v
  obtain ⟨g1, g2⟩ := get_context_outstanding env d v
  obtain ⟨_, _, _, k4, _⟩ := get_context_kept env d v
  obtain ⟨⟨evs, e1, _⟩, _⟩ := get_context_effect env d v
  have hco := get_context_coherent env d v a5
  have hscope := fun ctx => get_context_in_scope env d v w scope ctx a5 a3 (a4 d) hin
  -- what holds of the world `get_context` leaves
  have hbase : ∀ (p : Nat) (c : Fam_Context) (id : Nat),
      ( Fam_Ops_Libfabric.get_context env d v).2.heap[p]? = some c → id ∈ c.outstanding →
      w.trace.length ≤ id → ScopeContext ( Fam_Ops_Libfabric.get_context env d v).2 scope p := by
    intro p c id hc hid hle
    rcases g2 p c hc with h0 | ⟨c0, hc0, ho⟩
    · rw [h0] at hid; cases hid
    · exact scopeContext_mono v _ scope p f1 f2 g1 k4 (a8 p c0 id hc0 (by rw [ho]; exact hid) hle)
  have hlen : w.trace.length ≤ ( Fam_Ops_Libfabric.get_context env d v).2.trace.length := by
    rw [e1, List.length_append]; omega
  clear g2 e1
  generalize Fam_Ops_Libfabric.get_context env d v = g at *
  obtain ⟨o, v1⟩ := g
  simp only at hco hscope hbase hlen f1 f2 f3 g1 k4
  have hrest : PostedInScope w scope v1 :=
    ⟨f1.trans a1, f2.trans a2, g1.trans a3, fun i => (f3 i).trans (a4 i), hco,
      fun k c h => k4 k c (a6 k c h), hlen, hbase⟩
  cases o with
  | throw e => exact hrest
  | stuck s => exact hrest
  | ok ctx =>
    unfold post_after
    simp only
    cases ht : env.throws v1.trace.length with
    | some e =>
      refine ⟨f1.trans a1, f2.trans a2, g1.trans a3, fun i => (f3 i).trans (a4 i), hco,
        fun k c h => k4 k c (a6 k c h), ?_, hbase⟩
      simp only [List.length_append]
      omega
    | none =>
      refine ⟨f1.trans a1, f2.trans a2, g1.trans a3, fun i => (f3 i).trans (a4 i), hco,
        fun k c h => k4 k c (a6 k c h), ?_, ?_⟩
      · simp only [List.length_append]
        omega
      · intro p c id hc hid hle
        simp only [List.getElem?_modify] at hc
        by_cases hp : ctx = p
        · subst hp
          exact hscope ctx rfl
        · cases h1 : v1.heap[p]? with
          | none => rw [h1] at hc; simp at hc
          | some c1 =>
            rw [h1] at hc
            simp only [hp, if_false, Option.map_eq_map, Option.map_some', Option.some.injEq] at hc
            subst hc
            exact hbase p c1 id h1 hid hle

theorem run_posts_inScope (env : Env) (sh : Nat) (w : World) (scope : Option Nat) :
    ∀ (posts : List Nonblocking) (v : World), PostedInScope w scope v →
      (∀ op ∈ posts, InScope w scope op.descriptor) →
      PostedInScope w scope (run_operations env sh (posts.map Nonblocking.toOperation) v) := by
  intro posts
  induction posts with
  | nil => intro v hv _; exact hv
  | cons op ops ih =>
    intro v hv hin
    obtain ⟨call, heq⟩ := Nonblocking.run_eq env sh op v
    have hstep := post_after_inScope env call op.descriptor w v scope hv
      (hin op (List.mem_cons_self _ _))
    rw [← heq] at hstep
    simp only [List.map_cons, run_operations]
    split
    · exact hstep
    · exact ih _ hstep (fun o ho => hin o (List.mem_cons_of_mem _ ho))

theorem StdMap.mem_of_find {V : Type} (m : StdMap V) (k : Nat) (v : V)
    (h : m.find k = some v) : (k, v) ∈ m := by
  induction m with
  | nil => simp [StdMap.find] at h
  | cons x xs ih =>
    obtain ⟨k0, v0⟩ := x
    unfold StdMap.find at h
    by_cases hk : k0 = k
    · simp only [hk, if_true, Option.some.injEq] at h
      subst hk; subst h
      exact List.mem_cons_self _ _
    · simp only [hk, if_false] at h
      exact List.mem_cons_of_mem _ (ih h)

/-- A `quiet(scope)` that returns normally leaves the heap in which every
context that serves the scope has been quieted. -/
theorem quiet_quiets_scope (env : Env) (scope : Option Nat) (v : World)
    (hrco : RegionCoherent v)
    (hok : ( Fam_Ops_Libfabric.quiet env scope v).1 = Outcome.ok ()) :
    ∃ ps, ( Fam_Ops_Libfabric.quiet env scope v).2.heap = quieted v.heap ps ∧
      ∀ p, ScopeContext v scope p → p ∈ ps := by
  cases hp : v.eng.famContextModel with
  | FAM_CONTEXT_DEFAULT =>
    obtain ⟨_, _, ps, _, q4, q5⟩ := quiet_defContexts_run env v.eng.defContexts v
    rw [quiet_default_eq env scope v hp] at hok ⊢
    refine ⟨ps, q4, ?_⟩
    intro p hsc
    simp only [ScopeContext, hp] at hsc
    obtain ⟨k, hk⟩ := hsc
    rw [q5 hok]
    exact List.mem_map.mpr ⟨(k, p), StdMap.mem_of_find _ _ _ hk, rfl⟩
  | FAM_CONTEXT_REGION =>
    cases hl : v.eng.ctxLock with
    | true =>
      rw [quiet_region_held env scope v hp hl] at hok
      cases hok
    | false =>
      obtain ⟨_, _, _, ps, e4, _, e6⟩ := quiet_region_run env scope v hp hl
      refine ⟨ps, e4, ?_⟩
      intro p hsc
      apply e6 hok p
      simp only [ScopeContext, hp] at hsc
      cases scope with
      | none =>
        obtain ⟨k, hk⟩ := hsc
        simp only [scope_quiet_calls]
        exact List.mem_map.mpr ⟨(k, p), StdMap.mem_of_find _ _ _ hk, rfl⟩
      | some r =>
        simp only at hsc
        have hrc : region_context v r = some p := by
          unfold region_context
          cases hc : (v.regions r).context with
          | none => exact hsc
          | some c =>
            have := hrco r c hc
            rw [hsc] at this
            simp only [Option.some.injEq] at this
            simp only [this]
        simp only [scope_quiet_calls, hrc, List.mem_singleton]
  | other n =>
    refine ⟨[], ?_, ?_⟩
    · simp only [ Fam_Ops_Libfabric.quiet, M.bind_apply, M.andThen, M.get, M.pure_apply, hp,
        reduceCtorEq, if_false]
      rfl
    · intro p hsc
      simp only [ScopeContext, hp] at hsc

/-- C16: operations are named by the position of their posting call in the
log and are outstanding on the context they were posted on until a
`fabric_quiet` on that context returns.  From a world in which the cached
contexts agree with the region table and every outstanding operation was posted
earlier, after any sequence of nonblocking operations on items within the scope
(each may post or throw), a `quiet(scope)` that returns normally leaves no
operation posted by the sequence outstanding on any context: what is still
outstanding was posted before the sequence began. -/
theorem quiet_completes_scope (env : Env) (MEMSERVERID_SHIFT : Nat) (scope : Option Nat)
    (w : World) (posts : List Nonblocking)
    (hco : Coherent w) (hrco : RegionCoherent w)
    (hold : ∀ c ∈ w.heap, ∀ id ∈ c.outstanding, id < w.trace.length)
    (hscope : ∀ op ∈ posts, InScope w scope op.descriptor)
    (hok : ( Fam_Ops_Libfabric.quiet env scope
      (run_operations env MEMSERVERID_SHIFT (posts.map Nonblocking.toOperation) w)).1 =
        Outcome.ok ()) :
    ∀ c ∈ ( Fam_Ops_Libfabric.quiet env scope
        (run_operations env MEMSERVERID_SHIFT (posts.map Nonblocking.toOperation) w)).2.heap,
      ∀ id ∈ c.outstanding, id < w.trace.length := by
  have hbase : PostedInScope w scope w := by
    refine ⟨rfl, rfl, rfl, fun _ => rfl, hco, fun _ _ h => h, le_refl _, ?_⟩
    intro p c id hc hid hle
    have := hold c (List.mem_iff_getElem?.mpr ⟨p, hc⟩) id hid
    omega
  have hv := run_posts_inScope env MEMSERVERID_SHIFT w scope posts w hbase hscope
  generalize run_operations env MEMSERVERID_SHIFT (posts.map Nonblocking.toOperation) w = v at *
  obtain ⟨_, _, a3, _, _, a6, _, a8⟩ := hv
  have hrco' : RegionCoherent v := by
    intro r ctx hc
    rw [a3] at hc ⊢
    exact a6 _ _ (hrco r ctx hc)
  obtain ⟨ps, h1, h2⟩ := quiet_quiets_scope env scope v hrco' hok
  intro c hc id hid
  rw [h1] at hc
  obtain ⟨p, hp⟩ := List.mem_iff_getElem?.mp hc
  rw [quieted_getElem?] at hp
  by_cases hmem : p ∈ ps
  · rw [if_pos hmem] at hp
    cases hq : v.heap[p]? with
    | none => rw [hq] at hp; simp at hp
    | some c0 =>
      rw [hq] at hp
      simp only [Option.map_some', Option.some.injEq] at hp
      rw [← hp] at hid
      cases hid
  · rw [if_neg hmem] at hp
    by_contra hlt
    exact hmem (h2 p (a8 p c id hp hid (not_lt.mp hlt)))

/-- C16 (witness): on the engine of two memory servers under the default
policy, with nothing outstanding, a `put_nonblocking` on item `0` followed by a
`quiet` of everything. -/
theorem quiet_completes_scope_witness :
    Coherent demoTwoNodeWorld ∧ RegionCoherent demoTwoNodeWorld ∧
    (∀ c ∈ demoTwoNodeWorld.heap, ∀ id ∈ c.outstanding, id < demoTwoNodeWorld.trace.length) ∧
    (∀ op ∈ [Nonblocking.put [1] 0 0], InScope demoTwoNodeWorld none op.descriptor) ∧
    ( Fam_Ops_Libfabric.quiet demoEnv none
      (run_operations demoEnv 34 ([Nonblocking.put [1] 0 0].map Nonblocking.toOperation)
        demoTwoNodeWorld)).1 = Outcome.ok () ∧
    ∀ c ∈ ( Fam_Ops_Libfabric.quiet demoEnv none
        (run_operations demoEnv 34 ([Nonblocking.put [1] 0 0].map Nonblocking.toOperation)
          demoTwoNodeWorld)).2.heap,
      ∀ id ∈ c.outstanding, id < demoTwoNodeWorld.trace.length := by
  have h1 : Coherent demoTwoNodeWorld := by
    intro i ctx h
    simp [demoTwoNodeWorld, demoWorld] at h
  have h2 : RegionCoherent demoTwoNodeWorld := by
    intro r ctx h
    simp [demoTwoNodeWorld, demoWorld] at h
  have h3 : ∀ c ∈ demoTwoNodeWorld.heap, ∀ id ∈ c.outstanding,
      id < demoTwoNodeWorld.trace.length := by
    intro c hc id hid
    simp only [demoTwoNodeWorld, List.mem_cons, List.mem_singleton, List.not_mem_nil,
      or_false, or_self] at hc
    subst hc
    cases hid
  have h4 : ∀ op ∈ [Nonblocking.put [1] 0 0], InScope demoTwoNodeWorld none op.descriptor :=
    fun _ _ => trivial
  exact ⟨h1, h2, h3, h4, rfl,
    quiet_completes_scope demoEnv 34 none demoTwoNodeWorld [Nonblocking.put [1] 0 0] h1 h2 h3 h4
      rfl⟩

/-! ## Put, then get (C23) -/

theorem get_context_descs (env : Env) (d : Nat) (w : World) (i : Nat) :
    (( Fam_Ops_Libfabric.get_context env d w).2.descs i).key = (w.descs i).key ∧
    (( Fam_Ops_Libfabric.get_context env d w).2.descs i).memserver_id =
      (w.descs i).memserver_id ∧
    (( Fam_Ops_Libfabric.get_context env d w).2.descs i).regionId = (w.descs i).regionId := by
  rw [get_context_eq]
  repeat' split
  all_goals simp [Function.update_apply]
  all_goals split <;> simp_all

theorem put_blocking_of (env : Env) {n : Nat} (x : Buffer n) (d offset : Nat) (w : World)
    (c : Nat) (wc : World) (h : Fam_Ops_Libfabric.get_context env d w = (Outcome.ok c, wc)) :
    Fam_Ops_Libfabric.put_blocking env x d offset w =
      match env.throws wc.trace.length with
      | some e =>
        (Outcome.throw e,
          { wc with trace := wc.trace ++
              [⟨Call.fabric_write (w.descs d).key x.1 offset
                (fiAddr_at w.eng (w.descs d).memserver_id) c, Except.error e⟩] })
      | none =>
        (Outcome.ok (env.status wc.trace.length),
          { wc with
            mem := writeBytes wc.mem (fiAddr_at w.eng (w.descs d).memserver_id) (w.descs d).key
              offset x.1
            trace := wc.trace ++
              [⟨Call.fabric_write (w.descs d).key x.1 offset
                (fiAddr_at w.eng (w.descs d).memserver_id) c,
                Except.ok (env.status wc.trace.length)⟩] }) := by
  simp only [ Fam_Ops_Libfabric.put_blocking, M.bind_apply, M.andThen, M.get, h, fabric_write_eq]
  cases env.throws wc.trace.length <;> simp only [M.pure_apply]

theorem get_blocking_of (env : Env) (d offset n : Nat) (w : World)
    (c : Nat) (wc : World) (h : Fam_Ops_Libfabric.get_context env d w = (Outcome.ok c, wc)) :
    Fam_Ops_Libfabric.get_blocking env d offset n w =
      match env.throws wc.trace.length with
      | some e =>
        (Outcome.throw e,
          { wc with trace := wc.trace ++
              [⟨Call.fabric_read (w.descs d).key n offset
                (fiAddr_at w.eng (w.descs d).memserver_id) c, Except.error e⟩] })
      | none =>
        (Outcome.ok (env.status wc.trace.length,
            readBytes wc.mem (fiAddr_at w.eng (w.descs d).memserver_id) (w.descs d).key offset n),
          { wc with
            trace := wc.trace ++
              [⟨Call.fabric_read (w.descs d).key n offset
                (fiAddr_at w.eng (w.descs d).memserver_id) c,
                Except.ok (env.status wc.trace.length)⟩] }) := by
  simp only [ Fam_Ops_Libfabric.get_blocking, M.bind_apply, M.andThen, M.get, h, fabric_read_eq]
  cases env.throws wc.trace.length <;> simp only [M.pure_apply]

theorem put_blocking_no_context (env : Env) {n : Nat} (x : Buffer n) (d offset : Nat)
    (w : World) (h : ∀ c, ( Fam_Ops_Libfabric.get_context env d w).1 ≠ Outcome.ok c) :
    ( Fam_Ops_Libfabric.put_blocking env x d offset w).2 =
      ( Fam_Ops_Libfabric.get_context env d w).2 ∧
    ∀ a, ( Fam_Ops_Libfabric.put_blocking env x d offset w).1 ≠ Outcome.ok a := by
  simp only [ Fam_Ops_Libfabric.put_blocking, M.bind_apply, M.andThen, M.get]
  rcases hg : Fam_Ops_Libfabric.get_context env d w with ⟨o, wc⟩
  rw [hg] at h
  cases o with
  | ok c => exact absurd rfl (h c)
  | throw e => exact ⟨rfl, fun a ha => by cases ha⟩
  | stuck s => exact ⟨rfl, fun a ha => by cases ha⟩

theorem get_blocking_no_context (env : Env) (d offset n : Nat)
    (w : World) (h : ∀ c, ( Fam_Ops_Libfabric.get_context env d w).1 ≠ Outcome.ok c) :
    ( Fam_Ops_Libfabric.get_blocking env d offset n w).2 =
      ( Fam_Ops_Libfabric.get_context env d w).2 ∧
    ∀ a, ( Fam_Ops_Libfabric.get_blocking env d offset n w).1 ≠ Outcome.ok a := by
  simp only [ Fam_Ops_Libfabric.get_blocking, M.bind_apply, M.andThen, M.get]
  rcases hg : Fam_Ops_Libfabric.get_context env d w with ⟨o, wc⟩
  rw [hg] at h
  cases o with
  | ok c => exact absurd rfl (h c)
  | throw e => exact ⟨rfl, fun a ha => by cases ha⟩
  | stuck s => exact ⟨rfl, fun a ha => by cases ha⟩

theorem put_blocking_posts (env : Env) {n : Nat} (x : Buffer n) (d offset : Nat) (w : World) :
    PostsOneStatus env d w ( Fam_Ops_Libfabric.put_blocking env x d offset w)
      (Call.fabric_write (w.descs d).key x.1 offset (fiAddr_at w.eng (w.descs d).memserver_id))
      id := by
  unfold PostsOneStatus
  rcases hg : Fam_Ops_Libfabric.get_context env d w with ⟨o, wc⟩
  cases o with
  | ok c =>
    simp only
    rw [put_blocking_of env x d offset w c wc hg]
    cases env.throws wc.trace.length with
    | some e =>
      refine ⟨_, rfl, ?_, ?_⟩
      · intro s hs; cases hs
      · intro e2 he; cases he; rfl
    | none =>
      refine ⟨_, rfl, ?_, ?_⟩
      · intro s hs; cases hs; exact ⟨_, rfl, rfl⟩
      · intro e2 he; cases he
  | throw e =>
    have h := put_blocking_no_context env x d offset w (by rw [hg]; intro c hc; cases hc)
    rw [hg] at h
    exact ⟨by rw [h.1], h.2⟩
  | stuck s =>
    have h := put_blocking_no_context env x d offset w (by rw [hg]; intro c hc; cases hc)
    rw [hg] at h
    exact ⟨by rw [h.1], h.2⟩

theorem get_blocking_posts (env : Env) (d offset n : Nat) (w : World) :
    PostsOneStatus env d w ( Fam_Ops_Libfabric.get_blocking env d offset n w)
      (Call.fabric_read (w.descs d).key n offset (fiAddr_at w.eng (w.descs d).memserver_id))
      Prod.fst := by
  unfold PostsOneStatus
  rcases hg : Fam_Ops_Libfabric.get_context env d w with ⟨o, wc⟩
  cases o with
  | ok c =>
    simp only
    rw [get_blocking_of env d offset n w c wc hg]
    cases env.throws wc.trace.length with
    | some e =>
      refine ⟨_, rfl, ?_, ?_⟩
      · intro s hs; cases hs
      · intro e2 he; cases he; rfl
    | none =>
      refine ⟨_, rfl, ?_, ?_⟩
      · intro s hs; cases hs; exact ⟨_, rfl, rfl⟩
      · intro e2 he; cases he
  | throw e =>
    have h := get_blocking_no_context env d offset n w (by rw [hg]; intro c hc; cases hc)
    rw [hg] at h
    exact ⟨by rw [h.1], h.2⟩
  | stuck s =>
    have h := get_blocking_no_context env d offset n w (by rw [hg]; intro c hc; cases hc)
    rw [hg] at h
    exact ⟨by rw [h.1], h.2⟩

/-- A `put_blocking` that returned left the world in which a `get_blocking` of
the same item, offset and length, if it returns, returns the bytes that were
put; and it does return unless its `fabric_read` throws. -/
theorem put_then_get (env : Env) {n : Nat} (x : Buffer n) (d offset : Nat) (w : World)
    (s : Int) (w1 : World)
    (hput : Fam_Ops_Libfabric.put_blocking env x d offset w = (Outcome.ok s, w1)) :
    (w1.descs d).key = (w.descs d).key ∧
    fiAddr_at w1.eng (w1.descs d).memserver_id = fiAddr_at w.eng (w.descs d).memserver_id ∧
    (∀ s2 buf w2,
      Fam_Ops_Libfabric.get_blocking env d offset n w1 = (Outcome.ok (s2, buf), w2) → buf = x) ∧
    (env.throws w1.trace.length = none →
      ∃ w2, Fam_Ops_Libfabric.get_blocking env d offset n w1 =
        (Outcome.ok (env.status w1.trace.length, x), w2)) := by
  rcases hg : Fam_Ops_Libfabric.get_context env d w with ⟨o, wc⟩
  have hready := get_context_ready env d w
  have hdesc := get_context_descs env d w d
  have hfi := (get_context_effect env d w).2.2.1
  rw [hg] at hready hdesc hfi
  simp only at hready hdesc hfi
  cases o with
  | throw e =>
    have h := (put_blocking_no_context env x d offset w (by rw [hg]; intro c hc; cases hc)).2 s
    rw [hput] at h
    exact absurd rfl h
  | stuck e =>
    have h := (put_blocking_no_context env x d offset w (by rw [hg]; intro c hc; cases hc)).2 s
    rw [hput] at h
    exact absurd rfl h
  | ok c =>
    have hr : ContextReady wc d c := hready c rfl
    rw [put_blocking_of env x d offset w c wc hg] at hput
    cases ht : env.throws wc.trace.length with
    | some e => rw [ht] at hput; cases hput
    | none =>
      rw [ht] at hput
      simp only [Prod.mk.injEq] at hput
      obtain ⟨-, hw1⟩ := hput
      subst hw1
      have haddr : fiAddr_at wc.eng (wc.descs d).memserver_id =
          fiAddr_at w.eng (w.descs d).memserver_id := by
        simp only [fiAddr_at, hfi, hdesc.2.1]
      have hg1 := get_context_of_ready env d
        { wc with
          mem := writeBytes wc.mem (fiAddr_at w.eng (w.descs d).memserver_id) (w.descs d).key
            offset x.1
          trace := wc.trace ++
            [⟨Call.fabric_write (w.descs d).key x.1 offset
              (fiAddr_at w.eng (w.descs d).memserver_id) c,
              Except.ok (env.status wc.trace.length)⟩] } c hr
      refine ⟨hdesc.1, haddr, ?_, ?_⟩
      · intro s2 buf w2 hget
        rw [get_blocking_of env d offset n _ c _ hg1] at hget
        simp only at hget
        split at hget
        · cases hget
        · simp only [Prod.mk.injEq, Outcome.ok.injEq] at hget
          rw [← hget.1.2, haddr, hdesc.1]
          exact readBytes_writeBytes_buffer _ _ x _ _
      · intro ht1
        rw [get_blocking_of env d offset n _ c _ hg1]
        simp only at ht1 ⊢
        rw [ht1]
        simp only [haddr, hdesc.1, readBytes_writeBytes_buffer]
        exact ⟨_, rfl⟩

/-- C23: `put_blocking` makes, after `get_context`, exactly one `fabric_write`
with the item's key, the bytes `x`, the offset, the registry entry at the
item's memory server and the context `get_context` returned, and returns that
call's status; `get_blocking` likewise makes exactly one `fabric_read` with the
key, the length, the offset, that registry entry and that context, and returns
its status.  Over the byte-addressable fabric memory, a `get_blocking` of the
same item, offset and length in the world a returned `put_blocking` left
(nothing written in between) returns, if it returns, the bytes `x`; and when
no collaborator call throws and `get_context` succeeds for the item, both calls
do return, the second with `x`. -/
theorem put_get_round_trip (env : Env) {n : Nat} (x : Buffer n) (d offset : Nat) (w : World) :
    PostsOneStatus env d w ( Fam_Ops_Libfabric.put_blocking env x d offset w)
      (Call.fabric_write (w.descs d).key x.1 offset (fiAddr_at w.eng (w.descs d).memserver_id))
      id ∧
    (∀ w1, PostsOneStatus env d w1 ( Fam_Ops_Libfabric.get_blocking env d offset n w1)
      (Call.fabric_read (w1.descs d).key n offset (fiAddr_at w1.eng (w1.descs d).memserver_id))
      Prod.fst) ∧
    (∀ s w1, Fam_Ops_Libfabric.put_blocking env x d offset w = (Outcome.ok s, w1) →
      (w1.descs d).key = (w.descs d).key ∧
      fiAddr_at w1.eng (w1.descs d).memserver_id = fiAddr_at w.eng (w.descs d).memserver_id ∧
      ∀ s2 buf w2,
        Fam_Ops_Libfabric.get_blocking env d offset n w1 = (Outcome.ok (s2, buf), w2) →
          buf = x) ∧
    ((∀ k, env.throws k = none) →
      (∃ c, ( Fam_Ops_Libfabric.get_context env d w).1 = Outcome.ok c) →
      ∃ s w1 s2 w2, Fam_Ops_Libfabric.put_blocking env x d offset w = (Outcome.ok s, w1) ∧
        Fam_Ops_Libfabric.get_blocking env d offset n w1 = (Outcome.ok (s2, x), w2)) := by
  refine ⟨put_blocking_posts env x d offset w, fun w1 => get_blocking_posts env d offset n w1,
    ?_, ?_⟩
  · intro s w1 hput
    obtain ⟨h1, h2, h3, -⟩ := put_then_get env x d offset w s w1 hput
    exact ⟨h1, h2, h3⟩
  · intro hth hc
    obtain ⟨c, hc⟩ := hc
    rcases hg : Fam_Ops_Libfabric.get_context env d w with ⟨o, wc⟩
    rw [hg] at hc
    simp only at hc
    subst hc
    have hput := put_blocking_of env x d offset w c wc hg
    rw [hth] at hput
    simp only at hput
    obtain ⟨w2, hget⟩ := (put_then_get env x d offset w _ _ hput).2.2.2 (hth _)
    exact ⟨_, _, _, w2, hput, hget⟩

/-- C23 (witness): the bytes `1, 2, 3` put at offset `4` of item `0` of the
initialised two-server client, then read back. -/
theorem put_get_round_trip_witness :
    (∀ k, demoEnv.throws k = none) ∧
    (∃ c, ( Fam_Ops_Libfabric.get_context demoEnv 0 demoTwoNodeWorld).1 = Outcome.ok c) ∧
    ∃ s w1 s2 w2,
      Fam_Ops_Libfabric.put_blocking demoEnv (⟨[1, 2, 3], rfl⟩ : Buffer 3) 0 4 demoTwoNodeWorld =
        (Outcome.ok s, w1) ∧
      Fam_Ops_Libfabric.get_blocking demoEnv 0 4 3 w1 =
        (Outcome.ok (s2, (⟨[1, 2, 3], rfl⟩ : Buffer 3)), w2) :=
  ⟨fun _ => rfl, ⟨0, rfl⟩,
    (put_get_round_trip demoEnv (⟨[1, 2, 3], rfl⟩ : Buffer 3) 0 4 demoTwoNodeWorld).2.2.2
      (fun _ => rfl) ⟨0, rfl⟩⟩

/-! ## Subtraction and addition over the reference fabric (C21, C22) -/

theorem le_decode_le_encode : ∀ (n v : Nat), le_decode (le_encode n v).1 = v % 256 ^ n := by
  intro n
  induction n with
  | zero => intro v; simp [le_encode, le_decode, Nat.mod_one]
  | succ n ih =>
    intro v
    simp only [le_encode, le_decode, ih]
    rw [pow_succ', Nat.mod_mul]
    have h : (UInt8.ofNat (v % 256)).toNat = v % 256 := by
      simp [UInt8.ofNat, UInt8.toNat]
    rw [h]

theorem le_decode_lt : ∀ (b : Bytes), le_decode b < 256 ^ b.length := by
  intro b
  induction b with
  | nil => simp [le_decode]
  | cons x xs ih =>
    simp only [le_decode, List.length_cons, pow_succ]
    have hx : x.toNat < 256 := x.toNat_lt
    omega

theorem le_encode_le_decode : ∀ (b : Bytes), (le_encode b.length (le_decode b)).1 = b := by
  intro b
  induction b with
  | nil => rfl
  | cons x xs ih =>
    have hx : x.toNat < 256 := x.toNat_lt
    simp only [le_decode, List.length_cons, le_encode]
    have h1 : (x.toNat + 256 * le_decode xs) % 256 = x.toNat := by omega
    have h2 : (x.toNat + 256 * le_decode xs) / 256 = le_decode xs := by omega
    rw [h1, h2, ih]
    have h : UInt8.ofNat x.toNat = x := by
      apply UInt8.eq_of_val_eq
      simp [UInt8.ofNat, UInt8.toNat]
    rw [h]

theorem demoRefEnv_reference : ReferenceFabric demoRefEnv :=
  ⟨fun _ _ _ => rfl, fun _ _ _ _ => rfl, fun _ _ _ => rfl⟩

theorem post_atomic_step (env : Env) (hth : ∀ k, env.throws k = none) (d offset : Nat)
    (value : Bytes) (op : fi_op) (dt : fi_datatype) (w : World) (c : Nat)
    (hc : ( Fam_Ops_Libfabric.get_context env d w).1 = Outcome.ok c) :
    ∃ w1, post_atomic env d offset value op dt w = (Outcome.ok (), w1) ∧
      ContextReady w1 d c ∧
      (w1.descs d).key = (w.descs d).key ∧
      fiAddr_at w1.eng (w1.descs d).memserver_id = fiAddr_at w.eng (w.descs d).memserver_id ∧
      w1.mem = writeBytes w.mem (fiAddr_at w.eng (w.descs d).memserver_id) (w.descs d).key
        offset (env.atomic_op op dt (item_bytes w d offset dt.size).1 value) := by
  have hready := get_context_ready env d w c hc
  have hdesc := get_context_descs env d w d
  have hfi := (get_context_effect env d w).2.2.1
  have hmem := (get_context_effect env d w).2.1
  rcases hg : Fam_Ops_Libfabric.get_context env d w with ⟨o, wc⟩
  rw [hg] at hready hdesc hfi hmem hc
  simp only at hready hdesc hfi hmem hc
  subst hc
  simp only [post_atomic, fabric_atomic, extern_call, M.bind_apply, M.andThen, M.get, M.modify,
    hg, hth]
  refine ⟨_, rfl, hready, hdesc.1, ?_, ?_⟩
  · simp only [fiAddr_at, hfi, hdesc.2.1]
  · simp only [item_bytes, hmem]

theorem post_fetch_atomic_step (env : Env) (hth : ∀ k, env.throws k = none) (d offset : Nat)
    (value : Bytes) (op : fi_op) (dt : fi_datatype) (w : World) (c : Nat)
    (hc : ( Fam_Ops_Libfabric.get_context env d w).1 = Outcome.ok c) :
    ∃ w1, post_fetch_atomic env d offset value op dt w =
        (Outcome.ok (item_bytes w d offset dt.size), w1) ∧
      ContextReady w1 d c ∧
      (w1.descs d).key = (w.descs d).key ∧
      fiAddr_at w1.eng (w1.descs d).memserver_id = fiAddr_at w.eng (w.descs d).memserver_id ∧
      w1.mem = writeBytes w.mem (fiAddr_at w.eng (w.descs d).memserver_id) (w.descs d).key
        offset (env.atomic_op op dt (item_bytes w d offset dt.size).1 value) := by
  have hready := get_context_ready env d w c hc
  have hdesc := get_context_descs env d w d
  have hfi := (get_context_effect env d w).2.2.1
  have hmem := (get_context_effect env d w).2.1
  rcases hg : Fam_Ops_Libfabric.get_context env d w with ⟨o, wc⟩
  rw [hg] at hready hdesc hfi hmem hc
  simp only at hready hdesc hfi hmem hc
  subst hc
  simp only [post_fetch_atomic, fabric_fetch_atomic, extern_call, M.bind_apply, M.andThen, M.get,
    M.modify, M.pure_apply, hg, hth, item_bytes]
  rw [← hmem]
  refine ⟨_, rfl, hready, hdesc.1, ?_, rfl⟩
  simp only [fiAddr_at, hfi, hdesc.2.1]

theorem ready_get_context (env : Env) (d : Nat) (w : World) (c : Nat)
    (h : ContextReady w d c) : ( Fam_Ops_Libfabric.get_context env d w).1 = Outcome.ok c := by
  rw [get_context_of_ready env d w c h]

theorem sub_mod_32 (m v : Nat) (hv : v < 2 ^ 32) :
    (((m + (2 ^ 32 - v) % 2 ^ 32) % 2 ^ 32 : Nat) : Int) = ((m : Int) - (v : Int)) % 2 ^ 32 := by
  norm_num at hv ⊢
  omega

theorem sub_mod_64 (m v : Nat) (hv : v < 2 ^ 64) :
    (((m + (2 ^ 64 - v) % 2 ^ 64) % 2 ^ 64 : Nat) : Int) = ((m : Int) - (v : Int)) % 2 ^ 64 := by
  norm_num at hv ⊢
  omega

theorem sub_mod_bits (T : CUnsigned) (m v : Nat) (hv : v < 2 ^ T.toCType.bits) :
    (((m + (2 ^ T.toCType.bits - v) % 2 ^ T.toCType.bits) % 2 ^ T.toCType.bits : Nat) : Int) =
      ((m : Int) - (v : Int)) % 2 ^ T.toCType.bits := by
  cases T
  · exact sub_mod_32 m v hv
  · exact sub_mod_64 m v hv

theorem neg_le_encode (T : CUnsigned) (v : Nat) (hv : v < 2 ^ T.toCType.bits) :
    CValue.neg T.toCType (le_encode _ v) =
      le_encode _ ((2 ^ T.toCType.bits - v) % 2 ^ T.toCType.bits) := by
  cases T
  · have h : v % 4294967296 = v :=
      Nat.mod_eq_of_lt (by norm_num [CType.bits, CType.sizeof, CUnsigned.toCType] at hv; exact hv)
    simp only [CValue.neg, CUnsigned.toCType, CType.sizeof, CType.bits, le_decode_le_encode]
    norm_num [h]
  · have h : v % 18446744073709551616 = v :=
      Nat.mod_eq_of_lt (by norm_num [CType.bits, CType.sizeof, CUnsigned.toCType] at hv; exact hv)
    simp only [CValue.neg, CUnsigned.toCType, CType.sizeof, CType.bits, le_decode_le_encode]
    norm_num [h]

theorem post_atomic_bytes (env : Env) (hth : ∀ k, env.throws k = none) (d offset : Nat)
    (value : Bytes) (op : fi_op) (dt : fi_datatype) (w : World) (c : Nat)
    (hc : ( Fam_Ops_Libfabric.get_context env d w).1 = Outcome.ok c) (res : Buffer dt.size)
    (hres : env.atomic_op op dt (item_bytes w d offset dt.size).1 value = res.1) :
    ∃ w1, post_atomic env d offset value op dt w = (Outcome.ok (), w1) ∧
      ContextReady w1 d c ∧ item_bytes w1 d offset dt.size = res := by
  obtain ⟨w1, h1, hr, hk, ha, hm⟩ := post_atomic_step env hth d offset value op dt w c hc
  refine ⟨w1, h1, hr, ?_⟩
  rw [hres] at hm
  simp only [item_bytes]
  rw [hk, ha, hm]
  exact readBytes_writeBytes_buffer _ _ res _ _

theorem post_fetch_atomic_bytes (env : Env) (hth : ∀ k, env.throws k = none) (d offset : Nat)
    (value : Bytes) (op : fi_op) (dt : fi_datatype) (w : World) (c : Nat)
    (hc : ( Fam_Ops_Libfabric.get_context env d w).1 = Outcome.ok c) (res : Buffer dt.size)
    (hres : env.atomic_op op dt (item_bytes w d offset dt.size).1 value = res.1) :
    ∃ w1, post_fetch_atomic env d offset value op dt w =
        (Outcome.ok (item_bytes w d offset dt.size), w1) ∧
      ContextReady w1 d c ∧ item_bytes w1 d offset dt.size = res := by
  obtain ⟨w1, h1, hr, hk, ha, hm⟩ := post_fetch_atomic_step env hth d offset value op dt w c hc
  refine ⟨w1, h1, hr, ?_⟩
  rw [hres] at hm
  simp only [item_bytes]
  rw [hk, ha, hm]
  exact readBytes_writeBytes_buffer _ _ res _ _

theorem buffer_decode_lt {n : Nat} (b : Buffer n) : le_decode b.1 < 256 ^ n := by
  have h := le_decode_lt b.1
  rw [b.2] at h
  exact h

/-- C21: for an unsigned operand type of `w` bits (`w` is 32 or 64) and a value
`v < 2 ^ w`, `atomic_subtract` and `atomic_fetch_subtract` with the operand `v`
are `atomic_add` and `atomic_fetch_add` with the operand `(2 ^ w - v) mod 2 ^ w`:
after `get_context` they post the one `SUM` atomic with that operand and the
unsigned datatype code of the type.  Consequently, over the reference fabric,
when no call throws and `get_context` succeeds, a stored value `m` becomes
`(m - v) mod 2 ^ w`, and `atomic_fetch_subtract` returns the bytes of `m`. -/
theorem atomic_subtract_unsigned (env : Env) (T : CUnsigned) (d offset v : Nat)
    (hv : v < 2 ^ T.toCType.bits) :
    Fam_Ops_Libfabric.atomic_subtract env T.toCType d offset (le_encode _ v) =
      Fam_Ops_Libfabric.atomic_add env T.toCType d offset
        (le_encode _ ((2 ^ T.toCType.bits - v) % 2 ^ T.toCType.bits)) ∧
    Fam_Ops_Libfabric.atomic_fetch_subtract env T.toCType d offset (le_encode _ v) =
      Fam_Ops_Libfabric.atomic_fetch_add env T.toCType d offset
        (le_encode _ ((2 ^ T.toCType.bits - v) % 2 ^ T.toCType.bits)) ∧
    (∀ w, PostsOne env d w
      ( Fam_Ops_Libfabric.atomic_subtract env T.toCType d offset (le_encode _ v) w)
      (Call.fabric_atomic (w.descs d).key
        (le_encode T.toCType.sizeof ((2 ^ T.toCType.bits - v) % 2 ^ T.toCType.bits)).1 offset
        fi_op.FI_SUM T.toCType.code (fiAddr_at w.eng (w.descs d).memserver_id))) ∧
    (∀ w, PostsOne env d w
      ( Fam_Ops_Libfabric.atomic_fetch_subtract env T.toCType d offset (le_encode _ v) w)
      (Call.fabric_fetch_atomic (w.descs d).key
        (le_encode T.toCType.sizeof ((2 ^ T.toCType.bits - v) % 2 ^ T.toCType.bits)).1 offset
        fi_op.FI_SUM T.toCType.code (fiAddr_at w.eng (w.descs d).memserver_id))) ∧
    (ReferenceFabric env → (∀ k, env.throws k = none) →
      ∀ w c, ( Fam_Ops_Libfabric.get_context env d w).1 = Outcome.ok c →
        (∃ w1, Fam_Ops_Libfabric.atomic_subtract env T.toCType d offset (le_encode _ v) w =
            (Outcome.ok (), w1) ∧
          ((le_decode (item_bytes w1 d offset T.toCType.sizeof).1 : Nat) : Int) =
            ((le_decode (item_bytes w d offset T.toCType.sizeof).1 : Nat) - (v : Int)) %
              2 ^ T.toCType.bits) ∧
        (∃ w1, Fam_Ops_Libfabric.atomic_fetch_subtract env T.toCType d offset (le_encode _ v) w =
            (Outcome.ok (item_bytes w d offset T.toCType.sizeof), w1) ∧
          ((le_decode (item_bytes w1 d offset T.toCType.sizeof).1 : Nat) : Int) =
            ((le_decode (item_bytes w d offset T.toCType.sizeof).1 : Nat) - (v : Int)) %
              2 ^ T.toCType.bits)) := by
  have hneg := neg_le_encode T v hv
  have hsub := sub_mod_bits T
  unfold Fam_Ops_Libfabric.atomic_subtract Fam_Ops_Libfabric.atomic_fetch_subtract
  rw [hneg]
  refine ⟨rfl, rfl, ?_, ?_, ?_⟩
  · intro w
    cases T <;> exact post_atomic_posts env d offset _ _ _ w
  · intro w
    cases T <;> exact (post_fetch_atomic_fetches env d offset _ _ _ w).1
  · intro href hth w c hc
    have hY : (2 ^ T.toCType.bits - v) % 2 ^ T.toCType.bits < 2 ^ T.toCType.bits :=
      Nat.mod_lt _ (by positivity)
    cases T
    · constructor
      · obtain ⟨w1, h1, -, hb⟩ := post_atomic_bytes env hth d offset
          (le_encode 4 ((2 ^ 32 - v) % 2 ^ 32)).1 fi_op.FI_SUM fi_datatype.FI_UINT32 w c hc _
          (href.2.1 fi_datatype.FI_UINT32 _ _ rfl)
        refine ⟨w1, h1, ?_⟩
        have hb2 : item_bytes w1 d offset 4 = _ := hb
        rw [← hsub _ v hv]
        simp only [CUnsigned.toCType, CType.sizeof, CType.bits, fi_datatype.size] at hb2 hY ⊢
        rw [hb2, le_decode_le_encode, le_decode_le_encode]
        norm_num at hY ⊢
      · obtain ⟨w1, h1, -, hb⟩ := post_fetch_atomic_bytes env hth d offset
          (le_encode 4 ((2 ^ 32 - v) % 2 ^ 32)).1 fi_op.FI_SUM fi_datatype.FI_UINT32 w c hc _
          (href.2.1 fi_datatype.FI_UINT32 _ _ rfl)
        refine ⟨w1, h1, ?_⟩
        have hb2 : item_bytes w1 d offset 4 = _ := hb
        rw [← hsub _ v hv]
        simp only [CUnsigned.toCType, CType.sizeof, CType.bits, fi_datatype.size] at hb2 hY ⊢
        rw [hb2, le_decode_le_encode, le_decode_le_encode]
        norm_num at hY ⊢
    · constructor
      · obtain ⟨w1, h1, -, hb⟩ := post_atomic_bytes env hth d offset
          (le_encode 8 ((2 ^ 64 - v) % 2 ^ 64)).1 fi_op.FI_SUM fi_datatype.FI_UINT64 w c hc _
          (href.2.1 fi_datatype.FI_UINT64 _ _ rfl)
        refine ⟨w1, h1, ?_⟩
        have hb2 : item_bytes w1 d offset 8 = _ := hb
        rw [← hsub _ v hv]
        simp only [CUnsigned.toCType, CType.sizeof, CType.bits, fi_datatype.size] at hb2 hY ⊢
        rw [hb2, le_decode_le_encode, le_decode_le_encode]
        norm_num at hY ⊢
      · obtain ⟨w1, h1, -, hb⟩ := post_fetch_atomic_bytes env hth d offset
          (le_encode 8 ((2 ^ 64 - v) % 2 ^ 64)).1 fi_op.FI_SUM fi_datatype.FI_UINT64 w c hc _
          (href.2.1 fi_datatype.FI_UINT64 _ _ rfl)
        refine ⟨w1, h1, ?_⟩
        have hb2 : item_bytes w1 d offset 8 = _ := hb
        rw [← hsub _ v hv]
        simp only [CUnsigned.toCType, CType.sizeof, CType.bits, fi_datatype.size] at hb2 hY ⊢
        rw [hb2, le_decode_le_encode, le_decode_le_encode]
        norm_num at hY ⊢

/-- C21 (witness): `5` subtracted from a 32-bit item of the initialised
two-server client, over the reference fabric. -/
theorem atomic_subtract_unsigned_witness :
    5 < 2 ^ CUnsigned.uint32_t.toCType.bits ∧
    ReferenceFabric demoRefEnv ∧
    (∀ k, demoRefEnv.throws k = none) ∧
    ( Fam_Ops_Libfabric.get_context demoRefEnv 0 demoTwoNodeWorld).1 = Outcome.ok 0 ∧
    (∃ w1,
      Fam_Ops_Libfabric.atomic_subtract demoRefEnv CUnsigned.uint32_t.toCType 0 0 (le_encode _ 5)
          demoTwoNodeWorld = (Outcome.ok (), w1) ∧
        ((le_decode (item_bytes w1 0 0 CUnsigned.uint32_t.toCType.sizeof).1 : Nat) : Int) =
          ((le_decode (item_bytes demoTwoNodeWorld 0 0 CUnsigned.uint32_t.toCType.sizeof).1 : Nat) -
            ((5 : Nat) : Int)) % 2 ^ CUnsigned.uint32_t.toCType.bits) :=
  ⟨by decide, demoRefEnv_reference, fun _ => rfl, rfl,
    ((atomic_subtract_unsigned demoRefEnv CUnsigned.uint32_t 0 0 5 (by decide)).2.2.2.2
      demoRefEnv_reference (fun _ => rfl) demoTwoNodeWorld 0 rfl).1⟩

theorem set_add_fetch_post (env : Env) (href : ReferenceFabric env)
    (hth : ∀ k, env.throws k = none) (d offset : Nat) (dt : fi_datatype)
    (hint : dt.isInteger = true) (a b : Buffer dt.size) (w : World) (c : Nat)
    (hc : ( Fam_Ops_Libfabric.get_context env d w).1 = Outcome.ok c) :
    ∃ w1 w2 w3,
      post_atomic env d offset a.1 fi_op.FI_ATOMIC_WRITE dt w = (Outcome.ok (), w1) ∧
      post_atomic env d offset b.1 fi_op.FI_SUM dt w1 = (Outcome.ok (), w2) ∧
      post_fetch_atomic env d offset (env.uninitialized w2.trace.length) fi_op.FI_ATOMIC_READ dt
          w2 =
        (Outcome.ok (le_encode dt.size ((le_decode a.1 + le_decode b.1) % 2 ^ (8 * dt.size))),
          w3) := by
  obtain ⟨w1, h1, hr1, hb1⟩ := post_atomic_bytes env hth d offset a.1 fi_op.FI_ATOMIC_WRITE dt
    w c hc a (href.1 _ _ _)
  obtain ⟨w2, h2, hr2, hb2⟩ := post_atomic_bytes env hth d offset b.1 fi_op.FI_SUM dt
    w1 c (ready_get_context env d w1 c hr1) _ (href.2.1 dt _ _ hint)
  obtain ⟨w3, h3, -, -⟩ := post_fetch_atomic_bytes env hth d offset
    (env.uninitialized w2.trace.length) fi_op.FI_ATOMIC_READ dt
    w2 c (ready_get_context env d w2 c hr2) _ (href.2.2 _ _ _)
  rw [hb2, hb1] at h3
  exact ⟨w1, w2, w3, h1, h2, h3⟩

theorem set_fetch_add_fetch_post (env : Env) (href : ReferenceFabric env)
    (hth : ∀ k, env.throws k = none) (d offset : Nat) (dt : fi_datatype)
    (hint : dt.isInteger = true) (a b : Buffer dt.size) (w : World) (c : Nat)
    (hc : ( Fam_Ops_Libfabric.get_context env d w).1 = Outcome.ok c) :
    ∃ w1 w2 w3,
      post_atomic env d offset a.1 fi_op.FI_ATOMIC_WRITE dt w = (Outcome.ok (), w1) ∧
      post_fetch_atomic env d offset b.1 fi_op.FI_SUM dt w1 = (Outcome.ok a, w2) ∧
      post_fetch_atomic env d offset (env.uninitialized w2.trace.length) fi_op.FI_ATOMIC_READ dt
          w2 =
        (Outcome.ok (le_encode dt.size ((le_decode a.1 + le_decode b.1) % 2 ^ (8 * dt.size))),
          w3) := by
  obtain ⟨w1, h1, hr1, hb1⟩ := post_atomic_bytes env hth d offset a.1 fi_op.FI_ATOMIC_WRITE dt
    w c hc a (href.1 _ _ _)
  obtain ⟨w2, h2, hr2, hb2⟩ := post_fetch_atomic_bytes env hth d offset b.1 fi_op.FI_SUM dt
    w1 c (ready_get_context env d w1 c hr1) _ (href.2.1 dt _ _ hint)
  obtain ⟨w3, h3, -, -⟩ := post_fetch_atomic_bytes env hth d offset
    (env.uninitialized w2.trace.length) fi_op.FI_ATOMIC_READ dt
    w2 c (ready_get_context env d w2 c hr2) _ (href.2.2 _ _ _)
  rw [hb2, hb1] at h3
  rw [hb1] at h2
  exact ⟨w1, w2, w3, h1, h2, h3⟩

/-- C22: over the reference fabric, when no collaborator call throws and
`get_context` succeeds for the item: for every integer operand type of `w` bits
(32 or 64) and all values `a`, `b` of the type, `atomic_set(a)`, `atomic_add(b)`,
`atomic_fetch` on the same item and offset, with nothing in between, all return
and the fetch returns `(a + b) mod 2 ^ w`; and `atomic_set(a)`,
`atomic_fetch_add(b)`, `atomic_fetch` all return, the fetching add returning `a`
and the fetch `(a + b) mod 2 ^ w`. -/
theorem set_add_fetch_sum (env : Env) (T : CInteger) (d offset : Nat)
    (a b : CValue T.toCType) (w : World) (c : Nat)
    (href : ReferenceFabric env) (hth : ∀ k, env.throws k = none)
    (hc : ( Fam_Ops_Libfabric.get_context env d w).1 = Outcome.ok c) :
    (∃ w3, set_add_fetch env T.toCType d offset a b w =
      (Outcome.ok (le_encode _ ((le_decode a.1 + le_decode b.1) % 2 ^ T.toCType.bits)), w3)) ∧
    (∃ w3, set_fetch_add_fetch env T.toCType d offset a b w =
      (Outcome.ok (a, le_encode _ ((le_decode a.1 + le_decode b.1) % 2 ^ T.toCType.bits)),
        w3)) := by
  cases T
  · obtain ⟨w1, w2, w3, h1, h2, h3⟩ :=
      set_add_fetch_post env href hth d offset fi_datatype.FI_INT32 rfl a b w c hc
    obtain ⟨v1, v2, v3, g1, g2, g3⟩ :=
      set_fetch_add_fetch_post env href hth d offset fi_datatype.FI_INT32 rfl a b w c hc
    refine ⟨⟨w3, ?_⟩, ⟨v3, ?_⟩⟩
    · simp only [set_add_fetch, Fam_Ops_Libfabric.atomic_set_native, Fam_Ops_Libfabric.atomic_add,
        atomic_fetch_typed, Fam_Ops_Libfabric.atomic_fetch_int32, CInteger.toCType,
        M.bind_apply, M.andThen, M.get, h1, h2, h3]
      rfl
    · simp only [set_fetch_add_fetch, Fam_Ops_Libfabric.atomic_set_native,
        Fam_Ops_Libfabric.atomic_fetch_add, atomic_fetch_typed, Fam_Ops_Libfabric.atomic_fetch_int32,
        CInteger.toCType, M.bind_apply, M.andThen, M.get, M.pure_apply, g1, g2, g3]
      rfl
  · obtain ⟨w1, w2, w3, h1, h2, h3⟩ :=
      set_add_fetch_post env href hth d offset fi_datatype.FI_INT64 rfl a b w c hc
    obtain ⟨v1, v2, v3, g1, g2, g3⟩ :=
      set_fetch_add_fetch_post env href hth d offset fi_datatype.FI_INT64 rfl a b w c hc
    refine ⟨⟨w3, ?_⟩, ⟨v3, ?_⟩⟩
    · simp only [set_add_fetch, Fam_Ops_Libfabric.atomic_set_native, Fam_Ops_Libfabric.atomic_add,
        atomic_fetch_typed, Fam_Ops_Libfabric.atomic_fetch_int64, CInteger.toCType,
        M.bind_apply, M.andThen, M.get, h1, h2, h3]
      rfl
    · simp only [set_fetch_add_fetch, Fam_Ops_Libfabric.atomic_set_native,
        Fam_Ops_Libfabric.atomic_fetch_add, atomic_fetch_typed, Fam_Ops_Libfabric.atomic_fetch_int64,
        CInteger.toCType, M.bind_apply, M.andThen, M.get, M.pure_apply, g1, g2, g3]
      rfl
  · obtain ⟨w1, w2, w3, h1, h2, h3⟩ :=
      set_add_fetch_post env href hth d offset fi_datatype.FI_UINT32 rfl a b w c hc
    obtain ⟨v1, v2, v3, g1, g2, g3⟩ :=
      set_fetch_add_fetch_post env href hth d offset fi_datatype.FI_UINT32 rfl a b w c hc
    refine ⟨⟨w3, ?_⟩, ⟨v3, ?_⟩⟩
    · simp only [set_add_fetch, Fam_Ops_Libfabric.atomic_set_native, Fam_Ops_Libfabric.atomic_add,
        atomic_fetch_typed, Fam_Ops_Libfabric.atomic_fetch_uint32, CInteger.toCType,
        M.bind_apply, M.andThen, M.get, h1, h2, h3]
      rfl
    · simp only [set_fetch_add_fetch, Fam_Ops_Libfabric.atomic_set_native,
        Fam_Ops_Libfabric.atomic_fetch_add, atomic_fetch_typed, Fam_Ops_Libfabric.atomic_fetch_uint32,
        CInteger.toCType, M.bind_apply, M.andThen, M.get, M.pure_apply, g1, g2, g3]
      rfl
  · obtain ⟨w1, w2, w3, h1, h2, h3⟩ :=
      set_add_fetch_post env href hth d offset fi_datatype.FI_UINT64 rfl a b w c hc
    obtain ⟨v1, v2, v3, g1, g2, g3⟩ :=
      set_fetch_add_fetch_post env href hth d offset fi_datatype.FI_UINT64 rfl a b w c hc
    refine ⟨⟨w3, ?_⟩, ⟨v3, ?_⟩⟩
    · simp only [set_add_fetch, Fam_Ops_Libfabric.atomic_set_native, Fam_Ops_Libfabric.atomic_add,
        atomic_fetch_typed, Fam_Ops_Libfabric.atomic_fetch_uint64, CInteger.toCType,
        M.bind_apply, M.andThen, M.get, h1, h2, h3]
      rfl
    · simp only [set_fetch_add_fetch, Fam_Ops_Libfabric.atomic_set_native,
        Fam_Ops_Libfabric.atomic_fetch_add, atomic_fetch_typed, Fam_Ops_Libfabric.atomic_fetch_uint64,
        CInteger.toCType, M.bind_apply, M.andThen, M.get, M.pure_apply, g1, g2, g3]
      rfl

/-- C22 (witness): the 32-bit values `250` and `10` on item `0` of the
initialised two-server client, over the reference fabric. -/
theorem set_add_fetch_sum_witness :
    ReferenceFabric demoRefEnv ∧
    (∀ k, demoRefEnv.throws k = none) ∧
    ( Fam_Ops_Libfabric.get_context demoRefEnv 0 demoTwoNodeWorld).1 = Outcome.ok 0 ∧
    (∃ w3, set_add_fetch demoRefEnv CInteger.uint32_t.toCType 0 0 (le_encode _ 250)
        (le_encode _ 10) demoTwoNodeWorld =
      (Outcome.ok (le_encode _
        ((le_decode (le_encode CInteger.uint32_t.toCType.sizeof 250).1 +
          le_decode (le_encode CInteger.uint32_t.toCType.sizeof 10).1) %
            2 ^ CInteger.uint32_t.toCType.bits)), w3)) :=
  ⟨demoRefEnv_reference, fun _ => rfl, rfl,
    (set_add_fetch_sum demoRefEnv CInteger.uint32_t 0 0 (le_encode _ 250) (le_encode _ 10)
      demoTwoNodeWorld 0 demoRefEnv_reference (fun _ => rfl) rfl).1⟩

/-! ## Finalisation, call by call (C24) -/

theorem deleted_append (ps qs : List Nat) :
    ∀ (heap : List Fam_Context), deleted heap (ps ++ qs) = deleted (deleted heap ps) qs := by
  induction ps with
  | nil => intro heap; rfl
  | cons p ps ih => intro heap; exact ih _

theorem verbRun_bind (m1 m2 : M Unit) (w : World) (c1 c2 : List Call)
    (h1 : VerbRun (m1 w) w c1) (h2 : VerbRun (m2 (m1 w).2) (m1 w).2 c2) :
    VerbRun ((m1 >>= fun _ => m2) w) w (c1 ++ c2) := by
  rw [M.bind_apply]
  unfold M.andThen
  obtain ⟨a1, evs1, a2, a3, a4, a5⟩ := h1
  rcases hm : m1 w with ⟨o, w1⟩
  rw [hm] at a1 a2 a4 a5 h2
  cases o with
  | stuck s => exact absurd rfl (a1 s)
  | throw e =>
    refine ⟨(by intro s h; cases h), evs1, a2, ?_, (by intro h; cases h), a5⟩
    exact a3.trans ⟨c2, rfl⟩
  | ok u =>
    obtain ⟨b1, evs2, b2, b3, b4, b5⟩ := h2
    simp only at b1 b2 b3 b4 b5 a2 a4 ⊢
    refine ⟨b1, evs1 ++ evs2, ?_, ?_, ?_, ?_⟩
    · rw [b2, a2, List.append_assoc]
    · rw [List.map_append, a4 trivial]
      obtain ⟨t, ht⟩ := b3
      exact ⟨t, (by rw [List.append_assoc, ht])⟩
    · intro hok
      rw [List.map_append, a4 trivial, b4 hok]
    · intro e he
      obtain ⟨pre, c, hpre⟩ := b5 e he
      exact ⟨evs1 ++ pre, c, (by rw [hpre, List.append_assoc])⟩

theorem teardown_bind (m1 m2 : M Unit) (w : World) (c1 c2 : List Call)
    (e1 e2 : Fam_Ops_Libfabric) (p1 p2 : List Nat)
    (h1 : TeardownRun (m1 w) w c1 e1 p1)
    (h2 : ∀ w1, w1.eng = e1 → TeardownRun (m2 w1) w1 c2 e2 p2) :
    TeardownRun ((m1 >>= fun _ => m2) w) w (c1 ++ c2) e2 (p1 ++ p2) := by
  obtain ⟨v1, d1, r1, m1', k1⟩ := h1
  refine ⟨?_, ?_⟩
  · by_cases hok : (m1 w).1 = Outcome.ok ()
    · exact verbRun_bind m1 m2 w c1 c2 v1 (h2 _ (k1 hok).1).1
    · rw [M.bind_apply]
      unfold M.andThen
      obtain ⟨a1, evs1, a2, a3, a4, a5⟩ := v1
      rcases hm : m1 w with ⟨o, w1⟩
      rw [hm] at a1 a2 a5 hok
      cases o with
      | stuck s => exact absurd rfl (a1 s)
      | ok u => exact absurd rfl hok
      | throw e =>
        exact ⟨(by intro s h; cases h), evs1, a2, a3.trans ⟨c2, rfl⟩,
          (by intro h; cases h), a5⟩
  · rw [M.bind_apply]
    unfold M.andThen
    rcases hm : m1 w with ⟨o, w1⟩
    rw [hm] at d1 r1 m1' k1
    cases o with
    | stuck s => exact ⟨d1, r1, m1', (by intro h; cases h)⟩
    | throw e => exact ⟨d1, r1, m1', (by intro h; cases h)⟩
    | ok u =>
      obtain ⟨he, hh⟩ := k1 rfl
      obtain ⟨-, d2, r2, m2', k2⟩ := h2 w1 he
      simp only at d1 r1 m1' he hh ⊢
      refine ⟨d2.trans d1, r2.trans r1, m2'.trans m1', ?_⟩
      intro hok
      obtain ⟨he2, hh2⟩ := k2 hok
      exact ⟨he2, (by rw [hh2, hh, deleted_append])⟩

theorem teardown_congr (r : Outcome Unit × World) (w : World) (c c' : List Call)
    (e e' : Fam_Ops_Libfabric) (p p' : List Nat) (h : TeardownRun r w c e p)
    (hc : c = c') (he : e = e') (hp : p = p') : TeardownRun r w c' e' p' := by
  subst hc he hp
  exact h

theorem teardown_read (f : World → M Unit) (w : World) (c : List Call)
    (e : Fam_Ops_Libfabric) (p : List Nat) (h : TeardownRun (f w w) w c e p) :
    TeardownRun ((M.get >>= f) w) w c e p := h

theorem teardown_pure (w : World) : TeardownRun ((pure () : M Unit) w) w [] w.eng [] :=
  ⟨verbRun_nil w, rfl, rfl, rfl, fun _ => ⟨rfl, rfl⟩⟩

theorem teardown_modifyEng (f : Fam_Ops_Libfabric → Fam_Ops_Libfabric) (w : World) :
    TeardownRun (M.modifyEng f w) w [] (f w.eng) [] :=
  ⟨verbRun_of_trace_eq _ w _ [] rfl (verbRun_nil _), rfl, rfl, rfl, fun _ => ⟨rfl, rfl⟩⟩

theorem teardown_c_call (env : Env) (c : Call) (w : World) :
    TeardownRun (c_call env c w) w [c] w.eng [] :=
  ⟨verbRun_step w c _ [] _ (verbRun_nil _), rfl, rfl, rfl, fun _ => ⟨rfl, rfl⟩⟩

theorem teardown_delete (env : Env) (p : Nat) (w : World) :
    TeardownRun (delete_Fam_Context env p w) w [Call.delete_Fam_Context p] w.eng [p] := by
  unfold delete_Fam_Context
  simp only [extern_call, M.bind_apply, M.andThen, M.modify]
  cases env.throws w.trace.length with
  | some e => exact ⟨verbRun_throw w _ e [], rfl, rfl, rfl, (by intro h; cases h)⟩
  | none =>
    exact ⟨verbRun_step w _ 0 [] _ (verbRun_of_trace_eq _ _ _ [] rfl (verbRun_nil _)),
      rfl, rfl, rfl, fun _ => ⟨rfl, rfl⟩⟩

theorem finalize_mrs_run (env : Env) :
    ∀ (l : StdMap Nat) (w : World),
      TeardownRun (finalize_mrs env l w) w (l.map (fun kv => Call.fi_close (Fid.mr kv.2)))
        w.eng [] := by
  intro l
  induction l with
  | nil => intro w; exact teardown_pure w
  | cons x xs ih =>
    intro w
    obtain ⟨k, mr⟩ := x
    exact teardown_bind _ _ w [_] _ _ _ [] [] (teardown_c_call env _ w)
      (fun w1 he => by rw [← he]; exact ih w1)

theorem finalize_contexts_run (env : Env) :
    ∀ (l : StdMap Nat) (w : World),
      TeardownRun (finalize_contexts env l w) w
        (l.map (fun kc => Call.delete_Fam_Context kc.2)) w.eng (l.map Prod.snd) := by
  intro l
  induction l with
  | nil => intro w; exact teardown_pure w
  | cons x xs ih =>
    intro w
    obtain ⟨k, ctx⟩ := x
    exact teardown_bind _ _ w [_] _ _ _ [ctx] _ (teardown_delete env _ w)
      (fun w1 he => by rw [← he]; exact ih w1)

theorem release_handle_run (env : Env) (isSet : Fam_Ops_Libfabric → Bool) (c : Call)
    (reset : Fam_Ops_Libfabric → Fam_Ops_Libfabric) (w : World) :
    TeardownRun (release_handle env isSet c reset w) w (if isSet w.eng then [c] else [])
      (if isSet w.eng then reset w.eng else w.eng) [] := by
  unfold release_handle
  apply teardown_read
  cases h : isSet w.eng with
  | false =>
    simp only [Bool.false_eq_true, if_false]
    exact teardown_pure w
  | true =>
    simp only [if_true]
    exact teardown_bind _ _ w [c] [] _ _ [] [] (teardown_c_call env c w)
      (fun w1 he => by rw [← he]; exact teardown_modifyEng reset w1)

theorem release_handle_from (env : Env) (isSet : Fam_Ops_Libfabric → Bool) (c : Call)
    (reset : Fam_Ops_Libfabric → Fam_Ops_Libfabric) (e : Fam_Ops_Libfabric) (w : World)
    (he : w.eng = e) :
    TeardownRun (release_handle env isSet c reset w) w (if isSet e then [c] else [])
      (if isSet e then reset e else e) [] := by
  subst he
  exact release_handle_run env isSet c reset w

theorem finalize_handles_from (env : Env) (e : Fam_Ops_Libfabric) (w : World) (he : w.eng = e) :
    TeardownRun (finalize_handles env w) w (handle_release_calls e)
      { e with fi := false, fabric := false, eq := false, domain := false, av := false } [] := by
  unfold finalize_handles
  refine teardown_congr _ _ _ _ _ _ _ _
    (teardown_bind _ _ w _ _ _ _ [] [] (release_handle_from env _ _ _ e w he)
      (fun w1 he1 => teardown_bind _ _ w1 _ _ _ _ [] []
        (release_handle_from env _ _ _ _ w1 he1)
        (fun w2 he2 => teardown_bind _ _ w2 _ _ _ _ [] []
          (release_handle_from env _ _ _ _ w2 he2)
          (fun w3 he3 => teardown_bind _ _ w3 _ _ _ _ [] []
            (release_handle_from env _ _ _ _ w3 he3)
            (fun w4 he4 => release_handle_from env _ _ _ _ w4 he4))))) ?_ ?_ rfl
  · rcases e with ⟨name, service, provider, isSource, ftm, fcm, alloc, fiAddrs, fiMrs, contexts,
      defContexts, fi, fabric, eq, domain, av, len, nm, iov, l1, l2⟩
    cases fi <;> cases fabric <;> cases eq <;> cases domain <;> cases av <;> rfl
  · rcases e with ⟨name, service, provider, isSource, ftm, fcm, alloc, fiAddrs, fiMrs, contexts,
      defContexts, fi, fabric, eq, domain, av, len, nm, iov, l1, l2⟩
    cases fi <;> cases fabric <;> cases eq <;> cases domain <;> cases av <;> rfl

theorem finalize_mrs_from (env : Env) (e : Fam_Ops_Libfabric) (w : World) (he : w.eng = e) :
    TeardownRun (finalize_mrs env w.eng.fiMrs w) w
      (e.fiMrs.map (fun kv => Call.fi_close (Fid.mr kv.2))) e [] := by
  subst he
  exact finalize_mrs_run env _ w

theorem finalize_contexts_from (env : Env) (e : Fam_Ops_Libfabric) (w : World) (he : w.eng = e) :
    TeardownRun (finalize_contexts env w.eng.contexts w) w
      (e.contexts.map (fun kc => Call.delete_Fam_Context kc.2)) e (e.contexts.map Prod.snd) := by
  subst he
  exact finalize_contexts_run env _ w

theorem finalize_defContexts_from (env : Env) (e : Fam_Ops_Libfabric) (w : World)
    (he : w.eng = e) :
    TeardownRun (finalize_contexts env w.eng.defContexts w) w
      (e.defContexts.map (fun kc => Call.delete_Fam_Context kc.2)) e
      (e.defContexts.map Prod.snd) := by
  subst he
  exact finalize_contexts_run env _ w

theorem modifyEng_from (f : Fam_Ops_Libfabric → Fam_Ops_Libfabric) (e : Fam_Ops_Libfabric)
    (w : World) (he : w.eng = e) : TeardownRun (M.modifyEng f w) w [] (f e) [] := by
  subst he
  exact teardown_modifyEng f w

theorem finalize_tables_from (env : Env) (e : Fam_Ops_Libfabric) (w : World) (he : w.eng = e) :
    TeardownRun (finalize_tables env w) w
      (e.fiMrs.map (fun kv => Call.fi_close (Fid.mr kv.2)) ++
        (e.contexts.map (fun kc => Call.delete_Fam_Context kc.2) ++
          e.defContexts.map (fun kc => Call.delete_Fam_Context kc.2)))
      { e with fiMrs := [], contexts := [], defContexts := [] }
      (e.contexts.map Prod.snd ++ e.defContexts.map Prod.snd) := by
  unfold finalize_tables
  refine teardown_congr _ _ _ _ _ _ _ _
    (teardown_read _ w _ _ _
      (teardown_bind _ _ w _ _ _ _ _ _ (finalize_mrs_from env e w he)
        (fun w1 he1 => teardown_bind _ _ w1 _ _ _ _ _ _ (modifyEng_from _ _ w1 he1)
          (fun w2 he2 => teardown_read _ w2 _ _ _
            (teardown_bind _ _ w2 _ _ _ _ _ _ (finalize_contexts_from env _ w2 he2)
              (fun w3 he3 => teardown_bind _ _ w3 _ _ _ _ _ _ (modifyEng_from _ _ w3 he3)
                (fun w4 he4 => teardown_read _ w4 _ _ _
                  (teardown_bind _ _ w4 _ _ _ _ _ _ (finalize_defContexts_from env _ w4 he4)
                    (fun w5 he5 => modifyEng_from _ _ w5 he5))))))))) ?_ ?_ ?_
  · simp
  · rfl
  · simp

theorem teardown_extern_bind (env : Env) (c : Call) (s : Int) (m2 : M Unit) (w : World)
    (c2 : List Call) (e2 : Fam_Ops_Libfabric) (p2 : List Nat)
    (h2 : ∀ w1, w1.eng = w.eng → w1.heap = w.heap → w1.descs = w.descs →
      w1.regions = w.regions → w1.mem = w.mem →
      w1.trace = w.trace ++ [⟨c, Except.ok s⟩] → TeardownRun (m2 w1) w1 c2 e2 p2) :
    TeardownRun ((extern_call env c s >>= fun _ => m2) w) w (c :: c2) e2 p2 := by
  rw [M.bind_apply]
  unfold M.andThen extern_call
  cases env.throws w.trace.length with
  | some e => exact ⟨verbRun_throw w _ e _, rfl, rfl, rfl, (by intro h; cases h)⟩
  | none =>
    obtain ⟨v, d, r, m, k⟩ := h2 { w with trace := w.trace ++ [⟨c, Except.ok s⟩] } rfl rfl rfl
      rfl rfl rfl
    exact ⟨verbRun_step w c s c2 _ v, d, r, m, k⟩

/-- The run of `finalize`: unless `fabric_finalize` or a destructor throws, it
returns, having made the calls `finalize_calls` in that order; the descriptors
(and the context pointers cached in them) and the memory are as they were, and
when it returns the data members are `finalized` and every context of the two
tables has been deleted. -/
theorem finalize_run (env : Env) (w : World) :
    TeardownRun ( Fam_Ops_Libfabric.finalize env w) w (finalize_calls w.eng) (finalized w.eng)
      (w.eng.contexts.map Prod.snd ++ w.eng.defContexts.map Prod.snd) := by
  unfold Fam_Ops_Libfabric.finalize
  refine teardown_congr _ _ _ _ _ _ _ _
    (teardown_extern_bind env _ _ _ w _ _ _
      (fun w0 he0 _ _ _ _ _ => teardown_bind _ _ w0 _ _ _ _ _ _
        (finalize_tables_from env _ w0 he0)
        (fun w1 he1 => teardown_bind _ _ w1 _ _ _ _ _ _ (finalize_handles_from env _ w1 he1)
          (fun w2 he2 => modifyEng_from _ _ w2 he2)))) ?_ ?_ ?_
  · simp [finalize_calls, handle_release_calls]
  · rfl
  · simp

theorem returns_bind {α β : Type} (m : M α) (f : α → M β)
    (hm : ∀ w, ∃ a, (m w).1 = Outcome.ok a) (hf : ∀ a w, ∃ b, (f a w).1 = Outcome.ok b) :
    ∀ w, ∃ b, ((m >>= f) w).1 = Outcome.ok b := by
  intro w
  obtain ⟨a, ha⟩ := hm w
  rw [M.bind_apply]
  unfold M.andThen
  rcases h : m w with ⟨o, w1⟩
  rw [h] at ha
  simp only at ha
  subst ha
  exact hf a w1

theorem extern_call_returns (env : Env) (hth : ∀ k, env.throws k = none) (c : Call) (s : Int) :
    ∀ w, ∃ a, (extern_call env c s w).1 = Outcome.ok a := by
  intro w
  simp only [extern_call, hth]
  exact ⟨_, rfl⟩

theorem delete_returns (env : Env) (hth : ∀ k, env.throws k = none) (p : Nat) :
    ∀ w, ∃ a, (delete_Fam_Context env p w).1 = Outcome.ok a :=
  returns_bind _ _ (extern_call_returns env hth _ _) (fun _ _ => ⟨(), rfl⟩)

theorem finalize_mrs_returns (env : Env) :
    ∀ (l : StdMap Nat) (w : World), ∃ a, (finalize_mrs env l w).1 = Outcome.ok a := by
  intro l
  induction l with
  | nil => intro w; exact ⟨(), rfl⟩
  | cons x xs ih =>
    obtain ⟨k, mr⟩ := x
    exact returns_bind _ _ (fun _ => ⟨(), rfl⟩) (fun _ => ih)

theorem finalize_contexts_returns (env : Env) (hth : ∀ k, env.throws k = none) :
    ∀ (l : StdMap Nat) (w : World), ∃ a, (finalize_contexts env l w).1 = Outcome.ok a := by
  intro l
  induction l with
  | nil => intro w; exact ⟨(), rfl⟩
  | cons x xs ih =>
    obtain ⟨k, c⟩ := x
    exact returns_bind _ _ (delete_returns env hth c) (fun _ => ih)

theorem release_handle_returns (env : Env) (isSet : Fam_Ops_Libfabric → Bool) (c : Call)
    (reset : Fam_Ops_Libfabric → Fam_Ops_Libfabric) :
    ∀ w, ∃ a, (release_handle env isSet c reset w).1 = Outcome.ok a := by
  intro w
  unfold release_handle
  simp only [M.bind_apply, M.andThen, M.get]
  cases isSet w.eng <;> exact ⟨(), rfl⟩

theorem finalize_returns (env : Env) (hth : ∀ k, env.throws k = none) (w : World) :
    ( Fam_Ops_Libfabric.finalize env w).1 = Outcome.ok () := by
  have h : ∀ w, ∃ a, ( Fam_Ops_Libfabric.finalize env w).1 = Outcome.ok a := by
    unfold Fam_Ops_Libfabric.finalize finalize_tables finalize_handles
    exact returns_bind _ _ (extern_call_returns env hth _ _) (fun _ =>
      returns_bind _ _
        (returns_bind _ _ (fun w => ⟨w, rfl⟩) (fun w0 =>
          returns_bind _ _ (finalize_mrs_returns env _) (fun _ =>
          returns_bind _ _ (fun _ => ⟨(), rfl⟩) (fun _ =>
          returns_bind _ _ (fun w => ⟨w, rfl⟩) (fun w1 =>
          returns_bind _ _ (finalize_contexts_returns env hth _) (fun _ =>
          returns_bind _ _ (fun _ => ⟨(), rfl⟩) (fun _ =>
          returns_bind _ _ (fun w => ⟨w, rfl⟩) (fun w2 =>
          returns_bind _ _ (finalize_contexts_returns env hth _) (fun _ =>
            (fun _ => ⟨(), rfl⟩))))))))))
        (fun _ => returns_bind _ _
          (returns_bind _ _ (release_handle_returns env _ _ _) (fun _ =>
            returns_bind _ _ (release_handle_returns env _ _ _) (fun _ =>
            returns_bind _ _ (release_handle_returns env _ _ _) (fun _ =>
            returns_bind _ _ (release_handle_returns env _ _ _) (fun _ =>
              release_handle_returns env _ _ _)))))
          (fun _ _ => ⟨(), rfl⟩)))
  obtain ⟨a, ha⟩ := h w
  exact ha

theorem deleted_getElem? (ps : List Nat) :
    ∀ (heap : List Fam_Context) (p : Nat),
      (deleted heap ps)[p]? =
        if p ∈ ps then (heap[p]?).map (fun c => { c with alive := false }) else heap[p]? := by
  induction ps with
  | nil => intro heap p; simp [deleted]
  | cons q qs ih =>
    intro heap p
    rw [deleted, ih, List.getElem?_modify]
    by_cases hq : q = p
    · subst hq
      by_cases hm : q ∈ qs
      · cases heap[q]? <;> simp [hm]
      · cases heap[q]? <;> simp [hm]
    · have hq' : ¬ p = q := fun h => hq h.symm
      by_cases hm : p ∈ qs
      · cases heap[p]? <;> simp [hm, hq]
      · cases heap[p]? <;> simp [hm, hq, hq']

theorem finalize_events (env : Env) (hth : ∀ k, env.throws k = none) (w : World) :
    ( Fam_Ops_Libfabric.finalize env w).1 = Outcome.ok () ∧
    (newEvents w ( Fam_Ops_Libfabric.finalize env w).2).map Event.call = finalize_calls w.eng ∧
    ( Fam_Ops_Libfabric.finalize env w).2.eng = finalized w.eng ∧
    ( Fam_Ops_Libfabric.finalize env w).2.heap =
      deleted w.heap (w.eng.contexts.map Prod.snd ++ w.eng.defContexts.map Prod.snd) := by
  have hok := finalize_returns env hth w
  obtain ⟨v, -, -, -, k⟩ := finalize_run env w
  obtain ⟨-, -, v3, -⟩ := verbRun_events _ _ _ v
  exact ⟨hok, v3 hok, (k hok).1, (k hok).2⟩

/-- C24 (amended): `finalize` makes its calls in the order of `finalize_calls`,
stopping only at a call that throws.  When no call throws and the five handles
are set, it returns after `fabric_finalize`, the closes of the registered
memory regions, a delete of every context of the region table and of the
default table, and then, after all the deletes, the releases of the handles in
the order info, fabric, event queue, domain, address vector: the handles go in
the order in which `initialize` acquired them, the address vector last; and
every context of the two tables is then destroyed. -/
theorem finalize_release_order (env : Env) (w : World) :
    VerbRun ( Fam_Ops_Libfabric.finalize env w) w (finalize_calls w.eng) ∧
    ((∀ k, env.throws k = none) → w.eng.fi = true → w.eng.fabric = true → w.eng.eq = true →
      w.eng.domain = true → w.eng.av = true →
      ( Fam_Ops_Libfabric.finalize env w).1 = Outcome.ok () ∧
      (newEvents w ( Fam_Ops_Libfabric.finalize env w).2).map Event.call =
        Call.fabric_finalize ::
          (w.eng.fiMrs.map (fun kv => Call.fi_close (Fid.mr kv.2)) ++
          (w.eng.contexts.map (fun kc => Call.delete_Fam_Context kc.2) ++
          (w.eng.defContexts.map (fun kc => Call.delete_Fam_Context kc.2) ++
          [Call.fi_freeinfo, Call.fi_close Fid.fabric, Call.fi_close Fid.eq,
            Call.fi_close Fid.domain, Call.fi_close Fid.av]))) ∧
      ∀ p ∈ w.eng.contexts.map Prod.snd ++ w.eng.defContexts.map Prod.snd,
        ∀ c, ( Fam_Ops_Libfabric.finalize env w).2.heap[p]? = some c → c.alive = false) := by
  refine ⟨(finalize_run env w).1, ?_⟩
  intro hth h1 h2 h3 h4 h5
  obtain ⟨hok, hev, -, hheap⟩ := finalize_events env hth w
  refine ⟨hok, ?_, ?_⟩
  · rw [hev]
    simp [finalize_calls, handle_release_calls, h1, h2, h3, h4, h5]
  · intro p hp c hc
    rw [hheap, deleted_getElem?, if_pos hp] at hc
    cases hx : w.heap[p]? with
    | none => rw [hx] at hc; cases hc
    | some x =>
      rw [hx] at hc
      simp only [Option.map_some', Option.some.injEq] at hc
      rw [← hc]

/-- C24 (witness): the initialised two-server client, whose handles are all
set. -/
theorem finalize_release_order_witness :
    (∀ k, demoEnv.throws k = none) ∧ demoTwoNodeWorld.eng.fi = true ∧
    demoTwoNodeWorld.eng.fabric = true ∧ demoTwoNodeWorld.eng.eq = true ∧
    demoTwoNodeWorld.eng.domain = true ∧ demoTwoNodeWorld.eng.av = true ∧
    ( Fam_Ops_Libfabric.finalize demoEnv demoTwoNodeWorld).1 = Outcome.ok () :=
  ⟨fun _ => rfl, rfl, rfl, rfl, rfl, rfl,
    ((finalize_release_order demoEnv demoTwoNodeWorld).2 (fun _ => rfl) rfl rfl rfl rfl rfl).1⟩

/-- C24 (counterexample): `finalize` on the initialised two-server client
returns after these calls, in this order: the two default contexts are deleted,
then the info is released, then the fabric, the event queue and the domain are
closed, and the address vector is closed last. -/
theorem finalize_closes_address_vector_last :
    ( Fam_Ops_Libfabric.finalize demoEnv demoTwoNodeWorld).1 = Outcome.ok () ∧
    (newEvents demoTwoNodeWorld
      ( Fam_Ops_Libfabric.finalize demoEnv demoTwoNodeWorld).2).map Event.call =
      [Call.fabric_finalize, Call.delete_Fam_Context 0, Call.delete_Fam_Context 1,
        Call.fi_freeinfo, Call.fi_close Fid.fabric, Call.fi_close Fid.eq,
        Call.fi_close Fid.domain, Call.fi_close Fid.av] := by
  obtain ⟨hok, hev, -, -⟩ := finalize_events demoEnv (fun _ => rfl) demoTwoNodeWorld
  exact ⟨hok, hev⟩

/-! ## What fence and quiet leave alone (C30) -/

theorem frameKept_refl (w : World) : FrameKept w w :=
  ⟨rfl, rfl, rfl, [], by simp, by simp⟩

theorem frameKept_trans (a b c : World) (h1 : FrameKept a b) (h2 : FrameKept b c) :
    FrameKept a c := by
  obtain ⟨d1, m1, p1, evs1, t1, c1⟩ := h1
  obtain ⟨d2, m2, p2, evs2, t2, c2⟩ := h2
  refine ⟨d2.trans d1, m2.trans m1, p2.trans p1, evs1 ++ evs2, ?_, ?_⟩
  · rw [t2, t1, List.append_assoc]
  · intro e he
    rcases List.mem_append.mp he with h | h
    · exact c1 e h
    · exact c2 e h

theorem map_flags_modify (heap : List Fam_Context) (p : Nat) (f : Fam_Context → Fam_Context)
    (hf : ∀ c, ((f c).enabled, (f c).alive) = (c.enabled, c.alive)) :
    (heap.modify f p).map (fun c => (c.enabled, c.alive)) =
      heap.map (fun c => (c.enabled, c.alive)) := by
  induction heap generalizing p with
  | nil => cases p <;> rfl
  | cons x xs ih =>
    cases p with
    | zero => simp [List.modify, hf]
    | succ p =>
      have h := ih p
      simp only [List.modify] at h
      simp [List.modify, h]

theorem fabric_fence_frame (env : Env) (addr : Option Nat) (ctx : Nat) :
    Keeps FrameKept (fabric_fence env addr ctx) := by
  intro w
  rw [fabric_fence_eq]
  split <;> exact ⟨rfl, rfl, rfl, _, rfl, by simp [Call.isContextCall]⟩

theorem fabric_quiet_frame (env : Env) (ctx : Nat) : Keeps FrameKept (fabric_quiet env ctx) := by
  intro w
  rw [fabric_quiet_eq]
  split
  · exact ⟨rfl, rfl, rfl, _, rfl, by simp [Call.isContextCall]⟩
  · exact ⟨rfl, rfl, map_flags_modify _ _ _ (fun _ => rfl), _, rfl, by simp [Call.isContextCall]⟩

theorem lock_ctxLock_frame : Keeps FrameKept lock_ctxLock := by
  intro w
  unfold lock_ctxLock
  simp only [M.bind_apply, M.andThen, M.get]
  split
  · exact frameKept_refl w
  · exact ⟨rfl, rfl, rfl, [], by simp [M.modifyEng, M.modify], by simp⟩

theorem unlock_ctxLock_frame : Keeps FrameKept unlock_ctxLock :=
  fun _ => ⟨rfl, rfl, rfl, [], by simp [unlock_ctxLock, M.modifyEng, M.modify], by simp⟩

theorem set_region_context_frame (r ctx : Nat) : Keeps FrameKept (set_region_context r ctx) :=
  fun _ => ⟨rfl, rfl, rfl, [], by simp [set_region_context, M.modify], by simp⟩

theorem fence_defContexts_keeps (env : Env) {R : World → World → Prop} (hrefl : ∀ a, R a a)
    (htrans : ∀ a b c, R a b → R b c → R a c) (hf : ∀ a c, Keeps R (fabric_fence env a c)) :
    ∀ (l : StdMap Nat) (nodeId : Nat), Keeps R (fence_defContexts env l nodeId) := by
  intro l
  induction l with
  | nil => intro nodeId; exact keeps_pure hrefl _
  | cons x xs ih =>
    intro nodeId
    obtain ⟨k, c⟩ := x
    exact keeps_read (fun _ => keeps_bind htrans (hf _ _) (fun _ => ih _))

theorem fence_contexts_keeps (env : Env) (sh : Nat) {R : World → World → Prop}
    (hrefl : ∀ a, R a a) (htrans : ∀ a b c, R a b → R b c → R a c)
    (hf : ∀ a c, Keeps R (fabric_fence env a c)) :
    ∀ (l : StdMap Nat), Keeps R (fence_contexts env sh l) := by
  intro l
  induction l with
  | nil => exact keeps_pure hrefl _
  | cons x xs ih =>
    obtain ⟨k, c⟩ := x
    exact keeps_read (fun _ => keeps_bind htrans (hf _ _) (fun _ => ih))

theorem fence_locked_keeps (env : Env) (sh : Nat) {R : World → World → Prop}
    (hrefl : ∀ a, R a a) (htrans : ∀ a b c, R a b → R b c → R a c)
    (hf : ∀ a c, Keeps R (fabric_fence env a c)) (hs : ∀ r c, Keeps R (set_region_context r c))
    (r : Option Nat) : Keeps R (fence_locked env sh r) := by
  refine keeps_read (fun w => ?_)
  cases r with
  | none => exact fence_contexts_keeps env sh hrefl htrans hf _
  | some r =>
    show Keeps R (match (w.regions r).context with
      | some ctx => _
      | none => _)
    split
    · exact hf _ _
    · show Keeps R (match w.eng.contexts.find (w.regions r).regionId with
        | some ctx => _
        | none => _)
      split
      · exact keeps_bind htrans (hs _ _) (fun _ => hf _ _)
      · exact keeps_pure hrefl _

theorem fence_keeps (env : Env) (sh : Nat) {R : World → World → Prop}
    (hrefl : ∀ a, R a a) (htrans : ∀ a b c, R a b → R b c → R a c)
    (hf : ∀ a c, Keeps R (fabric_fence env a c)) (hs : ∀ r c, Keeps R (set_region_context r c))
    (hl : Keeps R lock_ctxLock) (hu : Keeps R unlock_ctxLock) (r : Option Nat) :
    Keeps R ( Fam_Ops_Libfabric.fence env sh r) := by
  refine keeps_read (fun w => ?_)
  split
  · exact fence_defContexts_keeps env hrefl htrans hf _ _
  · split
    · exact keeps_bind htrans hl
        (fun _ => keeps_bind htrans
          (keeps_tryRethrow htrans (fence_locked_keeps env sh hrefl htrans hf hs r) hu)
          (fun _ => hu))
    · exact keeps_pure hrefl _

theorem quiet_defContexts_keeps (env : Env) {R : World → World → Prop} (hrefl : ∀ a, R a a)
    (htrans : ∀ a b c, R a b → R b c → R a c) (hq : ∀ c, Keeps R (fabric_quiet env c)) :
    ∀ (l : StdMap Nat), Keeps R (quiet_defContexts env l) := by
  intro l
  induction l with
  | nil => exact keeps_pure hrefl _
  | cons x xs ih =>
    obtain ⟨k, c⟩ := x
    exact keeps_bind htrans (hq _) (fun _ => ih)

theorem quiet_context_keeps (env : Env) {R : World → World → Prop} (hrefl : ∀ a, R a a)
    (htrans : ∀ a b c, R a b → R b c → R a c) (hq : ∀ c, Keeps R (fabric_quiet env c))
    (c : Option Nat) : Keeps R ( Fam_Ops_Libfabric.quiet_context env c) := by
  refine keeps_read (fun w => ?_)
  split
  · exact quiet_defContexts_keeps env hrefl htrans hq _
  · split
    · cases c with
      | none => exact keeps_halt hrefl _
      | some c => exact hq c
    · exact keeps_pure hrefl _

theorem quiet_contexts_keeps (env : Env) {R : World → World → Prop} (hrefl : ∀ a, R a a)
    (htrans : ∀ a b c, R a b → R b c → R a c) (hq : ∀ c, Keeps R (fabric_quiet env c)) :
    ∀ (l : StdMap Nat), Keeps R (quiet_contexts env l) := by
  intro l
  induction l with
  | nil => exact keeps_pure hrefl _
  | cons x xs ih =>
    obtain ⟨k, c⟩ := x
    exact keeps_bind htrans (quiet_context_keeps env hrefl htrans hq _) (fun _ => ih)

theorem quiet_locked_keeps (env : Env) {R : World → World → Prop}
    (hrefl : ∀ a, R a a) (htrans : ∀ a b c, R a b → R b c → R a c)
    (hq : ∀ c, Keeps R (fabric_quiet env c)) (hs : ∀ r c, Keeps R (set_region_context r c))
    (r : Option Nat) : Keeps R (quiet_locked env r) := by
  refine keeps_read (fun w => ?_)
  cases r with
  | none => exact quiet_contexts_keeps env hrefl htrans hq _
  | some r =>
    show Keeps R (match (w.regions r).context with
      | some ctx => _
      | none => _)
    split
    · exact quiet_context_keeps env hrefl htrans hq _
    · show Keeps R (match w.eng.contexts.find (w.regions r).regionId with
        | some ctx => _
        | none => _)
      split
      · exact keeps_bind htrans (hs _ _) (fun _ => quiet_context_keeps env hrefl htrans hq _)
      · exact keeps_pure hrefl _

theorem quiet_keeps (env : Env) {R : World → World → Prop}
    (hrefl : ∀ a, R a a) (htrans : ∀ a b c, R a b → R b c → R a c)
    (hq : ∀ c, Keeps R (fabric_quiet env c)) (hs : ∀ r c, Keeps R (set_region_context r c))
    (hl : Keeps R lock_ctxLock) (hu : Keeps R unlock_ctxLock) (r : Option Nat) :
    Keeps R ( Fam_Ops_Libfabric.quiet env r) := by
  refine keeps_read (fun w => ?_)
  split
  · exact quiet_context_keeps env hrefl htrans hq _
  · split
    · exact keeps_bind htrans hl
        (fun _ => keeps_bind htrans
          (keeps_tryRethrow htrans (quiet_locked_keeps env hrefl htrans hq hs r) hu)
          (fun _ => hu))
    · exact keeps_pure hrefl _

theorem fence_frameKept (env : Env) (sh : Nat) (r : Option Nat) :
    Keeps FrameKept ( Fam_Ops_Libfabric.fence env sh r) :=
  fence_keeps env sh frameKept_refl frameKept_trans (fabric_fence_frame env)
    set_region_context_frame lock_ctxLock_frame unlock_ctxLock_frame r

theorem quiet_frameKept (env : Env) (r : Option Nat) :
    Keeps FrameKept ( Fam_Ops_Libfabric.quiet env r) :=
  quiet_keeps env frameKept_refl frameKept_trans (fabric_quiet_frame env)
    set_region_context_frame lock_ctxLock_frame unlock_ctxLock_frame r

theorem scope_cached_cases (w : World) (scope : Option Nat) :
    scope_cached w scope = w.regions ∨
    ∃ r ctx, scope = some r ∧ (w.regions r).context = none ∧
      w.eng.contexts.find (w.regions r).regionId = some ctx ∧
      scope_cached w scope =
        Function.update w.regions r { w.regions r with context := some ctx } := by
  cases scope with
  | none => exact Or.inl rfl
  | some r =>
    cases h1 : (w.regions r).context with
    | some c =>
      left
      simp only [scope_cached, region_context, h1]
      exact update_cached w r c h1
    | none =>
      cases h2 : w.eng.contexts.find (w.regions r).regionId with
      | none =>
        left
        simp only [scope_cached, region_context, h1, h2]
      | some ctx =>
        right
        refine ⟨r, ctx, rfl, h1, h2, ?_⟩
        simp only [scope_cached, region_context, h1, h2]

theorem scopeFrame_of (w w1 : World) (scope : Option Nat) (hk : FrameKept w w1)
    (heng : w1.eng = w.eng)
    (hreg : w1.regions = w.regions ∨ w1.regions = scope_cached w scope) :
    ScopeFrame w scope w1 := by
  obtain ⟨hd, _, hp, evs, ht, hc⟩ := hk
  refine ⟨heng, ?_, hp, ?_, hd, ?_⟩
  · have := congrArg List.length hp
    simpa using this
  · intro ev hev
    apply hc
    simpa [newEvents, ht] using hev
  · rcases hreg with h | h
    · exact Or.inl h
    · rw [h]
      exact scope_cached_cases w scope

theorem scope_cached_withCtxLock (w : World) (b : Bool) (scope : Option Nat) :
    scope_cached (w.withCtxLock b) scope = scope_cached w scope := by
  cases scope with
  | none => rfl
  | some r => rfl

theorem fence_frame (env : Env) (sh : Nat) (scope : Option Nat) (w : World) :
    ScopeFrame w scope ( Fam_Ops_Libfabric.fence env sh scope w).2 := by
  have hk := fence_frameKept env sh scope w
  by_cases hD : w.eng.famContextModel = Fam_Context_Model.FAM_CONTEXT_DEFAULT
  · have h := (fence_defContexts_run env w.eng.defContexts 0 w).2
    rw [← fence_default_eq env sh scope w hD] at h
    exact scopeFrame_of w _ scope hk (by rw [h]) (Or.inl (by rw [h]))
  · by_cases hR : w.eng.famContextModel = Fam_Context_Model.FAM_CONTEXT_REGION
    · cases hl : w.eng.ctxLock with
      | true =>
        rw [fence_region_held env sh scope w hR hl] at hk ⊢
        exact scopeFrame_of w _ scope hk rfl (Or.inl rfl)
      | false =>
        obtain ⟨h1, -, h3, -⟩ := fence_region_run env sh scope w hR hl
        refine scopeFrame_of w _ scope hk h3 (Or.inr ?_)
        rw [h1]
        show (fence_locked env sh scope (w.withCtxLock true)).2.regions = _
        rw [fence_locked_regions, scope_cached_withCtxLock]
    · have h : Fam_Ops_Libfabric.fence env sh scope w = (Outcome.ok (), w) := by
        simp only [ Fam_Ops_Libfabric.fence, M.bind_apply, M.andThen, M.get, hD, hR, if_false,
          M.pure_apply]
      rw [h] at hk ⊢
      exact scopeFrame_of w _ scope hk rfl (Or.inl rfl)

theorem quiet_frame (env : Env) (scope : Option Nat) (w : World) :
    ScopeFrame w scope ( Fam_Ops_Libfabric.quiet env scope w).2 := by
  have hk := quiet_frameKept env scope w
  by_cases hD : w.eng.famContextModel = Fam_Context_Model.FAM_CONTEXT_DEFAULT
  · have h := (quiet_defContexts_run env w.eng.defContexts w).2.1
    rw [← quiet_default_eq env scope w hD] at h
    exact scopeFrame_of w _ scope hk (by rw [h]) (Or.inl (by rw [h]))
  · by_cases hR : w.eng.famContextModel = Fam_Context_Model.FAM_CONTEXT_REGION
    · cases hl : w.eng.ctxLock with
      | true =>
        rw [quiet_region_held env scope w hR hl] at hk ⊢
        exact scopeFrame_of w _ scope hk rfl (Or.inl rfl)
      | false =>
        obtain ⟨h1, -, h3, -⟩ := quiet_region_run env scope w hR hl
        refine scopeFrame_of w _ scope hk h3 (Or.inr ?_)
        rw [h1]
        show (quiet_locked env scope (w.withCtxLock true)).2.regions = _
        rw [quiet_locked_regions env scope (w.withCtxLock true) hR, scope_cached_withCtxLock]
    · have h : Fam_Ops_Libfabric.quiet env scope w = (Outcome.ok (), w) := by
        simp only [ Fam_Ops_Libfabric.quiet, M.bind_apply, M.andThen, M.get, hD, hR, if_false,
          M.pure_apply]
      rw [h] at hk ⊢
      exact scopeFrame_of w _ scope hk rfl (Or.inl rfl)

/-- C30: for every policy, every scope and every world, whatever the outcome
(return, exception, or a wait on a held `ctxLock`), `fence` and `quiet` leave
the data members of the engine as they were (the default table, the region
table and the address registry among them), create no context (the heap holds
the same objects with the same status, no constructor or enable call is
logged), leave the item descriptors as they were, and change of the region
descriptors at most the cached context pointer of the one passed as scope,
which, if nothing was cached, is then the region table's entry for that
descriptor's region id. -/
theorem fence_quiet_frame (env : Env) (MEMSERVERID_SHIFT : Nat) (scope : Option Nat)
    (w : World) :
    ScopeFrame w scope ( Fam_Ops_Libfabric.fence env MEMSERVERID_SHIFT scope w).2 ∧
    ScopeFrame w scope ( Fam_Ops_Libfabric.quiet env scope w).2 :=
  ⟨fence_frame env MEMSERVERID_SHIFT scope w, quiet_frame env scope w⟩

/-! ## The cached context pointers (C25) -/

theorem stepKept_refl {env : Env} {R : World → World → Prop} (hR : StepKept env R) :
    ∀ a, R a a := fun a => hR.same a a rfl rfl rfl

theorem extern_call_keeps (env : Env) {R : World → World → Prop} (hR : StepKept env R)
    (c : Call) (s : Int) : Keeps R (extern_call env c s) := by
  intro w
  unfold extern_call
  split <;> exact hR.same _ _ rfl rfl rfl

theorem modify_keeps (env : Env) {R : World → World → Prop} (hR : StepKept env R)
    (f : World → World)
    (h : ∀ w, (f w).eng = w.eng ∧ (f w).descs = w.descs ∧ (f w).regions = w.regions) :
    Keeps R (M.modify f) := by
  intro w
  obtain ⟨h1, h2, h3⟩ := h w
  exact hR.same _ _ h1 h2 h3

theorem fabric_read_keeps (env : Env) {R : World → World → Prop} (hR : StepKept env R)
    (key nbytes offset : Nat) (addr : Option Nat) (ctx : Nat) :
    Keeps R (fabric_read env key nbytes offset addr ctx) :=
  keeps_read (fun _ => keeps_bind hR.trans (extern_call_keeps env hR _ _)
    (fun _ => keeps_pure (stepKept_refl hR) _))

theorem fabric_write_keeps (env : Env) {R : World → World → Prop} (hR : StepKept env R)
    (key : Nat) {nbytes : Nat} (data : Buffer nbytes)
    (offset : Nat) (addr : Option Nat) (ctx : Nat) :
    Keeps R (fabric_write env key data offset addr ctx) :=
  keeps_read (fun _ => keeps_bind hR.trans (extern_call_keeps env hR _ _)
    (fun _ => keeps_bind hR.trans
      (modify_keeps env hR _ (fun _ => ⟨rfl, rfl, rfl⟩)) (fun _ => keeps_pure (stepKept_refl hR) _)))

theorem post_outstanding_keeps (env : Env) {R : World → World → Prop} (hR : StepKept env R)
    (ctx id : Nat) : Keeps R (post_outstanding ctx id) :=
  modify_keeps env hR _ (fun _ => ⟨rfl, rfl, rfl⟩)

theorem fabric_write_nonblocking_keeps (env : Env) {R : World → World → Prop} (hR : StepKept env R)
    (key : Nat) {nbytes : Nat}
    (data : Buffer nbytes) (offset : Nat) (addr : Option Nat) (ctx : Nat) :
    Keeps R (fabric_write_nonblocking env key data offset addr ctx) :=
  keeps_read (fun _ => keeps_bind hR.trans (extern_call_keeps env hR _ _)
    (fun _ => post_outstanding_keeps env hR _ _))

theorem fabric_read_nonblocking_keeps (env : Env) {R : World → World → Prop} (hR : StepKept env R)
    (key nbytes offset : Nat) (addr : Option Nat)
    (ctx : Nat) : Keeps R (fabric_read_nonblocking env key nbytes offset addr ctx) :=
  keeps_read (fun _ => keeps_bind hR.trans (extern_call_keeps env hR _ _)
    (fun _ => post_outstanding_keeps env hR _ _))

theorem fabric_fence_keeps (env : Env) {R : World → World → Prop} (hR : StepKept env R)
    (addr : Option Nat) (ctx : Nat) :
    Keeps R (fabric_fence env addr ctx) :=
  keeps_bind hR.trans (extern_call_keeps env hR _ _) (fun _ => keeps_pure (stepKept_refl hR) _)

theorem fabric_quiet_keeps (env : Env) {R : World → World → Prop} (hR : StepKept env R)
    (ctx : Nat) : Keeps R (fabric_quiet env ctx) :=
  keeps_bind hR.trans (extern_call_keeps env hR _ _)
    (fun _ => modify_keeps env hR _ (fun _ => ⟨rfl, rfl, rfl⟩))

theorem fabric_atomic_keeps (env : Env) {R : World → World → Prop} (hR : StepKept env R)
    (key : Nat) (value : Bytes) (offset : Nat) (op : fi_op)
    (datatype : fi_datatype) (addr : Option Nat) (ctx : Nat) :
    Keeps R (fabric_atomic env key value offset op datatype addr ctx) :=
  keeps_bind hR.trans (extern_call_keeps env hR _ _)
    (fun _ => modify_keeps env hR _ (fun _ => ⟨rfl, rfl, rfl⟩))

theorem fabric_fetch_atomic_keeps (env : Env) {R : World → World → Prop} (hR : StepKept env R)
    (key : Nat) (value : Bytes) (offset : Nat)
    (op : fi_op) (datatype : fi_datatype) (addr : Option Nat) (ctx : Nat) :
    Keeps R (fabric_fetch_atomic env key value offset op datatype addr ctx) :=
  keeps_bind hR.trans (extern_call_keeps env hR _ _)
    (fun _ => keeps_read (fun _ => keeps_bind hR.trans
      (modify_keeps env hR _ (fun _ => ⟨rfl, rfl, rfl⟩)) (fun _ => keeps_pure (stepKept_refl hR) _)))

theorem fabric_compare_atomic_keeps (env : Env) {R : World → World → Prop} (hR : StepKept env R)
    (key : Nat) (compare swap : Bytes) (offset : Nat)
    (op : fi_op) (datatype : fi_datatype) (addr : Option Nat) (ctx : Nat) :
    Keeps R (fabric_compare_atomic env key compare swap offset op datatype addr ctx) :=
  keeps_bind hR.trans (extern_call_keeps env hR _ _)
    (fun _ => keeps_read (fun _ => keeps_bind hR.trans
      (modify_keeps env hR _ (fun _ => ⟨rfl, rfl, rfl⟩)) (fun _ => keeps_pure (stepKept_refl hR) _)))

theorem acquire_CAS_lock_keeps (env : Env) {R : World → World → Prop} (hR : StepKept env R)
    (d : Nat) : Keeps R (acquire_CAS_lock env d) := by
  intro w
  rw [acquire_CAS_lock_eq]
  repeat' split
  all_goals exact hR.same _ _ rfl rfl rfl

theorem release_CAS_lock_keeps (env : Env) {R : World → World → Prop} (hR : StepKept env R)
    (d : Nat) : Keeps R (release_CAS_lock env d) := by
  intro w
  rw [release_CAS_lock_eq]
  repeat' split
  all_goals exact hR.same _ _ rfl rfl rfl

theorem post_atomic_keeps (env : Env) {R : World → World → Prop} (hR : StepKept env R)
    (d offset : Nat) (value : Bytes) (op : fi_op)
    (datatype : fi_datatype) : Keeps R (post_atomic env d offset value op datatype) :=
  keeps_read (fun _ => keeps_bind hR.trans (hR.get_context d)
    (fun _ => fabric_atomic_keeps env hR _ _ _ _ _ _ _))

theorem post_fetch_atomic_keeps (env : Env) {R : World → World → Prop} (hR : StepKept env R)
    (d offset : Nat) (value : Bytes) (op : fi_op)
    (datatype : fi_datatype) :
    Keeps R (post_fetch_atomic env d offset value op datatype) :=
  keeps_read (fun _ => keeps_bind hR.trans (hR.get_context d)
    (fun _ => keeps_bind hR.trans (fabric_fetch_atomic_keeps env hR _ _ _ _ _ _ _)
      (fun _ => keeps_pure (stepKept_refl hR) _)))

theorem post_compare_atomic_keeps (env : Env) {R : World → World → Prop} (hR : StepKept env R)
    (d offset : Nat) (oldValue newValue : Bytes)
    (op : fi_op) (datatype : fi_datatype) :
    Keeps R (post_compare_atomic env d offset oldValue newValue op datatype) :=
  keeps_read (fun _ => keeps_bind hR.trans (hR.get_context d)
    (fun _ => keeps_bind hR.trans (fabric_compare_atomic_keeps env hR _ _ _ _ _ _ _ _)
      (fun _ => keeps_pure (stepKept_refl hR) _)))

theorem blocking_verb_keeps (env : Env) {R : World → World → Prop} (hR : StepKept env R)
    (d : Nat) (verb : Nat → Option Nat → Nat → Nat → Call) :
    Keeps R (blocking_verb env d verb) :=
  keeps_read (fun _ => keeps_bind hR.trans (hR.get_context d)
    (fun _ => keeps_read (fun _ => keeps_bind hR.trans (extern_call_keeps env hR _ _)
      (fun _ => keeps_pure (stepKept_refl hR) _))))

theorem nonblocking_verb_keeps (env : Env) {R : World → World → Prop} (hR : StepKept env R)
    (d : Nat)
    (verb : Nat → Option Nat → Nat → Nat → Call) :
    Keeps R (nonblocking_verb env d verb) :=
  keeps_read (fun _ => keeps_bind hR.trans (hR.get_context d)
    (fun _ => keeps_read (fun _ => keeps_bind hR.trans (extern_call_keeps env hR _ _)
      (fun _ => post_outstanding_keeps env hR _ _))))

theorem put_blocking_keeps (env : Env) {R : World → World → Prop} (hR : StepKept env R)
    {n : Nat} (loc : Buffer n) (d offset : Nat) :
    Keeps R ( Fam_Ops_Libfabric.put_blocking env loc d offset) :=
  keeps_read (fun _ => keeps_bind hR.trans (hR.get_context d)
    (fun _ => keeps_bind hR.trans (fabric_write_keeps env hR _ _ _ _ _)
      (fun _ => keeps_pure (stepKept_refl hR) _)))

theorem get_blocking_keeps (env : Env) {R : World → World → Prop} (hR : StepKept env R)
    (d offset n : Nat) :
    Keeps R ( Fam_Ops_Libfabric.get_blocking env d offset n) :=
  keeps_read (fun _ => keeps_bind hR.trans (hR.get_context d)
    (fun _ => keeps_bind hR.trans (fabric_read_keeps env hR _ _ _ _ _)
      (fun _ => keeps_pure (stepKept_refl hR) _)))

theorem put_nonblocking_keeps (env : Env) {R : World → World → Prop} (hR : StepKept env R)
    {n : Nat} (loc : Buffer n) (d offset : Nat) :
    Keeps R ( Fam_Ops_Libfabric.put_nonblocking env loc d offset) :=
  keeps_read (fun _ => keeps_bind hR.trans (hR.get_context d)
    (fun _ => fabric_write_nonblocking_keeps env hR _ _ _ _ _))

theorem get_nonblocking_keeps (env : Env) {R : World → World → Prop} (hR : StepKept env R)
    (d offset n : Nat) :
    Keeps R ( Fam_Ops_Libfabric.get_nonblocking env d offset n) :=
  keeps_read (fun _ => keeps_bind hR.trans (hR.get_context d)
    (fun _ => fabric_read_nonblocking_keeps env hR _ _ _ _ _))

theorem cas_read_keeps (env : Env) {R : World → World → Prop} (hR : StepKept env R)
    (d key offset nodeId : Nat) :
    Keeps R (M.tryRethrow (do
        let w1 ← M.get
        let ctx ← Fam_Ops_Libfabric.get_context env d
        fabric_read env key 16 offset (fiAddr_at w1.eng nodeId) ctx)
      (release_CAS_lock env d)) :=
  keeps_tryRethrow hR.trans
    (keeps_read (fun _ => keeps_bind hR.trans (hR.get_context d)
      (fun _ => fabric_read_keeps env hR _ _ _ _ _)))
    (release_CAS_lock_keeps env hR d)

theorem cas_write_keeps (env : Env) {R : World → World → Prop} (hR : StepKept env R)
    (d key offset nodeId : Nat) (v : int128_t) :
    Keeps R (M.tryRethrow (do
        let w1 ← M.get
        let ctx ← Fam_Ops_Libfabric.get_context env d
        fabric_write env key v offset (fiAddr_at w1.eng nodeId) ctx)
      (release_CAS_lock env d)) :=
  keeps_tryRethrow hR.trans
    (keeps_read (fun _ => keeps_bind hR.trans (hR.get_context d)
      (fun _ => fabric_write_keeps env hR _ _ _ _ _)))
    (release_CAS_lock_keeps env hR d)

theorem compare_swap_keeps (env : Env) {R : World → World → Prop} (hR : StepKept env R)
    (d offset : Nat) (oldValue newValue : int128_t) :
    Keeps R ( Fam_Ops_Libfabric.compare_swap env d offset oldValue newValue) := by
  refine keeps_read (fun _ => keeps_bind hR.trans (acquire_CAS_lock_keeps env hR d)
    (fun _ => keeps_bind hR.trans (cas_read_keeps env hR d _ _ _) (fun rd => ?_)))
  have hjp : Keeps R (do release_CAS_lock env d; pure rd.2 : M int128_t) :=
    keeps_bind hR.trans (release_CAS_lock_keeps env hR d)
      (fun _ => keeps_pure (stepKept_refl hR) _)
  show Keeps R (if rd.2 = oldValue then _ else _)
  split
  · exact keeps_bind hR.trans (cas_write_keeps env hR d _ _ _ _)
      (fun _ => keeps_bind hR.trans (keeps_pure (stepKept_refl hR) _) (fun _ => hjp))
  · exact keeps_bind hR.trans (keeps_pure (stepKept_refl hR) _) (fun _ => hjp)

theorem atomic_set_keeps (env : Env) {R : World → World → Prop} (hR : StepKept env R)
    (d offset : Nat) (value : int128_t) :
    Keeps R ( Fam_Ops_Libfabric.atomic_set env d offset value) :=
  keeps_read (fun _ => keeps_bind hR.trans (acquire_CAS_lock_keeps env hR d)
    (fun _ => keeps_bind hR.trans (cas_write_keeps env hR d _ _ _ _)
      (fun _ => release_CAS_lock_keeps env hR d)))

theorem atomic_fetch_int128_keeps (env : Env) {R : World → World → Prop} (hR : StepKept env R)
    (d offset : Nat) :
    Keeps R ( Fam_Ops_Libfabric.atomic_fetch_int128 env d offset) :=
  keeps_read (fun _ => keeps_bind hR.trans (acquire_CAS_lock_keeps env hR d)
    (fun _ => keeps_bind hR.trans (cas_read_keeps env hR d _ _ _)
      (fun _ => keeps_bind hR.trans (release_CAS_lock_keeps env hR d)
        (fun _ => keeps_pure (stepKept_refl hR) _))))

theorem atomic_set_native_keeps (env : Env) {R : World → World → Prop} (hR : StepKept env R)
    (T : CType) (d offset : Nat) (value : CValue T) :
    Keeps R ( Fam_Ops_Libfabric.atomic_set_native env T d offset value) := by
  cases T <;> exact post_atomic_keeps env hR _ _ _ _ _

theorem atomic_add_keeps (env : Env) {R : World → World → Prop} (hR : StepKept env R)
    (T : CType) (d offset : Nat) (value : CValue T) :
    Keeps R ( Fam_Ops_Libfabric.atomic_add env T d offset value) := by
  cases T <;> exact post_atomic_keeps env hR _ _ _ _ _

theorem atomic_min_keeps (env : Env) {R : World → World → Prop} (hR : StepKept env R)
    (T : CType) (d offset : Nat) (value : CValue T) :
    Keeps R ( Fam_Ops_Libfabric.atomic_min env T d offset value) := by
  cases T <;> exact post_atomic_keeps env hR _ _ _ _ _

theorem atomic_max_keeps (env : Env) {R : World → World → Prop} (hR : StepKept env R)
    (T : CType) (d offset : Nat) (value : CValue T) :
    Keeps R ( Fam_Ops_Libfabric.atomic_max env T d offset value) := by
  cases T <;> exact post_atomic_keeps env hR _ _ _ _ _

theorem atomic_and_keeps (env : Env) {R : World → World → Prop} (hR : StepKept env R)
    (T : CUnsigned) (d offset : Nat) (value : CValue T.toCType) :
    Keeps R ( Fam_Ops_Libfabric.atomic_and env T d offset value) := by
  cases T <;> exact post_atomic_keeps env hR _ _ _ _ _

theorem atomic_or_keeps (env : Env) {R : World → World → Prop} (hR : StepKept env R)
    (T : CUnsigned) (d offset : Nat) (value : CValue T.toCType) :
    Keeps R ( Fam_Ops_Libfabric.atomic_or env T d offset value) := by
  cases T <;> exact post_atomic_keeps env hR _ _ _ _ _

theorem atomic_xor_keeps (env : Env) {R : World → World → Prop} (hR : StepKept env R)
    (T : CUnsigned) (d offset : Nat) (value : CValue T.toCType) :
    Keeps R ( Fam_Ops_Libfabric.atomic_xor env T d offset value) := by
  cases T <;> exact post_atomic_keeps env hR _ _ _ _ _

theorem swap_keeps (env : Env) {R : World → World → Prop} (hR : StepKept env R)
    (T : CType) (d offset : Nat) (value : CValue T) :
    Keeps R ( Fam_Ops_Libfabric.swap env T d offset value) := by
  cases T <;> exact post_fetch_atomic_keeps env hR _ _ _ _ _

theorem atomic_fetch_add_keeps (env : Env) {R : World → World → Prop} (hR : StepKept env R)
    (T : CType) (d offset : Nat) (value : CValue T) :
    Keeps R ( Fam_Ops_Libfabric.atomic_fetch_add env T d offset value) := by
  cases T <;> exact post_fetch_atomic_keeps env hR _ _ _ _ _

theorem atomic_fetch_min_keeps (env : Env) {R : World → World → Prop} (hR : StepKept env R)
    (T : CType) (d offset : Nat) (value : CValue T) :
    Keeps R ( Fam_Ops_Libfabric.atomic_fetch_min env T d offset value) := by
  cases T <;> exact post_fetch_atomic_keeps env hR _ _ _ _ _

theorem atomic_fetch_max_keeps (env : Env) {R : World → World → Prop} (hR : StepKept env R)
    (T : CType) (d offset : Nat) (value : CValue T) :
    Keeps R ( Fam_Ops_Libfabric.atomic_fetch_max env T d offset value) := by
  cases T <;> exact post_fetch_atomic_keeps env hR _ _ _ _ _

theorem atomic_fetch_and_keeps (env : Env) {R : World → World → Prop} (hR : StepKept env R)
    (T : CUnsigned) (d offset : Nat) (value : CValue T.toCType) :
    Keeps R ( Fam_Ops_Libfabric.atomic_fetch_and env T d offset value) := by
  cases T <;> exact post_fetch_atomic_keeps env hR _ _ _ _ _

theorem atomic_fetch_or_keeps (env : Env) {R : World → World → Prop} (hR : StepKept env R)
    (T : CUnsigned) (d offset : Nat) (value : CValue T.toCType) :
    Keeps R ( Fam_Ops_Libfabric.atomic_fetch_or env T d offset value) := by
  cases T <;> exact post_fetch_atomic_keeps env hR _ _ _ _ _

theorem atomic_fetch_xor_keeps (env : Env) {R : World → World → Prop} (hR : StepKept env R)
    (T : CUnsigned) (d offset : Nat) (value : CValue T.toCType) :
    Keeps R ( Fam_Ops_Libfabric.atomic_fetch_xor env T d offset value) := by
  cases T <;> exact post_fetch_atomic_keeps env hR _ _ _ _ _

theorem compare_swap_native_keeps (env : Env) {R : World → World → Prop} (hR : StepKept env R)
    (T : CInteger) (d offset : Nat)
    (oldValue newValue : CValue T.toCType) :
    Keeps R ( Fam_Ops_Libfabric.compare_swap_native env T d offset oldValue newValue) := by
  cases T <;> exact post_compare_atomic_keeps env hR _ _ _ _ _ _

theorem copy_keeps (env : Env) {R : World → World → Prop} (hR : StepKept env R)
    (src srcOffset destOffset nbytes : Nat) :
    Keeps R ( Fam_Ops_Libfabric.copy env src srcOffset destOffset nbytes) := by
  refine keeps_read (fun w => ?_)
  split
  · exact keeps_halt (stepKept_refl hR) _
  · exact extern_call_keeps env hR _ _

theorem wait_for_copy_keeps (env : Env) {R : World → World → Prop} (hR : StepKept env R)
    (waitObj : Int) :
    Keeps R ( Fam_Ops_Libfabric.wait_for_copy env waitObj) := by
  refine keeps_read (fun w => ?_)
  split
  · exact keeps_halt (stepKept_refl hR) _
  · exact keeps_bind hR.trans (extern_call_keeps env hR _ _)
      (fun _ => keeps_pure (stepKept_refl hR) _)

theorem Operation.run_keeps (env : Env) {R : World → World → Prop} (hR : StepKept env R)
    (sh : Nat) (op : Operation) :
    Keeps R (op.run env sh) := by
  have hd : ∀ {α : Type} {m : M α}, Keeps R m → Keeps R (M.discard m) :=
    fun h => keeps_discard (stepKept_refl hR) hR.trans h
  cases op with
  | fence r => exact hR.fence sh r
  | quiet r => exact hR.quiet r
  | quiet_context c => exact quiet_context_keeps env (stepKept_refl hR) hR.trans (fabric_quiet_keeps env hR) c
  | copy a b c d => exact hd (copy_keeps env hR a b c d)
  | wait_for_copy a => exact wait_for_copy_keeps env hR a
  | get_context d => exact hd (hR.get_context d)
  | put_blocking loc d o => exact hd (put_blocking_keeps env hR _ d o)
  | get_blocking d o n => exact hd (get_blocking_keeps env hR d o n)
  | put_nonblocking loc d o => exact hd (put_nonblocking_keeps env hR _ d o)
  | get_nonblocking d o n => exact hd (get_nonblocking_keeps env hR d o n)
  | compare_swap d o a b => exact hd (compare_swap_keeps env hR d o a b)
  | atomic_set d o a => exact hd (atomic_set_keeps env hR d o a)
  | atomic_fetch_int128 d o => exact hd (atomic_fetch_int128_keeps env hR d o)
  | atomic_subtract T d o v => exact hd (atomic_add_keeps env hR T d o _)
  | atomic_fetch_subtract T d o v => exact hd (atomic_fetch_add_keeps env hR T d o _)
  | compare_swap_native T d o a b => exact hd (compare_swap_native_keeps env hR T d o a b)
  | gather_blocking => exact hd (blocking_verb_keeps env hR _ _)
  | gather_blocking_index => exact hd (blocking_verb_keeps env hR _ _)
  | gather_nonblocking => exact hd (nonblocking_verb_keeps env hR _ _)
  | gather_nonblocking_index => exact hd (nonblocking_verb_keeps env hR _ _)
  | scatter_blocking => exact hd (blocking_verb_keeps env hR _ _)
  | scatter_blocking_index => exact hd (blocking_verb_keeps env hR _ _)
  | scatter_nonblocking => exact hd (nonblocking_verb_keeps env hR _ _)
  | scatter_nonblocking_index => exact hd (nonblocking_verb_keeps env hR _ _)
  | atomic_set_native T d o v => exact hd (atomic_set_native_keeps env hR T d o v)
  | atomic_add T d o v => exact hd (atomic_add_keeps env hR T d o v)
  | atomic_min T d o v => exact hd (atomic_min_keeps env hR T d o v)
  | atomic_max T d o v => exact hd (atomic_max_keeps env hR T d o v)
  | atomic_and T d o v => exact hd (atomic_and_keeps env hR T d o v)
  | atomic_or T d o v => exact hd (atomic_or_keeps env hR T d o v)
  | atomic_xor T d o v => exact hd (atomic_xor_keeps env hR T d o v)
  | swap T d o v => exact hd (swap_keeps env hR T d o v)
  | atomic_fetch_add T d o v => exact hd (atomic_fetch_add_keeps env hR T d o v)
  | atomic_fetch_min T d o v => exact hd (atomic_fetch_min_keeps env hR T d o v)
  | atomic_fetch_max T d o v => exact hd (atomic_fetch_max_keeps env hR T d o v)
  | atomic_fetch_and T d o v => exact hd (atomic_fetch_and_keeps env hR T d o v)
  | atomic_fetch_or T d o v => exact hd (atomic_fetch_or_keeps env hR T d o v)
  | atomic_fetch_xor T d o v => exact hd (atomic_fetch_xor_keeps env hR T d o v)
  | atomic_fetch_int32 d o =>
    exact hd (keeps_read (fun _ => post_fetch_atomic_keeps env hR _ _ _ _ _))
  | atomic_fetch_int64 d o =>
    exact hd (keeps_read (fun _ => post_fetch_atomic_keeps env hR _ _ _ _ _))
  | atomic_fetch_uint32 d o =>
    exact hd (keeps_read (fun _ => post_fetch_atomic_keeps env hR _ _ _ _ _))
  | atomic_fetch_uint64 d o =>
    exact hd (keeps_read (fun _ => post_fetch_atomic_keeps env hR _ _ _ _ _))
  | atomic_fetch_float d o =>
    exact hd (keeps_read (fun _ => post_fetch_atomic_keeps env hR _ _ _ _ _))
  | atomic_fetch_double d o =>
    exact hd (keeps_read (fun _ => post_fetch_atomic_keeps env hR _ _ _ _ _))

theorem run_operations_keeps (env : Env) {R : World → World → Prop} (hR : StepKept env R)
    (sh : Nat) :
    ∀ (ops : List Operation) (w : World), R w (run_operations env sh ops w) := by
  intro ops
  induction ops with
  | nil => intro w; exact (stepKept_refl hR) w
  | cons op ops ih =>
    intro w
    have h := Operation.run_keeps env hR sh op w
    unfold run_operations
    split
    · exact h
    · exact hR.trans _ _ _ h (ih _)

theorem cacheKept_trans (a b c : World) (h1 : CacheKept a b) (h2 : CacheKept b c) :
    CacheKept a c :=
  ⟨fun d x h => h2.1 d x (h1.1 d x h), fun r x h => h2.2 r x (h1.2 r x h)⟩

theorem cacheKept_same (w w1 : World) (_ : w1.eng = w.eng) (hd : w1.descs = w.descs)
    (hr : w1.regions = w.regions) : CacheKept w w1 :=
  ⟨fun d x h => by rw [hd]; exact h, fun r x h => by rw [hr]; exact h⟩

theorem get_context_cache (env : Env) (d : Nat) :
    Keeps CacheKept ( Fam_Ops_Libfabric.get_context env d) := by
  intro w
  unfold CacheKept
  rw [get_context_eq]
  repeat' split
  all_goals simp_all [Function.update_apply]
  all_goals (intro d' c h; split <;> simp_all)

theorem scopeFrame_cache (w w1 : World) (scope : Option Nat) (h : ScopeFrame w scope w1) :
    CacheKept w w1 := by
  obtain ⟨-, -, -, -, hd, hr⟩ := h
  refine ⟨fun d x hx => by rw [hd]; exact hx, ?_⟩
  rcases hr with hr | ⟨r, ctx, -, hnone, -, hr⟩
  · intro r x hx; rw [hr]; exact hx
  · intro r' x hx
    rw [hr]
    by_cases h : r' = r
    · subst h; rw [hnone] at hx; cases hx
    · rw [Function.update_noteq h]; exact hx

theorem cacheKept_step (env : Env) : StepKept env CacheKept :=
  ⟨cacheKept_trans, cacheKept_same, get_context_cache env,
    fun sh r w => scopeFrame_cache _ _ r (fence_frame env sh r w),
    fun r w => scopeFrame_cache _ _ r (quiet_frame env r w)⟩

/-- C25 (amended): a context pointer cached in a descriptor is never changed
by the operations between `initialize` and `finalize` (it is written at most
once), and `finalize` does not invalidate it: whatever its outcome, `finalize`
leaves the descriptors, and the pointers cached in them, as they were, while a
`finalize` that returns has emptied the region table and destroyed every
context that was in it. -/
theorem cached_context_written_once_not_reset (env : Env) (MEMSERVERID_SHIFT : Nat)
    (ops : List Operation) (w : World) :
    CacheKept w (run_operations env MEMSERVERID_SHIFT ops w) ∧
    ( Fam_Ops_Libfabric.finalize env w).2.descs = w.descs ∧
    ( Fam_Ops_Libfabric.finalize env w).2.regions = w.regions ∧
    (( Fam_Ops_Libfabric.finalize env w).1 = Outcome.ok () →
      ( Fam_Ops_Libfabric.finalize env w).2.eng.contexts = [] ∧
      ∀ k c, w.eng.contexts.find k = some c →
        ∀ x, ( Fam_Ops_Libfabric.finalize env w).2.heap[c]? = some x → x.alive = false) := by
  obtain ⟨-, hd, hr, -, hk⟩ := finalize_run env w
  refine ⟨run_operations_keeps env (cacheKept_step env) MEMSERVERID_SHIFT ops w, hd, hr, ?_⟩
  intro hok
  obtain ⟨heng, hheap⟩ := hk hok
  refine ⟨by rw [heng]; rfl, ?_⟩
  intro k c hf x hx
  have hmem : c ∈ w.eng.contexts.map Prod.snd ++ w.eng.defContexts.map Prod.snd :=
    List.mem_append_left _ (List.mem_map_of_mem Prod.snd (StdMap.mem_of_find _ _ _ hf))
  rw [hheap, deleted_getElem?, if_pos hmem] at hx
  cases hy : w.heap[c]? with
  | none => rw [hy] at hx; cases hx
  | some y =>
    rw [hy] at hx
    simp only [Option.map_some', Option.some.injEq] at hx
    rw [← hx]

/-- C25 (witness): the client under the region policy whose descriptor `0`
caches context `0`, the entry of its region. -/
theorem cached_context_written_once_not_reset_witness :
    ( Fam_Ops_Libfabric.finalize demoEnv demoRegionCachedWorld).1 = Outcome.ok () ∧
    ( Fam_Ops_Libfabric.finalize demoEnv demoRegionCachedWorld).2.eng.contexts = [] ∧
    ∀ k c, demoRegionCachedWorld.eng.contexts.find k = some c →
      ∀ x, ( Fam_Ops_Libfabric.finalize demoEnv demoRegionCachedWorld).2.heap[c]? = some x →
        x.alive = false :=
  ⟨finalize_returns demoEnv (fun _ => rfl) demoRegionCachedWorld,
    (cached_context_written_once_not_reset demoEnv 34 [] demoRegionCachedWorld).2.2.2
      (finalize_returns demoEnv (fun _ => rfl) demoRegionCachedWorld)⟩

/-- C25 (counterexample): under the region policy descriptor `0` caches context
`0`, the region table's entry for its region; `finalize` returns, having
deleted context `0` and emptied the region table; the `get_context` call made
after it on descriptor `0` returns context `0`, the context that `finalize`
destroyed. -/
theorem get_context_after_finalize_returns_destroyed_context :
    demoRegionCachedWorld.eng.famContextModel = Fam_Context_Model.FAM_CONTEXT_REGION ∧
    demoRegionCachedWorld.eng.contexts = [(10, 0)] ∧
    (demoRegionCachedWorld.descs 0).context = some 0 ∧
    ( Fam_Ops_Libfabric.finalize demoEnv demoRegionCachedWorld).1 = Outcome.ok () ∧
    ( Fam_Ops_Libfabric.finalize demoEnv demoRegionCachedWorld).2.eng.contexts = [] ∧
    ( Fam_Ops_Libfabric.finalize demoEnv demoRegionCachedWorld).2.heap = [⟨true, [7], false⟩] ∧
    ( Fam_Ops_Libfabric.get_context demoEnv 0
      ( Fam_Ops_Libfabric.finalize demoEnv demoRegionCachedWorld).2).1 = Outcome.ok 0 := by
  obtain ⟨hok, -, heng, hheap⟩ := finalize_events demoEnv (fun _ => rfl) demoRegionCachedWorld
  have hd := (finalize_run demoEnv demoRegionCachedWorld).2.1
  refine ⟨rfl, rfl, rfl, hok, by rw [heng]; rfl, by rw [hheap]; rfl, ?_⟩
  rw [get_context_of_ready demoEnv 0 _ 0 (Or.inr ⟨by rw [heng]; rfl, by rw [hd]; rfl⟩)]

/-! ## Sizes reported after a lookup (C26) -/

/-- C26: over the name service modelled from the spec: a region created with
size `s` reports a `fam_size` of at least `s`, and looking it up by name gives
a descriptor that reports the same `fam_size` as the one returned at creation;
an item allocated in it with size `s2` reports `fam_size` equal to `s2`, and
looking it up by its name and the region's gives a descriptor with the same
`fam_size`, while the region's lookup still reports the region's size. -/
theorem lookup_reports_created_size (st st1 : FamNames) (name : String) (s extra : Nat)
    (d : NamedDescriptor) (hcreate : fam_create_region st name s extra = some (d, st1)) :
    s ≤ fam_size d ∧
    (∃ d1, fam_lookup_region st1 name = some d1 ∧ fam_size d1 = fam_size d) ∧
    ∀ (item : String) (s2 : Nat) (i : NamedDescriptor) (st2 : FamNames),
      fam_allocate st1 item s2 d = some (i, st2) →
        fam_size i = s2 ∧
        (∃ i1, fam_lookup st2 item name = some i1 ∧ fam_size i1 = fam_size i) ∧
        (∃ d2, fam_lookup_region st2 name = some d2 ∧ fam_size d2 = fam_size d) := by
  unfold fam_create_region at hcreate
  cases hl : st.regions.lookup name with
  | some x => rw [hl] at hcreate; cases hcreate
  | none =>
    rw [hl] at hcreate
    simp only [Option.some.injEq, Prod.mk.injEq] at hcreate
    obtain ⟨hd, hst⟩ := hcreate
    subst hd hst
    have hreg : List.lookup name ((name, s + extra) :: st.regions) = some (s + extra) := by
      simp [List.lookup]
    refine ⟨Nat.le_add_right s extra, ⟨⟨name, s + extra⟩, ?_, rfl⟩, ?_⟩
    · simp only [fam_lookup_region, hreg, Option.map_some']
    · intro item s2 i st2 halloc
      unfold fam_allocate at halloc
      simp only [hreg] at halloc
      cases hi : List.lookup (name, item) st.items with
      | some x => rw [hi] at halloc; cases halloc
      | none =>
        rw [hi] at halloc
        simp only [Option.some.injEq, Prod.mk.injEq] at halloc
        obtain ⟨hi2, hst2⟩ := halloc
        subst hi2 hst2
        refine ⟨rfl, ⟨⟨item, s2⟩, ?_, rfl⟩, ⟨⟨name, s + extra⟩, ?_, rfl⟩⟩
        · simp [fam_lookup, List.lookup]
        · simp only [fam_lookup_region, hreg, Option.map_some']

/-- C26 (witness): the test's scenario: the region `test` created with size
`8192` on an empty name service, and the item `first` allocated in it with size
`1024`. -/
theorem lookup_reports_created_size_witness :
    fam_create_region ⟨[], []⟩ "test" 8192 0 =
      some (⟨"test", 8192⟩, ⟨[("test", 8192)], []⟩) ∧
    8192 ≤ fam_size ⟨"test", 8192⟩ ∧
    (∃ d1, fam_lookup_region ⟨[("test", 8192)], []⟩ "test" = some d1 ∧
      fam_size d1 = fam_size ⟨"test", 8192⟩) :=
  ⟨rfl,
    (lookup_reports_created_size ⟨[], []⟩ ⟨[("test", 8192)], []⟩ "test" 8192 0 ⟨"test", 8192⟩
      rfl).1,
    (lookup_reports_created_size ⟨[], []⟩ ⟨[("test", 8192)], []⟩ "test" 8192 0 ⟨"test", 8192⟩
      rfl).2.1⟩

/-! ## The context lock on the exits of get_context (C28) -/

/-- C28 (the code at the failing input): under `FAM_CONTEXT_REGION`, with
`ctxLock` free, nothing cached in descriptor `0` and no region-table entry for
its region: when the constructor of the new context throws, `get_context`
leaves with that exception and `ctxLock` is still held, so that the next
`get_context` call waits on it for ever; likewise when the enable-and-bind call
throws. -/
theorem get_context_throw_keeps_ctxLock_held :
    demoRegionWorld.eng.ctxLock = false ∧
    (get_context_calls demoEnvThrowsAt0 [0, 0] demoRegionWorld).1 =
      [⟨0, Outcome.throw Fam_Error.Timeout, false⟩,
        ⟨0, Outcome.stuck Stuck.deadlock, false⟩] ∧
    ( Fam_Ops_Libfabric.get_context demoEnvThrowsAt0 0 demoRegionWorld).2.eng.ctxLock = true ∧
    (newEvents demoRegionWorld
      ( Fam_Ops_Libfabric.get_context demoEnvThrowsAt0 0 demoRegionWorld).2).map Event.call =
      [Call.new_Fam_Context 0] ∧
    ( Fam_Ops_Libfabric.get_context demoEnvThrowsAt1 0 demoRegionWorld).1 =
      Outcome.throw Fam_Error.Timeout ∧
    ( Fam_Ops_Libfabric.get_context demoEnvThrowsAt1 0 demoRegionWorld).2.eng.ctxLock = true ∧
    (newEvents demoRegionWorld
      ( Fam_Ops_Libfabric.get_context demoEnvThrowsAt1 0 demoRegionWorld).2).map Event.call =
      [Call.new_Fam_Context 0, Call.fabric_enable_bind_ep 0] := by
  refine ⟨?_, ?_, ?_, ?_, ?_, ?_, ?_⟩ <;> rfl

/-! ## Registry positions read by a fence (C29) -/

theorem fence_defContexts_calls_index (eng : Fam_Ops_Libfabric) :
    ∀ (l : StdMap Nat) (nodeId : Nat) (c : Call), c ∈ fence_defContexts_calls eng l nodeId →
      ∃ i ctx, nodeId ≤ i ∧ i < nodeId + l.length ∧
        c = Call.fabric_fence (fiAddr_at eng i) ctx := by
  intro l
  induction l with
  | nil => intro nodeId c h; simp [fence_defContexts_calls] at h
  | cons x xs ih =>
    intro nodeId c h
    obtain ⟨k, ctx⟩ := x
    simp only [fence_defContexts_calls, List.mem_cons] at h
    rcases h with h | h
    · exact ⟨nodeId, ctx, le_refl _, by simp, h⟩
    · obtain ⟨i, c2, h1, h2, h3⟩ := ih (nodeId + 1) c h
      exact ⟨i, c2, by omega, by simp only [List.length_cons]; omega, h3⟩

/-- After `initialize` returned `0` in client mode under the default policy on
an empty default table, the default table has no more entries than the
registry has tokens. -/
theorem initialize_default_sizes (env : Env) (w0 : World)
    (hD : w0.eng.famContextModel = Fam_Context_Model.FAM_CONTEXT_DEFAULT)
    (hsrc : w0.eng.isSource = false) (hdef : w0.eng.defContexts = [])
    (hinit : ( Fam_Ops_Libfabric.initialize env w0).1 = Outcome.ok 0) :
    ( Fam_Ops_Libfabric.initialize env w0).2.eng.defContexts.length ≤
      ( Fam_Ops_Libfabric.initialize env w0).2.eng.fiAddrs.length := by
  obtain ⟨w1, w2, hloop, hw, _, _, hd0, _, _, hp0, hs0, _⟩ := initialize_ok_zero env w0 hinit
  have hsound : DefaultTableSound w1 := by
    constructor
    · intro k p hk; rw [hd0, hdef] at hk; simp [StdMap.find] at hk
    · intro k1 k2 p hk; rw [hd0, hdef] at hk; simp [StdMap.find] at hk
  have hl := (initialize_loop_default env w1.eng.name.length 0 w1 (hp0.trans hD)
    (by rw [hloop]) (by rw [hd0, hdef]; rfl) hsound).1
  rw [hloop] at hl
  have hlen : w2.eng.defContexts.length = 0 + w1.eng.name.length := by
    have := congrArg List.length hl
    simpa [StdMap.keys] using this
  have hreg := initialize_loop_registry env w1.eng.name.length 0 w1 w2 (hs0.trans hsrc) hloop
  rw [hw]
  simp only
  rw [hlen, hreg]
  simp

/-- C29 (amended): after `initialize` returned `0` under the default policy in
client mode, on a default table that was empty, and after any operations made
since, `fence` with a null scope only reads registry positions that exist: the
default table has no more entries than the registry has tokens, and every call
the fence logs is a `fabric_fence` whose address was read at an index smaller
than the number of tokens. -/
theorem fence_null_reads_registry_in_bounds (env : Env) (MEMSERVERID_SHIFT : Nat) (w0 : World)
    (ops : List Operation) (w : World)
    (hD : w0.eng.famContextModel = Fam_Context_Model.FAM_CONTEXT_DEFAULT)
    (hsrc : w0.eng.isSource = false) (hdef : w0.eng.defContexts = [])
    (hinit : ( Fam_Ops_Libfabric.initialize env w0).1 = Outcome.ok 0)
    (hw : w = run_operations env MEMSERVERID_SHIFT ops ( Fam_Ops_Libfabric.initialize env w0).2) :
    w.eng.defContexts.length ≤ w.eng.fiAddrs.length ∧
    ∀ ev ∈ newEvents w ( Fam_Ops_Libfabric.fence env MEMSERVERID_SHIFT none w).2,
      ReadsRegistryInBounds w.eng ev.call := by
  obtain ⟨k1, k2, k3, _⟩ :=
    run_operations_kept env MEMSERVERID_SHIFT ops ( Fam_Ops_Libfabric.initialize env w0).2
  obtain ⟨i1, _⟩ := initialize_initKept env w0
  rw [← hw] at k1 k2 k3
  have hlen : w.eng.defContexts.length ≤ w.eng.fiAddrs.length := by
    rw [k2, k3]
    exact initialize_default_sizes env w0 hD hsrc hdef hinit
  refine ⟨hlen, ?_⟩
  intro ev hev
  have hp : w.eng.famContextModel = Fam_Context_Model.FAM_CONTEXT_DEFAULT := by
    rw [k1, i1, hD]
  rw [fence_default_eq env _ _ w hp] at hev
  obtain ⟨_, v2, _⟩ := verbRun_events _ _ _ (fence_defContexts_run env w.eng.defContexts 0 w).1
  have hc : ev.call ∈ fence_defContexts_calls w.eng w.eng.defContexts 0 :=
    v2.subset (List.mem_map_of_mem Event.call hev)
  obtain ⟨i, ctx, _, h2, h3⟩ := fence_defContexts_calls_index w.eng _ 0 ev.call hc
  exact ⟨i, ctx, by omega, h3⟩

set_option maxHeartbeats 1000000 in
/-- C29 (witness): the client engine for one memory server under the default
policy, right after `initialize`. -/
theorem fence_null_reads_registry_in_bounds_witness :
    demoDefaultWorld.eng.famContextModel = Fam_Context_Model.FAM_CONTEXT_DEFAULT ∧
    demoDefaultWorld.eng.isSource = false ∧
    demoDefaultWorld.eng.defContexts = [] ∧
    ( Fam_Ops_Libfabric.initialize demoEnv demoDefaultWorld).1 = Outcome.ok 0 ∧
    ( Fam_Ops_Libfabric.initialize demoEnv demoDefaultWorld).2.eng.defContexts.length ≤
      ( Fam_Ops_Libfabric.initialize demoEnv demoDefaultWorld).2.eng.fiAddrs.length ∧
    ∀ ev ∈ newEvents ( Fam_Ops_Libfabric.initialize demoEnv demoDefaultWorld).2
        ( Fam_Ops_Libfabric.fence demoEnv 34 none
          ( Fam_Ops_Libfabric.initialize demoEnv demoDefaultWorld).2).2,
      ReadsRegistryInBounds ( Fam_Ops_Libfabric.initialize demoEnv demoDefaultWorld).2.eng
        ev.call :=
  ⟨rfl, rfl, rfl, rfl,
    fence_null_reads_registry_in_bounds demoEnv 34 demoDefaultWorld []
      ( Fam_Ops_Libfabric.initialize demoEnv demoDefaultWorld).2 rfl rfl rfl rfl rfl⟩

set_option maxHeartbeats 1000000 in
theorem initialize_server_demo :
    ( Fam_Ops_Libfabric.initialize demoEnv demoServerWorld).1 = Outcome.ok 0 ∧
    ( Fam_Ops_Libfabric.initialize demoEnv demoServerWorld).2.eng.famContextModel =
      Fam_Context_Model.FAM_CONTEXT_DEFAULT ∧
    ( Fam_Ops_Libfabric.initialize demoEnv demoServerWorld).2.eng.fiAddrs = [] ∧
    ( Fam_Ops_Libfabric.initialize demoEnv demoServerWorld).2.eng.defContexts = [(0, 1)] := by
  simp [initialize_eq, initialize_servers_eq, initialize_loop,
    initialize_node_eq, initialize_server_eq, initialize_defaultCtx_eq, demoServerWorld,
    demoWorld, demoEngine, demoEnv, initialize_entry, StdMap.find, StdMap.insert,
    M.bind_apply, M.andThen, M.pure_apply]

/-- C29 (counterexample): an engine that is itself the memory server, for one
memory server under the default policy: `initialize` returns `0`, the registry
is empty and the default table has one entry, and `fence` with a null scope
reads position `0` of the registry, which does not exist. -/
theorem fence_null_reads_missing_position_in_server_mode :
    demoServerWorld.eng.famContextModel = Fam_Context_Model.FAM_CONTEXT_DEFAULT ∧
    demoServerWorld.eng.isSource = true ∧
    demoServerWorld.eng.defContexts = [] ∧
    ( Fam_Ops_Libfabric.initialize demoEnv demoServerWorld).1 = Outcome.ok 0 ∧
    ( Fam_Ops_Libfabric.initialize demoEnv demoServerWorld).2.eng.fiAddrs = [] ∧
    ( Fam_Ops_Libfabric.initialize demoEnv demoServerWorld).2.eng.defContexts = [(0, 1)] ∧
    fiAddr_at ( Fam_Ops_Libfabric.initialize demoEnv demoServerWorld).2.eng 0 = none ∧
    (newEvents ( Fam_Ops_Libfabric.initialize demoEnv demoServerWorld).2
      ( Fam_Ops_Libfabric.fence demoEnv 34 none
        ( Fam_Ops_Libfabric.initialize demoEnv demoServerWorld).2).2).map Event.call =
      [Call.fabric_fence none 1] := by
  obtain ⟨h1, h2, h3, h4⟩ := initialize_server_demo
  refine ⟨rfl, rfl, rfl, h1, h3, h4, ?_, ?_⟩
  · simp [fiAddr_at, h3]
  · rw [fence_default_eq _ _ _ _ h2, h4, fence_defContexts_cons]
    have ht : ∀ k, demoEnv.throws k = none := fun _ => rfl
    simp [ht, fence_defContexts, M.pure_apply, newEvents, fiAddr_at, h3]

/-! ## Which enable/bind failure is returned and which is thrown (C9) -/

set_option maxHeartbeats 1000000 in
/-- Client mode, default policy: the enable/bind of the default context `0`
reports `-1`; the context is filed in the default table and `initialize`
returns `-1`. -/
theorem initialize_default_enable_returns_status :
    newEvents demoDefaultWorld ( Fam_Ops_Libfabric.initialize demoEnvEnableFails
        demoDefaultWorld).2 =
      [⟨Call.fabric_initialize, Except.ok 0⟩, ⟨Call.fabric_initialize_av, Except.ok 0⟩,
        ⟨Call.get_addr_size 0, Except.ok 0⟩, ⟨Call.get_addr 0, Except.ok 0⟩,
        ⟨Call.fabric_insert_av 0 [0], Except.ok 0⟩, ⟨Call.new_Fam_Context 0, Except.ok 0⟩,
        ⟨Call.fabric_enable_bind_ep 0, Except.ok (-1)⟩] ∧
    ( Fam_Ops_Libfabric.initialize demoEnvEnableFails demoDefaultWorld).2.eng.defContexts =
      [(0, 0)] ∧
    ( Fam_Ops_Libfabric.initialize demoEnvEnableFails demoDefaultWorld).1 = Outcome.ok (-1) :=
  ⟨rfl, rfl, rfl⟩

set_option maxHeartbeats 1000000 in
/-- Server mode, default policy: the enable/bind of the temporary context `0`
reports `-1`; the context is filed nowhere and `initialize` throws
`Fam_Datapath_Exception`. -/
theorem initialize_temporary_enable_throws :
    newEvents demoServerWorld ( Fam_Ops_Libfabric.initialize demoEnvEnableFails
        demoServerWorld).2 =
      [⟨Call.fabric_initialize, Except.ok 0⟩, ⟨Call.fabric_initialize_av, Except.ok 0⟩,
        ⟨Call.new_Fam_Context 0, Except.ok 0⟩,
        ⟨Call.fabric_enable_bind_ep 0, Except.ok (-1)⟩] ∧
    ( Fam_Ops_Libfabric.initialize demoEnvEnableFails demoServerWorld).2.eng.defContexts = [] ∧
    ( Fam_Ops_Libfabric.initialize demoEnvEnableFails demoServerWorld).1 =
      Outcome.throw Fam_Error.Datapath :=
  ⟨rfl, rfl, rfl⟩

end openfam
